import Mathlib

/-!
# Cockatrice session/command layer: `Server_ProtocolHandler`

A shallow embedding of `common/server_protocolhandler.cpp`.  One handler object
(`this`) is in focus; the shared `Server` it points to is carried inside it.
Every method is a function on an execution state `St` made of the handler, the
response container under assembly and the trace of the calls the method makes
to its collaborators.  Code that the translation unit only calls (handlers of
other classes, the database, the credential check) is taken from `Env`.

C++ `int` is embedded as `Int`; signed overflow is undefined in the source and
is not modelled.
-/

namespace Cockatrice

/-! ## Result codes and authentication results -/

/-- Modelled from the spec: the closed enumeration of result codes of
`pb/response.proto`, which is absent from the sources.  The codes named in
`server_protocolhandler.cpp` are constructors of their own; every other code a
collaborator may return is `RespOther n`. -/
inductive ResponseCode
  | RespNothing
  | RespOk
  | RespInvalidCommand
  | RespLoginNeeded
  | RespNotInRoom
  | RespChatFlood
  | RespContextError
  | RespNameNotFound
  | RespInIgnoreList
  | RespWrongPassword
  | RespUserIsBanned
  | RespWouldOverwriteOldSession
  | RespUsernameInvalid
  | RespRegistrationRequired
  | RespClientIdRequired
  | RespAccountNotActivated
  | RespClientUpdateRequired
  | RespServerFull
  | RespUserLevelTooLow
  | RespInternalError
  | RespOther (n : Nat)
  deriving DecidableEq, Repr, Inhabited

/-- Modelled from the spec: the authentication state enumeration (declared in a
header absent from the sources).  The constructors are the results named in
`cmdLogin`; `PasswordRight` and `UnknownUser` are the two logged-in states
(full access, and partial access without a verified password). -/
inductive AuthenticationResult
  | NotLoggedIn
  | PasswordRight
  | UnknownUser
  | WouldOverwriteOldSession
  | UserIsBanned
  | UsernameInvalid
  | RegistrationRequired
  | UserIsInactive
  | ClientIdRequired
  deriving DecidableEq, Repr, Inhabited

/-! ## `QMap<int, V>` -/

/-- A `QMap<int, V>`: an association list, kept in ascending key order by
`QMap.insert`. -/
abbrev QMap (V : Type) := List (Int × V)

/-- A `QMap<QString, V>`, in insertion order with one entry per key. -/
abbrev QStringMap (V : Type) := List (String × V)

/-- Embeds `QMap<QString, V>::insert(k, v)`. -/
def QStringMap.insert {V : Type} (m : QStringMap V) (k : String) (v : V) : QStringMap V :=
  if m.any (fun e => e.1 == k) then m.map (fun e => if e.1 == k then (k, v) else e)
  else m ++ [(k, v)]

/-- Embeds `QMap::value(k)`: the value stored under `k`, `none` for the default
(null) result. -/
def QMap.value {V : Type} : QMap V → Int → Option V
  | [], _ => none
  | (k', v) :: r, k => if k' = k then some v else QMap.value r k

/-- Embeds `QMap::contains(k)`. -/
def QMap.contains {V : Type} (m : QMap V) (k : Int) : Bool :=
  (QMap.value m k).isSome

/-- Embeds `QMap::remove(k)`. -/
def QMap.remove {V : Type} (m : QMap V) (k : Int) : QMap V :=
  m.filter (fun e => decide (e.1 ≠ k))

/-- Embeds `QMap::insert(k, v)`: replaces the value of an existing key, otherwise
inserts at the key's place in ascending order. -/
def QMap.insert {V : Type} : QMap V → Int → V → QMap V
  | [], k, v => [(k, v)]
  | (k', v') :: r, k, v =>
    if k < k' then (k, v) :: (k', v') :: r
    else if k = k' then (k, v) :: r
    else (k', v') :: QMap.insert r k v

/-- Embeds `QMap::keys()`. -/
def QMap.keys {V : Type} (m : QMap V) : List Int := m.map Prod.fst

/-- Embeds `QMap::values()`, in key order. -/
def QMap.values {V : Type} (m : QMap V) : List V := m.map Prod.snd

/-! ## Data model -/

/-- The fields of `ServerInfo_User` (pb/serverinfo_user.proto) read by the
handler.  `user_level` is the bit set of `UserLevelFlag`s. -/
structure ServerInfo_User where
  name : String
  user_level : Nat
  privlevel : String
  session_id : Int
  id : Int
  address : String
  deriving DecidableEq, Repr, Inhabited

/-- A seat of a game.  `userInterface` is the back-reference to the session
occupying the seat (`none` once disconnected). -/
structure Server_Player where
  playerId : Int
  userInterface : Option Nat
  deriving DecidableEq, Repr, Inhabited

/-- A game: its id and its player directory (`getPlayers()`, keyed by
`playerId`). -/
structure Server_Game where
  gameId : Int
  players : List Server_Player
  deriving DecidableEq, Repr, Inhabited

/-- An entry of a room's stored chat history (`ServerInfo_ChatMessage`). -/
structure ServerInfo_ChatMessage where
  sender_name : String
  message : String
  time : String
  deriving DecidableEq, Repr, Inhabited

/-- A room: its id, its client membership set (handler identities), its local
games (`getGames()`, keyed by `gameId`), its externally hosted games
(`getExternalGames()`: game id to the hosting server's id), its chat history
and its join message. -/
structure Server_Room where
  id : Int
  name : String
  clients : List Nat
  games : List Server_Game
  externalGames : QMap Int
  chatHistory : List ServerInfo_ChatMessage
  joinMessage : String
  deriving DecidableEq, Repr, Inhabited

/-- A user known to the server's user directory: the identity of its handler
and its user info. -/
structure UserInterface where
  handler : Nat
  userInfo : ServerInfo_User
  deriving DecidableEq, Repr, Inhabited

/-- The shared `Server` object: the room directory (`getRooms()`, keyed by each
room's `getId()`), the user directory (`getUsers()` and `getExternalUsers()`, by
user name), the list of connected handlers, and the configuration getters. -/
structure Server where
  rooms : List Server_Room
  users : List (String × UserInterface)
  externalUsers : List (String × UserInterface)
  clients : List Nat
  commandCountingInterval : Int
  maxCommandCountPerInterval : Int
  messageCountingInterval : Int
  maxMessageSizePerInterval : Int
  maxMessageCountPerInterval : Int
  clientKeepAlive : Int
  maxPlayerInactivityTime : Int
  idleClientTimeout : Int
  maxGamesPerUser : Int
  maxUserLimitEnabled : Bool
  usersCount : Int
  maxUserTotal : Int
  permitCreateGameAsJudge : Bool
  permitUnregisteredUsers : Bool
  loginMessage : String
  serverRequiredFeatureList : QStringMap Bool
  deriving DecidableEq, Repr, Inhabited

/-- The members of `Server_ProtocolHandler` (with those of its base
`Server_AbstractUserInterface` that the file uses): `ident` is the identity of
the object (`this`), `rooms` the joined-room map (room id to room pointer, a
room pointer being the id of the room object it points to), `games` the map
`getGames()` (game id to (room id, player id)), `databaseInterface` the state
of the persistence collaborator. -/
structure Server_ProtocolHandler where
  ident : Nat
  server : Server
  deleted : Bool
  databaseInterface : Nat
  authState : AuthenticationResult
  usingRealPassword : Bool
  acceptsUserListChanges : Bool
  acceptsRoomListChanges : Bool
  idleClientWarningSent : Bool
  timeRunning : Int
  lastDataReceived : Int
  lastActionReceived : Int
  userInfo : Option ServerInfo_User
  rooms : QMap Int
  games : QMap (Int × Int)
  messageSizeOverTime : List Int
  messageCountOverTime : List Int
  commandCountOverTime : List Int
  deriving DecidableEq, Repr, Inhabited

/-! ## Commands -/

/-- The fields of `Command_Login` read by `cmdLogin`; `password` is `none`
when `has_password()` is false. -/
structure Command_Login where
  user_name : String
  password : Option String
  hashed_password : String
  clientid : String
  clientver : String
  clientfeatures : List String
  deriving DecidableEq, Repr, Inhabited

/-- The fields of `Command_Message`. -/
structure Command_Message where
  user_name : String
  message : String
  deriving DecidableEq, Repr, Inhabited

/-- The fields of `Command_CreateGame`; `starting_life_total` is `none` when
`has_starting_life_total()` is false. -/
structure Command_CreateGame where
  description : String
  password : String
  max_players : Int
  game_type_ids : List Int
  only_buddies : Bool
  only_registered : Bool
  spectators_allowed : Bool
  spectators_need_password : Bool
  spectators_can_talk : Bool
  spectators_see_everything : Bool
  join_as_judge : Bool
  join_as_spectator : Bool
  starting_life_total : Option Int
  deriving DecidableEq, Repr, Inhabited

/-- A session sub-command, by the extension number `getPbExtension` finds:
the eight numbers of the switch in `processSessionCommandContainer`, or any
other number with its payload. -/
inductive SessionCommand
  | PING
  | LOGIN (cmd : Command_Login)
  | MESSAGE (cmd : Command_Message)
  | GET_GAMES_OF_USER (user_name : String)
  | GET_USER_INFO (user_name : String)
  | LIST_ROOMS
  | JOIN_ROOM (room_id : Int)
  | LIST_USERS
  | extended (num : Nat) (payload : Nat)
  deriving DecidableEq, Repr, Inhabited

/-- A room sub-command: the four numbers of the switch in
`processRoomCommandContainer`, or any other number. -/
inductive RoomCommand
  | LEAVE_ROOM
  | ROOM_SAY (message : String)
  | CREATE_GAME (cmd : Command_CreateGame)
  | JOIN_GAME (payload : Nat)
  | other (num : Nat)
  deriving DecidableEq, Repr, Inhabited

/-- The game command types: the eight types named in the anti-flood allow-list,
or any other type. -/
inductive GameCommandType
  | DRAW_CARDS
  | UNDO_DRAW
  | CREATE_ARROW
  | DELETE_ARROW
  | SET_CARD_ATTR
  | INC_COUNTER
  | MULLIGAN
  | MOVE_CARD
  | other (num : Nat)
  deriving DecidableEq, Repr, Inhabited

/-- A game sub-command: its type (`getPbExtension`) and its payload. -/
structure GameCommand where
  type : GameCommandType
  payload : Nat
  deriving DecidableEq, Repr, Inhabited

/-- A moderator sub-command: its extension number and payload. -/
structure ModeratorCommand where
  num : Nat
  payload : Nat
  deriving DecidableEq, Repr, Inhabited

/-- An admin sub-command: its extension number and payload. -/
structure AdminCommand where
  num : Nat
  payload : Nat
  deriving DecidableEq, Repr, Inhabited

/-- A command batch; `cmd_id` is `none` when `has_cmd_id()` is false. -/
structure CommandContainer where
  cmd_id : Option Int
  game_id : Int
  room_id : Int
  session_command : List SessionCommand
  room_command : List RoomCommand
  game_command : List GameCommand
  moderator_command : List ModeratorCommand
  admin_command : List AdminCommand
  deriving DecidableEq, Repr, Inhabited

/-! ## Response container -/

/-- The `message_type` of an `Event_RoomSay` set in this file. -/
inductive RoomSayType
  | ChatHistory
  | Welcome
  deriving DecidableEq, Repr, Inhabited

/-- The events built in this file (already wrapped by `prepareSessionEvent` or
`prepareRoomEvent`), and `other` for items enqueued by collaborators. -/
inductive Event
  | ServerMessage (message : String)
  | UserMessage (sender_name receiver_name message : String)
  | ListRooms (room_list : List Int)
  | RoomSay (room : Int) (message : String) (message_type : RoomSayType)
      (time_of : Option Int)
  | NotifyUser_IDLEWARNING
  | other (n : Nat)
  deriving DecidableEq, Repr, Inhabited

/-- The fields of `Response_Login` set by `cmdLogin`. -/
structure Response_Login where
  denied_reason_str : Option String
  denied_end_time : Option Int
  missing_features : List String
  user_info : Option ServerInfo_User
  buddy_list : List ServerInfo_User
  ignore_list : List ServerInfo_User
  deriving DecidableEq, Repr, Inhabited

/-- The typed response payloads set in this file, and `other` for payloads set
by collaborators. -/
inductive ResponseExtension
  | Login (re : Response_Login)
  | GetGamesOfUser (room_list : List Int) (game_list : List Int)
  | GetUserInfo (user_info : ServerInfo_User)
  | JoinRoom (room_info : Int)
  | ListUsers (user_list : List ServerInfo_User)
  | other (n : Nat)
  deriving DecidableEq, Repr, Inhabited

/-- A `ResponseContainer`: the correlation id, the pre-response and
post-response queues in enqueuing order, and the response payload. -/
structure ResponseContainer where
  cmdId : Int
  preResponseQueue : List Event
  postResponseQueue : List Event
  responseExtension : Option ResponseExtension
  deriving DecidableEq, Repr, Inhabited

/-- Embeds `ResponseContainer::enqueuePreResponseItem`. -/
def ResponseContainer.enqueuePreResponseItem (rc : ResponseContainer) (e : Event) :
    ResponseContainer :=
  { rc with preResponseQueue := rc.preResponseQueue ++ [e] }

/-- Embeds `ResponseContainer::enqueuePostResponseItem`. -/
def ResponseContainer.enqueuePostResponseItem (rc : ResponseContainer) (e : Event) :
    ResponseContainer :=
  { rc with postResponseQueue := rc.postResponseQueue ++ [e] }

/-- Embeds `ResponseContainer::setResponseExtension`. -/
def ResponseContainer.setResponseExtension (rc : ResponseContainer) (re : ResponseExtension) :
    ResponseContainer :=
  { rc with responseExtension := some re }

/-! ## Trace of calls -/

/-- The locks taken in this file; a room's and a game's lock is named by the
ids under which the room and the game were looked up. -/
inductive Lock
  | roomsLock
  | gamesLock (room : Int)
  | gameMutex (room game : Int)
  | historyLock (room : Int)
  | clientsLock
  deriving DecidableEq, Repr, Inhabited

/-- The five kinds of sub-command. -/
inductive Kind
  | game
  | room
  | session
  | moderator
  | admin
  deriving DecidableEq, Repr, Inhabited

/-- The calls a method of this file makes, as recorded in the trace.
`handler kind i` records that the sub-command of submission index `i` of a
batch of that kind is handed to its handler (just before the handler runs). -/
inductive Call
  | lock (l : Lock)
  | unlock (l : Lock)
  | logDebugMessage
  | handler (kind : Kind) (index : Nat)
  | removeClient (room : Int)
  | addClient (room : Int)
  | disconnectClient (room game player : Int)
  | serverRemoveClient
  | deleteLater
  | sendIsl_GameCommand (server_id session_id room player : Int)
  | sendToGame (game : Int) (ges : List Nat)
  | sendResponseContainer (rc : ResponseContainer) (code : ResponseCode)
  | sendProtocolItem (e : Event)
  | sendProtocolItemTo (receiver : Nat) (e : Event)
  | loginUser
  | getBuddyList
  | getIgnoreList
  | joinPersistentGames
  | removeForgotPassword
  | logMessage (message : String) (target : Int)
  | say (room : Int) (name message : String)
  | getNextGameId
  | newGame (gameId : Int) (cmd : Command_CreateGame) (description : String)
      (gameTypes : List Int) (onlyRegisteredUsers : Bool) (startingLifeTotal : Int)
  | addPlayer (gameId : Int) (spectator judge : Bool)
  | addGame (room gameId : Int)
  deriving DecidableEq, Repr, Inhabited

/-! ## Execution state and collaborators -/

/-- The execution state of a method: the handler object (with the server it
points to), the response container passed by reference, and the trace of the
calls made so far. -/
structure St where
  self : Server_ProtocolHandler
  rc : ResponseContainer
  trace : List Call
  deriving DecidableEq, Repr, Inhabited

/-- The type of a command handler of a collaborator: it acts on the handler
object and on the response container and returns a result code. -/
abbrev Handler :=
  Server_ProtocolHandler → ResponseContainer →
    ResponseCode × Server_ProtocolHandler × ResponseContainer

/-- The code this file calls and does not define, and the constants declared in
headers absent from the sources. -/
structure Env where
  /-- Embeds `MAX_NAME_LENGTH` of `trice_limits.h`. -/
  MAX_NAME_LENGTH : Int
  /-- Embeds `ServerInfo_User::IsModerator`. -/
  IsModerator : Nat
  /-- Embeds `ServerInfo_User::IsAdmin`. -/
  IsAdmin : Nat
  /-- Embeds `ServerInfo_User::IsJudge`. -/
  IsJudge : Nat
  /-- Embeds `qCeil(idleClientTimeout * .9)`, a floating-point computation. -/
  idleWarningThreshold : Int → Int
  nameFromStdString : String → String
  simplified : String → String
  processExtendedSessionCommand : Nat → Nat → Handler
  processExtendedModeratorCommand : Nat → Nat → Handler
  processExtendedAdminCommand : Nat → Nat → Handler
  /-- Embeds `player->processGameCommand(sc, rc, ges)` for the player found under
  (room, game, player). -/
  processGameCommand : Int → Int → Int → GameCommand → Server_ProtocolHandler →
    ResponseContainer → List Nat →
    ResponseCode × Server_ProtocolHandler × ResponseContainer × List Nat
  /-- Embeds `room->processJoinGameCommand(cmd, rc, this)`. -/
  processJoinGameCommand : Int → Nat → Handler
  identifyMissingFeatures : QStringMap Bool → QStringMap Bool → QStringMap Bool
  isRequiredFeaturesMissing : QStringMap Bool → QStringMap Bool → Bool
  /-- Embeds `server->loginUser(this, userName, password, needsHash, reasonStr,
  banSecondsLeft, clientId, clientVersion, connectionType)`: the result, the
  reason string, the ban seconds left and the handler as it leaves it. -/
  loginUser : String → String → Bool → String → String → Server_ProtocolHandler →
    AuthenticationResult × String × Int × Server_ProtocolHandler
  currentSecsSinceEpoch : Int
  msecsSinceEpoch : String → Int
  copyUserInfo : Option ServerInfo_User → Bool → Bool → Bool → ServerInfo_User
  getBuddyList : Nat → String → List ServerInfo_User
  getIgnoreList : Nat → String → List ServerInfo_User
  joinPersistentGames : Server_ProtocolHandler → ResponseContainer →
    Server_ProtocolHandler × ResponseContainer
  removeForgotPassword : Nat → String → Nat
  isInIgnoreList : Nat → String → String → Bool
  /-- Embeds `server->findUser(name)`. -/
  findUser : Server → String → Option UserInterface
  getUserData : Nat → String → ServerInfo_User
  getGamesOfUser : Server_Room → String → List Int
  userMayJoin : Server_Room → ServerInfo_User → Bool
  getGamesCreatedByUser : Server_Room → String → Int
  getNextGameId : Nat → Int × Nat
  /-- Embeds `game->addPlayer(this, rc, spectator, judge, false)` on the new game. -/
  addPlayer : Server_Game → Bool → Bool → Server_ProtocolHandler → ResponseContainer →
    Server_Game × Server_ProtocolHandler × ResponseContainer

/-- Append one call to the trace. -/
def St.call (s : St) (c : Call) : St :=
  { s with trace := s.trace ++ [c] }

/-- Run a collaborator's handler on the handler object and the response
container. -/
def St.invoke (s : St) (f : Handler) : ResponseCode × St :=
  let r := f s.self s.rc
  (r.1, { s with self := r.2.1, rc := r.2.2 })

/-- Embeds `rc.enqueuePreResponseItem(e)`. -/
def St.enqueuePre (s : St) (e : Event) : St :=
  { s with rc := s.rc.enqueuePreResponseItem e }

/-- Embeds `rc.enqueuePostResponseItem(e)`. -/
def St.enqueuePost (s : St) (e : Event) : St :=
  { s with rc := s.rc.enqueuePostResponseItem e }

/-- Embeds `rc.setResponseExtension(re)`. -/
def St.setExt (s : St) (re : ResponseExtension) : St :=
  { s with rc := s.rc.setResponseExtension re }

/-- Replace the server object reached through the `server` pointer. -/
def St.setServer (s : St) (srv : Server) : St :=
  { s with self := { s.self with server := srv } }

/-- Apply `f` to the first element of a list that satisfies `p`. -/
def modifyFirst {α : Type} (p : α → Bool) (f : α → α) : List α → List α
  | [] => []
  | a :: r => if p a then f a :: r else a :: modifyFirst p f r

/-- Embeds `getRooms().value(id)`: the room of that id in a room directory. -/
def findRoom (rooms : List Server_Room) (id : Int) : Option Server_Room :=
  rooms.find? (fun r => decide (r.id = id))

/-- Embeds `getGames().value(id)`: the game of that id in a room's games. -/
def findGame (games : List Server_Game) (id : Int) : Option Server_Game :=
  games.find? (fun g => decide (g.gameId = id))

/-- Embeds `getPlayers().value(id)`: the player of that id in a game's players. -/
def findPlayer (players : List Server_Player) (id : Int) : Option Server_Player :=
  players.find? (fun p => decide (p.playerId = id))

/-- Write through a room pointer: apply `f` to the room object of that id. -/
def Server.modifyRoom (srv : Server) (room : Int) (f : Server_Room → Server_Room) : Server :=
  { srv with rooms := modifyFirst (fun r => decide (r.id = room)) f srv.rooms }

/-- Read through a room pointer.  A pointer whose object the directory does not
hold reads as an empty room of that id. -/
def Server.roomAt (srv : Server) (room : Int) : Server_Room :=
  (findRoom srv.rooms room).getD { (default : Server_Room) with id := room }

/-- Embeds `QString::toLower()`, character by character. -/
def toLower (str : String) : String :=
  String.mk (str.data.map Char.toLower)

/-- Dereference `userInfo`.  The source dereferences it only where it takes it
to be set; a null pointer reads as the default record. -/
def Server_ProtocolHandler.user (h : Server_ProtocolHandler) : ServerInfo_User :=
  h.userInfo.getD default

/-! ## Collaborators modelled from the specification -/

/-- Modelled from the spec: `Server_Room::removeClient(this)` (server_room.cpp
is absent): "remove this session from that room's membership". -/
def removeClient (room : Int) (s : St) : St :=
  (s.setServer (s.self.server.modifyRoom room
    (fun r => { r with clients := r.clients.filter (fun c => decide (c ≠ s.self.ident)) }))).call
    (Call.removeClient room)

/-- Modelled from the spec: `Server_Room::addClient(this)` (server_room.cpp is
absent): the session becomes a member of the room's client membership set. -/
def addClient (room : Int) (s : St) : St :=
  (s.setServer (s.self.server.modifyRoom room
    (fun r => { r with clients := r.clients.insert s.self.ident }))).call
    (Call.addClient room)

/-- Modelled from the spec: the effect of `Server_Player::disconnectClient()`
on the player (server_player.cpp is absent): "clear the back-reference". -/
def clearPlayer (p : Server_Player) : Server_Player :=
  { p with userInterface := none }

/-- Write `clearPlayer` through the player pointer found under `player` in a
game's player directory. -/
def disconnectInGame (player : Int) (g : Server_Game) : Server_Game :=
  { g with players := modifyFirst (fun p => decide (p.playerId = player)) clearPlayer g.players }

/-- Write `clearPlayer` through the game and player pointers found under
`game` and `player` in a room. -/
def disconnectInRoom (game player : Int) (r : Server_Room) : Server_Room :=
  { r with
    games := modifyFirst (fun g => decide (g.gameId = game)) (disconnectInGame player) r.games }

/-- Modelled from the spec: `Server_Player::disconnectClient()`
(server_player.cpp is absent): "mark the seat's player as disconnected (clear
the back-reference) rather than removing the seat". -/
def disconnectClient (room game player : Int) (s : St) : St :=
  (s.setServer (s.self.server.modifyRoom room (disconnectInRoom game player))).call
    (Call.disconnectClient room game player)

/-- Modelled from the spec: `Server::removeClient(this)` (server.cpp is
absent): "remove the session from the global user directory". -/
def serverRemoveClient (s : St) : St :=
  (s.setServer { s.self.server with
    clients := s.self.server.clients.filter (fun c => decide (c ≠ s.self.ident)),
    users := s.self.server.users.filter (fun u => decide (u.2.handler ≠ s.self.ident)) }).call
    Call.serverRemoveClient

/-! ## `prepareDestroy` -/

/-- One iteration of the game loop of `prepareDestroy`, for the entry
`gameId -> (roomId, playerId)` of the copied game map. -/
def prepareDestroyGame (s : St) (e : Int × Int × Int) : St :=
  match findRoom s.self.server.rooms e.2.1 with
  | none => s
  | some room =>
    let s1 := s.call (Call.lock (Lock.gamesLock e.2.1))
    match findGame room.games e.1 with
    | none => s1.call (Call.unlock (Lock.gamesLock e.2.1))
    | some game =>
      let s2 := s1.call (Call.lock (Lock.gameMutex e.2.1 e.1))
      match findPlayer game.players e.2.2 with
      | none =>
        (s2.call (Call.unlock (Lock.gameMutex e.2.1 e.1))).call (Call.unlock (Lock.gamesLock e.2.1))
      | some _ =>
        let s3 := disconnectClient e.2.1 e.1 e.2.2 s2
        (s3.call (Call.unlock (Lock.gameMutex e.2.1 e.1))).call (Call.unlock (Lock.gamesLock e.2.1))

/-- The assignment `deleted = true`. -/
def St.setDeleted (s : St) : St :=
  { s with self := { s.self with deleted := true } }

/-- Embeds `Server_ProtocolHandler::prepareDestroy`. -/
def prepareDestroy (s : St) : St :=
  if s.self.deleted then s
  else
    let s1 : St := s.setDeleted
    let s2 := (QMap.values s1.self.rooms).foldl (fun st room => removeClient room st) s1
    let tempGames := s2.self.games
    let s3 := s2.call (Call.lock Lock.roomsLock)
    let s4 := tempGames.foldl prepareDestroyGame s3
    let s5 := s4.call (Call.unlock Lock.roomsLock)
    let s6 := serverRemoveClient s5
    s6.call Call.deleteLater

/-! ## Session commands -/

/-- Embeds `Server_ProtocolHandler::resetIdleTimer`. -/
def resetIdleTimer (s : St) : St :=
  { s with self := { s.self with
      lastActionReceived := s.self.timeRunning, idleClientWarningSent := false } }

/-- Embeds `Server_ProtocolHandler::cmdPing`. -/
def cmdPing (s : St) : ResponseCode × St :=
  (ResponseCode.RespOk, s)

/-- The password block at the head of `cmdLogin`: the rejection code, or the
password and `needsHash`. -/
def loginPassword (env : Env) (cmd : Command_Login) : Except ResponseCode (String × Bool) :=
  match cmd.password with
  | some pw =>
    if (pw.utf8ByteSize : Int) > env.MAX_NAME_LENGTH then Except.error ResponseCode.RespWrongPassword
    else Except.ok (pw, true)
  | none =>
    if (cmd.hashed_password.utf8ByteSize : Int) > env.MAX_NAME_LENGTH then
      Except.error ResponseCode.RespContextError
    else Except.ok (env.nameFromStdString cmd.hashed_password, false)

/-- The tail of `cmdLogin`, once `authState` has been written: the user-limit
check and the assembly of the login response. -/
def cmdLoginFinish (env : Env) (missingClientFeatures : QStringMap Bool) (s : St) :
    ResponseCode × St :=
  if (s.self.userInfo.isNone || toLower s.self.user.privlevel == "none")
      && s.self.server.maxUserLimitEnabled
      && decide (s.self.server.usersCount > s.self.server.maxUserTotal) then
    (ResponseCode.RespServerFull, s)
  else
    let userName := s.self.user.name
    let s1 : St := s.enqueuePost (Event.ServerMessage s.self.server.loginMessage)
    let re0 : Response_Login :=
      { denied_reason_str := none, denied_end_time := none, missing_features := [],
        user_info := some (env.copyUserInfo s1.self.userInfo true false false),
        buddy_list := [], ignore_list := [] }
    let s2 : St :=
      if s1.self.authState = AuthenticationResult.PasswordRight then
        (s1.call Call.getBuddyList).call Call.getIgnoreList
      else s1
    let re1 : Response_Login :=
      if s1.self.authState = AuthenticationResult.PasswordRight then
        { re0 with buddy_list := env.getBuddyList s1.self.databaseInterface userName,
                   ignore_list := env.getIgnoreList s1.self.databaseInterface userName }
      else re0
    let re2 : Response_Login :=
      if !missingClientFeatures.isEmpty then
        { re1 with missing_features := missingClientFeatures.map Prod.fst }
      else re1
    let j := env.joinPersistentGames s2.self s2.rc
    let s3 : St := ({ s2 with self := j.1, rc := j.2 }).call Call.joinPersistentGames
    let s4 : St := ({ s3 with self := { s3.self with
      databaseInterface := env.removeForgotPassword s3.self.databaseInterface userName } }).call
      Call.removeForgotPassword
    (ResponseCode.RespOk,
      s4.setExt (ResponseExtension.Login re2))

/-- The `switch (res)` of `cmdLogin` on the result of `loginUser`. -/
def cmdLoginResult (env : Env) (needsHash : Bool) (missingClientFeatures : QStringMap Bool)
    (res : AuthenticationResult) (reasonStr : String) (banSecondsLeft : Int) (s : St) :
    ResponseCode × St :=
  match res with
  | AuthenticationResult.UserIsBanned =>
    let re : Response_Login :=
      { denied_reason_str := some reasonStr,
        denied_end_time :=
          if banSecondsLeft ≠ 0 then some (env.currentSecsSinceEpoch + banSecondsLeft) else none,
        missing_features := [], user_info := none, buddy_list := [], ignore_list := [] }
    (ResponseCode.RespUserIsBanned,
      s.setExt (ResponseExtension.Login re))
  | AuthenticationResult.NotLoggedIn => (ResponseCode.RespWrongPassword, s)
  | AuthenticationResult.WouldOverwriteOldSession =>
    (ResponseCode.RespWouldOverwriteOldSession, s)
  | AuthenticationResult.UsernameInvalid =>
    let re : Response_Login :=
      { denied_reason_str := some reasonStr, denied_end_time := none,
        missing_features := [], user_info := none, buddy_list := [], ignore_list := [] }
    (ResponseCode.RespUsernameInvalid,
      s.setExt (ResponseExtension.Login re))
  | AuthenticationResult.RegistrationRequired => (ResponseCode.RespRegistrationRequired, s)
  | AuthenticationResult.ClientIdRequired => (ResponseCode.RespClientIdRequired, s)
  | AuthenticationResult.UserIsInactive => (ResponseCode.RespAccountNotActivated, s)
  | AuthenticationResult.PasswordRight | AuthenticationResult.UnknownUser =>
    cmdLoginFinish env missingClientFeatures
      { s with self := { s.self with authState := res, usingRealPassword := needsHash } }

/-- Embeds `Server_ProtocolHandler::cmdLogin`. -/
def cmdLogin (env : Env) (cmd : Command_Login) (s : St) : ResponseCode × St :=
  let userName := env.simplified (env.nameFromStdString cmd.user_name)
  let clientId := env.simplified (env.nameFromStdString cmd.clientid)
  let clientVersion := env.simplified (env.nameFromStdString cmd.clientver)
  match loginPassword env cmd with
  | Except.error code => (code, s)
  | Except.ok (password, needsHash) =>
    if s.self.userInfo.isSome then (ResponseCode.RespContextError, s)
    else
      let featureCount := min (cmd.clientfeatures.length : Int) env.MAX_NAME_LENGTH
      let receivedClientFeatures : QStringMap Bool :=
        (cmd.clientfeatures.take featureCount.toNat).foldl
          (fun m f => QStringMap.insert m (env.simplified (env.nameFromStdString f)) false) []
      let missingClientFeatures :=
        env.identifyMissingFeatures receivedClientFeatures s.self.server.serverRequiredFeatureList
      if !missingClientFeatures.isEmpty
          && env.isRequiredFeaturesMissing missingClientFeatures
              s.self.server.serverRequiredFeatureList then
        let re : Response_Login :=
          { denied_reason_str := some "Client upgrade required", denied_end_time := none,
            missing_features := missingClientFeatures.map Prod.fst,
            user_info := none, buddy_list := [], ignore_list := [] }
        (ResponseCode.RespClientUpdateRequired,
          s.setExt (ResponseExtension.Login re))
      else
        let r := env.loginUser userName password needsHash clientId clientVersion s.self
        let s1 : St := ({ s with self := r.2.2.2 }).call Call.loginUser
        cmdLoginResult env needsHash missingClientFeatures r.1 r.2.1 r.2.2.1 s1

/-- Adds `n` to the newest bucket of a window that is not empty, the addition
taken exactly: `++commandCountOverTime[0]` of the game loop, and
`messageSizeOverTime[0] += n` when the result is a value of `int`. -/
def addToFirst (n : Int) : List Int → List Int
  | [] => []
  | a :: r => (a + n) :: r

/-- Embeds `if (w.isEmpty()) w.prepend(0)`. -/
def ensureBucket (w : List Int) : List Int :=
  if w.isEmpty then [0] else w

/-- The value of a C++ `int` after an addition whose exact result is `x`: the
result modulo 2^32, read as a signed 32-bit number (what the compiled code
keeps when the addition overflows). -/
def wrapInt (x : Int) : Int :=
  (x + 2147483648) % 4294967296 - 2147483648

/-- Embeds `w[0] += n` on a window of `int` buckets that is not empty. -/
def addToFirstInt (n : Int) : List Int → List Int
  | [] => []
  | a :: r => wrapInt (a + n) :: r

/-- Embeds `int total = 0; for (int x : w) total += x;`. -/
def sumInt (w : List Int) : Int :=
  w.foldl (fun total x => wrapInt (total + x)) 0

/-- Embeds `Server_ProtocolHandler::addSaidMessageSize`.  The buckets and the
totals are `int`, so every addition is taken modulo 2^32; `size` enters only
through such an addition, so the `static_cast<int>` at the two call sites
changes nothing. -/
def addSaidMessageSize (size : Int) (s : St) : Bool × St :=
  if s.self.server.messageCountingInterval ≤ 0 then (true, s)
  else
    let messageSizeOverTime := addToFirstInt size (ensureBucket s.self.messageSizeOverTime)
    let totalSize := sumInt messageSizeOverTime
    let messageCountOverTime := addToFirstInt 1 (ensureBucket s.self.messageCountOverTime)
    let totalCount := sumInt messageCountOverTime
    (decide (totalSize ≤ s.self.server.maxMessageSizePerInterval)
        && decide (totalCount ≤ s.self.server.maxMessageCountPerInterval),
      { s with self := { s.self with
          messageSizeOverTime := messageSizeOverTime,
          messageCountOverTime := messageCountOverTime } })

/-- Embeds `Server_ProtocolHandler::cmdMessage`. -/
def cmdMessage (env : Env) (cmd : Command_Message) (s : St) : ResponseCode × St :=
  if s.self.authState = AuthenticationResult.NotLoggedIn then (ResponseCode.RespLoginNeeded, s)
  else
    let s1 := s.call (Call.lock Lock.clientsLock)
    let receiver := env.nameFromStdString cmd.user_name
    match env.findUser s1.self.server receiver with
    | none => (ResponseCode.RespNameNotFound, s1.call (Call.unlock Lock.clientsLock))
    | some userInterface =>
      if env.isInIgnoreList s1.self.databaseInterface receiver s1.self.user.name then
        (ResponseCode.RespInIgnoreList, s1.call (Call.unlock Lock.clientsLock))
      else
        let a := addSaidMessageSize (cmd.message.utf8ByteSize : Int) s1
        if !a.1 then (ResponseCode.RespChatFlood, a.2.call (Call.unlock Lock.clientsLock))
        else
          let event := Event.UserMessage a.2.self.user.name receiver cmd.message
          let s2 := a.2.call (Call.sendProtocolItemTo userInterface.handler event)
          let s3 : St := s2.enqueuePre event
          let s4 := s3.call (Call.logMessage cmd.message userInterface.userInfo.id)
          let s5 := resetIdleTimer s4
          (ResponseCode.RespOk, s5.call (Call.unlock Lock.clientsLock))

/-- Embeds `Server_ProtocolHandler::cmdGetGamesOfUser`. -/
def cmdGetGamesOfUser (env : Env) (user_name : String) (s : St) : ResponseCode × St :=
  if s.self.authState = AuthenticationResult.NotLoggedIn then (ResponseCode.RespLoginNeeded, s)
  else
    let s1 := s.call (Call.lock Lock.roomsLock)
    let s2 := s1.self.server.rooms.foldl
      (fun st room => (st.call (Call.lock (Lock.gamesLock room.id))).call
        (Call.unlock (Lock.gamesLock room.id))) s1
    let room_list := s1.self.server.rooms.map (fun room => room.id)
    let game_list := s1.self.server.rooms.flatMap
      (fun room => env.getGamesOfUser room (env.nameFromStdString user_name))
    let s3 := s2.call (Call.unlock Lock.roomsLock)
    (ResponseCode.RespOk, s3.setExt (ResponseExtension.GetGamesOfUser room_list game_list))

/-- Embeds `Server_ProtocolHandler::cmdGetUserInfo`. -/
def cmdGetUserInfo (env : Env) (user_name : String) (s : St) : ResponseCode × St :=
  if s.self.authState = AuthenticationResult.NotLoggedIn then (ResponseCode.RespLoginNeeded, s)
  else
    let userName := env.nameFromStdString user_name
    if userName.isEmpty then
      (ResponseCode.RespOk, s.setExt (ResponseExtension.GetUserInfo s.self.user))
    else
      let s1 := s.call (Call.lock Lock.clientsLock)
      let info := match env.findUser s1.self.server userName with
        | none => env.getUserData s1.self.databaseInterface userName
        | some infoSource => env.copyUserInfo (some infoSource.userInfo) true false
            (decide (s1.self.user.user_level &&& env.IsModerator ≠ 0))
      let s2 := s1.call (Call.unlock Lock.clientsLock)
      (ResponseCode.RespOk, s2.setExt (ResponseExtension.GetUserInfo info))

/-- Embeds `Server_ProtocolHandler::cmdListRooms`. -/
def cmdListRooms (s : St) : ResponseCode × St :=
  if s.self.authState = AuthenticationResult.NotLoggedIn then (ResponseCode.RespLoginNeeded, s)
  else
    let event := Event.ListRooms (s.self.server.rooms.map (fun room => room.id))
    (ResponseCode.RespOk,
      ({ s with self := { s.self with acceptsRoomListChanges := true } }).enqueuePre event)

/-- The chat-history loop of `cmdJoinRoom`: one `ChatHistory` room event per
stored entry, in history order. -/
def chatHistoryEvents (env : Env) (room : Int) (chatHistory : List ServerInfo_ChatMessage) :
    List Event :=
  chatHistory.map (fun chatMessage =>
    Event.RoomSay room (chatMessage.sender_name ++ ": " ++ chatMessage.message)
      RoomSayType.ChatHistory (some (env.msecsSinceEpoch chatMessage.time)))

/-- Embeds `Server_ProtocolHandler::cmdJoinRoom`. -/
def cmdJoinRoom (env : Env) (room_id : Int) (s : St) : ResponseCode × St :=
  if s.self.authState = AuthenticationResult.NotLoggedIn then (ResponseCode.RespLoginNeeded, s)
  else if QMap.contains s.self.rooms room_id then (ResponseCode.RespContextError, s)
  else
    let s1 := s.call (Call.lock Lock.roomsLock)
    match findRoom s1.self.server.rooms room_id with
    | none => (ResponseCode.RespNameNotFound, s1.call (Call.unlock Lock.roomsLock))
    | some room =>
      if s1.self.user.user_level &&& env.IsModerator = 0
          ∧ env.userMayJoin room s1.self.user = false then
        (ResponseCode.RespUserLevelTooLow, s1.call (Call.unlock Lock.roomsLock))
      else
        let s2 := addClient room.id s1
        let s3 : St := { s2 with self := { s2.self with
          rooms := QMap.insert s2.self.rooms room.id room.id } }
        let s4 := s3.call (Call.lock (Lock.historyLock room.id))
        let chatHistory := (s4.self.server.roomAt room.id).chatHistory
        let s5 : St := (chatHistoryEvents env room.id chatHistory).foldl
          (fun st e => st.enqueuePost e) s4
        let joinMessageEvent := Event.RoomSay room.id (s5.self.server.roomAt room.id).joinMessage
          RoomSayType.Welcome none
        let s6 : St := s5.enqueuePost joinMessageEvent
        let s7 : St := s6.setExt (ResponseExtension.JoinRoom room.id)
        (ResponseCode.RespOk,
          (s7.call (Call.unlock (Lock.historyLock room.id))).call (Call.unlock Lock.roomsLock))

/-- Embeds `Server_ProtocolHandler::cmdListUsers`. -/
def cmdListUsers (env : Env) (s : St) : ResponseCode × St :=
  if s.self.authState = AuthenticationResult.NotLoggedIn then (ResponseCode.RespLoginNeeded, s)
  else
    let s1 := s.call (Call.lock Lock.clientsLock)
    let user_list := (s1.self.server.users ++ s1.self.server.externalUsers).map
      (fun u => env.copyUserInfo (some u.2.userInfo) false false false)
    let s2 : St := { s1 with self := { s1.self with acceptsUserListChanges := true } }
    let s3 := s2.call (Call.unlock Lock.clientsLock)
    (ResponseCode.RespOk, s3.setExt (ResponseExtension.ListUsers user_list))

/-! ## Room commands -/

/-- Embeds `Server_ProtocolHandler::cmdLeaveRoom`, for the room pointer `room`. -/
def cmdLeaveRoom (room : Int) (s : St) : ResponseCode × St :=
  let s1 : St := { s with self := { s.self with rooms := QMap.remove s.self.rooms room } }
  (ResponseCode.RespOk, removeClient room s1)

/-- Embeds `Server_ProtocolHandler::cmdRoomSay`. -/
def cmdRoomSay (message : String) (room : Int) (s : St) : ResponseCode × St :=
  let a := addSaidMessageSize (message.utf8ByteSize : Int) s
  if !a.1 then (ResponseCode.RespChatFlood, a.2)
  else
    let msg := String.mk (message.data.map (fun c => if c = '\n' then ' ' else c))
    let s1 := a.2.call (Call.say room a.2.self.user.name msg)
    (ResponseCode.RespOk, s1.call (Call.logMessage msg room))

/-- Embeds `Server_ProtocolHandler::cmdCreateGame`. -/
def cmdCreateGame (env : Env) (cmd : Command_CreateGame) (room : Int) (s : St) :
    ResponseCode × St :=
  if s.self.authState = AuthenticationResult.NotLoggedIn then (ResponseCode.RespLoginNeeded, s)
  else if (cmd.password.utf8ByteSize : Int) > env.MAX_NAME_LENGTH then
    (ResponseCode.RespContextError, s)
  else
    let level := s.self.user.user_level
    let isJudge : Bool := decide (level &&& env.IsJudge ≠ 0)
    let maxGames := s.self.server.maxGamesPerUser
    let asJudge := cmd.join_as_judge
    let asSpectator := cmd.join_as_spectator
    if !(isJudge && asJudge && asSpectator) && decide (maxGames ≥ 0)
        && decide (env.getGamesCreatedByUser (s.self.server.roomAt room) s.self.user.name
            ≥ maxGames) then
      (ResponseCode.RespContextError, s)
    else
      let asJudge1 : Bool :=
        if asJudge && !(s.self.server.permitCreateGameAsJudge || isJudge) then false else asJudge
      let gameTypeCount := min (cmd.game_type_ids.length : Int) env.MAX_NAME_LENGTH
      let gameTypes := cmd.game_type_ids.take gameTypeCount.toNat
      let description := env.nameFromStdString cmd.description
      let startingLifeTotal := cmd.starting_life_total.getD 20
      let n := env.getNextGameId s.self.databaseInterface
      let s1 : St := ({ s with self := { s.self with databaseInterface := n.2 } }).call
        Call.getNextGameId
      if n.1 = -1 then (ResponseCode.RespInternalError, s1)
      else
        let onlyRegisteredUsers := cmd.only_registered && s1.self.server.permitUnregisteredUsers
        let s2 := s1.call
          (Call.newGame n.1 cmd description gameTypes onlyRegisteredUsers startingLifeTotal)
        let game : Server_Game := { gameId := n.1, players := [] }
        let a := env.addPlayer game asSpectator asJudge1 s2.self s2.rc
        let s3 : St := ({ s2 with self := a.2.1, rc := a.2.2 }).call
          (Call.addPlayer n.1 asSpectator asJudge1)
        let s4 := (s3.setServer (s3.self.server.modifyRoom room
          (fun r => { r with games := r.games ++ [a.1] }))).call (Call.addGame room n.1)
        (ResponseCode.RespOk, s4)

/-- Embeds `Server_ProtocolHandler::cmdJoinGame`. -/
def cmdJoinGame (env : Env) (payload : Nat) (room : Int) (s : St) : ResponseCode × St :=
  if s.self.authState = AuthenticationResult.NotLoggedIn then (ResponseCode.RespLoginNeeded, s)
  else s.invoke (env.processJoinGameCommand room payload)

/-! ## Command containers -/

/-- The loop shared by the session, room, moderator and admin processors:
`for (i = size - 1; i >= 0; --i)` over the sub-commands, given here as the
list of (index, sub-command) pairs in the order the loop visits them, with
`if (resp != RespOk) finalResponseCode = resp` after each. -/
def commandLoop {α : Type} (step : Nat → α → St → ResponseCode × St) :
    List (Nat × α) → ResponseCode → St → ResponseCode × St
  | [], finalResponseCode, s => (finalResponseCode, s)
  | (i, sc) :: rest, finalResponseCode, s =>
    let r := step i sc s
    commandLoop step rest
      (if r.1 ≠ ResponseCode.RespOk then r.1 else finalResponseCode) r.2

/-- The order in which the loops visit the sub-commands: from index
`size - 1` down to index `0`. -/
def loopOrder {α : Type} (cmds : List α) : List (Nat × α) :=
  cmds.enum.reverse

/-- The body of the loop of `processSessionCommandContainer` for the
sub-command `sc` of index `i`. -/
def sessionCommandStep (env : Env) (i : Nat) (sc : SessionCommand) (s : St) :
    ResponseCode × St :=
  match sc with
  | SessionCommand.PING => cmdPing (s.call (Call.handler Kind.session i))
  | SessionCommand.LOGIN cmd =>
    cmdLogin env cmd ((s.call Call.logDebugMessage).call (Call.handler Kind.session i))
  | SessionCommand.MESSAGE cmd =>
    cmdMessage env cmd ((s.call Call.logDebugMessage).call (Call.handler Kind.session i))
  | SessionCommand.GET_GAMES_OF_USER user_name =>
    cmdGetGamesOfUser env user_name
      ((s.call Call.logDebugMessage).call (Call.handler Kind.session i))
  | SessionCommand.GET_USER_INFO user_name =>
    cmdGetUserInfo env user_name
      ((s.call Call.logDebugMessage).call (Call.handler Kind.session i))
  | SessionCommand.LIST_ROOMS =>
    cmdListRooms ((s.call Call.logDebugMessage).call (Call.handler Kind.session i))
  | SessionCommand.JOIN_ROOM room_id =>
    cmdJoinRoom env room_id ((s.call Call.logDebugMessage).call (Call.handler Kind.session i))
  | SessionCommand.LIST_USERS =>
    cmdListUsers env ((s.call Call.logDebugMessage).call (Call.handler Kind.session i))
  | SessionCommand.extended num payload =>
    ((s.call Call.logDebugMessage).call (Call.handler Kind.session i)).invoke
      (env.processExtendedSessionCommand num payload)

/-- Embeds `Server_ProtocolHandler::processSessionCommandContainer`. -/
def processSessionCommandContainer (env : Env) (cont : CommandContainer) (s : St) :
    ResponseCode × St :=
  commandLoop (sessionCommandStep env) (loopOrder cont.session_command) ResponseCode.RespOk s

/-- The body of the loop of `processRoomCommandContainer` for the sub-command
`sc` of index `i` and the room pointer `room`.  A number outside the switch
leaves `resp` at `RespInvalidCommand`. -/
def roomCommandStep (env : Env) (room : Int) (i : Nat) (sc : RoomCommand) (s : St) :
    ResponseCode × St :=
  let s1 := s.call Call.logDebugMessage
  match sc with
  | RoomCommand.LEAVE_ROOM => cmdLeaveRoom room (s1.call (Call.handler Kind.room i))
  | RoomCommand.ROOM_SAY message => cmdRoomSay message room (s1.call (Call.handler Kind.room i))
  | RoomCommand.CREATE_GAME cmd => cmdCreateGame env cmd room (s1.call (Call.handler Kind.room i))
  | RoomCommand.JOIN_GAME payload =>
    cmdJoinGame env payload room (s1.call (Call.handler Kind.room i))
  | RoomCommand.other _ => (ResponseCode.RespInvalidCommand, s1)

/-- Embeds `Server_ProtocolHandler::processRoomCommandContainer`. -/
def processRoomCommandContainer (env : Env) (cont : CommandContainer) (s : St) :
    ResponseCode × St :=
  if s.self.authState = AuthenticationResult.NotLoggedIn then (ResponseCode.RespLoginNeeded, s)
  else
    let s1 := s.call (Call.lock Lock.roomsLock)
    match QMap.value s1.self.rooms cont.room_id with
    | none => (ResponseCode.RespNotInRoom, s1.call (Call.unlock Lock.roomsLock))
    | some room =>
      let s2 := resetIdleTimer s1
      let r := commandLoop (roomCommandStep env room) (loopOrder cont.room_command)
        ResponseCode.RespOk s2
      (r.1, r.2.call (Call.unlock Lock.roomsLock))

/-- The allow-list `antifloodCommandsWhiteList` of
`processGameCommandContainer`. -/
def antifloodCommandsWhiteList : List GameCommandType :=
  [GameCommandType.DRAW_CARDS, GameCommandType.UNDO_DRAW, GameCommandType.CREATE_ARROW,
   GameCommandType.DELETE_ARROW, GameCommandType.SET_CARD_ATTR, GameCommandType.INC_COUNTER,
   GameCommandType.MULLIGAN, GameCommandType.MOVE_CARD]

/-- The command-counting block of the game loop for one sub-command: the
window after it, and whether the loop returns `RespChatFlood`. -/
def countGameCommand (commandCountingInterval maxCommandCountPerInterval : Int)
    (sc : GameCommand) (commandCountOverTime : List Int) : List Int × Bool :=
  if commandCountingInterval > 0 then
    let w0 := ensureBucket commandCountOverTime
    let w1 := if ¬ antifloodCommandsWhiteList.contains sc.type then addToFirst 1 w0 else w0
    let totalCount := w1.sum
    (w1, decide (maxCommandCountPerInterval > 0) && decide (totalCount > maxCommandCountPerInterval))
  else (commandCountOverTime, false)

/-- The loop of `processGameCommandContainer` over the (index, sub-command)
pairs in visiting order, for the player found under (room, game, player).  The
result code is `none` when the loop is left by `return RespChatFlood`,
otherwise the final response code; the event storage `ges` is threaded
through. -/
def gameCommandLoop (env : Env) (room game player : Int)
    (commandCountingInterval maxCommandCountPerInterval : Int) :
    List (Nat × GameCommand) → ResponseCode → List Nat → St →
      Option ResponseCode × List Nat × St
  | [], finalResponseCode, ges, s => (some finalResponseCode, ges, s)
  | (i, sc) :: rest, finalResponseCode, ges, s =>
    let s1 := s.call Call.logDebugMessage
    let c := countGameCommand commandCountingInterval maxCommandCountPerInterval sc
      s1.self.commandCountOverTime
    let s2 : St := { s1 with self := { s1.self with commandCountOverTime := c.1 } }
    if c.2 then (none, ges, s2)
    else
      let s3 := s2.call (Call.handler Kind.game i)
      let r := env.processGameCommand room game player sc s3.self s3.rc ges
      let s4 : St := { s3 with self := r.2.1, rc := r.2.2.1 }
      gameCommandLoop env room game player commandCountingInterval maxCommandCountPerInterval
        rest (if r.1 ≠ ResponseCode.RespOk then r.1 else finalResponseCode) r.2.2.2 s4

/-- Leave the scope holding the rooms lock, a room's games lock and a game's
mutex: the lockers are destroyed in reverse order of construction. -/
def unlockGame (room game : Int) (s : St) : St :=
  ((s.call (Call.unlock (Lock.gameMutex room game))).call
    (Call.unlock (Lock.gamesLock room))).call (Call.unlock Lock.roomsLock)

/-- Embeds `Server_ProtocolHandler::processGameCommandContainer`. -/
def processGameCommandContainer (env : Env) (cont : CommandContainer) (s : St) :
    ResponseCode × St :=
  if s.self.authState = AuthenticationResult.NotLoggedIn then (ResponseCode.RespLoginNeeded, s)
  else
    match QMap.value s.self.games cont.game_id with
    | none => (ResponseCode.RespNotInRoom, s)
    | some roomIdAndPlayerId =>
      let s1 := s.call (Call.lock Lock.roomsLock)
      match findRoom s1.self.server.rooms roomIdAndPlayerId.1 with
      | none => (ResponseCode.RespNotInRoom, s1.call (Call.unlock Lock.roomsLock))
      | some room =>
        let s2 := s1.call (Call.lock (Lock.gamesLock roomIdAndPlayerId.1))
        match findGame room.games cont.game_id with
        | none =>
          match QMap.value room.externalGames cont.game_id with
          | some server_id =>
            let s3 := s2.call (Call.sendIsl_GameCommand server_id s2.self.user.session_id
              roomIdAndPlayerId.1 roomIdAndPlayerId.2)
            (ResponseCode.RespNothing,
              (s3.call (Call.unlock (Lock.gamesLock roomIdAndPlayerId.1))).call
                (Call.unlock Lock.roomsLock))
          | none =>
            (ResponseCode.RespNotInRoom,
              (s2.call (Call.unlock (Lock.gamesLock roomIdAndPlayerId.1))).call
                (Call.unlock Lock.roomsLock))
        | some game =>
          let s3 := s2.call (Call.lock (Lock.gameMutex roomIdAndPlayerId.1 cont.game_id))
          match findPlayer game.players roomIdAndPlayerId.2 with
          | none => (ResponseCode.RespNotInRoom, unlockGame roomIdAndPlayerId.1 cont.game_id s3)
          | some _ =>
            let s4 := resetIdleTimer s3
            let commandCountingInterval := s4.self.server.commandCountingInterval
            let maxCommandCountPerInterval := s4.self.server.maxCommandCountPerInterval
            match gameCommandLoop env roomIdAndPlayerId.1 cont.game_id roomIdAndPlayerId.2
                commandCountingInterval maxCommandCountPerInterval
                (loopOrder cont.game_command) ResponseCode.RespOk [] s4 with
            | (none, _, s5) =>
              (ResponseCode.RespChatFlood, unlockGame roomIdAndPlayerId.1 cont.game_id s5)
            | (some finalResponseCode, ges, s5) =>
              (finalResponseCode, unlockGame roomIdAndPlayerId.1 cont.game_id
                (s5.call (Call.sendToGame cont.game_id ges)))

/-- The body of the loop of `processModeratorCommandContainer`. -/
def moderatorCommandStep (env : Env) (i : Nat) (sc : ModeratorCommand) (s : St) :
    ResponseCode × St :=
  ((s.call Call.logDebugMessage).call (Call.handler Kind.moderator i)).invoke
    (env.processExtendedModeratorCommand sc.num sc.payload)

/-- Embeds `Server_ProtocolHandler::processModeratorCommandContainer`. -/
def processModeratorCommandContainer (env : Env) (cont : CommandContainer) (s : St) :
    ResponseCode × St :=
  match s.self.userInfo with
  | none => (ResponseCode.RespLoginNeeded, s)
  | some userInfo =>
    if userInfo.user_level &&& env.IsModerator = 0 then (ResponseCode.RespLoginNeeded, s)
    else
      commandLoop (moderatorCommandStep env) (loopOrder cont.moderator_command)
        ResponseCode.RespOk (resetIdleTimer s)

/-- The body of the loop of `processAdminCommandContainer`. -/
def adminCommandStep (env : Env) (i : Nat) (sc : AdminCommand) (s : St) :
    ResponseCode × St :=
  ((s.call Call.logDebugMessage).call (Call.handler Kind.admin i)).invoke
    (env.processExtendedAdminCommand sc.num sc.payload)

/-- Embeds `Server_ProtocolHandler::processAdminCommandContainer`. -/
def processAdminCommandContainer (env : Env) (cont : CommandContainer) (s : St) :
    ResponseCode × St :=
  match s.self.userInfo with
  | none => (ResponseCode.RespLoginNeeded, s)
  | some userInfo =>
    if userInfo.user_level &&& env.IsAdmin = 0 then (ResponseCode.RespLoginNeeded, s)
    else
      commandLoop (adminCommandStep env) (loopOrder cont.admin_command)
        ResponseCode.RespOk (resetIdleTimer s)

/-- The dispatch of `processCommandContainer` on the first non-empty
sub-command list. -/
def dispatchCommandContainer (env : Env) (cont : CommandContainer) (s : St) :
    ResponseCode × St :=
  if cont.game_command.length ≠ 0 then processGameCommandContainer env cont s
  else if cont.room_command.length ≠ 0 then processRoomCommandContainer env cont s
  else if cont.session_command.length ≠ 0 then processSessionCommandContainer env cont s
  else if cont.moderator_command.length ≠ 0 then processModeratorCommandContainer env cont s
  else if cont.admin_command.length ≠ 0 then processAdminCommandContainer env cont s
  else (ResponseCode.RespInvalidCommand, s)

/-- Embeds `Server_ProtocolHandler::processCommandContainer`. -/
def processCommandContainer (env : Env) (cont : CommandContainer) (s : St) : St :=
  if s.self.deleted then s
  else
    let s1 : St := { s with self := { s.self with lastDataReceived := s.self.timeRunning } }
    let responseContainer : ResponseContainer :=
      { cmdId := cont.cmd_id.getD (-1), preResponseQueue := [], postResponseQueue := [],
        responseExtension := none }
    let r := dispatchCommandContainer env cont { s1 with rc := responseContainer }
    if r.1 ≠ ResponseCode.RespNothing then r.2.call (Call.sendResponseContainer r.2.rc r.1)
    else r.2

/-! ## Clock tick -/

/-- One window of `pingClockTimeout`: `prepend(0)`, then `removeLast()` when the
size exceeds `interval / pingclockinterval`. -/
def ageWindow (interval pingclockinterval : Int) (w : List Int) : List Int :=
  let w1 := 0 :: w
  if (w1.length : Int) > interval / pingclockinterval then w1.dropLast else w1

/-- Embeds `Server_ProtocolHandler::pingClockTimeout`. -/
def pingClockTimeout (env : Env) (s : St) : St :=
  let cmdcountinterval := s.self.server.commandCountingInterval
  let msgcountinterval := s.self.server.messageCountingInterval
  let pingclockinterval := s.self.server.clientKeepAlive
  let s1 : St :=
    if msgcountinterval > 0 ∧ pingclockinterval > 0 then
      { s with self := { s.self with
          messageSizeOverTime := ageWindow msgcountinterval pingclockinterval
            s.self.messageSizeOverTime,
          messageCountOverTime := ageWindow msgcountinterval pingclockinterval
            s.self.messageCountOverTime } }
    else s
  let s2 : St :=
    if cmdcountinterval > 0 ∧ pingclockinterval > 0 then
      { s1 with self := { s1.self with
          commandCountOverTime := ageWindow cmdcountinterval pingclockinterval
            s1.self.commandCountOverTime } }
    else s1
  let s3 : St :=
    if s2.self.timeRunning - s2.self.lastDataReceived > s2.self.server.maxPlayerInactivityTime then
      prepareDestroy s2
    else s2
  let hasPrivLevel : Bool := match s3.self.userInfo with
    | some u => toLower u.privlevel != "none"
    | none => false
  let isModOrAdmin : Bool := match s3.self.userInfo with
    | some u => decide (u.user_level &&& (env.IsModerator ||| env.IsAdmin) ≠ 0)
    | none => false
  let s6 : St :=
    if !hasPrivLevel && !isModOrAdmin then
      let s4 : St :=
        if s3.self.server.idleClientTimeout > 0 ∧ s3.self.idleClientWarningSent = true
            ∧ s3.self.timeRunning - s3.self.lastActionReceived
                > s3.self.server.idleClientTimeout then
          prepareDestroy s3
        else s3
      if s4.self.timeRunning - s4.self.lastActionReceived
            ≥ env.idleWarningThreshold s4.self.server.idleClientTimeout
          ∧ s4.self.idleClientWarningSent = false ∧ s4.self.server.idleClientTimeout > 0 then
        let s5 := s4.call (Call.sendProtocolItem Event.NotifyUser_IDLEWARNING)
        { s5 with self := { s5.self with idleClientWarningSent := true } }
      else s4
    else s3
  { s6 with self := { s6.self with timeRunning := s6.self.timeRunning + 1 } }

/-! ## Vocabulary of the properties -/

/-- The calls made between the state `s` and a later state `t`: what the trace
of `t` holds beyond the trace of `s`. -/
def newCalls (s t : St) : List Call :=
  t.trace.drop s.trace.length

/-- The handler invocations of a list of calls, in order. -/
def handlerCalls (calls : List Call) : List Call :=
  calls.filter (fun c => match c with
    | Call.handler _ _ => true
    | _ => false)

/-- The response containers sent in a list of calls, in order. -/
def responsesSent (calls : List Call) : List (ResponseContainer × ResponseCode) :=
  calls.filterMap (fun c => match c with
    | Call.sendResponseContainer rc code => some (rc, code)
    | _ => none)

/-- The (index, result code) of every sub-command visited by `commandLoop`, in
visiting order: each sub-command's code is the one its step returns in the
state the loop has reached. -/
def commandCodes {α : Type} (step : Nat → α → St → ResponseCode × St) :
    List (Nat × α) → St → List (Nat × ResponseCode)
  | [], _ => []
  | (i, sc) :: rest, s => (i, (step i sc s).1) :: commandCodes step rest (step i sc s).2

/-- The (index, result code) of every sub-command handed to the seat's handler
by `gameCommandLoop`, in visiting order. -/
def gameCommandCodes (env : Env) (room game player : Int)
    (commandCountingInterval maxCommandCountPerInterval : Int) :
    List (Nat × GameCommand) → List Nat → St → List (Nat × ResponseCode)
  | [], _, _ => []
  | (i, sc) :: rest, ges, s =>
    let s1 := s.call Call.logDebugMessage
    let c := countGameCommand commandCountingInterval maxCommandCountPerInterval sc
      s1.self.commandCountOverTime
    let s2 : St := { s1 with self := { s1.self with commandCountOverTime := c.1 } }
    if c.2 then []
    else
      let s3 := s2.call (Call.handler Kind.game i)
      let r := env.processGameCommand room game player sc s3.self s3.rc ges
      let s4 : St := { s3 with self := r.2.1, rc := r.2.2.1 }
      (i, r.1) :: gameCommandCodes env room game player commandCountingInterval
        maxCommandCountPerInterval rest r.2.2.2 s4

/-- The fold of the specification, in its words: `final` is `RespOk` if and
only if every sub-command's code is `RespOk`; otherwise it is the code of the
non-ok sub-command with the smallest submission index. -/
def IsFold (codes : List (Nat × ResponseCode)) (final : ResponseCode) : Prop :=
  (final = ResponseCode.RespOk ↔ ∀ p ∈ codes, p.2 = ResponseCode.RespOk) ∧
  ∀ p ∈ codes, p.2 ≠ ResponseCode.RespOk →
    (∀ q ∈ codes, q.2 ≠ ResponseCode.RespOk → p.1 ≤ q.1) → final = p.2

/-- The last code other than `RespOk` of a list of codes, `final` when there is
none: what the assignment `if (resp != RespOk) finalResponseCode = resp`
leaves after the codes are met in list order. -/
def lastNonOk : List (Nat × ResponseCode) → ResponseCode → ResponseCode
  | [], final => final
  | p :: rest, final => lastNonOk rest (if p.2 ≠ ResponseCode.RespOk then p.2 else final)

/-- The state in which the loop of `processRoomCommandContainer` starts: the
rooms lock is held and the idle timer has been reset. -/
def roomLoopStart (s : St) : St :=
  resetIdleTimer (s.call (Call.lock Lock.roomsLock))

/-- The state in which the loop of `processGameCommandContainer` starts: the
three locks are held and the idle timer has been reset. -/
def gameLoopStart (room game : Int) (s : St) : St :=
  resetIdleTimer ((((s.call (Call.lock Lock.roomsLock)).call
    (Call.lock (Lock.gamesLock room))).call (Call.lock (Lock.gameMutex room game))))

/-! ## A concrete server, session and set of collaborators -/

/-- A collaborator's handler that answers `RespOk` to payload `0` and
`RespOther n` to payload `n > 0`, leaving the state as it is. -/
def exHandler (payload : Nat) : Handler := fun h rc =>
  (if payload = 0 then ResponseCode.RespOk else ResponseCode.RespOther payload, h, rc)

/-- Concrete collaborators and constants. -/
def exEnv : Env where
  MAX_NAME_LENGTH := 255
  IsModerator := 4
  IsAdmin := 8
  IsJudge := 16
  idleWarningThreshold := fun t => (9 * t + 9) / 10
  nameFromStdString := fun x => x
  simplified := fun x => x
  processExtendedSessionCommand := fun _ payload => exHandler payload
  processExtendedModeratorCommand := fun _ payload => exHandler payload
  processExtendedAdminCommand := fun _ payload => exHandler payload
  processGameCommand := fun _ _ _ sc h rc ges =>
    (if sc.payload = 0 then ResponseCode.RespOk else ResponseCode.RespOther sc.payload,
      h, rc, ges ++ [sc.payload])
  processJoinGameCommand := fun _ payload => exHandler payload
  identifyMissingFeatures := fun _ _ => []
  isRequiredFeaturesMissing := fun _ _ => false
  loginUser := fun userName _ _ _ _ h =>
    (AuthenticationResult.PasswordRight, "", 0,
      { h with userInfo := some { (default : ServerInfo_User) with name := userName } })
  currentSecsSinceEpoch := 0
  msecsSinceEpoch := fun _ => 0
  copyUserInfo := fun u _ _ _ => u.getD default
  getBuddyList := fun _ _ => []
  getIgnoreList := fun _ _ => []
  joinPersistentGames := fun h rc => (h, rc)
  removeForgotPassword := fun db _ => db
  isInIgnoreList := fun _ _ _ => false
  findUser := fun srv name =>
    match srv.users.find? (fun u => u.1 == name) with
    | some u => some u.2
    | none => none
  getUserData := fun _ name => { (default : ServerInfo_User) with name := name }
  getGamesOfUser := fun _ _ => []
  userMayJoin := fun _ _ => true
  getGamesCreatedByUser := fun _ _ => 0
  getNextGameId := fun db => ((db : Int) + 1, db + 1)
  addPlayer := fun g _ _ h rc =>
    ({ g with players := g.players ++ [{ playerId := 0, userInterface := some h.ident }] }, h, rc)

/-- A server with two rooms; room 3 holds the local game 10 with two seats and
knows the external game 11. -/
def exServer : Server :=
  { (default : Server) with
    rooms :=
      [{ id := 3, name := "Main", clients := [1, 2],
         games := [{ gameId := 10,
                     players := [{ playerId := 0, userInterface := some 1 },
                                 { playerId := 1, userInterface := some 2 }] }],
         externalGames := [(11, 5)],
         chatHistory := [{ sender_name := "bob", message := "hi", time := "t" }],
         joinMessage := "Welcome" },
       { id := 4, name := "Side", clients := [2], games := [], externalGames := [],
         chatHistory := [], joinMessage := "Side room" }],
    users := [("alice", { handler := 1,
                          userInfo := { (default : ServerInfo_User) with name := "alice" } }),
              ("bob", { handler := 2,
                        userInfo := { (default : ServerInfo_User) with name := "bob" } })],
    clients := [1, 2],
    commandCountingInterval := 10,
    maxCommandCountPerInterval := 2,
    messageCountingInterval := 10,
    maxMessageSizePerInterval := 100,
    maxMessageCountPerInterval := 3,
    clientKeepAlive := 1,
    maxPlayerInactivityTime := 15,
    idleClientTimeout := 3600,
    maxGamesPerUser := 1 }

/-- The session of alice (handler 1), logged in with the moderator and admin
bits, member of room 3, seated in game 10 of room 3; its game map also names
the external game 11 and a game 12 of a room 9 that does not exist. -/
def exSelf : Server_ProtocolHandler :=
  { (default : Server_ProtocolHandler) with
    ident := 1,
    server := exServer,
    authState := AuthenticationResult.PasswordRight,
    userInfo := some { name := "alice", user_level := 13, privlevel := "NONE",
                       session_id := 7, id := 100, address := "10.0.0.1" },
    rooms := [(3, 3)],
    games := [(10, (3, 0)), (11, (3, 0)), (12, (9, 0))] }

/-- The execution state of the concrete session before any call. -/
def exSt : St :=
  { self := exSelf, rc := default, trace := [] }

/-- The concrete session before login. -/
def exStLoggedOut : St :=
  { exSt with self := { exSelf with
      authState := AuthenticationResult.NotLoggedIn, userInfo := none, rooms := [], games := [] } }

/-- A batch with sub-commands of every kind. -/
def exCont : CommandContainer :=
  { cmd_id := some 42, game_id := 10, room_id := 3,
    session_command := [SessionCommand.PING, SessionCommand.extended 1000 7,
                        SessionCommand.extended 1001 8],
    room_command := [RoomCommand.other 99, RoomCommand.ROOM_SAY "hello"],
    game_command := [{ type := GameCommandType.DRAW_CARDS, payload := 5 },
                     { type := GameCommandType.other 1, payload := 0 },
                     { type := GameCommandType.MOVE_CARD, payload := 6 }],
    moderator_command := [{ num := 1, payload := 0 }, { num := 2, payload := 3 }],
    admin_command := [{ num := 1, payload := 4 }] }

/-- Whether a call is neither a handler invocation nor the sending of a
response container. -/
def Call.quiet : Call → Bool
  | Call.handler _ _ => false
  | Call.sendResponseContainer _ _ => false
  | _ => true

/-- The state `t` is reached from `s` by calls that are all quiet: the trace of
`t` is the trace of `s` followed by quiet calls. -/
def Quietly (s t : St) : Prop :=
  s.trace <+: t.trace ∧ ∀ c ∈ newCalls s t, c.quiet = true

/-- The state `t` is reached from `s` by calls among which the handler
invocations are exactly `hs`, in that order, and none sends a response
container. -/
def Reaches (hs : List Call) (s t : St) : Prop :=
  s.trace <+: t.trace ∧ handlerCalls (newCalls s t) = hs ∧ responsesSent (newCalls s t) = []

/-- The call `a` is made before the call `b` in a list of calls. -/
def InvokedBefore (calls : List Call) (a b : Call) : Prop :=
  List.Sublist [a, b] calls

instance (calls : List Call) (a b : Call) : Decidable (InvokedBefore calls a b) :=
  inferInstanceAs (Decidable (List.Sublist [a, b] calls))

/-- The handler invocations of a room loop over the (index, sub-command) pairs
`l`: one per sub-command whose number is in the switch. -/
def roomHandled (l : List (Nat × RoomCommand)) : List Call :=
  l.flatMap (fun p => match p.2 with
    | RoomCommand.other _ => []
    | _ => [Call.handler Kind.room p.1])

/-- The number of sub-commands of a kind in a batch. -/
def kindSize (cont : CommandContainer) : Kind → Nat
  | Kind.game => cont.game_command.length
  | Kind.room => cont.room_command.length
  | Kind.session => cont.session_command.length
  | Kind.moderator => cont.moderator_command.length
  | Kind.admin => cont.admin_command.length

/-- The processor of a kind. -/
def kindProcessor (env : Env) : Kind → CommandContainer → St → ResponseCode × St
  | Kind.game => processGameCommandContainer env
  | Kind.room => processRoomCommandContainer env
  | Kind.session => processSessionCommandContainer env
  | Kind.moderator => processModeratorCommandContainer env
  | Kind.admin => processAdminCommandContainer env

/-- The classification of a batch in the words of the specification: the first
kind with a non-empty sub-command list in the order game > room > session >
moderator > admin, if there is one. -/
def selectedKind (cont : CommandContainer) : Option Kind :=
  [Kind.game, Kind.room, Kind.session, Kind.moderator, Kind.admin].find?
    (fun k => decide (kindSize cont k ≠ 0))

/-- The state in which `processCommandContainer` dispatches a batch on a live
session: `lastDataReceived` is the current tick count and the response
container is new, with the batch's correlation id (`-1` if it has none). -/
def batchStart (cont : CommandContainer) (s : St) : St :=
  { s with
    self := { s.self with lastDataReceived := s.self.timeRunning },
    rc := { cmdId := cont.cmd_id.getD (-1), preResponseQueue := [], postResponseQueue := [],
            responseExtension := none } }

/-- The end of `processCommandContainer`: the response container is sent with
the final code unless the final code is `RespNothing`. -/
def respond (r : ResponseCode × St) : St :=
  if r.1 ≠ ResponseCode.RespNothing then r.2.call (Call.sendResponseContainer r.2.rc r.1)
  else r.2

/-- The keys of the joined-room map of the session of identity `p`: the map of
the handler in focus for its own identity, and `J p` for any other session
(`J` stands for the joined-room maps of the other handler objects, which no
method of this handler can reach). -/
def joinedRooms (J : Nat → List Int) (h : Server_ProtocolHandler) (p : Nat) : List Int :=
  if p = h.ident then QMap.keys h.rooms else J p

/-- The membership invariant: for every room `R` of the room directory and
every session `p`, `p` is in `R`'s client membership set if and only if `R`'s
id is a key of `p`'s joined-room map. -/
def MembershipInv (J : Nat → List Int) (h : Server_ProtocolHandler) : Prop :=
  ∀ (id : Int) (R : Server_Room), findRoom h.server.rooms id = some R →
    ∀ p : Nat, p ∈ R.clients ↔ R.id ∈ joinedRooms J h p

/-- The joined-room maps of the sessions other than alice in the concrete
server: bob (handler 2) has joined rooms 3 and 4. -/
def exJoined (p : Nat) : List Int :=
  if p = 2 then [3, 4] else []

/-- The seat ids of a game's player directory, in directory order. -/
def gameSeats (g : Server_Game) : Int × List Int :=
  (g.gameId, g.players.map (fun p => p.playerId))

/-- The ids of the rooms of a room directory, with the ids of the games of
each room and the seat ids of each game's player directory. -/
def seatIds (rooms : List Server_Room) : List (Int × List (Int × List Int)) :=
  rooms.map (fun r => (r.id, r.games.map gameSeats))

/-- Whether the entry `gameId -> (roomId, playerId)` of a game map resolves:
the room is in the room directory, the game is in the room's local games and
the player is in the game's player directory. -/
def resolves (srv : Server) (e : Int × Int × Int) : Bool :=
  match findRoom srv.rooms e.2.1 with
  | none => false
  | some room =>
    match findGame room.games e.1 with
    | none => false
    | some game => (findPlayer game.players e.2.2).isSome

/-- The call that marks the player of a game-map entry as disconnected. -/
def disconnectCallOf (e : Int × Int × Int) : Call :=
  Call.disconnectClient e.2.1 e.1 e.2.2

/-- The `disconnectClient` calls of a list of calls, in order. -/
def disconnectCalls (calls : List Call) : List Call :=
  calls.filter (fun c => match c with
    | Call.disconnectClient _ _ _ => true
    | _ => false)

/-- The relation between a room before and after steps that only remove the
session `ident` from client membership sets: same id, no client added, and no
client other than `ident` removed. -/
def ClientsStep (ident : Nat) (R R' : Server_Room) : Prop :=
  R'.id = R.id ∧ (∀ p, p ∈ R'.clients → p ∈ R.clients) ∧
    ∀ p, p ≠ ident → p ∈ R.clients → p ∈ R'.clients

/-- Every room found in the directory `l'` comes from a room of the same id
found in `l`, related to it by `ClientsStep`. -/
def RoomsStep (ident : Nat) (l l' : List Server_Room) : Prop :=
  ∀ (id : Int) (R' : Server_Room), findRoom l' id = some R' →
    ∃ R, findRoom l id = some R ∧ ClientsStep ident R R'

/-- The resolution of a game-map entry read off the ids of a room directory. -/
def resolvesIds (ids : List (Int × List (Int × List Int))) (e : Int × Int × Int) : Bool :=
  match ids.find? (fun r => decide (r.1 = e.2.1)) with
  | none => false
  | some r =>
    match r.2.find? (fun g => decide (g.1 = e.1)) with
    | none => false
    | some g => (g.2.find? (fun p => decide (p = e.2.2))).isSome

/-- The state `t` is reached from `s` by calls among which the
`disconnectClient` calls are exactly `ds`, in that order. -/
def Disconnects (ds : List Call) (s t : St) : Prop :=
  s.trace <+: t.trace ∧ disconnectCalls (newCalls s t) = ds

/-- The session sub-commands named by the authentication gate: MESSAGE,
GET_GAMES_OF_USER, GET_USER_INFO, LIST_ROOMS, JOIN_ROOM and LIST_USERS. -/
def SessionCommand.needsLogin : SessionCommand → Bool
  | SessionCommand.MESSAGE _ => true
  | SessionCommand.GET_GAMES_OF_USER _ => true
  | SessionCommand.GET_USER_INFO _ => true
  | SessionCommand.LIST_ROOMS => true
  | SessionCommand.JOIN_ROOM _ => true
  | SessionCommand.LIST_USERS => true
  | _ => false

/-- The forwarding calls (`sendIsl_GameCommand`) of a list of calls, in
order. -/
def forwardCalls (calls : List Call) : List Call :=
  calls.filter (fun c => match c with
    | Call.sendIsl_GameCommand _ _ _ _ => true
    | _ => false)

/-- The session lacks the privilege `flag`: it has no user info, or its user
level does not have the bit. -/
def lacksPrivilege (flag : Nat) (h : Server_ProtocolHandler) : Prop :=
  match h.userInfo with
  | none => True
  | some userInfo => userInfo.user_level &&& flag = 0

/-- The concrete session with the admin bit and without the moderator bit. -/
def exStAdminOnly : St :=
  { exSt with self := { exSelf with
      userInfo := some { name := "alice", user_level := 9, privlevel := "NONE",
                         session_id := 7, id := 100, address := "10.0.0.1" } } }

/-- The player found under a game-map entry `gameId -> (roomId, playerId)`:
the lookups of `prepareDestroy` and `processGameCommandContainer`. -/
def seatOf (srv : Server) (e : Int × Int × Int) : Option Server_Player :=
  match findRoom srv.rooms e.2.1 with
  | none => none
  | some room =>
    match findGame room.games e.1 with
    | none => none
    | some game => findPlayer game.players e.2.2

/-- The seat of a game-map entry exists and its player is disconnected (its
back-reference is clear). -/
def SeatCleared (srv : Server) (e : Int × Int × Int) : Prop :=
  ∃ P, seatOf srv e = some P ∧ P.userInterface = none

/-- The end of `processGameCommandContainer`, from the outcome of its loop: on
`return RespChatFlood` only the locks are released; otherwise the event storage
is sent to the game and the final response code is returned. -/
def gameFinish (room game : Int) (L : Option ResponseCode × List Nat × St) :
    ResponseCode × St :=
  match L with
  | (none, _, s5) => (ResponseCode.RespChatFlood, unlockGame room game s5)
  | (some finalResponseCode, ges, s5) =>
    (finalResponseCode, unlockGame room game (s5.call (Call.sendToGame game ges)))

/-- The seat's command handler leaves the command-count window of the session
as it is (the window is a private member of `Server_ProtocolHandler`, which
`Server_Player::processGameCommand` has no access to). -/
def KeepsCommandWindow (env : Env) : Prop :=
  ∀ (room game player : Int) (sc : GameCommand) (h : Server_ProtocolHandler)
    (rc : ResponseContainer) (ges : List Nat),
    (env.processGameCommand room game player sc h rc ges).2.1.commandCountOverTime
      = h.commandCountOverTime

/-- Whether a game sub-command is counted by the command-count window: its
type is not on the allow-list. -/
def GameCommand.counted (sc : GameCommand) : Bool :=
  !antifloodCommandsWhiteList.contains sc.type

/-- The number of non-allow-listed sub-commands of a list of game
sub-commands. -/
def nonAllowListed (cmds : List GameCommand) : Int :=
  ((cmds.filter GameCommand.counted).length : Int)

/-- The sub-commands met before the command count first exceeds the ceiling:
starting from the window sum `sum`, the longest initial part of the visiting
order `l` over which the sum, grown by one for each non-allow-listed
sub-command, stays at most `ceiling`. -/
def handledBeforeFlood (ceiling : Int) : Int → List (Nat × GameCommand) →
    List (Nat × GameCommand)
  | _, [] => []
  | sum, (i, sc) :: rest =>
    if sum + (if sc.counted then 1 else 0) > ceiling then []
    else (i, sc) :: handledBeforeFlood ceiling (sum + (if sc.counted then 1 else 0)) rest

/-- The `sendToGame` calls of a list of calls, in order. -/
def sendToGameCalls (calls : List Call) : List Call :=
  calls.filter (fun c => match c with
    | Call.sendToGame _ _ => true
    | _ => false)

/-- A game batch of five sub-commands for game 10, four of them counted by the
command-count window (ceiling two on the concrete server). -/
def exFloodCont : CommandContainer :=
  { cmd_id := some 43, game_id := 10, room_id := 3,
    session_command := [], room_command := [],
    game_command := [{ type := GameCommandType.other 1, payload := 1 },
                     { type := GameCommandType.other 2, payload := 2 },
                     { type := GameCommandType.DRAW_CARDS, payload := 3 },
                     { type := GameCommandType.other 3, payload := 4 },
                     { type := GameCommandType.other 4, payload := 5 }],
    moderator_command := [], admin_command := [] }

/-- The concrete session with a chat history in its windows: 90 bytes and two
messages in the retained buckets (the ceilings are 100 bytes and 3 messages). -/
def exStChatty : St :=
  { self := { exSelf with
              messageSizeOverTime := [40, 50],
              messageCountOverTime := [1, 1] },
    rc := default, trace := [] }

/-- A login command with a plain password of 256 bytes, one more than
`MAX_NAME_LENGTH` of the concrete collaborators. -/
def exLongLogin : Command_Login :=
  { user_name := "alice", password := some (String.mk (List.replicate 256 'a')),
    hashed_password := "", clientid := "c", clientver := "v", clientfeatures := [] }

/-- A login command with a short plain password. -/
def exLogin : Command_Login :=
  { user_name := "alice", password := some "secret",
    hashed_password := "", clientid := "c", clientver := "v", clientfeatures := [] }

/-- The concrete collaborators, with a room in which every user has created
one game already. -/
def exEnvBusy : Env :=
  { exEnv with getGamesCreatedByUser := fun _ _ => 1 }

/-- A request to create a two-player game with the password `pw`. -/
def exCreateGame : Command_CreateGame :=
  { description := "casual", password := "pw", max_players := 2, game_type_ids := [0],
    only_buddies := false, only_registered := false, spectators_allowed := true,
    spectators_need_password := false, spectators_can_talk := false,
    spectators_see_everything := false, join_as_judge := false, join_as_spectator := false,
    starting_life_total := none }

/-- The concrete session of alice before it has joined any room. -/
def exStNewcomer : St :=
  { self := { exSelf with
              rooms := [],
              games := [] },
    rc := default, trace := [] }

/-- The collaborators of the handler leave `authState` as it is: each of the
absent functions that receive the handler object (the extended command
processors of the subclass, the seat and room command handlers, the credential
check, the re-join of persistent games and the seating of a player) returns it
with the authentication state it had.  `authState` is written nowhere else in
server_protocolhandler.cpp than in `cmdLogin`. -/
structure KeepsAuthState (env : Env) : Prop where
  keepsSession : ∀ (num payload : Nat) (h : Server_ProtocolHandler) (rc : ResponseContainer),
    (env.processExtendedSessionCommand num payload h rc).2.1.authState = h.authState
  keepsModerator : ∀ (num payload : Nat) (h : Server_ProtocolHandler) (rc : ResponseContainer),
    (env.processExtendedModeratorCommand num payload h rc).2.1.authState = h.authState
  keepsAdmin : ∀ (num payload : Nat) (h : Server_ProtocolHandler) (rc : ResponseContainer),
    (env.processExtendedAdminCommand num payload h rc).2.1.authState = h.authState
  keepsGame : ∀ (room game player : Int) (sc : GameCommand) (h : Server_ProtocolHandler)
      (rc : ResponseContainer) (ges : List Nat),
    (env.processGameCommand room game player sc h rc ges).2.1.authState = h.authState
  keepsJoinGame : ∀ (room : Int) (payload : Nat) (h : Server_ProtocolHandler)
      (rc : ResponseContainer),
    (env.processJoinGameCommand room payload h rc).2.1.authState = h.authState
  keepsLoginUser : ∀ (userName password : String) (needsHash : Bool)
      (clientId clientVersion : String) (h : Server_ProtocolHandler),
    (env.loginUser userName password needsHash clientId clientVersion h).2.2.2.authState
      = h.authState
  keepsPersistent : ∀ (h : Server_ProtocolHandler) (rc : ResponseContainer),
    (env.joinPersistentGames h rc).1.authState = h.authState
  keepsAddPlayer : ∀ (g : Server_Game) (spectator judge : Bool) (h : Server_ProtocolHandler)
      (rc : ResponseContainer),
    (env.addPlayer g spectator judge h rc).2.1.authState = h.authState

/-- An operation of the handler: a command handler with its command, a batch
processor with its batch, the clock tick, or the teardown. -/
inductive Operation
  | ping
  | login (cmd : Command_Login)
  | message (cmd : Command_Message)
  | getGamesOfUser (user_name : String)
  | getUserInfo (user_name : String)
  | listRooms
  | joinRoom (room_id : Int)
  | listUsers
  | leaveRoom (room : Int)
  | roomSay (message : String) (room : Int)
  | createGame (cmd : Command_CreateGame) (room : Int)
  | joinGame (payload : Nat) (room : Int)
  | sessionBatch (cont : CommandContainer)
  | roomBatch (cont : CommandContainer)
  | gameBatch (cont : CommandContainer)
  | moderatorBatch (cont : CommandContainer)
  | adminBatch (cont : CommandContainer)
  | batch (cont : CommandContainer)
  | clockTick
  | teardown

/-- The state an operation of the handler leaves. -/
def runOperation (env : Env) : Operation → St → St
  | Operation.ping, s => (cmdPing s).2
  | Operation.login cmd, s => (cmdLogin env cmd s).2
  | Operation.message cmd, s => (cmdMessage env cmd s).2
  | Operation.getGamesOfUser user_name, s => (cmdGetGamesOfUser env user_name s).2
  | Operation.getUserInfo user_name, s => (cmdGetUserInfo env user_name s).2
  | Operation.listRooms, s => (cmdListRooms s).2
  | Operation.joinRoom room_id, s => (cmdJoinRoom env room_id s).2
  | Operation.listUsers, s => (cmdListUsers env s).2
  | Operation.leaveRoom room, s => (cmdLeaveRoom room s).2
  | Operation.roomSay message room, s => (cmdRoomSay message room s).2
  | Operation.createGame cmd room, s => (cmdCreateGame env cmd room s).2
  | Operation.joinGame payload room, s => (cmdJoinGame env payload room s).2
  | Operation.sessionBatch cont, s => (processSessionCommandContainer env cont s).2
  | Operation.roomBatch cont, s => (processRoomCommandContainer env cont s).2
  | Operation.gameBatch cont, s => (processGameCommandContainer env cont s).2
  | Operation.moderatorBatch cont, s => (processModeratorCommandContainer env cont s).2
  | Operation.adminBatch cont, s => (processAdminCommandContainer env cont s).2
  | Operation.batch cont, s => processCommandContainer env cont s
  | Operation.clockTick, s => pingClockTimeout env s
  | Operation.teardown, s => prepareDestroy s

/-- Whether a session sub-command is a login command. -/
def SessionCommand.isLogin : SessionCommand → Bool
  | SessionCommand.LOGIN _ => true
  | _ => false

/-- Whether an operation runs `cmdLogin`: the login command handler itself, or
a session batch (processed directly or dispatched) that holds a login
sub-command. -/
def Operation.mayLogin : Operation → Bool
  | Operation.login _ => true
  | Operation.sessionBatch cont => cont.session_command.any SessionCommand.isLogin
  | Operation.batch cont => cont.session_command.any SessionCommand.isLogin
  | _ => false

/-- The rejection code `cmdLogin` returns for a credential-check result that
does not log the session in; `none` for the two results that do. -/
def rejectionCode : AuthenticationResult → Option ResponseCode
  | AuthenticationResult.UserIsBanned => some ResponseCode.RespUserIsBanned
  | AuthenticationResult.NotLoggedIn => some ResponseCode.RespWrongPassword
  | AuthenticationResult.WouldOverwriteOldSession => some ResponseCode.RespWouldOverwriteOldSession
  | AuthenticationResult.UsernameInvalid => some ResponseCode.RespUsernameInvalid
  | AuthenticationResult.RegistrationRequired => some ResponseCode.RespRegistrationRequired
  | AuthenticationResult.ClientIdRequired => some ResponseCode.RespClientIdRequired
  | AuthenticationResult.UserIsInactive => some ResponseCode.RespAccountNotActivated
  | AuthenticationResult.PasswordRight => none
  | AuthenticationResult.UnknownUser => none

/-- The authentication state `b` does not regress from `a`: it is `a`, or one
of the two logged-in states. -/
def NoRegress (a b : AuthenticationResult) : Prop :=
  b = a ∨ b = AuthenticationResult.PasswordRight ∨ b = AuthenticationResult.UnknownUser

/-- The concrete session with three counted commands in its command-count
window (the ceiling is two). -/
def exStFlooded : St :=
  { self := { exSelf with commandCountOverTime := [3] },
    rc := default, trace := [] }

/-- A game batch for game 10 whose sub-commands are all allow-listed. -/
def exAllowListedCont : CommandContainer :=
  { cmd_id := some 44, game_id := 10, room_id := 3,
    session_command := [], room_command := [],
    game_command := [{ type := GameCommandType.DRAW_CARDS, payload := 1 },
                     { type := GameCommandType.MOVE_CARD, payload := 2 }],
    moderator_command := [], admin_command := [] }

/-- The credential check leaves the two members written by `cmdLogin` as they
are: `Server::loginUser` returns the handler with the `authState` and the
`usingRealPassword` it had. -/
def KeepsLoginFields (env : Env) : Prop :=
  ∀ (userName password : String) (needsHash : Bool) (clientId clientVersion : String)
    (h : Server_ProtocolHandler),
    (env.loginUser userName password needsHash clientId clientVersion h).2.2.2.authState
        = h.authState ∧
      (env.loginUser userName password needsHash clientId clientVersion h).2.2.2.usingRealPassword
        = h.usingRealPassword

/-- The concrete collaborators, with a credential check that accepts every
user as an unprivileged registered user. -/
def exEnvPlain : Env :=
  { exEnv with
    loginUser := fun userName _ _ _ _ h =>
      (AuthenticationResult.PasswordRight, "", 0,
        { h with userInfo := some { (default : ServerInfo_User) with
                                    name := userName,
                                    privlevel := "NONE" } }) }

/-- The concrete session before login, on a server whose user limit is enabled
and exceeded (five users, limit two). -/
def exStFull : St :=
  { self := { exSelf with
              server := { exServer with
                          maxUserLimitEnabled := true,
                          usersCount := 5,
                          maxUserTotal := 2 },
              authState := AuthenticationResult.NotLoggedIn,
              userInfo := none,
              rooms := [],
              games := [] },
    rc := default, trace := [] }

/-- The idle timer of the handler: `lastActionReceived` and the flag
`idleClientWarningSent`, the two members `resetIdleTimer` writes. -/
def Server_ProtocolHandler.idleTimer (h : Server_ProtocolHandler) : Int × Bool :=
  (h.lastActionReceived, h.idleClientWarningSent)

/-- The collaborators reached from the room commands leave the idle timer as it
is: `Server_Room::processJoinGameCommand` and `Server_Game::addPlayer` return
the handler with the `lastActionReceived` and `idleClientWarningSent` it had. -/
def KeepsIdleTimer (env : Env) : Prop :=
  (∀ (room : Int) (payload : Nat) (h : Server_ProtocolHandler) (rc : ResponseContainer),
    (env.processJoinGameCommand room payload h rc).2.1.idleTimer = h.idleTimer) ∧
  (∀ (g : Server_Game) (spectator judge : Bool) (h : Server_ProtocolHandler)
      (rc : ResponseContainer),
    (env.addPlayer g spectator judge h rc).2.1.idleTimer = h.idleTimer)

/-- A room batch for room 3: a chat line, a game creation and a command whose
number is not in the switch. -/
def exRoomCont : CommandContainer :=
  { cmd_id := some 45, game_id := 0, room_id := 3,
    session_command := [],
    room_command := [RoomCommand.ROOM_SAY "hello", RoomCommand.CREATE_GAME exCreateGame,
                     RoomCommand.other 99],
    game_command := [], moderator_command := [], admin_command := [] }

/-- A session batch of two keep-alive pings. -/
def exPingCont : CommandContainer :=
  { cmd_id := some 46, game_id := 0, room_id := 0,
    session_command := [SessionCommand.PING, SessionCommand.PING],
    room_command := [], game_command := [], moderator_command := [], admin_command := [] }

/-- The concrete session at tick 50, last active at tick 20 and warned of its
idleness. -/
def exStIdle : St :=
  { self := { exSelf with
              timeRunning := 50,
              lastDataReceived := 30,
              lastActionReceived := 20,
              idleClientWarningSent := true },
    rc := default, trace := [] }

/-- First stage of `pingClockTimeout`: the message windows, then the command
window, grow a leading bucket and drop their last one when over size. -/
def ageWindows (s : St) : St :=
  let cmdcountinterval := s.self.server.commandCountingInterval
  let msgcountinterval := s.self.server.messageCountingInterval
  let pingclockinterval := s.self.server.clientKeepAlive
  let s1 : St :=
    if msgcountinterval > 0 ∧ pingclockinterval > 0 then
      { s with self := { s.self with
          messageSizeOverTime := ageWindow msgcountinterval pingclockinterval
            s.self.messageSizeOverTime,
          messageCountOverTime := ageWindow msgcountinterval pingclockinterval
            s.self.messageCountOverTime } }
    else s
  if cmdcountinterval > 0 ∧ pingclockinterval > 0 then
    { s1 with self := { s1.self with
        commandCountOverTime := ageWindow cmdcountinterval pingclockinterval
          s1.self.commandCountOverTime } }
  else s1

/-- Second stage of `pingClockTimeout`: the inactivity check. -/
def inactivityCheck (s : St) : St :=
  if s.self.timeRunning - s.self.lastDataReceived > s.self.server.maxPlayerInactivityTime then
    prepareDestroy s
  else s

/-- The test `hasPrivLevel || isModOrAdmin` of `pingClockTimeout`: the session
is not subject to the idle timeout policy. -/
def idleExempt (env : Env) (h : Server_ProtocolHandler) : Bool :=
  (match h.userInfo with
    | some u => toLower u.privlevel != "none"
    | none => false) ||
  (match h.userInfo with
    | some u => decide (u.user_level &&& (env.IsModerator ||| env.IsAdmin) ≠ 0)
    | none => false)

/-- The condition of the idle-timeout teardown of `pingClockTimeout`. -/
def idleTimedOut (env : Env) (h : Server_ProtocolHandler) : Prop :=
  idleExempt env h = false ∧ h.server.idleClientTimeout > 0 ∧ h.idleClientWarningSent = true
    ∧ h.timeRunning - h.lastActionReceived > h.server.idleClientTimeout

/-- The condition of the idle warning of `pingClockTimeout`. -/
def idleWarningDue (env : Env) (h : Server_ProtocolHandler) : Prop :=
  idleExempt env h = false
    ∧ h.timeRunning - h.lastActionReceived ≥ env.idleWarningThreshold h.server.idleClientTimeout
    ∧ h.idleClientWarningSent = false ∧ h.server.idleClientTimeout > 0

instance (env : Env) (h : Server_ProtocolHandler) : Decidable (idleTimedOut env h) := by
  unfold idleTimedOut
  exact inferInstance

instance (env : Env) (h : Server_ProtocolHandler) : Decidable (idleWarningDue env h) := by
  unfold idleWarningDue
  exact inferInstance

/-- Third stage of `pingClockTimeout`: the idle-timeout teardown and the idle
warning, for a session that is not exempt. -/
def idleChecks (env : Env) (s : St) : St :=
  if idleExempt env s.self = false then
    let s4 : St :=
      if s.self.server.idleClientTimeout > 0 ∧ s.self.idleClientWarningSent = true
          ∧ s.self.timeRunning - s.self.lastActionReceived
              > s.self.server.idleClientTimeout then
        prepareDestroy s
      else s
    if s4.self.timeRunning - s4.self.lastActionReceived
          ≥ env.idleWarningThreshold s4.self.server.idleClientTimeout
        ∧ s4.self.idleClientWarningSent = false ∧ s4.self.server.idleClientTimeout > 0 then
      let s5 := s4.call (Call.sendProtocolItem Event.NotifyUser_IDLEWARNING)
      { s5 with self := { s5.self with idleClientWarningSent := true } }
    else s4
  else s

/-- Last stage of `pingClockTimeout`: `++timeRunning`. -/
def tickEnd (s : St) : St :=
  { s with self := { s.self with timeRunning := s.self.timeRunning + 1 } }

/-- The idle warning sent to the client. -/
def idleWarning : Call := Call.sendProtocolItem Event.NotifyUser_IDLEWARNING

/-- The idle warnings of a list of calls, in order. -/
def idleWarnings (calls : List Call) : List Call :=
  calls.filter (fun c => decide (c = idleWarning))

/-- Whether a call is one `prepareDestroy` makes: a lock or unlock, a
`removeClient`, a `disconnectClient`, the `Server::removeClient` or the
`deleteLater`. -/
def Call.isTeardown : Call → Bool
  | Call.lock _ => true
  | Call.unlock _ => true
  | Call.removeClient _ => true
  | Call.disconnectClient _ _ _ => true
  | Call.serverRemoveClient => true
  | Call.deleteLater => true
  | _ => false

/-- The state after `n` consecutive clock ticks. -/
def ticks (env : Env) (n : Nat) (s : St) : St :=
  Nat.iterate (pingClockTimeout env) n s

/-- The inactivity condition of `pingClockTimeout`. -/
def inactive (h : Server_ProtocolHandler) : Prop :=
  h.timeRunning - h.lastDataReceived > h.server.maxPlayerInactivityTime

instance (h : Server_ProtocolHandler) : Decidable (inactive h) := by
  unfold inactive
  exact inferInstance

/-- Embeds the constructor `Server_ProtocolHandler::Server_ProtocolHandler`:
the handler `ident` of a new session on `server`, with its member
initialisers; the maps and the three windows are default-constructed, so
empty, and `userInfo` is null. -/
def newHandler (server : Server) (databaseInterface : Nat) (ident : Nat) :
    Server_ProtocolHandler :=
  { ident := ident, server := server, deleted := false,
    databaseInterface := databaseInterface,
    authState := AuthenticationResult.NotLoggedIn, usingRealPassword := false,
    acceptsUserListChanges := false, acceptsRoomListChanges := false,
    idleClientWarningSent := false, timeRunning := 0, lastDataReceived := 0,
    lastActionReceived := 0, userInfo := none, rooms := [], games := [],
    messageSizeOverTime := [], messageCountOverTime := [], commandCountOverTime := [] }

/-- A newly constructed session (handler 3) on the concrete server configured
with a maximum inactivity time of 8 ticks and an idle timeout of 10 ticks. -/
def exStNew : St :=
  { self := newHandler { exServer with
                         maxPlayerInactivityTime := 8,
                         idleClientTimeout := 10 } 0 3,
    rc := default, trace := [] }

/-- A newly constructed session (handler 3) on the concrete server configured
with a maximum inactivity time of 100 ticks and an idle timeout of 10 ticks. -/
def exStDrowsy : St :=
  { self := newHandler { exServer with
                         maxPlayerInactivityTime := 100,
                         idleClientTimeout := 10 } 0 3,
    rc := default, trace := [] }

/-- The state `t` is reached from `s` by clock ticks with no idle-timer reset
in between: each step is a clock tick, or any other activity of the session
that sends no idle warning and leaves the warning flag as it is. -/
inductive IdleRun (env : Env) (s : St) : St → Prop
  | start : IdleRun env s s
  | tick (t : St) : IdleRun env s t → IdleRun env s (pingClockTimeout env t)
  | other (t u : St) : IdleRun env s t → t.trace <+: u.trace →
      idleWarnings (newCalls t u) = [] →
      u.self.idleClientWarningSent = t.self.idleClientWarningSent → IdleRun env s u

/-- The configuration read by the three windows: the command-counting
interval, the message-counting interval and the tick period (client
keep-alive). -/
def windowConfig (h : Server_ProtocolHandler) : Int × Int × Int :=
  (h.server.commandCountingInterval, h.server.messageCountingInterval, h.server.clientKeepAlive)

/-- The number `N = interval ÷ tick period` of buckets a window is meant to
retain. -/
def retained (interval keepAlive : Int) : Nat :=
  (interval / keepAlive).toNat

/-- The three windows hold at most `max N 1` buckets each, `N` being taken from
the command-counting interval for the command window and from the
message-counting interval for the two message windows. -/
def WindowsWithin (h : Server_ProtocolHandler) : Prop :=
  h.commandCountOverTime.length
      ≤ max (retained h.server.commandCountingInterval h.server.clientKeepAlive) 1 ∧
    h.messageSizeOverTime.length
      ≤ max (retained h.server.messageCountingInterval h.server.clientKeepAlive) 1 ∧
    h.messageCountOverTime.length
      ≤ max (retained h.server.messageCountingInterval h.server.clientKeepAlive) 1

/-- The seat's command handler leaves the three windows and the configuration
they read as they are. -/
def KeepsWindows (env : Env) : Prop :=
  ∀ (room game player : Int) (sc : GameCommand) (h : Server_ProtocolHandler)
    (rc : ResponseContainer) (ges : List Nat),
    (env.processGameCommand room game player sc h rc ges).2.1.commandCountOverTime
        = h.commandCountOverTime ∧
      (env.processGameCommand room game player sc h rc ges).2.1.messageSizeOverTime
        = h.messageSizeOverTime ∧
      (env.processGameCommand room game player sc h rc ges).2.1.messageCountOverTime
        = h.messageCountOverTime ∧
      windowConfig (env.processGameCommand room game player sc h rc ges).2.1 = windowConfig h

/-- Whether an operation is a clock tick, a chat send (`cmdMessage`,
`cmdRoomSay`) or a batch of game commands: the operations that write the
windows. -/
def Operation.isWindowOp : Operation → Bool
  | Operation.clockTick => true
  | Operation.message _ => true
  | Operation.roomSay _ _ => true
  | Operation.gameBatch _ => true
  | _ => false

/-- The state a sequence of operations of the handler leaves. -/
def runOperations (env : Env) (ops : List Operation) (s : St) : St :=
  ops.foldl (fun st op => runOperation env op st) s

/-- From the handler `h` to the handler `k` the window configuration is the
same and no window has grown, except that an empty window may have got its
first bucket. -/
def WindowsGrowTo (h k : Server_ProtocolHandler) : Prop :=
  windowConfig k = windowConfig h ∧
    k.commandCountOverTime.length ≤ max h.commandCountOverTime.length 1 ∧
    k.messageSizeOverTime.length ≤ max h.messageSizeOverTime.length 1 ∧
    k.messageCountOverTime.length ≤ max h.messageCountOverTime.length 1

/-- The concrete session with empty windows, on a server whose
message-counting interval (1) is shorter than its tick period (2). -/
def exStSlow : St :=
  { self := { exSelf with
              server := { exServer with
                          messageCountingInterval := 1,
                          clientKeepAlive := 2 } },
    rc := default, trace := [] }

/-- Whether the lock `l` may be requested while the locks `held` are held (the
most recently acquired first): the rooms-directory lock when none is held, a
room's games-directory lock when only the rooms-directory lock is held, and a
game mutex when the games-directory lock of the game's room was the last
acquired under the rooms-directory lock. -/
def lockAdmissible : List Lock → Lock → Bool
  | [], Lock.roomsLock => true
  | [Lock.roomsLock], Lock.gamesLock _ => true
  | [Lock.gamesLock r, Lock.roomsLock], Lock.gameMutex r' _ => decide (r = r')
  | _, _ => false

/-- The locks held after one call, `none` when the call breaks the lock
discipline: a lock must be admissible, an unlock must release the most
recently acquired lock; other calls hold and release nothing. -/
def lockStep (held : List Lock) : Call → Option (List Lock)
  | Call.lock l => if lockAdmissible held l then some (l :: held) else none
  | Call.unlock l =>
    match held with
    | top :: rest => if top = l then some rest else none
    | [] => none
  | _ => some held

/-- The locks held after a list of calls, `none` when a call breaks the lock
discipline. -/
def runLocks : List Lock → List Call → Option (List Lock)
  | held, [] => some held
  | held, c :: rest =>
    match lockStep held c with
    | some held1 => runLocks held1 rest
    | none => none

/-- The lock discipline of a list of calls made by a function: run from no
lock held, every call keeps the discipline and no lock is held at the end. -/
def LockDiscipline (calls : List Call) : Prop :=
  runLocks [] calls = some []

instance (calls : List Call) : Decidable (LockDiscipline calls) :=
  inferInstanceAs (Decidable (runLocks [] calls = some []))

/-- The state `t` is reached from `s` by calls that keep the lock discipline
and take the held locks from `held` to `held1`. -/
def LockRun (held held1 : List Lock) (s t : St) : Prop :=
  ∃ ext, t.trace = s.trace ++ ext ∧ runLocks held ext = some held1

/-- The integer `x` is a value of a C++ `int` (32 bits, two's complement). -/
def fitsInt (x : Int) : Prop :=
  -2147483648 ≤ x ∧ x ≤ 2147483647

instance (x : Int) : Decidable (fitsInt x) := by
  unfold fitsInt
  exact inferInstance

/-- The totals that `addSaidMessageSize size` computes stay within `int`: the
byte window sum plus `size`, and the message-count window sum plus one. -/
def TotalsFit (size : Int) (h : Server_ProtocolHandler) : Prop :=
  fitsInt (h.messageSizeOverTime.sum + size) ∧ fitsInt (h.messageCountOverTime.sum + 1)

instance (size : Int) (h : Server_ProtocolHandler) : Decidable (TotalsFit size h) := by
  unfold TotalsFit
  exact inferInstance

/-- The newest buckets that `addSaidMessageSize size` writes stay within `int`:
the newest byte bucket (zero when the window is empty) plus `size`, and the
newest message-count bucket plus one. -/
def BucketsFit (size : Int) (h : Server_ProtocolHandler) : Prop :=
  fitsInt (h.messageSizeOverTime.headD 0 + size) ∧ fitsInt (h.messageCountOverTime.headD 0 + 1)

instance (size : Int) (h : Server_ProtocolHandler) : Decidable (BucketsFit size h) := by
  unfold BucketsFit
  exact inferInstance

/-! ## Result-code fold -/

theorem lastNonOk_of_all_ok (codes : List (Nat × ResponseCode)) (final : ResponseCode)
    (h : ∀ p ∈ codes, p.2 = ResponseCode.RespOk) : lastNonOk codes final = final := by
  induction codes generalizing final with
  | nil => rfl
  | cons c rest ih =>
    have hc : c.2 = ResponseCode.RespOk := h c (List.mem_cons_self _ _)
    simp only [lastNonOk, hc, ne_eq, not_true_eq_false, if_false]
    exact ih final (fun p hp => h p (List.mem_cons_of_mem _ hp))

theorem lastNonOk_ne_ok (codes : List (Nat × ResponseCode)) (final : ResponseCode)
    (h : final ≠ ResponseCode.RespOk ∨ ∃ p ∈ codes, p.2 ≠ ResponseCode.RespOk) :
    lastNonOk codes final ≠ ResponseCode.RespOk := by
  induction codes generalizing final with
  | nil =>
    rcases h with h | ⟨p, hp, _⟩
    · exact h
    · cases hp
  | cons c rest ih =>
    simp only [lastNonOk]
    apply ih
    by_cases hc : c.2 = ResponseCode.RespOk
    · rcases h with h | ⟨p, hp, hne⟩
      · left; simpa [hc] using h
      · rcases List.mem_cons.mp hp with rfl | hp
        · exact absurd hc hne
        · right; exact ⟨p, hp, hne⟩
    · left; simp [hc]

theorem lastNonOk_least (codes : List (Nat × ResponseCode))
    (hpw : (codes.map Prod.fst).Pairwise (fun a b => a > b)) (final : ResponseCode)
    (p : Nat × ResponseCode) (hp : p ∈ codes) (hne : p.2 ≠ ResponseCode.RespOk)
    (hmin : ∀ q ∈ codes, q.2 ≠ ResponseCode.RespOk → p.1 ≤ q.1) :
    lastNonOk codes final = p.2 := by
  induction codes generalizing final with
  | nil => cases hp
  | cons c rest ih =>
    simp only [List.map_cons, List.pairwise_cons] at hpw
    simp only [lastNonOk]
    by_cases hex : ∃ q ∈ rest, q.2 ≠ ResponseCode.RespOk
    · obtain ⟨q, hq, hqne⟩ := hex
      rcases List.mem_cons.mp hp with rfl | hp
      · have h1 : p.1 > q.1 := hpw.1 q.1 (List.mem_map_of_mem _ hq)
        have h2 : p.1 ≤ q.1 := hmin q (List.mem_cons_of_mem _ hq) hqne
        omega
      · exact ih hpw.2 _ hp (fun q hq => hmin q (List.mem_cons_of_mem _ hq))
    · have hall : ∀ q ∈ rest, q.2 = ResponseCode.RespOk := by
        intro q hq
        by_contra hq2
        exact hex ⟨q, hq, hq2⟩
      rw [lastNonOk_of_all_ok rest _ hall]
      rcases List.mem_cons.mp hp with rfl | hp
      · simp [hne]
      · exact absurd (hall p hp) hne

theorem lastNonOk_isFold (codes : List (Nat × ResponseCode))
    (hpw : (codes.map Prod.fst).Pairwise (fun a b => a > b)) :
    IsFold codes (lastNonOk codes ResponseCode.RespOk) := by
  refine ⟨⟨?_, ?_⟩, ?_⟩
  · intro h p hp
    by_contra hne
    exact lastNonOk_ne_ok codes _ (Or.inr ⟨p, hp, hne⟩) h
  · intro h
    exact lastNonOk_of_all_ok codes _ h
  · intro p hp hne hmin
    exact lastNonOk_least codes hpw _ p hp hne hmin

theorem commandLoop_fst {α : Type} (step : Nat → α → St → ResponseCode × St)
    (l : List (Nat × α)) (final : ResponseCode) (s : St) :
    (commandLoop step l final s).1 = lastNonOk (commandCodes step l s) final := by
  induction l generalizing final s with
  | nil => rfl
  | cons c rest ih =>
    obtain ⟨i, sc⟩ := c
    simp only [commandLoop, commandCodes, lastNonOk]
    exact ih _ _

theorem commandCodes_fst {α : Type} (step : Nat → α → St → ResponseCode × St)
    (l : List (Nat × α)) (s : St) :
    (commandCodes step l s).map Prod.fst = l.map Prod.fst := by
  induction l generalizing s with
  | nil => rfl
  | cons c rest ih =>
    obtain ⟨i, sc⟩ := c
    simp only [commandCodes, List.map_cons]
    rw [ih]

theorem loopOrder_fst {α : Type} (cmds : List α) :
    (loopOrder cmds).map Prod.fst = (List.range cmds.length).reverse := by
  simp [loopOrder, List.map_reverse, List.enum_map_fst]

theorem range_reverse_pairwise (n : Nat) :
    ((List.range n).reverse).Pairwise (fun a b => a > b) := by
  rw [List.pairwise_reverse]
  exact List.pairwise_lt_range n

theorem commandLoop_isFold {α : Type} (step : Nat → α → St → ResponseCode × St)
    (cmds : List α) (s : St) :
    IsFold (commandCodes step (loopOrder cmds) s)
        (commandLoop step (loopOrder cmds) ResponseCode.RespOk s).1 ∧
      (commandCodes step (loopOrder cmds) s).map Prod.fst = (List.range cmds.length).reverse := by
  have hfst : (commandCodes step (loopOrder cmds) s).map Prod.fst
      = (List.range cmds.length).reverse := by
    rw [commandCodes_fst, loopOrder_fst]
  refine ⟨?_, hfst⟩
  rw [commandLoop_fst]
  apply lastNonOk_isFold
  rw [hfst]
  exact range_reverse_pairwise _

theorem gameCommandLoop_fst (env : Env) (room game player : Int) (cci mcc : Int)
    (l : List (Nat × GameCommand)) (final : ResponseCode) (ges : List Nat) (s : St)
    (fin : ResponseCode)
    (h : (gameCommandLoop env room game player cci mcc l final ges s).1 = some fin) :
    fin = lastNonOk (gameCommandCodes env room game player cci mcc l ges s) final ∧
      (gameCommandCodes env room game player cci mcc l ges s).map Prod.fst = l.map Prod.fst := by
  induction l generalizing final ges s with
  | nil =>
    simp only [gameCommandLoop, Option.some.injEq] at h
    simp [gameCommandCodes, lastNonOk, h]
  | cons c rest ih =>
    obtain ⟨i, sc⟩ := c
    simp only [gameCommandLoop] at h
    simp only [gameCommandCodes]
    split at h
    · cases h
    · rename_i hc
      simp only [hc, Bool.false_eq_true, if_false, lastNonOk, List.map_cons]
      have := ih _ _ _ h
      exact ⟨this.1, by rw [this.2]⟩

/-- C1. Result-code fold.  For the session processor, for the room, moderator
and admin processors once past their gates, and for the game processor when the
seat is resolved and no sub-command is rate-limited (the loop is not left by
`return RespChatFlood`), the returned code is `RespOk` if and only if every
sub-command's code is `RespOk`, and otherwise it is the code of the non-ok
sub-command with the smallest submission index; every sub-command is visited,
from the last submitted to the first. -/
theorem C1_result_code_fold (env : Env) (cont : CommandContainer) (s : St) :
    (IsFold (commandCodes (sessionCommandStep env) (loopOrder cont.session_command) s)
        (processSessionCommandContainer env cont s).1 ∧
      (commandCodes (sessionCommandStep env) (loopOrder cont.session_command) s).map Prod.fst
        = (List.range cont.session_command.length).reverse) ∧
    (∀ room : Int, s.self.authState ≠ AuthenticationResult.NotLoggedIn →
      QMap.value s.self.rooms cont.room_id = some room →
      IsFold (commandCodes (roomCommandStep env room) (loopOrder cont.room_command)
          (roomLoopStart s)) (processRoomCommandContainer env cont s).1 ∧
      (commandCodes (roomCommandStep env room) (loopOrder cont.room_command)
          (roomLoopStart s)).map Prod.fst = (List.range cont.room_command.length).reverse) ∧
    (∀ userInfo : ServerInfo_User, s.self.userInfo = some userInfo →
      userInfo.user_level &&& env.IsModerator ≠ 0 →
      IsFold (commandCodes (moderatorCommandStep env) (loopOrder cont.moderator_command)
          (resetIdleTimer s)) (processModeratorCommandContainer env cont s).1 ∧
      (commandCodes (moderatorCommandStep env) (loopOrder cont.moderator_command)
          (resetIdleTimer s)).map Prod.fst
        = (List.range cont.moderator_command.length).reverse) ∧
    (∀ userInfo : ServerInfo_User, s.self.userInfo = some userInfo →
      userInfo.user_level &&& env.IsAdmin ≠ 0 →
      IsFold (commandCodes (adminCommandStep env) (loopOrder cont.admin_command)
          (resetIdleTimer s)) (processAdminCommandContainer env cont s).1 ∧
      (commandCodes (adminCommandStep env) (loopOrder cont.admin_command)
          (resetIdleTimer s)).map Prod.fst = (List.range cont.admin_command.length).reverse) ∧
    (∀ (rp : Int × Int) (room : Server_Room) (game : Server_Game) (player : Server_Player)
        (fin : ResponseCode),
      s.self.authState ≠ AuthenticationResult.NotLoggedIn →
      QMap.value s.self.games cont.game_id = some rp →
      findRoom s.self.server.rooms rp.1 = some room →
      findGame room.games cont.game_id = some game →
      findPlayer game.players rp.2 = some player →
      (gameCommandLoop env rp.1 cont.game_id rp.2 s.self.server.commandCountingInterval
          s.self.server.maxCommandCountPerInterval (loopOrder cont.game_command)
          ResponseCode.RespOk [] (gameLoopStart rp.1 cont.game_id s)).1 = some fin →
      (processGameCommandContainer env cont s).1 = fin ∧
      IsFold (gameCommandCodes env rp.1 cont.game_id rp.2 s.self.server.commandCountingInterval
          s.self.server.maxCommandCountPerInterval (loopOrder cont.game_command) []
          (gameLoopStart rp.1 cont.game_id s)) fin ∧
      (gameCommandCodes env rp.1 cont.game_id rp.2 s.self.server.commandCountingInterval
          s.self.server.maxCommandCountPerInterval (loopOrder cont.game_command) []
          (gameLoopStart rp.1 cont.game_id s)).map Prod.fst
        = (List.range cont.game_command.length).reverse) := by
  refine ⟨?_, ?_, ?_, ?_, ?_⟩
  · exact commandLoop_isFold _ _ _
  · intro room hauth hroom
    have h := commandLoop_isFold (roomCommandStep env room) cont.room_command (roomLoopStart s)
    have hv : QMap.value (s.call (Call.lock Lock.roomsLock)).self.rooms cont.room_id
        = some room := hroom
    simp only [processRoomCommandContainer, if_neg hauth, hv]
    exact h
  · intro u hu hbit
    have h := commandLoop_isFold (moderatorCommandStep env) cont.moderator_command
      (resetIdleTimer s)
    simp only [processModeratorCommandContainer, hu, if_neg hbit]
    exact h
  · intro u hu hbit
    have h := commandLoop_isFold (adminCommandStep env) cont.admin_command (resetIdleTimer s)
    simp only [processAdminCommandContainer, hu, if_neg hbit]
    exact h
  · intro rp room game player fin hauth hgame hroom hg hp hloop
    have hl := gameCommandLoop_fst env rp.1 cont.game_id rp.2 _ _ _ _ _ _ fin hloop
    have hfst : (gameCommandCodes env rp.1 cont.game_id rp.2
        s.self.server.commandCountingInterval s.self.server.maxCommandCountPerInterval
        (loopOrder cont.game_command) [] (gameLoopStart rp.1 cont.game_id s)).map Prod.fst
        = (List.range cont.game_command.length).reverse := by
      rw [hl.2, loopOrder_fst]
    refine ⟨?_, ?_, hfst⟩
    · have hroom1 : findRoom (s.call (Call.lock Lock.roomsLock)).self.server.rooms rp.1
          = some room := hroom
      simp only [processGameCommandContainer, if_neg hauth, hgame, hroom1, hg, hp]
      have hstart : resetIdleTimer (((s.call (Call.lock Lock.roomsLock)).call
          (Call.lock (Lock.gamesLock rp.1))).call (Call.lock (Lock.gameMutex rp.1 cont.game_id)))
          = gameLoopStart rp.1 cont.game_id s := rfl
      have hcfg1 : (resetIdleTimer (((s.call (Call.lock Lock.roomsLock)).call
          (Call.lock (Lock.gamesLock rp.1))).call
          (Call.lock (Lock.gameMutex rp.1 cont.game_id)))).self.server = s.self.server := rfl
      rw [hcfg1, hstart]
      generalize hL : gameCommandLoop env rp.1 cont.game_id rp.2
        s.self.server.commandCountingInterval s.self.server.maxCommandCountPerInterval
        (loopOrder cont.game_command) ResponseCode.RespOk [] (gameLoopStart rp.1 cont.game_id s)
        = L at hloop
      obtain ⟨o, g, t⟩ := L
      simp only at hloop
      subst hloop
      rfl
    · rw [hl.1]
      apply lastNonOk_isFold
      rw [hfst]
      exact range_reverse_pairwise _

/-- Witness of C1 on the concrete session: the hypotheses of the room,
moderator, admin and game parts hold there. -/
theorem C1_result_code_fold_witness :
    IsFold (commandCodes (roomCommandStep exEnv 3) (loopOrder exCont.room_command)
        (roomLoopStart exSt)) (processRoomCommandContainer exEnv exCont exSt).1 ∧
    IsFold (commandCodes (moderatorCommandStep exEnv) (loopOrder exCont.moderator_command)
        (resetIdleTimer exSt)) (processModeratorCommandContainer exEnv exCont exSt).1 ∧
    IsFold (commandCodes (adminCommandStep exEnv) (loopOrder exCont.admin_command)
        (resetIdleTimer exSt)) (processAdminCommandContainer exEnv exCont exSt).1 ∧
    (processGameCommandContainer exEnv exCont exSt).1 = ResponseCode.RespOther 5 :=
  ⟨((C1_result_code_fold exEnv exCont exSt).2.1 3 (by decide) (by decide)).1,
   ((C1_result_code_fold exEnv exCont exSt).2.2.1 _ rfl (by decide)).1,
   ((C1_result_code_fold exEnv exCont exSt).2.2.2.1 _ rfl (by decide)).1,
   ((C1_result_code_fold exEnv exCont exSt).2.2.2.2 (3, 0) _ _ _ (ResponseCode.RespOther 5)
      (by decide) (by decide) rfl rfl rfl (by decide)).1⟩

/-! ## Traces -/

@[simp] theorem St.call_trace (s : St) (c : Call) : (s.call c).trace = s.trace ++ [c] := rfl

@[simp] theorem St.call_self (s : St) (c : Call) : (s.call c).self = s.self := rfl

@[simp] theorem St.call_rc (s : St) (c : Call) : (s.call c).rc = s.rc := rfl

@[simp] theorem St.setExt_trace (s : St) (re : ResponseExtension) :
    (s.setExt re).trace = s.trace := rfl

@[simp] theorem St.setExt_self (s : St) (re : ResponseExtension) :
    (s.setExt re).self = s.self := rfl

@[simp] theorem St.enqueuePre_trace (s : St) (e : Event) : (s.enqueuePre e).trace = s.trace := rfl

@[simp] theorem St.enqueuePre_self (s : St) (e : Event) : (s.enqueuePre e).self = s.self := rfl

@[simp] theorem St.enqueuePost_trace (s : St) (e : Event) :
    (s.enqueuePost e).trace = s.trace := rfl

@[simp] theorem St.enqueuePost_self (s : St) (e : Event) : (s.enqueuePost e).self = s.self := rfl

@[simp] theorem St.setServer_trace (s : St) (srv : Server) :
    (s.setServer srv).trace = s.trace := rfl

@[simp] theorem St.setServer_rc (s : St) (srv : Server) : (s.setServer srv).rc = s.rc := rfl

@[simp] theorem St.invoke_trace (s : St) (f : Handler) : (s.invoke f).2.trace = s.trace := rfl

@[simp] theorem resetIdleTimer_trace (s : St) : (resetIdleTimer s).trace = s.trace := rfl

@[simp] theorem resetIdleTimer_rc (s : St) : (resetIdleTimer s).rc = s.rc := rfl

@[simp] theorem addSaidMessageSize_trace (size : Int) (s : St) :
    (addSaidMessageSize size s).2.trace = s.trace := by
  unfold addSaidMessageSize
  split <;> rfl

@[simp] theorem addSaidMessageSize_rc (size : Int) (s : St) :
    (addSaidMessageSize size s).2.rc = s.rc := by
  unfold addSaidMessageSize
  split <;> rfl

theorem newCalls_append (s t : St) (ext : List Call) (h : t.trace = s.trace ++ ext) :
    newCalls s t = ext := by
  simp [newCalls, h]

theorem quietly_iff (s t : St) :
    Quietly s t ↔ ∃ ext, t.trace = s.trace ++ ext ∧ ∀ c ∈ ext, c.quiet = true := by
  constructor
  · rintro ⟨⟨ext, hext⟩, hq⟩
    refine ⟨ext, hext.symm, ?_⟩
    rw [newCalls_append s t ext hext.symm] at hq
    exact hq
  · rintro ⟨ext, hext, hq⟩
    refine ⟨⟨ext, hext.symm⟩, ?_⟩
    rw [newCalls_append s t ext hext]
    exact hq

theorem Quietly.quiet_refl (s : St) : Quietly s s :=
  (quietly_iff s s).mpr ⟨[], by simp, by simp⟩

theorem Quietly.quiet_of_trace_eq {s t : St} (h : t.trace = s.trace) : Quietly s t :=
  (quietly_iff s t).mpr ⟨[], by simp [h], by simp⟩

theorem Quietly.quiet_trans {s t u : St} (h1 : Quietly s t) (h2 : Quietly t u) : Quietly s u := by
  obtain ⟨e1, he1, hq1⟩ := (quietly_iff s t).mp h1
  obtain ⟨e2, he2, hq2⟩ := (quietly_iff t u).mp h2
  refine (quietly_iff s u).mpr ⟨e1 ++ e2, by rw [he2, he1, List.append_assoc], ?_⟩
  intro c hc
  rcases List.mem_append.mp hc with hc | hc
  · exact hq1 c hc
  · exact hq2 c hc

theorem Quietly.call {s t : St} (h : Quietly s t) (c : Call) (hc : c.quiet = true) :
    Quietly s (t.call c) := by
  refine h.quiet_trans ((quietly_iff _ _).mpr ⟨[c], rfl, ?_⟩)
  intro d hd
  rw [List.mem_singleton.mp hd]
  exact hc

theorem Quietly.congr {s t u : St} (h : Quietly s t) (hu : u.trace = t.trace) : Quietly s u :=
  h.quiet_trans (Quietly.quiet_of_trace_eq hu)

@[simp] theorem addClient_trace (room : Int) (s : St) :
    (addClient room s).trace = s.trace ++ [Call.addClient room] := rfl

@[simp] theorem removeClient_trace (room : Int) (s : St) :
    (removeClient room s).trace = s.trace ++ [Call.removeClient room] := rfl

@[simp] theorem disconnectClient_trace (room game player : Int) (s : St) :
    (disconnectClient room game player s).trace
      = s.trace ++ [Call.disconnectClient room game player] := rfl

@[simp] theorem serverRemoveClient_trace (s : St) :
    (serverRemoveClient s).trace = s.trace ++ [Call.serverRemoveClient] := rfl

@[simp] theorem foldl_enqueuePost_trace (l : List Event) (s : St) :
    (l.foldl (fun st e => st.enqueuePost e) s).trace = s.trace := by
  induction l generalizing s with
  | nil => rfl
  | cons e rest ih => simp [List.foldl, ih]

@[simp] theorem foldl_enqueuePost_self (l : List Event) (s : St) :
    (l.foldl (fun st e => st.enqueuePost e) s).self = s.self := by
  induction l generalizing s with
  | nil => rfl
  | cons e rest ih => simp [List.foldl, ih]

theorem foldl_enqueuePost_rc (l : List Event) (s : St) :
    (l.foldl (fun st e => st.enqueuePost e) s).rc
      = { s.rc with postResponseQueue := s.rc.postResponseQueue ++ l } := by
  induction l generalizing s with
  | nil => simp
  | cons e rest ih =>
    simp only [List.foldl]
    rw [ih]
    simp [St.enqueuePost, ResponseContainer.enqueuePostResponseItem]

theorem cmdPing_quietly (s : St) : Quietly s (cmdPing s).2 :=
  Quietly.quiet_refl s

theorem cmdMessage_quietly (env : Env) (cmd : Command_Message) (s : St) :
    Quietly s (cmdMessage env cmd s).2 := by
  unfold cmdMessage
  dsimp only
  (repeat' split) <;> simp [Quietly, newCalls, Call.quiet]

theorem cmdLoginFinish_quietly (env : Env) (m : QStringMap Bool) (s : St) :
    Quietly s (cmdLoginFinish env m s).2 := by
  unfold cmdLoginFinish
  dsimp only
  (repeat' split) <;> simp [Quietly, newCalls, Call.quiet]

theorem cmdLoginResult_quietly (env : Env) (needsHash : Bool) (m : QStringMap Bool)
    (res : AuthenticationResult) (reasonStr : String) (banSecondsLeft : Int) (s : St) :
    Quietly s (cmdLoginResult env needsHash m res reasonStr banSecondsLeft s).2 := by
  unfold cmdLoginResult
  split <;> first
    | exact Quietly.quiet_of_trace_eq rfl
    | (refine Quietly.quiet_trans ?_ (cmdLoginFinish_quietly env m _)
       exact Quietly.quiet_of_trace_eq rfl)

theorem cmdLogin_quietly (env : Env) (cmd : Command_Login) (s : St) :
    Quietly s (cmdLogin env cmd s).2 := by
  unfold cmdLogin
  dsimp only
  split
  · exact Quietly.quiet_refl s
  · split
    · exact Quietly.quiet_refl s
    · split
      · exact Quietly.quiet_of_trace_eq rfl
      · refine Quietly.quiet_trans ?_ (cmdLoginResult_quietly env _ _ _ _ _ _)
        exact Quietly.call (Quietly.quiet_of_trace_eq rfl) _ rfl

theorem foldl_lockUnlock_quietly (l : List Server_Room) (s : St) :
    Quietly s (l.foldl (fun st room => (st.call (Call.lock (Lock.gamesLock room.id))).call
      (Call.unlock (Lock.gamesLock room.id))) s) := by
  induction l generalizing s with
  | nil => exact Quietly.quiet_refl s
  | cons r rest ih =>
    simp only [List.foldl]
    refine Quietly.quiet_trans ?_ (ih _)
    exact Quietly.call (Quietly.call (Quietly.quiet_refl s) (Call.lock (Lock.gamesLock r.id)) rfl)
      (Call.unlock (Lock.gamesLock r.id)) rfl

theorem cmdGetGamesOfUser_quietly (env : Env) (user_name : String) (s : St) :
    Quietly s (cmdGetGamesOfUser env user_name s).2 := by
  unfold cmdGetGamesOfUser
  dsimp only
  split
  · exact Quietly.quiet_refl s
  · refine Quietly.congr (Quietly.call ?_ (Call.unlock Lock.roomsLock) rfl) rfl
    refine Quietly.quiet_trans ?_ (foldl_lockUnlock_quietly _ _)
    exact Quietly.call (Quietly.quiet_refl s) (Call.lock Lock.roomsLock) rfl

theorem cmdGetUserInfo_quietly (env : Env) (user_name : String) (s : St) :
    Quietly s (cmdGetUserInfo env user_name s).2 := by
  unfold cmdGetUserInfo
  dsimp only
  (repeat' split) <;> simp [Quietly, newCalls, Call.quiet]

theorem cmdListRooms_quietly (s : St) : Quietly s (cmdListRooms s).2 := by
  unfold cmdListRooms
  dsimp only
  (repeat' split) <;> simp [Quietly, newCalls, Call.quiet]

theorem cmdJoinRoom_quietly (env : Env) (room_id : Int) (s : St) :
    Quietly s (cmdJoinRoom env room_id s).2 := by
  unfold cmdJoinRoom
  dsimp only
  (repeat' split) <;> simp [Quietly, newCalls, Call.quiet]

theorem cmdListUsers_quietly (env : Env) (s : St) : Quietly s (cmdListUsers env s).2 := by
  unfold cmdListUsers
  dsimp only
  (repeat' split) <;> simp [Quietly, newCalls, Call.quiet]

theorem cmdLeaveRoom_quietly (room : Int) (s : St) : Quietly s (cmdLeaveRoom room s).2 := by
  unfold cmdLeaveRoom
  simp [Quietly, newCalls, Call.quiet]

theorem cmdRoomSay_quietly (message : String) (room : Int) (s : St) :
    Quietly s (cmdRoomSay message room s).2 := by
  unfold cmdRoomSay
  dsimp only
  (repeat' split) <;> simp [Quietly, newCalls, Call.quiet]

theorem cmdCreateGame_quietly (env : Env) (cmd : Command_CreateGame) (room : Int) (s : St) :
    Quietly s (cmdCreateGame env cmd room s).2 := by
  unfold cmdCreateGame
  dsimp only
  (repeat' split) <;> simp [Quietly, newCalls, Call.quiet]

theorem cmdJoinGame_quietly (env : Env) (payload : Nat) (room : Int) (s : St) :
    Quietly s (cmdJoinGame env payload room s).2 := by
  unfold cmdJoinGame
  split
  · exact Quietly.quiet_refl s
  · exact Quietly.quiet_of_trace_eq rfl

theorem reaches_iff (hs : List Call) (s t : St) :
    Reaches hs s t ↔
      ∃ ext, t.trace = s.trace ++ ext ∧ handlerCalls ext = hs ∧ responsesSent ext = [] := by
  constructor
  · rintro ⟨⟨ext, hext⟩, h1, h2⟩
    rw [newCalls_append s t ext hext.symm] at h1 h2
    exact ⟨ext, hext.symm, h1, h2⟩
  · rintro ⟨ext, hext, h1, h2⟩
    refine ⟨⟨ext, hext.symm⟩, ?_, ?_⟩
    · rw [newCalls_append s t ext hext]; exact h1
    · rw [newCalls_append s t ext hext]; exact h2

theorem handlerCalls_of_quiet (ext : List Call) (h : ∀ c ∈ ext, c.quiet = true) :
    handlerCalls ext = [] := by
  unfold handlerCalls
  rw [List.filter_eq_nil_iff]
  intro c hc
  have := h c hc
  cases c <;> simp_all [Call.quiet]

theorem responsesSent_of_quiet (ext : List Call) (h : ∀ c ∈ ext, c.quiet = true) :
    responsesSent ext = [] := by
  unfold responsesSent
  rw [List.filterMap_eq_nil_iff]
  intro c hc
  have := h c hc
  cases c <;> simp_all [Call.quiet]

theorem handlerCalls_append (a b : List Call) :
    handlerCalls (a ++ b) = handlerCalls a ++ handlerCalls b := by
  simp [handlerCalls, List.filter_append]

theorem responsesSent_append (a b : List Call) :
    responsesSent (a ++ b) = responsesSent a ++ responsesSent b := by
  simp [responsesSent, List.filterMap_append]

theorem Quietly.reaches {s t : St} (h : Quietly s t) : Reaches [] s t := by
  obtain ⟨ext, hext, hq⟩ := (quietly_iff s t).mp h
  exact (reaches_iff [] s t).mpr
    ⟨ext, hext, handlerCalls_of_quiet ext hq, responsesSent_of_quiet ext hq⟩

theorem Reaches.reach_trans {h1 h2 : List Call} {s t u : St} (a : Reaches h1 s t)
    (b : Reaches h2 t u) : Reaches (h1 ++ h2) s u := by
  obtain ⟨e1, he1, ha1, hb1⟩ := (reaches_iff h1 s t).mp a
  obtain ⟨e2, he2, ha2, hb2⟩ := (reaches_iff h2 t u).mp b
  refine (reaches_iff _ s u).mpr ⟨e1 ++ e2, by rw [he2, he1, List.append_assoc], ?_, ?_⟩
  · rw [handlerCalls_append, ha1, ha2]
  · rw [responsesSent_append, hb1, hb2]; rfl

theorem Reaches.handler (s : St) (k : Kind) (i : Nat) :
    Reaches [Call.handler k i] s (s.call (Call.handler k i)) :=
  (reaches_iff _ _ _).mpr ⟨[Call.handler k i], rfl, rfl, rfl⟩

theorem Reaches.then_quietly {hs : List Call} {s t u : St} (a : Reaches hs s t)
    (b : Quietly t u) : Reaches hs s u := by
  have := a.reach_trans b.reaches
  simpa using this

theorem Reaches.after_quietly {hs : List Call} {s t u : St} (a : Quietly s t)
    (b : Reaches hs t u) : Reaches hs s u := by
  have := a.reaches.reach_trans b
  simpa using this

theorem Reaches.of_eq {hs hs' : List Call} {s t : St} (a : Reaches hs s t) (h : hs = hs') :
    Reaches hs' s t := h ▸ a

theorem Reaches.newCalls_eq {hs : List Call} {s t : St} (a : Reaches hs s t) :
    handlerCalls (newCalls s t) = hs := a.2.1

/-- The handed-over call followed by a quiet handler. -/
theorem reaches_logged_handler (s t : St) (k : Kind) (i : Nat)
    (h : Quietly ((s.call Call.logDebugMessage).call (Call.handler k i)) t) :
    Reaches [Call.handler k i] s t := by
  refine Reaches.then_quietly ?_ h
  refine Reaches.after_quietly ?_ (Reaches.handler _ k i)
  exact Quietly.call (Quietly.quiet_refl s) Call.logDebugMessage rfl

theorem sessionCommandStep_reaches (env : Env) (i : Nat) (sc : SessionCommand) (s : St) :
    Reaches [Call.handler Kind.session i] s (sessionCommandStep env i sc s).2 := by
  cases sc with
  | PING => exact Reaches.handler s Kind.session i
  | LOGIN cmd => exact reaches_logged_handler _ _ _ _ (cmdLogin_quietly env cmd _)
  | MESSAGE cmd => exact reaches_logged_handler _ _ _ _ (cmdMessage_quietly env cmd _)
  | GET_GAMES_OF_USER u =>
    exact reaches_logged_handler _ _ _ _ (cmdGetGamesOfUser_quietly env u _)
  | GET_USER_INFO u => exact reaches_logged_handler _ _ _ _ (cmdGetUserInfo_quietly env u _)
  | LIST_ROOMS => exact reaches_logged_handler _ _ _ _ (cmdListRooms_quietly _)
  | JOIN_ROOM r => exact reaches_logged_handler _ _ _ _ (cmdJoinRoom_quietly env r _)
  | LIST_USERS => exact reaches_logged_handler _ _ _ _ (cmdListUsers_quietly env _)
  | extended num payload =>
    exact reaches_logged_handler _ _ _ _ (Quietly.quiet_of_trace_eq rfl)

theorem roomCommandStep_reaches (env : Env) (room : Int) (i : Nat) (sc : RoomCommand) (s : St) :
    Reaches (roomHandled [(i, sc)]) s (roomCommandStep env room i sc s).2 := by
  cases sc with
  | LEAVE_ROOM => exact reaches_logged_handler _ _ _ _ (cmdLeaveRoom_quietly room _)
  | ROOM_SAY m => exact reaches_logged_handler _ _ _ _ (cmdRoomSay_quietly m room _)
  | CREATE_GAME cmd => exact reaches_logged_handler _ _ _ _ (cmdCreateGame_quietly env cmd room _)
  | JOIN_GAME p => exact reaches_logged_handler _ _ _ _ (cmdJoinGame_quietly env p room _)
  | other n => exact (Quietly.call (Quietly.quiet_refl s) Call.logDebugMessage rfl).reaches

theorem moderatorCommandStep_reaches (env : Env) (i : Nat) (sc : ModeratorCommand) (s : St) :
    Reaches [Call.handler Kind.moderator i] s (moderatorCommandStep env i sc s).2 :=
  reaches_logged_handler _ _ _ _ (Quietly.quiet_of_trace_eq rfl)

theorem adminCommandStep_reaches (env : Env) (i : Nat) (sc : AdminCommand) (s : St) :
    Reaches [Call.handler Kind.admin i] s (adminCommandStep env i sc s).2 :=
  reaches_logged_handler _ _ _ _ (Quietly.quiet_of_trace_eq rfl)

theorem commandLoop_reaches {α : Type} (step : Nat → α → St → ResponseCode × St)
    (hc : Nat → α → List Call)
    (hstep : ∀ i sc s, Reaches (hc i sc) s (step i sc s).2)
    (l : List (Nat × α)) (final : ResponseCode) (s : St) :
    Reaches (l.flatMap (fun p => hc p.1 p.2)) s (commandLoop step l final s).2 := by
  induction l generalizing final s with
  | nil => exact (Quietly.quiet_refl s).reaches
  | cons c rest ih =>
    obtain ⟨i, sc⟩ := c
    simp only [commandLoop, List.flatMap_cons]
    exact (hstep i sc s).reach_trans (ih _ _)

theorem reaches_cons {hs : List Call} {s u v : St} {k : Kind} {i : Nat} (t : St)
    (a : Quietly s t) (hcall : u.trace = t.trace ++ [Call.handler k i]) (b : Reaches hs u v) :
    Reaches (Call.handler k i :: hs) s v := by
  have h1 : Reaches [Call.handler k i] t u :=
    (Reaches.handler t k i).then_quietly (Quietly.quiet_of_trace_eq hcall)
  exact Reaches.after_quietly a (h1.reach_trans b)

theorem gameCommandLoop_reaches (env : Env) (room game player : Int) (cci mcc : Int)
    (l : List (Nat × GameCommand)) (final : ResponseCode) (ges : List Nat) (s : St) :
    Reaches ((gameCommandCodes env room game player cci mcc l ges s).map
        (fun p => Call.handler Kind.game p.1)) s
      (gameCommandLoop env room game player cci mcc l final ges s).2.2 := by
  induction l generalizing final ges s with
  | nil => exact (Quietly.quiet_refl s).reaches
  | cons c rest ih =>
    obtain ⟨i, sc⟩ := c
    simp only [gameCommandLoop, gameCommandCodes]
    split
    · simp only [List.map_nil]
      refine Quietly.reaches ?_
      exact (Quietly.call (Quietly.quiet_refl s) Call.logDebugMessage rfl).congr rfl
    · simp only [List.map_cons]
      refine reaches_cons (s.call Call.logDebugMessage) ?_ ?_ (ih _ _ _)
      · exact Quietly.call (Quietly.quiet_refl s) Call.logDebugMessage rfl
      · rfl

theorem flatMap_singleton_fst {α : Type} (f : Nat → Call) (l : List (Nat × α)) :
    l.flatMap (fun p => [f p.1]) = (l.map Prod.fst).map f := by
  induction l with
  | nil => rfl
  | cons c rest ih => simp [List.flatMap_cons, ih]

theorem roomHandled_eq (l : List (Nat × RoomCommand)) :
    roomHandled l = ((l.filter (fun p => match p.2 with
      | RoomCommand.other _ => false
      | _ => true)).map Prod.fst).map (Call.handler Kind.room) := by
  induction l with
  | nil => rfl
  | cons c rest ih =>
    obtain ⟨i, sc⟩ := c
    have hcons : roomHandled ((i, sc) :: rest) = roomHandled [(i, sc)] ++ roomHandled rest := by
      simp [roomHandled, List.flatMap_cons]
    rw [hcons, ih]
    cases sc <;> simp [roomHandled, List.filter_cons]

theorem roomHandled_flatMap (l : List (Nat × RoomCommand)) :
    l.flatMap (fun p => roomHandled [(p.1, p.2)]) = roomHandled l := by
  induction l with
  | nil => rfl
  | cons c rest ih =>
    simp only [List.flatMap_cons, ih]
    simp [roomHandled, List.flatMap_cons]

theorem processSessionCommandContainer_reaches (env : Env) (cont : CommandContainer) (s : St) :
    Reaches ((List.range cont.session_command.length).reverse.map (Call.handler Kind.session)) s
      (processSessionCommandContainer env cont s).2 := by
  have h := commandLoop_reaches (sessionCommandStep env) (fun i _ => [Call.handler Kind.session i])
    (sessionCommandStep_reaches env) (loopOrder cont.session_command) ResponseCode.RespOk s
  rw [flatMap_singleton_fst, loopOrder_fst] at h
  exact h

theorem moderatorLoop_reaches (env : Env) (cont : CommandContainer) (s : St) :
    Reaches ((List.range cont.moderator_command.length).reverse.map
        (Call.handler Kind.moderator)) s
      (commandLoop (moderatorCommandStep env) (loopOrder cont.moderator_command)
        ResponseCode.RespOk (resetIdleTimer s)).2 := by
  have h := commandLoop_reaches (moderatorCommandStep env)
    (fun i _ => [Call.handler Kind.moderator i])
    (moderatorCommandStep_reaches env) (loopOrder cont.moderator_command) ResponseCode.RespOk
    (resetIdleTimer s)
  rw [flatMap_singleton_fst, loopOrder_fst] at h
  exact Reaches.after_quietly (Quietly.quiet_of_trace_eq rfl) h

theorem adminLoop_reaches (env : Env) (cont : CommandContainer) (s : St) :
    Reaches ((List.range cont.admin_command.length).reverse.map (Call.handler Kind.admin)) s
      (commandLoop (adminCommandStep env) (loopOrder cont.admin_command)
        ResponseCode.RespOk (resetIdleTimer s)).2 := by
  have h := commandLoop_reaches (adminCommandStep env) (fun i _ => [Call.handler Kind.admin i])
    (adminCommandStep_reaches env) (loopOrder cont.admin_command) ResponseCode.RespOk
    (resetIdleTimer s)
  rw [flatMap_singleton_fst, loopOrder_fst] at h
  exact Reaches.after_quietly (Quietly.quiet_of_trace_eq rfl) h

theorem roomLoop_reaches (env : Env) (cont : CommandContainer) (room : Int) (s : St) :
    Reaches (roomHandled (loopOrder cont.room_command)) s
      ((commandLoop (roomCommandStep env room) (loopOrder cont.room_command)
        ResponseCode.RespOk (roomLoopStart s)).2.call (Call.unlock Lock.roomsLock)) := by
  have h := commandLoop_reaches (roomCommandStep env room) (fun i sc => roomHandled [(i, sc)])
    (roomCommandStep_reaches env room) (loopOrder cont.room_command) ResponseCode.RespOk
    (roomLoopStart s)
  rw [roomHandled_flatMap] at h
  refine Reaches.then_quietly (Reaches.after_quietly ?_ h) ?_
  · exact (Quietly.call (Quietly.quiet_refl s) (Call.lock Lock.roomsLock) rfl).congr rfl
  · exact Quietly.call (Quietly.quiet_refl _) (Call.unlock Lock.roomsLock) rfl

theorem unlockGame_quietly (room game : Int) (s : St) : Quietly s (unlockGame room game s) := by
  simp [unlockGame, Quietly, newCalls, Call.quiet]

theorem gameLoopStart_quietly (room game : Int) (s : St) :
    Quietly s (gameLoopStart room game s) := by
  simp [gameLoopStart, Quietly, newCalls, Call.quiet]

theorem gameCommandCodes_prefix (env : Env) (room game player : Int) (cci mcc : Int)
    (l : List (Nat × GameCommand)) (ges : List Nat) (s : St) :
    (gameCommandCodes env room game player cci mcc l ges s).map Prod.fst <+: l.map Prod.fst := by
  induction l generalizing ges s with
  | nil => simp [gameCommandCodes]
  | cons c rest ih =>
    obtain ⟨i, sc⟩ := c
    simp only [gameCommandCodes]
    split
    · simp
    · simp only [List.map_cons]
      exact (List.prefix_cons_inj i).mpr (ih _ _)

theorem processRoomCommandContainer_handlers (env : Env) (cont : CommandContainer) (s : St) :
    ∃ L : List Nat, L.Sublist (List.range cont.room_command.length).reverse ∧
      Reaches (L.map (Call.handler Kind.room)) s (processRoomCommandContainer env cont s).2 := by
  unfold processRoomCommandContainer
  split
  · exact ⟨[], List.nil_sublist _, (Quietly.quiet_refl s).reaches⟩
  · dsimp only
    split
    · refine ⟨[], List.nil_sublist _, Quietly.reaches ?_⟩
      exact Quietly.call (Quietly.call (Quietly.quiet_refl s) (Call.lock Lock.roomsLock) rfl)
        (Call.unlock Lock.roomsLock) rfl
    · rename_i room _
      refine ⟨((loopOrder cont.room_command).filter (fun p => match p.2 with
        | RoomCommand.other _ => false
        | _ => true)).map Prod.fst, ?_, ?_⟩
      · rw [← loopOrder_fst]
        exact (List.filter_sublist _).map Prod.fst
      · rw [← roomHandled_eq]
        exact roomLoop_reaches env cont room s

theorem processGameCommandContainer_handlers (env : Env) (cont : CommandContainer) (s : St) :
    ∃ L : List Nat, L.Sublist (List.range cont.game_command.length).reverse ∧
      Reaches (L.map (Call.handler Kind.game)) s (processGameCommandContainer env cont s).2 := by
  unfold processGameCommandContainer
  split
  · exact ⟨[], List.nil_sublist _, (Quietly.quiet_refl s).reaches⟩
  · split
    · exact ⟨[], List.nil_sublist _, (Quietly.quiet_refl s).reaches⟩
    · rename_i rp _
      dsimp only
      split
      · refine ⟨[], List.nil_sublist _, Quietly.reaches ?_⟩
        simp [Quietly, newCalls, Call.quiet]
      · rename_i room _
        split
        · split
          · refine ⟨[], List.nil_sublist _, Quietly.reaches ?_⟩
            simp [Quietly, newCalls, Call.quiet]
          · refine ⟨[], List.nil_sublist _, Quietly.reaches ?_⟩
            simp [Quietly, newCalls, Call.quiet]
        · rename_i game _
          split
          · refine ⟨[], List.nil_sublist _, Quietly.reaches ?_⟩
            simp [Quietly, newCalls, Call.quiet, unlockGame]
          · have hl := gameCommandLoop_reaches env rp.1 cont.game_id rp.2
              s.self.server.commandCountingInterval s.self.server.maxCommandCountPerInterval
              (loopOrder cont.game_command) ResponseCode.RespOk []
              (gameLoopStart rp.1 cont.game_id s)
            have hpre := gameCommandCodes_prefix env rp.1 cont.game_id rp.2
              s.self.server.commandCountingInterval s.self.server.maxCommandCountPerInterval
              (loopOrder cont.game_command) [] (gameLoopStart rp.1 cont.game_id s)
            rw [loopOrder_fst] at hpre
            have hl2 := Reaches.after_quietly (gameLoopStart_quietly rp.1 cont.game_id s) hl
            have hl3 : Reaches (List.map (Call.handler Kind.game) (List.map Prod.fst
                (gameCommandCodes env rp.1 cont.game_id rp.2
                  s.self.server.commandCountingInterval
                  s.self.server.maxCommandCountPerInterval (loopOrder cont.game_command) []
                  (gameLoopStart rp.1 cont.game_id s)))) s
                (gameCommandLoop env rp.1 cont.game_id rp.2
                  s.self.server.commandCountingInterval
                  s.self.server.maxCommandCountPerInterval (loopOrder cont.game_command)
                  ResponseCode.RespOk [] (gameLoopStart rp.1 cont.game_id s)).2.2 := by
              rw [List.map_map]
              exact hl2
            generalize List.map Prod.fst (gameCommandCodes env rp.1 cont.game_id rp.2
                  s.self.server.commandCountingInterval
                  s.self.server.maxCommandCountPerInterval (loopOrder cont.game_command) []
                  (gameLoopStart rp.1 cont.game_id s)) = L at hpre hl3
            refine ⟨L, hpre.sublist, ?_⟩
            split
            · rename_i s5 heq
              have e := congrArg (fun x => x.2.2) heq
              simp only at e
              have hl4 : Reaches (L.map (Call.handler Kind.game)) s s5 := by
                rw [← e]
                exact hl3
              exact hl4.then_quietly (unlockGame_quietly _ _ _)
            · rename_i fin ges s5 heq
              have e := congrArg (fun x => x.2.2) heq
              simp only at e
              have hl4 : Reaches (L.map (Call.handler Kind.game)) s s5 := by
                rw [← e]
                exact hl3
              refine hl4.then_quietly (Quietly.quiet_trans ?_ (unlockGame_quietly _ _ _))
              exact Quietly.call (Quietly.quiet_refl s5) (Call.sendToGame cont.game_id ges) rfl

theorem processModeratorCommandContainer_handlers (env : Env) (cont : CommandContainer)
    (s : St) :
    ∃ L : List Nat, L.Sublist (List.range cont.moderator_command.length).reverse ∧
      Reaches (L.map (Call.handler Kind.moderator)) s
        (processModeratorCommandContainer env cont s).2 := by
  unfold processModeratorCommandContainer
  split
  · exact ⟨[], List.nil_sublist _, (Quietly.quiet_refl s).reaches⟩
  · split
    · exact ⟨[], List.nil_sublist _, (Quietly.quiet_refl s).reaches⟩
    · exact ⟨_, List.Sublist.refl _, moderatorLoop_reaches env cont s⟩

theorem processAdminCommandContainer_handlers (env : Env) (cont : CommandContainer) (s : St) :
    ∃ L : List Nat, L.Sublist (List.range cont.admin_command.length).reverse ∧
      Reaches (L.map (Call.handler Kind.admin)) s
        (processAdminCommandContainer env cont s).2 := by
  unfold processAdminCommandContainer
  split
  · exact ⟨[], List.nil_sublist _, (Quietly.quiet_refl s).reaches⟩
  · split
    · exact ⟨[], List.nil_sublist _, (Quietly.quiet_refl s).reaches⟩
    · exact ⟨_, List.Sublist.refl _, adminLoop_reaches env cont s⟩

theorem sublist_pair_of_pairwise (l : List Nat) (hl : l.Pairwise (fun a b => a > b))
    (a b : Nat) (ha : a ∈ l) (hb : b ∈ l) (hab : a > b) : List.Sublist [a, b] l := by
  induction l with
  | nil => cases ha
  | cons x r ih =>
    rw [List.pairwise_cons] at hl
    rcases List.mem_cons.mp ha with hax | har
    · rcases List.mem_cons.mp hb with hbx | hbr
      · omega
      · rw [hax]
        exact List.Sublist.cons₂ _ (List.singleton_sublist.mpr hbr)
    · rcases List.mem_cons.mp hb with hbx | hbr
      · have := hl.1 a har
        omega
      · exact List.Sublist.cons _ (ih hl.2 har hbr)

theorem handler_mem_handlerCalls (calls : List Call) (k : Kind) (i : Nat) :
    Call.handler k i ∈ handlerCalls calls ↔ Call.handler k i ∈ calls := by
  simp [handlerCalls, List.mem_filter]

/-- Handlers whose indices form a sublist of `n - 1, ..., 0` are invoked in
decreasing index order. -/
theorem invokedBefore_of_reaches (L : List Nat) (n : Nat) (k : Kind) (s t : St)
    (hL : L.Sublist (List.range n).reverse) (h : Reaches (L.map (Call.handler k)) s t)
    (i j : Nat) (hij : i < j) (hi : Call.handler k i ∈ newCalls s t)
    (hj : Call.handler k j ∈ newCalls s t) :
    InvokedBefore (newCalls s t) (Call.handler k j) (Call.handler k i) := by
  have hh : handlerCalls (newCalls s t) = L.map (Call.handler k) := h.2.1
  have hpw : L.Pairwise (fun a b => a > b) := (range_reverse_pairwise n).sublist hL
  have hiL : i ∈ L := by
    rw [← handler_mem_handlerCalls, hh, List.mem_map] at hi
    obtain ⟨x, hx, hxe⟩ := hi
    cases hxe
    exact hx
  have hjL : j ∈ L := by
    rw [← handler_mem_handlerCalls, hh, List.mem_map] at hj
    obtain ⟨x, hx, hxe⟩ := hj
    cases hxe
    exact hx
  have hsub : List.Sublist [j, i] L := sublist_pair_of_pairwise L hpw j i hjL hiL hij
  have h2 : List.Sublist [Call.handler k j, Call.handler k i] (handlerCalls (newCalls s t)) := by
    rw [hh]
    exact hsub.map (Call.handler k)
  exact h2.trans (List.filter_sublist _)

/-! ## Order of the handler invocations -/

/-- C2, as stated, fails: in the concrete session batch of three sub-commands
the handlers are invoked for the indices 2, 1, 0 in that order, and the handler
of sub-command 0 is not invoked before the handler of sub-command 1. -/
theorem C2_counterexample :
    handlerCalls (newCalls exSt (processSessionCommandContainer exEnv exCont exSt).2)
      = [Call.handler Kind.session 2, Call.handler Kind.session 1, Call.handler Kind.session 0] ∧
    ¬ InvokedBefore (newCalls exSt (processSessionCommandContainer exEnv exCont exSt).2)
      (Call.handler Kind.session 0) (Call.handler Kind.session 1) := by
  decide

/-- C2, amended.  Within one command batch the handlers are invoked in reverse
submission order.  A session batch hands its sub-commands to their handlers in
the order `n - 1, ..., 0`; and for each of the five processors, whenever the
handlers of the sub-commands of indices `i < j` are both invoked, the handler of
`c_j` is invoked before the handler of `c_i`. -/
theorem C2_handlers_in_reverse_order (env : Env) (cont : CommandContainer) (s : St) :
    handlerCalls (newCalls s (processSessionCommandContainer env cont s).2)
      = (List.range cont.session_command.length).reverse.map (Call.handler Kind.session) ∧
    (∀ i j : Nat, i < j →
      Call.handler Kind.session i ∈ newCalls s (processSessionCommandContainer env cont s).2 →
      Call.handler Kind.session j ∈ newCalls s (processSessionCommandContainer env cont s).2 →
      InvokedBefore (newCalls s (processSessionCommandContainer env cont s).2)
        (Call.handler Kind.session j) (Call.handler Kind.session i)) ∧
    (∀ i j : Nat, i < j →
      Call.handler Kind.room i ∈ newCalls s (processRoomCommandContainer env cont s).2 →
      Call.handler Kind.room j ∈ newCalls s (processRoomCommandContainer env cont s).2 →
      InvokedBefore (newCalls s (processRoomCommandContainer env cont s).2)
        (Call.handler Kind.room j) (Call.handler Kind.room i)) ∧
    (∀ i j : Nat, i < j →
      Call.handler Kind.game i ∈ newCalls s (processGameCommandContainer env cont s).2 →
      Call.handler Kind.game j ∈ newCalls s (processGameCommandContainer env cont s).2 →
      InvokedBefore (newCalls s (processGameCommandContainer env cont s).2)
        (Call.handler Kind.game j) (Call.handler Kind.game i)) ∧
    (∀ i j : Nat, i < j →
      Call.handler Kind.moderator i
        ∈ newCalls s (processModeratorCommandContainer env cont s).2 →
      Call.handler Kind.moderator j
        ∈ newCalls s (processModeratorCommandContainer env cont s).2 →
      InvokedBefore (newCalls s (processModeratorCommandContainer env cont s).2)
        (Call.handler Kind.moderator j) (Call.handler Kind.moderator i)) ∧
    (∀ i j : Nat, i < j →
      Call.handler Kind.admin i ∈ newCalls s (processAdminCommandContainer env cont s).2 →
      Call.handler Kind.admin j ∈ newCalls s (processAdminCommandContainer env cont s).2 →
      InvokedBefore (newCalls s (processAdminCommandContainer env cont s).2)
        (Call.handler Kind.admin j) (Call.handler Kind.admin i)) := by
  refine ⟨(processSessionCommandContainer_reaches env cont s).2.1, ?_, ?_, ?_, ?_, ?_⟩
  · intro i j hij hi hj
    exact invokedBefore_of_reaches _ _ _ _ _ (List.Sublist.refl _)
      (processSessionCommandContainer_reaches env cont s) i j hij hi hj
  · intro i j hij hi hj
    obtain ⟨L, hL, hr⟩ := processRoomCommandContainer_handlers env cont s
    exact invokedBefore_of_reaches L _ _ _ _ hL hr i j hij hi hj
  · intro i j hij hi hj
    obtain ⟨L, hL, hr⟩ := processGameCommandContainer_handlers env cont s
    exact invokedBefore_of_reaches L _ _ _ _ hL hr i j hij hi hj
  · intro i j hij hi hj
    obtain ⟨L, hL, hr⟩ := processModeratorCommandContainer_handlers env cont s
    exact invokedBefore_of_reaches L _ _ _ _ hL hr i j hij hi hj
  · intro i j hij hi hj
    obtain ⟨L, hL, hr⟩ := processAdminCommandContainer_handlers env cont s
    exact invokedBefore_of_reaches L _ _ _ _ hL hr i j hij hi hj

/-- Witness of C2 (amended) on the concrete batches: the handler of session
sub-command 1 is invoked before that of sub-command 0, and likewise for the
game and moderator batches. -/
theorem C2_handlers_in_reverse_order_witness :
    InvokedBefore (newCalls exSt (processSessionCommandContainer exEnv exCont exSt).2)
      (Call.handler Kind.session 1) (Call.handler Kind.session 0) ∧
    InvokedBefore (newCalls exSt (processGameCommandContainer exEnv exCont exSt).2)
      (Call.handler Kind.game 2) (Call.handler Kind.game 0) ∧
    InvokedBefore (newCalls exSt (processModeratorCommandContainer exEnv exCont exSt).2)
      (Call.handler Kind.moderator 1) (Call.handler Kind.moderator 0) :=
  ⟨(C2_handlers_in_reverse_order exEnv exCont exSt).2.1 0 1 (by decide) (by decide) (by decide),
   (C2_handlers_in_reverse_order exEnv exCont exSt).2.2.2.1 0 2 (by decide) (by decide)
     (by decide),
   (C2_handlers_in_reverse_order exEnv exCont exSt).2.2.2.2.1 0 1 (by decide) (by decide)
     (by decide)⟩

/-! ## Batch dispatch and response emission -/

theorem kindProcessor_handlers (env : Env) (k : Kind) (cont : CommandContainer) (s : St) :
    ∃ L : List Nat, L.Sublist (List.range (kindSize cont k)).reverse ∧
      Reaches (L.map (Call.handler k)) s (kindProcessor env k cont s).2 := by
  cases k with
  | game => exact processGameCommandContainer_handlers env cont s
  | room => exact processRoomCommandContainer_handlers env cont s
  | session =>
    exact ⟨_, List.Sublist.refl _, processSessionCommandContainer_reaches env cont s⟩
  | moderator => exact processModeratorCommandContainer_handlers env cont s
  | admin => exact processAdminCommandContainer_handlers env cont s

theorem dispatchCommandContainer_eq (env : Env) (cont : CommandContainer) (s : St) :
    dispatchCommandContainer env cont s =
      match selectedKind cont with
      | some k => kindProcessor env k cont s
      | none => (ResponseCode.RespInvalidCommand, s) := by
  unfold dispatchCommandContainer selectedKind
  by_cases hg : cont.game_command.length = 0
  · by_cases hr : cont.room_command.length = 0
    · by_cases hs : cont.session_command.length = 0
      · by_cases hm : cont.moderator_command.length = 0
        · by_cases ha : cont.admin_command.length = 0
          · simp [List.find?, kindSize, hg, hr, hs, hm, ha]
          · simp [List.find?, kindSize, kindProcessor, hg, hr, hs, hm, ha]
        · simp [List.find?, kindSize, kindProcessor, hg, hr, hs, hm]
      · simp [List.find?, kindSize, kindProcessor, hg, hr, hs]
    · simp [List.find?, kindSize, kindProcessor, hg, hr]
  · simp [List.find?, kindSize, kindProcessor, hg]

theorem processCommandContainer_eq (env : Env) (cont : CommandContainer) (s : St)
    (hlive : s.self.deleted = false) :
    processCommandContainer env cont s
      = respond (dispatchCommandContainer env cont (batchStart cont s)) := by
  simp [processCommandContainer, hlive, respond, batchStart]

theorem dispatchCommandContainer_reaches (env : Env) (cont : CommandContainer) (s : St) :
    ∃ hs : List Call, Reaches hs s (dispatchCommandContainer env cont s).2 ∧
      ∀ c ∈ hs, ∃ k i, selectedKind cont = some k ∧ i < kindSize cont k ∧
        c = Call.handler k i := by
  rw [dispatchCommandContainer_eq]
  cases hk : selectedKind cont with
  | none =>
    refine ⟨[], (Quietly.quiet_refl s).reaches, ?_⟩
    intro c hc
    cases hc
  | some k =>
    obtain ⟨L, hL, hr⟩ := kindProcessor_handlers env k cont s
    refine ⟨_, hr, ?_⟩
    intro c hc
    obtain ⟨i, hi, rfl⟩ := List.mem_map.mp hc
    have : i ∈ (List.range (kindSize cont k)).reverse := hL.subset hi
    refine ⟨k, i, rfl, ?_, rfl⟩
    simpa using this

theorem respond_newCalls (s : St) (r : ResponseCode × St) (hs : List Call)
    (h : Reaches hs s r.2) :
    handlerCalls (newCalls s (respond r)) = hs ∧
      responsesSent (newCalls s (respond r))
        = if r.1 ≠ ResponseCode.RespNothing then [(r.2.rc, r.1)] else [] := by
  obtain ⟨ext, hext, h1, h2⟩ := (reaches_iff hs s r.2).mp h
  unfold respond
  split
  · have ht : (r.2.call (Call.sendResponseContainer r.2.rc r.1)).trace
        = s.trace ++ (ext ++ [Call.sendResponseContainer r.2.rc r.1]) := by
      simp [hext]
    rw [newCalls_append _ _ _ ht, handlerCalls_append, responsesSent_append, h1, h2]
    simp [handlerCalls, responsesSent]
  · rw [newCalls_append _ _ _ hext, h1, h2]
    simp

theorem newCalls_batchStart (cont : CommandContainer) (s t : St) :
    newCalls (batchStart cont s) t = newCalls s t := rfl

/-- C3. On a torn-down session (`deleted` set) `processCommandContainer` leaves
the whole state, trace included, as it is: no response, no handler, no write to
`lastDataReceived`.  On a live session it sends exactly one response container,
carrying the final code of the dispatch, when that code is not `RespNothing`,
and sends none when it is `RespNothing`. -/
theorem C3_response_emission (env : Env) (cont : CommandContainer) (s : St) :
    (s.self.deleted = true → processCommandContainer env cont s = s) ∧
    (s.self.deleted = false →
      ((dispatchCommandContainer env cont (batchStart cont s)).1 ≠ ResponseCode.RespNothing →
        responsesSent (newCalls s (processCommandContainer env cont s))
          = [((dispatchCommandContainer env cont (batchStart cont s)).2.rc,
              (dispatchCommandContainer env cont (batchStart cont s)).1)]) ∧
      ((dispatchCommandContainer env cont (batchStart cont s)).1 = ResponseCode.RespNothing →
        responsesSent (newCalls s (processCommandContainer env cont s)) = [])) := by
  refine ⟨?_, ?_⟩
  · intro hdel
    simp [processCommandContainer, hdel]
  · intro hlive
    rw [processCommandContainer_eq env cont s hlive]
    obtain ⟨hs, hr, _⟩ := dispatchCommandContainer_reaches env cont (batchStart cont s)
    have h := (respond_newCalls (batchStart cont s) _ hs hr).2
    rw [newCalls_batchStart] at h
    refine ⟨?_, ?_⟩
    · intro hne
      rw [h, if_pos hne]
    · intro he
      rw [h, if_neg (not_not.mpr he)]

/-- Witness of C3: the concrete session after teardown drops the batch; the
live concrete session answers a game batch for the local game 10 with one
response, and a game batch for the external game 11 with none. -/
theorem C3_response_emission_witness :
    processCommandContainer exEnv exCont (prepareDestroy exSt) = prepareDestroy exSt ∧
    responsesSent (newCalls exSt (processCommandContainer exEnv exCont exSt))
      = [((dispatchCommandContainer exEnv exCont (batchStart exCont exSt)).2.rc,
          (dispatchCommandContainer exEnv exCont (batchStart exCont exSt)).1)] ∧
    responsesSent (newCalls exSt
      (processCommandContainer exEnv { exCont with game_id := 11 } exSt)) = [] :=
  ⟨(C3_response_emission exEnv exCont (prepareDestroy exSt)).1 (by decide),
   ((C3_response_emission exEnv exCont exSt).2 (by decide)).1 (by decide),
   ((C3_response_emission exEnv { exCont with game_id := 11 } exSt).2 (by decide)).2
     (by decide)⟩

/-- C4. On a live session `processCommandContainer` delegates the batch to the
processor of exactly one kind, the first kind with a non-empty sub-command list
in the order game > room > session > moderator > admin; every handler
invocation it makes is for a sub-command of that kind; and a batch with no
sub-command of any kind is answered with `RespInvalidCommand`, no handler being
invoked. -/
theorem C4_batch_classification (env : Env) (cont : CommandContainer) (s : St)
    (hlive : s.self.deleted = false) :
    processCommandContainer env cont s
      = respond (match selectedKind cont with
          | some k => kindProcessor env k cont (batchStart cont s)
          | none => (ResponseCode.RespInvalidCommand, batchStart cont s)) ∧
    (∀ k i, Call.handler k i ∈ newCalls s (processCommandContainer env cont s) →
      selectedKind cont = some k ∧ i < kindSize cont k) ∧
    (selectedKind cont = none →
      responsesSent (newCalls s (processCommandContainer env cont s))
        = [((batchStart cont s).rc, ResponseCode.RespInvalidCommand)] ∧
      handlerCalls (newCalls s (processCommandContainer env cont s)) = []) := by
  have heq := processCommandContainer_eq env cont s hlive
  obtain ⟨hs, hr, hmem⟩ := dispatchCommandContainer_reaches env cont (batchStart cont s)
  have h := respond_newCalls (batchStart cont s) _ hs hr
  rw [newCalls_batchStart, ← heq] at h
  refine ⟨?_, ?_, ?_⟩
  · rw [heq, dispatchCommandContainer_eq]
  · intro k i hki
    rw [← handler_mem_handlerCalls, h.1] at hki
    obtain ⟨k', i', hk', hi', hc⟩ := hmem _ hki
    cases hc
    exact ⟨hk', hi'⟩
  · intro hnone
    have hd : dispatchCommandContainer env cont (batchStart cont s)
        = (ResponseCode.RespInvalidCommand, batchStart cont s) := by
      rw [dispatchCommandContainer_eq, hnone]
    refine ⟨?_, ?_⟩
    · rw [h.2, hd]
      simp
    · rw [h.1]
      cases hs with
      | nil => rfl
      | cons c rest =>
        obtain ⟨k, i, hk, _, _⟩ := hmem c (List.mem_cons_self _ _)
        rw [hnone] at hk
        cases hk

/-- Witness of C4 on the live concrete session: the batch holds sub-commands of
all five kinds and only the game kind is handled. -/
theorem C4_batch_classification_witness :
    selectedKind exCont = some Kind.game ∧
    ∀ k i, Call.handler k i ∈ newCalls exSt (processCommandContainer exEnv exCont exSt) →
      selectedKind exCont = some k ∧ i < kindSize exCont k :=
  ⟨by decide, (C4_batch_classification exEnv exCont exSt (by decide)).2.1⟩

/-! ## Teardown -/

@[simp] theorem removeClient_deleted (room : Int) (s : St) :
    (removeClient room s).self.deleted = s.self.deleted := rfl

@[simp] theorem removeClient_rooms (room : Int) (s : St) :
    (removeClient room s).self.rooms = s.self.rooms := rfl

@[simp] theorem removeClient_games (room : Int) (s : St) :
    (removeClient room s).self.games = s.self.games := rfl

@[simp] theorem removeClient_ident (room : Int) (s : St) :
    (removeClient room s).self.ident = s.self.ident := rfl

@[simp] theorem disconnectClient_deleted (room game player : Int) (s : St) :
    (disconnectClient room game player s).self.deleted = s.self.deleted := rfl

@[simp] theorem disconnectClient_rooms (room game player : Int) (s : St) :
    (disconnectClient room game player s).self.rooms = s.self.rooms := rfl

@[simp] theorem disconnectClient_ident (room game player : Int) (s : St) :
    (disconnectClient room game player s).self.ident = s.self.ident := rfl

theorem prepareDestroyGame_frame (s : St) (e : Int × Int × Int) :
    (prepareDestroyGame s e).self.deleted = s.self.deleted ∧
      (prepareDestroyGame s e).self.rooms = s.self.rooms ∧
      (prepareDestroyGame s e).self.ident = s.self.ident := by
  unfold prepareDestroyGame
  (repeat' split) <;> simp

theorem foldl_removeClient_frame (l : List Int) (s : St) :
    (l.foldl (fun st room => removeClient room st) s).self.deleted = s.self.deleted ∧
      (l.foldl (fun st room => removeClient room st) s).self.rooms = s.self.rooms ∧
      (l.foldl (fun st room => removeClient room st) s).self.games = s.self.games ∧
      (l.foldl (fun st room => removeClient room st) s).self.ident = s.self.ident := by
  induction l generalizing s with
  | nil => simp
  | cons r rest ih =>
    simp only [List.foldl]
    have := ih (removeClient r s)
    simpa using this

theorem foldl_prepareDestroyGame_frame (l : List (Int × Int × Int)) (s : St) :
    (l.foldl prepareDestroyGame s).self.deleted = s.self.deleted ∧
      (l.foldl prepareDestroyGame s).self.rooms = s.self.rooms ∧
      (l.foldl prepareDestroyGame s).self.ident = s.self.ident := by
  induction l generalizing s with
  | nil => simp
  | cons e rest ih =>
    simp only [List.foldl]
    have h1 := ih (prepareDestroyGame s e)
    have h2 := prepareDestroyGame_frame s e
    exact ⟨h1.1.trans h2.1, h1.2.1.trans h2.2.1, h1.2.2.trans h2.2.2⟩

theorem prepareDestroy_deleted (s : St) : (prepareDestroy s).self.deleted = true := by
  unfold prepareDestroy
  split
  · assumption
  · simp only [St.call_self, serverRemoveClient, St.setServer]
    rw [(foldl_prepareDestroyGame_frame _ _).1]
    simp only [St.call_self]
    rw [(foldl_removeClient_frame _ _).1]
    rfl

theorem prepareDestroy_rooms (s : St) : (prepareDestroy s).self.rooms = s.self.rooms := by
  unfold prepareDestroy
  split
  · rfl
  · simp only [St.call_self, serverRemoveClient, St.setServer]
    rw [(foldl_prepareDestroyGame_frame _ _).2.1]
    simp only [St.call_self]
    rw [(foldl_removeClient_frame _ _).2.1]
    rfl

/-- C5. Teardown is idempotent: a second `prepareDestroy` returns the state the
first one left, the same in every component (session state, room memberships,
player seats, user directory, trace), and so makes no call at all, in
particular no `removeClient`, `disconnectClient` or `deleteLater`. -/
theorem C5_teardown_idempotent (s : St) :
    prepareDestroy (prepareDestroy s) = prepareDestroy s ∧
    newCalls (prepareDestroy s) (prepareDestroy (prepareDestroy s)) = [] := by
  have h : prepareDestroy (prepareDestroy s) = prepareDestroy s := by
    have hd := prepareDestroy_deleted s
    generalize prepareDestroy s = t at hd
    unfold prepareDestroy
    rw [if_pos hd]
  refine ⟨h, ?_⟩
  rw [h]
  simp [newCalls]

/-! ## Room membership -/

theorem find?_modifyFirst {α : Type} (key : α → Int) (k k' : Int) (f : α → α)
    (hf : ∀ a, key (f a) = key a) (l : List α) :
    (modifyFirst (fun a => decide (key a = k)) f l).find? (fun a => decide (key a = k'))
      = if k' = k then (l.find? (fun a => decide (key a = k))).map f
        else l.find? (fun a => decide (key a = k')) := by
  induction l with
  | nil => simp [modifyFirst]
  | cons a r ih =>
    by_cases hak : key a = k
    · by_cases hkk : k' = k
      · simp [modifyFirst, hak, hkk, hf]
      · have hkk2 : ¬ k = k' := fun h => hkk h.symm
        simp [modifyFirst, hak, hkk, hkk2, hf, List.find?_cons]
    · by_cases hkk : k' = k
      · subst hkk
        simp [modifyFirst, hak, List.find?_cons, ih]
      · by_cases hak' : key a = k'
        · simp [modifyFirst, hak, hkk, hak', List.find?_cons]
        · simp [modifyFirst, hak, hkk, hak', List.find?_cons, ih]

theorem findRoom_modifyRoom (srv : Server) (room id : Int) (f : Server_Room → Server_Room)
    (hf : ∀ r, (f r).id = r.id) :
    findRoom (srv.modifyRoom room f).rooms id
      = if id = room then (findRoom srv.rooms room).map f else findRoom srv.rooms id := by
  unfold findRoom Server.modifyRoom
  exact find?_modifyFirst (fun (r : Server_Room) => r.id) room id f hf srv.rooms

theorem findRoom_id (rooms : List Server_Room) (id : Int) (R : Server_Room)
    (h : findRoom rooms id = some R) : R.id = id := by
  have := List.find?_some h
  simpa using this

theorem mem_keys_insert (m : QMap Int) (k v x : Int) :
    x ∈ QMap.keys (QMap.insert m k v) ↔ x = k ∨ x ∈ QMap.keys m := by
  induction m with
  | nil => simp [QMap.insert, QMap.keys]
  | cons e r ih =>
    obtain ⟨k', v'⟩ := e
    simp only [QMap.insert]
    split
    · simp [QMap.keys]
    · split
      · rename_i h1 h2
        subst h2
        simp [QMap.keys]
      · simp only [QMap.keys, List.map_cons, List.mem_cons] at ih ⊢
        rw [ih]
        tauto

theorem mem_keys_remove (m : QMap Int) (k x : Int) :
    x ∈ QMap.keys (QMap.remove m k) ↔ x ≠ k ∧ x ∈ QMap.keys m := by
  simp only [QMap.keys, QMap.remove, List.mem_map, List.mem_filter, decide_eq_true_eq]
  constructor
  · rintro ⟨e, ⟨he, hne⟩, rfl⟩
    exact ⟨hne, e, he, rfl⟩
  · rintro ⟨hne, e, he, rfl⟩
    exact ⟨e, ⟨he, hne⟩, rfl⟩

theorem membershipInv_join (J : Nat → List Int) (h h' : Server_ProtocolHandler)
    (room : Server_Room)
    (hid : h'.ident = h.ident) (hrooms : h'.rooms = QMap.insert h.rooms room.id room.id)
    (hsrv : h'.server.rooms = (h.server.modifyRoom room.id
      (fun r => { r with clients := r.clients.insert h.ident })).rooms)
    (hinv : MembershipInv J h) : MembershipInv J h' := by
  intro id R hR p
  have hm := findRoom_modifyRoom h.server room.id id
    (fun r => { r with clients := r.clients.insert h.ident }) (fun _ => rfl)
  rw [hsrv, hm] at hR
  unfold joinedRooms
  rw [hid, hrooms]
  split at hR
  · rename_i hidk
    subst hidk
    cases hf : findRoom h.server.rooms room.id with
    | none => rw [hf] at hR; cases hR
    | some R0 =>
      rw [hf] at hR
      simp only [Option.map_some', Option.some.injEq] at hR
      subst hR
      have hR0 := findRoom_id _ _ _ hf
      have h0 := hinv _ _ hf p
      unfold joinedRooms at h0
      by_cases hp : p = h.ident
      · simp [hp, mem_keys_insert, hR0]
      · simp only [hp, if_false] at h0 ⊢
        rw [← h0]
        simp [List.mem_insert_iff, hp]
  · rename_i hidk
    have h0 := hinv _ _ hR p
    unfold joinedRooms at h0
    have hRid := findRoom_id _ _ _ hR
    by_cases hp : p = h.ident
    · simp only [hp, if_true] at h0 ⊢
      rw [mem_keys_insert, ← h0]
      constructor
      · intro hx; exact Or.inr hx
      · rintro (hx | hx)
        · exact absurd (hRid.symm.trans hx) hidk
        · exact hx
    · simp only [hp, if_false] at h0 ⊢
      exact h0

theorem membershipInv_leave (J : Nat → List Int) (h h' : Server_ProtocolHandler) (room : Int)
    (hid : h'.ident = h.ident) (hrooms : h'.rooms = QMap.remove h.rooms room)
    (hsrv : h'.server.rooms = (h.server.modifyRoom room
      (fun r => { r with clients := r.clients.filter (fun c => decide (c ≠ h.ident)) })).rooms)
    (hinv : MembershipInv J h) : MembershipInv J h' := by
  intro id R hR p
  have hm := findRoom_modifyRoom h.server room id
    (fun r => { r with clients := r.clients.filter (fun c => decide (c ≠ h.ident)) })
    (fun _ => rfl)
  rw [hsrv, hm] at hR
  unfold joinedRooms
  rw [hid, hrooms]
  split at hR
  · rename_i hidk
    subst hidk
    cases hf : findRoom h.server.rooms id with
    | none => rw [hf] at hR; cases hR
    | some R0 =>
      rw [hf] at hR
      simp only [Option.map_some', Option.some.injEq] at hR
      subst hR
      have hR0 := findRoom_id _ _ _ hf
      have h0 := hinv _ _ hf p
      unfold joinedRooms at h0
      by_cases hp : p = h.ident
      · simp [hp, mem_keys_remove, hR0]
      · simp only [hp, if_false] at h0 ⊢
        rw [← h0]
        simp [List.mem_filter, hp]
  · rename_i hidk
    have h0 := hinv _ _ hR p
    unfold joinedRooms at h0
    have hRid := findRoom_id _ _ _ hR
    by_cases hp : p = h.ident
    · simp only [hp, if_true] at h0 ⊢
      rw [mem_keys_remove, ← h0]
      constructor
      · intro hx
        exact ⟨fun he => hidk (hRid.symm.trans he), hx⟩
      · exact fun hx => hx.2
    · simp only [hp, if_false] at h0 ⊢
      exact h0

theorem cmdJoinRoom_membershipInv (J : Nat → List Int) (env : Env) (room_id : Int) (s : St)
    (hinv : MembershipInv J s.self) : MembershipInv J (cmdJoinRoom env room_id s).2.self := by
  unfold cmdJoinRoom
  dsimp only
  split
  · exact hinv
  · split
    · exact hinv
    · split
      · exact hinv
      · rename_i room hfind
        split
        · exact hinv
        · refine membershipInv_join J s.self _ room ?_ ?_ ?_ hinv <;>
            simp [addClient, St.setServer]

theorem cmdLeaveRoom_membershipInv (J : Nat → List Int) (room : Int) (s : St)
    (hinv : MembershipInv J s.self) : MembershipInv J (cmdLeaveRoom room s).2.self :=
  membershipInv_leave J s.self _ room rfl rfl rfl hinv

theorem map_modifyFirst {α β : Type} (p : α → Bool) (f : α → α) (g : α → β)
    (hf : ∀ a, g (f a) = g a) (l : List α) : (modifyFirst p f l).map g = l.map g := by
  induction l with
  | nil => rfl
  | cons a r ih =>
    simp only [modifyFirst]
    split
    · simp [hf]
    · simp [ih]

theorem seatIds_modifyRoom (srv : Server) (room : Int) (f : Server_Room → Server_Room)
    (hid : ∀ r, (f r).id = r.id) (hg : ∀ r, (f r).games.map gameSeats = r.games.map gameSeats) :
    seatIds (srv.modifyRoom room f).rooms = seatIds srv.rooms := by
  unfold seatIds Server.modifyRoom
  apply map_modifyFirst
  intro r
  rw [hid, hg]

theorem removeClient_seatIds (room : Int) (s : St) :
    seatIds (removeClient room s).self.server.rooms = seatIds s.self.server.rooms :=
  seatIds_modifyRoom _ _ _ (fun _ => rfl) (fun _ => rfl)

theorem disconnectClient_seatIds (room game player : Int) (s : St) :
    seatIds (disconnectClient room game player s).self.server.rooms
      = seatIds s.self.server.rooms := by
  refine seatIds_modifyRoom _ _ _ (fun _ => rfl) ?_
  intro r
  refine map_modifyFirst _ (disconnectInGame player) gameSeats ?_ r.games
  intro g
  unfold gameSeats
  refine Prod.ext rfl ?_
  exact map_modifyFirst _ clearPlayer (fun p => p.playerId) (fun _ => rfl) g.players

theorem prepareDestroyGame_seatIds (s : St) (e : Int × Int × Int) :
    seatIds (prepareDestroyGame s e).self.server.rooms = seatIds s.self.server.rooms := by
  unfold prepareDestroyGame
  (repeat' split) <;> simp [disconnectClient_seatIds]

theorem foldl_removeClient_seatIds (l : List Int) (s : St) :
    seatIds (l.foldl (fun st room => removeClient room st) s).self.server.rooms
      = seatIds s.self.server.rooms := by
  induction l generalizing s with
  | nil => rfl
  | cons r rest ih =>
    simp only [List.foldl]
    rw [ih, removeClient_seatIds]

theorem foldl_prepareDestroyGame_seatIds (l : List (Int × Int × Int)) (s : St) :
    seatIds (l.foldl prepareDestroyGame s).self.server.rooms = seatIds s.self.server.rooms := by
  induction l generalizing s with
  | nil => rfl
  | cons e rest ih =>
    simp only [List.foldl]
    rw [ih, prepareDestroyGame_seatIds]

theorem prepareDestroy_seatIds (s : St) :
    seatIds (prepareDestroy s).self.server.rooms = seatIds s.self.server.rooms := by
  unfold prepareDestroy
  split
  · rfl
  · simp only [St.call_self, serverRemoveClient, St.setServer]
    rw [foldl_prepareDestroyGame_seatIds]
    simp only [St.call_self]
    rw [foldl_removeClient_seatIds]
    rfl

theorem resolves_eq_resolvesIds (srv : Server) (e : Int × Int × Int) :
    resolves srv e = resolvesIds (seatIds srv.rooms) e := by
  unfold resolves resolvesIds seatIds findRoom
  rw [List.find?_map]
  cases hr : List.find? (fun r => decide (r.id = e.2.1)) srv.rooms with
  | none =>
    have : List.find? ((fun r : Int × List (Int × List Int) => decide (r.1 = e.2.1)) ∘
        fun r : Server_Room => (r.id, r.games.map gameSeats)) srv.rooms = none := hr
    rw [this]
    rfl
  | some room =>
    have : List.find? ((fun r : Int × List (Int × List Int) => decide (r.1 = e.2.1)) ∘
        fun r : Server_Room => (r.id, r.games.map gameSeats)) srv.rooms = some room := hr
    rw [this]
    simp only [Option.map_some']
    unfold findGame
    rw [List.find?_map]
    cases hg : List.find? (fun g => decide (g.gameId = e.1)) room.games with
    | none =>
      have : List.find? ((fun g : Int × List Int => decide (g.1 = e.1)) ∘ gameSeats)
          room.games = none := hg
      rw [this]
      rfl
    | some game =>
      have : List.find? ((fun g : Int × List Int => decide (g.1 = e.1)) ∘ gameSeats)
          room.games = some game := hg
      rw [this]
      simp only [Option.map_some']
      unfold findPlayer gameSeats
      simp only
      rw [List.find?_map]
      cases hp : List.find? (fun p => decide (p.playerId = e.2.2)) game.players with
      | none =>
        have : List.find? ((fun p : Int => decide (p = e.2.2)) ∘
            fun p : Server_Player => p.playerId) game.players = none := hp
        rw [this]
        rfl
      | some pl =>
        have : List.find? ((fun p : Int => decide (p = e.2.2)) ∘
            fun p : Server_Player => p.playerId) game.players = some pl := hp
        rw [this]
        rfl

theorem resolves_congr (srv srv' : Server) (h : seatIds srv.rooms = seatIds srv'.rooms)
    (e : Int × Int × Int) : resolves srv e = resolves srv' e := by
  rw [resolves_eq_resolvesIds, resolves_eq_resolvesIds, h]

theorem disconnects_iff (ds : List Call) (s t : St) :
    Disconnects ds s t ↔ ∃ ext, t.trace = s.trace ++ ext ∧ disconnectCalls ext = ds := by
  constructor
  · rintro ⟨⟨ext, hext⟩, h1⟩
    rw [newCalls_append s t ext hext.symm] at h1
    exact ⟨ext, hext.symm, h1⟩
  · rintro ⟨ext, hext, h1⟩
    refine ⟨⟨ext, hext.symm⟩, ?_⟩
    rw [newCalls_append s t ext hext]
    exact h1

theorem disconnectCalls_append (a b : List Call) :
    disconnectCalls (a ++ b) = disconnectCalls a ++ disconnectCalls b := by
  simp [disconnectCalls, List.filter_append]

theorem Disconnects.disc_trans {d1 d2 : List Call} {s t u : St} (a : Disconnects d1 s t)
    (b : Disconnects d2 t u) : Disconnects (d1 ++ d2) s u := by
  obtain ⟨e1, he1, ha1⟩ := (disconnects_iff d1 s t).mp a
  obtain ⟨e2, he2, ha2⟩ := (disconnects_iff d2 t u).mp b
  refine (disconnects_iff _ s u).mpr ⟨e1 ++ e2, by rw [he2, he1, List.append_assoc], ?_⟩
  rw [disconnectCalls_append, ha1, ha2]

theorem Disconnects.disc_of_trace_eq {s t : St} (h : t.trace = s.trace) : Disconnects [] s t :=
  (disconnects_iff [] s t).mpr ⟨[], by simp [h], rfl⟩

theorem Disconnects.nil_trans {d : List Call} {s t u : St} (a : Disconnects [] s t)
    (b : Disconnects d t u) : Disconnects d s u := by
  have := a.disc_trans b
  simpa using this

theorem Disconnects.trans_nil {d : List Call} {s t u : St} (a : Disconnects d s t)
    (b : Disconnects [] t u) : Disconnects d s u := by
  have := a.disc_trans b
  simpa using this

theorem prepareDestroyGame_disconnects (s : St) (e : Int × Int × Int) :
    Disconnects (if resolves s.self.server e = true then [disconnectCallOf e] else []) s
      (prepareDestroyGame s e) := by
  unfold prepareDestroyGame resolves
  cases hr : findRoom s.self.server.rooms e.2.1 with
  | none => simp [Disconnects, newCalls, disconnectCalls]
  | some room =>
    dsimp only
    cases hg : findGame room.games e.1 with
    | none => simp [Disconnects, newCalls, disconnectCalls]
    | some game =>
      dsimp only
      cases hp : findPlayer game.players e.2.2 with
      | none => simp [Disconnects, newCalls, disconnectCalls]
      | some pl => simp [Disconnects, newCalls, disconnectCalls, disconnectCallOf]

theorem prepareDestroyGame_skips (s : St) (e : Int × Int × Int)
    (h : resolves s.self.server e = false) : (prepareDestroyGame s e).self = s.self := by
  unfold resolves at h
  unfold prepareDestroyGame
  cases hr : findRoom s.self.server.rooms e.2.1 with
  | none => rfl
  | some room =>
    rw [hr] at h
    dsimp only at h ⊢
    cases hg : findGame room.games e.1 with
    | none => rfl
    | some game =>
      rw [hg] at h
      dsimp only at h ⊢
      cases hp : findPlayer game.players e.2.2 with
      | none => rfl
      | some pl =>
        rw [hp] at h
        cases h

theorem foldl_prepareDestroyGame_disconnects (l : List (Int × Int × Int)) (s : St) :
    Disconnects ((l.filter (fun e => resolves s.self.server e)).map disconnectCallOf) s
      (l.foldl prepareDestroyGame s) := by
  induction l generalizing s with
  | nil => exact Disconnects.disc_of_trace_eq rfl
  | cons e rest ih =>
    simp only [List.foldl]
    have h1 := prepareDestroyGame_disconnects s e
    have h2 := ih (prepareDestroyGame s e)
    have hres : (fun e' => resolves (prepareDestroyGame s e).self.server e')
        = (fun e' => resolves s.self.server e') := by
      funext e'
      exact resolves_congr _ _ (prepareDestroyGame_seatIds s e) e'
    rw [hres] at h2
    have h3 := h1.disc_trans h2
    by_cases hr : resolves s.self.server e = true
    · simpa [List.filter_cons, hr] using h3
    · simpa [List.filter_cons, hr] using h3

theorem foldl_removeClient_disconnects (l : List Int) (s : St) :
    Disconnects [] s (l.foldl (fun st room => removeClient room st) s) := by
  induction l generalizing s with
  | nil => exact Disconnects.disc_of_trace_eq rfl
  | cons r rest ih =>
    simp only [List.foldl]
    refine Disconnects.nil_trans ?_ (ih _)
    simp [Disconnects, newCalls, disconnectCalls]

theorem prepareDestroy_disconnects (s : St) (hlive : s.self.deleted = false) :
    Disconnects ((s.self.games.filter (fun e => resolves s.self.server e)).map
      disconnectCallOf) s (prepareDestroy s) := by
  unfold prepareDestroy
  rw [if_neg (by simp [hlive])]
  dsimp only
  have h1 := foldl_removeClient_disconnects
    (QMap.values s.self.rooms) s.setDeleted
  have hframe := foldl_removeClient_frame
    (QMap.values s.self.rooms) s.setDeleted
  have hseat := foldl_removeClient_seatIds
    (QMap.values s.self.rooms) s.setDeleted
  have hrooms : QMap.values s.setDeleted.self.rooms = QMap.values s.self.rooms := rfl
  have hg0 : s.setDeleted.self.games = s.self.games := rfl
  have hsrv0 : s.setDeleted.self.server = s.self.server := rfl
  rw [hrooms]
  rw [hg0] at hframe
  rw [hsrv0] at hseat
  generalize (QMap.values s.self.rooms).foldl (fun st room => removeClient room st)
    s.setDeleted = s2 at h1 hframe hseat
  have h0 : Disconnects [] s s2 :=
    Disconnects.nil_trans (Disconnects.disc_of_trace_eq rfl) h1
  have h2 := foldl_prepareDestroyGame_disconnects s2.self.games
    (s2.call (Call.lock Lock.roomsLock))
  have hres : (fun e' => resolves (s2.call (Call.lock Lock.roomsLock)).self.server e')
      = (fun e' => resolves s.self.server e') := by
    funext e'
    exact resolves_congr _ _ hseat e'
  rw [hres, hframe.2.2.1] at h2
  have hgames : s2.self.games = s.self.games := hframe.2.2.1
  rw [hgames]
  generalize List.foldl prepareDestroyGame (s2.call (Call.lock Lock.roomsLock)) s.self.games
    = s4 at h2
  have hlock : Disconnects [] s2 (s2.call (Call.lock Lock.roomsLock)) := by
    simp [Disconnects, newCalls, disconnectCalls]
  have h3 := Disconnects.nil_trans h0 (Disconnects.nil_trans hlock h2)
  refine h3.trans_nil ?_
  simp [Disconnects, newCalls, disconnectCalls]

theorem ClientsStep.clients_refl (ident : Nat) (R : Server_Room) : ClientsStep ident R R :=
  ⟨rfl, fun _ h => h, fun _ _ h => h⟩

theorem ClientsStep.clients_trans {ident : Nat} {R R' R'' : Server_Room} (a : ClientsStep ident R R')
    (b : ClientsStep ident R' R'') : ClientsStep ident R R'' :=
  ⟨b.1.trans a.1, fun p h => a.2.1 p (b.2.1 p h), fun p hp h => b.2.2 p hp (a.2.2 p hp h)⟩

theorem RoomsStep.rooms_refl (ident : Nat) (l : List Server_Room) : RoomsStep ident l l :=
  fun _ R' h => ⟨R', h, ClientsStep.clients_refl ident R'⟩

theorem RoomsStep.rooms_trans {ident : Nat} {l l' l'' : List Server_Room} (a : RoomsStep ident l l')
    (b : RoomsStep ident l' l'') : RoomsStep ident l l'' := by
  intro id R'' h
  obtain ⟨R', h', c'⟩ := b id R'' h
  obtain ⟨R, h0, c⟩ := a id R' h'
  exact ⟨R, h0, c.clients_trans c'⟩

theorem roomsStep_modifyRoom (ident : Nat) (srv : Server) (room : Int)
    (f : Server_Room → Server_Room) (hf : ∀ r, ClientsStep ident r (f r)) :
    RoomsStep ident srv.rooms (srv.modifyRoom room f).rooms := by
  intro id R' h
  rw [findRoom_modifyRoom srv room id f (fun r => (hf r).1)] at h
  split at h
  · rename_i hid
    subst hid
    cases hf0 : findRoom srv.rooms id with
    | none => rw [hf0] at h; cases h
    | some R =>
      rw [hf0] at h
      simp only [Option.map_some', Option.some.injEq] at h
      subst h
      exact ⟨R, rfl, hf R⟩
  · exact ⟨R', h, ClientsStep.clients_refl ident R'⟩

theorem removeClient_roomsStep (room : Int) (s : St) :
    RoomsStep s.self.ident s.self.server.rooms (removeClient room s).self.server.rooms := by
  apply roomsStep_modifyRoom
  intro r
  refine ⟨rfl, ?_, ?_⟩
  · intro p hp
    exact (List.mem_filter.mp hp).1
  · intro p hne hp
    exact List.mem_filter.mpr ⟨hp, by simpa using hne⟩

theorem disconnectClient_roomsStep (room game player : Int) (s : St) :
    RoomsStep s.self.ident s.self.server.rooms
      (disconnectClient room game player s).self.server.rooms := by
  apply roomsStep_modifyRoom
  intro r
  exact ⟨rfl, fun _ h => h, fun _ _ h => h⟩

theorem prepareDestroyGame_roomsStep (s : St) (e : Int × Int × Int) :
    RoomsStep s.self.ident s.self.server.rooms (prepareDestroyGame s e).self.server.rooms := by
  unfold prepareDestroyGame
  (repeat' split) <;> first
    | exact RoomsStep.rooms_refl _ _
    | exact disconnectClient_roomsStep _ _ _ _

theorem foldl_removeClient_roomsStep (l : List Int) (s : St) :
    RoomsStep s.self.ident s.self.server.rooms
      (l.foldl (fun st room => removeClient room st) s).self.server.rooms := by
  induction l generalizing s with
  | nil => exact RoomsStep.rooms_refl _ _
  | cons r rest ih =>
    simp only [List.foldl]
    exact (removeClient_roomsStep r s).rooms_trans (ih (removeClient r s))

theorem foldl_prepareDestroyGame_roomsStep (l : List (Int × Int × Int)) (s : St) :
    RoomsStep s.self.ident s.self.server.rooms
      (l.foldl prepareDestroyGame s).self.server.rooms := by
  induction l generalizing s with
  | nil => exact RoomsStep.rooms_refl _ _
  | cons e rest ih =>
    simp only [List.foldl]
    have h := ih (prepareDestroyGame s e)
    rw [(prepareDestroyGame_frame s e).2.2] at h
    exact (prepareDestroyGame_roomsStep s e).rooms_trans h

theorem foldl_removeClient_removed (l : List Int) (s : St) (id : Int) (hid : id ∈ l)
    (R' : Server_Room)
    (h : findRoom (l.foldl (fun st room => removeClient room st) s).self.server.rooms id
      = some R') : s.self.ident ∉ R'.clients := by
  induction l generalizing s with
  | nil => cases hid
  | cons v rest ih =>
    simp only [List.foldl] at h
    by_cases hrest : id ∈ rest
    · exact ih (removeClient v s) hrest h
    · have hv : id = v := by
        rcases List.mem_cons.mp hid with hv | hv
        · exact hv
        · exact absurd hv hrest
      subst hv
      obtain ⟨R1, h1, c⟩ := foldl_removeClient_roomsStep rest (removeClient id s) id R' h
      have hm := findRoom_modifyRoom s.self.server id id
        (fun r => { r with clients := r.clients.filter (fun c => decide (c ≠ s.self.ident)) })
        (fun _ => rfl)
      have h1' : findRoom (s.self.server.modifyRoom id
        (fun r => { r with clients := r.clients.filter (fun c => decide (c ≠ s.self.ident)) })).rooms
        id = some R1 := h1
      rw [hm, if_pos rfl] at h1'
      cases hf0 : findRoom s.self.server.rooms id with
      | none => rw [hf0] at h1'; cases h1'
      | some R0 =>
        rw [hf0] at h1'
        simp only [Option.map_some', Option.some.injEq] at h1'
        subst h1'
        intro hmem
        have := c.2.1 _ hmem
        simp [List.mem_filter] at this

theorem prepareDestroy_roomsStep (s : St) :
    RoomsStep s.self.ident s.self.server.rooms (prepareDestroy s).self.server.rooms := by
  unfold prepareDestroy
  split
  · exact RoomsStep.rooms_refl _ _
  · dsimp only
    have h1 := foldl_removeClient_roomsStep (QMap.values s.setDeleted.self.rooms) s.setDeleted
    have hf := foldl_removeClient_frame (QMap.values s.setDeleted.self.rooms) s.setDeleted
    generalize (QMap.values s.setDeleted.self.rooms).foldl
      (fun st room => removeClient room st) s.setDeleted = s2 at h1 hf
    have h2 := foldl_prepareDestroyGame_roomsStep s2.self.games
      (s2.call (Call.lock Lock.roomsLock))
    have hid : (s2.call (Call.lock Lock.roomsLock)).self.ident = s.self.ident := hf.2.2.2
    rw [hid] at h2
    exact RoomsStep.rooms_trans h1 h2

theorem prepareDestroy_removed (s : St) (hlive : s.self.deleted = false) (id : Int)
    (hid : id ∈ QMap.values s.self.rooms) (R' : Server_Room)
    (h : findRoom (prepareDestroy s).self.server.rooms id = some R') :
    s.self.ident ∉ R'.clients := by
  unfold prepareDestroy at h
  rw [if_neg (by simp [hlive])] at h
  dsimp only at h
  have hrem := foldl_removeClient_removed (QMap.values s.setDeleted.self.rooms) s.setDeleted id hid
  have hf := foldl_removeClient_frame (QMap.values s.setDeleted.self.rooms) s.setDeleted
  generalize (QMap.values s.setDeleted.self.rooms).foldl
    (fun st room => removeClient room st) s.setDeleted = s2 at h hrem hf
  have h2 := foldl_prepareDestroyGame_roomsStep s2.self.games
    (s2.call (Call.lock Lock.roomsLock))
  obtain ⟨R1, h1, c⟩ := h2 id R' h
  have := hrem R1 h1
  intro hmem
  exact this (c.2.1 _ hmem)

theorem exSt_membershipInv : MembershipInv exJoined exSt.self := by
  intro id R hR p
  have hmem : R ∈ exSt.self.server.rooms := List.mem_of_find?_eq_some hR
  simp only [exSt, exSelf, exServer, List.mem_cons, List.mem_singleton, List.not_mem_nil,
    or_false] at hmem
  rcases hmem with rfl | rfl
  · by_cases h1 : p = 1
    · subst h1; decide
    · by_cases h2 : p = 2
      · subst h2; decide
      · simp [joinedRooms, exJoined, exSt, exSelf, h1, h2]
  · by_cases h1 : p = 1
    · subst h1; decide
    · by_cases h2 : p = 2
      · subst h2; decide
      · simp [joinedRooms, exJoined, exSt, exSelf, h1, h2]

/-- C6, as stated, fails for teardown: the concrete session (alice, member of
room 3, with room 3 in its joined-room map) satisfies the membership invariant,
and after `prepareDestroy` it does not: alice is no longer a client of room 3
while room 3 is still a key of her joined-room map. -/
theorem C6_counterexample :
    MembershipInv exJoined exSt.self ∧ ¬ MembershipInv exJoined (prepareDestroy exSt).self := by
  refine ⟨exSt_membershipInv, ?_⟩
  intro hinv
  have h := hinv 3 _ (by decide : findRoom (prepareDestroy exSt).self.server.rooms 3
    = some { id := 3, name := "Main", clients := [2],
             games := [{ gameId := 10,
                         players := [{ playerId := 0, userInterface := none },
                                     { playerId := 1, userInterface := some 2 }] }],
             externalGames := [(11, 5)],
             chatHistory := [{ sender_name := "bob", message := "hi", time := "t" }],
             joinMessage := "Welcome" }) 1
  revert h
  decide

/-- C6, amended.  The membership invariant (a session is in a room's client
membership set if and only if the room's id is a key of its joined-room map)
is preserved by `cmdJoinRoom`, whether it succeeds or fails, and by
`cmdLeaveRoom`.  `prepareDestroy` leaves the joined-room map as it is, keeps the
invariant for every other session, and removes the session from the client
membership set of every room its joined-room map points to. -/
theorem C6_membership_invariant (J : Nat → List Int) (env : Env) (s : St)
    (hinv : MembershipInv J s.self) :
    (∀ room_id, MembershipInv J (cmdJoinRoom env room_id s).2.self) ∧
    (∀ room, MembershipInv J (cmdLeaveRoom room s).2.self) ∧
    (prepareDestroy s).self.rooms = s.self.rooms ∧
    (∀ id R', findRoom (prepareDestroy s).self.server.rooms id = some R' →
      ∀ p, p ≠ s.self.ident → (p ∈ R'.clients ↔ R'.id ∈ J p)) ∧
    (s.self.deleted = false → ∀ id ∈ QMap.values s.self.rooms, ∀ R',
      findRoom (prepareDestroy s).self.server.rooms id = some R' →
      s.self.ident ∉ R'.clients) := by
  refine ⟨fun room_id => cmdJoinRoom_membershipInv J env room_id s hinv,
    fun room => cmdLeaveRoom_membershipInv J room s hinv,
    prepareDestroy_rooms s, ?_, ?_⟩
  · intro id R' h p hp
    obtain ⟨R, hR, c⟩ := prepareDestroy_roomsStep s id R' h
    have h0 := hinv id R hR p
    unfold joinedRooms at h0
    rw [if_neg hp] at h0
    rw [c.1, ← h0]
    exact ⟨c.2.1 p, c.2.2 p hp⟩
  · intro hlive id hid R' h
    exact prepareDestroy_removed s hlive id hid R' h

/-- Witness of C6 (amended) on the concrete session, which satisfies the
invariant: joining room 4 and leaving room 3 keep it. -/
theorem C6_membership_invariant_witness :
    MembershipInv exJoined (cmdJoinRoom exEnv 4 exSt).2.self ∧
    MembershipInv exJoined (cmdLeaveRoom 3 exSt).2.self :=
  ⟨(C6_membership_invariant exJoined exEnv exSt exSt_membershipInv).1 4,
   (C6_membership_invariant exJoined exEnv exSt exSt_membershipInv).2.1 3⟩

theorem resolves_eq_seatOf (srv : Server) (e : Int × Int × Int) :
    resolves srv e = (seatOf srv e).isSome := by
  unfold resolves seatOf
  cases findRoom srv.rooms e.2.1 with
  | none => rfl
  | some room =>
    dsimp only
    cases findGame room.games e.1 with
    | none => rfl
    | some game => rfl

theorem seatOf_disconnectClient (room game player : Int) (t : St) (e : Int × Int × Int) :
    seatOf (disconnectClient room game player t).self.server e
      = if e.2.1 = room ∧ e.1 = game ∧ e.2.2 = player then
          (seatOf t.self.server e).map clearPlayer
        else seatOf t.self.server e := by
  have hroom := findRoom_modifyRoom t.self.server room e.2.1 (disconnectInRoom game player)
    (fun _ => rfl)
  have hsrv : (disconnectClient room game player t).self.server
      = t.self.server.modifyRoom room (disconnectInRoom game player) := rfl
  unfold seatOf
  rw [hsrv, hroom]
  by_cases hr : e.2.1 = room
  · rw [if_pos hr, ← hr]
    cases hfr : findRoom t.self.server.rooms e.2.1 with
    | none => simp
    | some R =>
      simp only [Option.map_some']
      have hgame := find?_modifyFirst (fun g : Server_Game => g.gameId) game e.1
        (disconnectInGame player) (fun _ => rfl) R.games
      have hgame2 : findGame (disconnectInRoom game player R).games e.1
          = if e.1 = game then (findGame R.games game).map (disconnectInGame player)
            else findGame R.games e.1 := hgame
      rw [hgame2]
      by_cases hg : e.1 = game
      · rw [if_pos hg, ← hg]
        cases hfg : findGame R.games e.1 with
        | none => simp
        | some G =>
          simp only [Option.map_some']
          have hpl := find?_modifyFirst (fun p : Server_Player => p.playerId) player e.2.2
            clearPlayer (fun _ => rfl) G.players
          have hpl2 : findPlayer (disconnectInGame player G).players e.2.2
              = if e.2.2 = player then (findPlayer G.players player).map clearPlayer
                else findPlayer G.players e.2.2 := hpl
          rw [hpl2]
          by_cases hp : e.2.2 = player
          · simp [hp]
          · simp [hp]
      · rw [if_neg hg]
        simp [hg]
  · rw [if_neg hr]
    simp [hr]

theorem seatCleared_disconnectClient (room game player : Int) (t : St) (e : Int × Int × Int)
    (h : SeatCleared t.self.server e) :
    SeatCleared (disconnectClient room game player t).self.server e := by
  obtain ⟨P, hP, hnone⟩ := h
  unfold SeatCleared
  rw [seatOf_disconnectClient, hP]
  split
  · exact ⟨_, rfl, rfl⟩
  · exact ⟨P, rfl, hnone⟩

theorem prepareDestroyGame_server (t : St) (e : Int × Int × Int) :
    (prepareDestroyGame t e).self.server
      = if resolves t.self.server e = true
        then (disconnectClient e.2.1 e.1 e.2.2 t).self.server else t.self.server := by
  unfold prepareDestroyGame resolves
  cases findRoom t.self.server.rooms e.2.1 with
  | none => rfl
  | some room =>
    dsimp only
    cases findGame room.games e.1 with
    | none => rfl
    | some game =>
      dsimp only
      cases findPlayer game.players e.2.2 with
      | none => rfl
      | some pl => rfl

theorem prepareDestroyGame_seatCleared (t : St) (e e' : Int × Int × Int)
    (h : SeatCleared t.self.server e) : SeatCleared (prepareDestroyGame t e').self.server e := by
  rw [prepareDestroyGame_server]
  split
  · exact seatCleared_disconnectClient _ _ _ t e h
  · exact h

theorem prepareDestroyGame_clears (t : St) (e : Int × Int × Int)
    (h : resolves t.self.server e = true) : SeatCleared (prepareDestroyGame t e).self.server e := by
  rw [prepareDestroyGame_server, if_pos h]
  unfold SeatCleared
  rw [seatOf_disconnectClient, if_pos ⟨rfl, rfl, rfl⟩]
  rw [resolves_eq_seatOf] at h
  cases hs : seatOf t.self.server e with
  | none => rw [hs] at h; cases h
  | some P => exact ⟨_, rfl, rfl⟩

theorem foldl_prepareDestroyGame_seatCleared (l : List (Int × Int × Int)) (t : St)
    (e : Int × Int × Int) (h : SeatCleared t.self.server e) :
    SeatCleared (l.foldl prepareDestroyGame t).self.server e := by
  induction l generalizing t with
  | nil => exact h
  | cons a rest ih =>
    simp only [List.foldl]
    exact ih _ (prepareDestroyGame_seatCleared t e a h)

theorem foldl_prepareDestroyGame_clears (l : List (Int × Int × Int)) (t : St)
    (e : Int × Int × Int) (he : e ∈ l) (h : resolves t.self.server e = true) :
    SeatCleared (l.foldl prepareDestroyGame t).self.server e := by
  induction l generalizing t with
  | nil => cases he
  | cons a rest ih =>
    simp only [List.foldl]
    rcases List.mem_cons.mp he with hea | her
    · rw [← hea]
      exact foldl_prepareDestroyGame_seatCleared rest _ e (prepareDestroyGame_clears t e h)
    · apply ih _ her
      rw [resolves_congr _ _ (prepareDestroyGame_seatIds t a) e]
      exact h

theorem prepareDestroy_clears (s : St) (hlive : s.self.deleted = false)
    (e : Int × Int × Int) (he : e ∈ s.self.games) (h : resolves s.self.server e = true) :
    SeatCleared (prepareDestroy s).self.server e := by
  unfold prepareDestroy
  rw [if_neg (by simp [hlive])]
  dsimp only
  have hframe := foldl_removeClient_frame (QMap.values s.setDeleted.self.rooms) s.setDeleted
  have hseat := foldl_removeClient_seatIds (QMap.values s.setDeleted.self.rooms) s.setDeleted
  generalize (QMap.values s.setDeleted.self.rooms).foldl
    (fun st room => removeClient room st) s.setDeleted = s2 at hframe hseat
  have hg : s2.self.games = s.self.games := hframe.2.2.1
  have hres : resolves (s2.call (Call.lock Lock.roomsLock)).self.server e = true := by
    rw [← h]
    exact resolves_congr _ _ hseat e
  have hc := foldl_prepareDestroyGame_clears s2.self.games
    (s2.call (Call.lock Lock.roomsLock)) e (hg ▸ he) hres
  exact hc

theorem count_map_disconnectCallOf (l : List (Int × Int × Int)) (e : Int × Int × Int)
    (he : e ∈ l) (hnd : (QMap.keys l).Nodup) :
    (l.map disconnectCallOf).count (disconnectCallOf e) = 1 := by
  induction l with
  | nil => cases he
  | cons a r ih =>
    simp only [QMap.keys, List.map_cons, List.nodup_cons] at hnd
    rcases List.mem_cons.mp he with rfl | her
    · have hnot : disconnectCallOf e ∉ r.map disconnectCallOf := by
        intro hm
        obtain ⟨x, hx, hxe⟩ := List.mem_map.mp hm
        have hk : x.1 = e.1 := by
          simp only [disconnectCallOf, Call.disconnectClient.injEq] at hxe
          exact hxe.2.1
        exact hnd.1 (hk ▸ List.mem_map_of_mem Prod.fst hx)
      simp [List.count_cons, List.count_eq_zero_of_not_mem hnot]
    · have hne : disconnectCallOf a ≠ disconnectCallOf e := by
        intro hae
        have hk : a.1 = e.1 := by
          simp only [disconnectCallOf, Call.disconnectClient.injEq] at hae
          exact hae.2.1
        exact hnd.1 (hk ▸ List.mem_map_of_mem Prod.fst her)
      have := ih her hnd.2
      simp only [QMap.keys] at this
      simp [List.count_cons, hne, this]

theorem count_disconnectCalls (calls : List Call) (e : Int × Int × Int) :
    (disconnectCalls calls).count (disconnectCallOf e) = calls.count (disconnectCallOf e) := by
  unfold disconnectCalls
  rw [List.count_filter]
  rfl

/-- C7. The first `prepareDestroy` of a live session makes, in the order of the
game map, one `disconnectClient` call for each entry
`game id -> (room id, seat id)` whose room, game and player all exist, and none
for the others: with the keys of the game map distinct, the player of a
resolving entry is marked disconnected exactly once; an entry that does not
resolve is skipped with no effect on the state; after the teardown the seat of
every resolving entry is still there with its back-reference clear; and the
ids of the rooms, of the games of every room and of the seats of every game's
player directory are the same as before. -/
theorem C7_teardown_disconnects_seats (s : St) (hlive : s.self.deleted = false) :
    disconnectCalls (newCalls s (prepareDestroy s))
      = (s.self.games.filter (fun e => resolves s.self.server e)).map disconnectCallOf ∧
    ((QMap.keys s.self.games).Nodup → ∀ e ∈ s.self.games, resolves s.self.server e = true →
      (newCalls s (prepareDestroy s)).count (disconnectCallOf e) = 1) ∧
    (∀ e ∈ s.self.games, resolves s.self.server e = false →
      disconnectCallOf e ∉ newCalls s (prepareDestroy s)) ∧
    (∀ (t : St) (e : Int × Int × Int), resolves t.self.server e = false →
      (prepareDestroyGame t e).self = t.self ∧
      disconnectCalls (newCalls t (prepareDestroyGame t e)) = []) ∧
    (∀ e ∈ s.self.games, resolves s.self.server e = true →
      SeatCleared (prepareDestroy s).self.server e) ∧
    seatIds (prepareDestroy s).self.server.rooms = seatIds s.self.server.rooms := by
  have hd := (prepareDestroy_disconnects s hlive).2
  refine ⟨hd, ?_, ?_, ?_, fun e he h => prepareDestroy_clears s hlive e he h,
    prepareDestroy_seatIds s⟩
  · intro hnd e he hres
    rw [← count_disconnectCalls, hd]
    have hsub : (s.self.games.filter (fun e => resolves s.self.server e)).Sublist s.self.games :=
      List.filter_sublist _
    have hnd2 : (QMap.keys (s.self.games.filter (fun e => resolves s.self.server e))).Nodup :=
      hnd.sublist (hsub.map Prod.fst)
    exact count_map_disconnectCallOf _ e (List.mem_filter.mpr ⟨he, hres⟩) hnd2
  · intro e he hres hmem
    have hmem2 : disconnectCallOf e ∈ disconnectCalls (newCalls s (prepareDestroy s)) := by
      unfold disconnectCalls
      exact List.mem_filter.mpr ⟨hmem, rfl⟩
    rw [hd] at hmem2
    obtain ⟨x, hx, hxe⟩ := List.mem_map.mp hmem2
    have hxres := (List.mem_filter.mp hx).2
    have hx_eq : x = e := by
      simp only [disconnectCallOf, Call.disconnectClient.injEq] at hxe
      exact Prod.ext hxe.2.1 (Prod.ext hxe.1 hxe.2.2)
    rw [hx_eq] at hxres
    simp [hres] at hxres
  · intro t e hres
    refine ⟨prepareDestroyGame_skips t e hres, ?_⟩
    have := (prepareDestroyGame_disconnects t e).2
    rw [hres] at this
    simpa using this

/-- Witness of C7 on the concrete live session, whose game map has one
resolving entry (game 10, room 3, seat 0) and two that do not resolve. -/
theorem C7_teardown_disconnects_seats_witness :
    disconnectCalls (newCalls exSt (prepareDestroy exSt)) = [Call.disconnectClient 3 10 0] ∧
    (newCalls exSt (prepareDestroy exSt)).count (disconnectCallOf (10, (3, 0))) = 1 ∧
    disconnectCallOf (12, (9, 0)) ∉ newCalls exSt (prepareDestroy exSt) :=
  ⟨(C7_teardown_disconnects_seats exSt (by decide)).1.trans (by decide),
   (C7_teardown_disconnects_seats exSt (by decide)).2.1 (by decide) (10, (3, 0)) (by decide)
     (by decide),
   (C7_teardown_disconnects_seats exSt (by decide)).2.2.1 (12, (9, 0)) (by decide) (by decide)⟩

/-! ## Gates -/

/-- C8. While `authState` is `NotLoggedIn`, every room-kind and game-kind batch
returns `RespLoginNeeded` and leaves the whole state as it is; each of the
handlers of MESSAGE, GET_GAMES_OF_USER, GET_USER_INFO, LIST_ROOMS, JOIN_ROOM and
LIST_USERS returns `RespLoginNeeded` and leaves the whole state as it is, so
that in a session batch such a sub-command changes neither the handler object
(joined-room map, rate-limit windows, idle timer, subscription flags) nor the
response container; PING returns `RespOk` whatever `authState` is. -/
theorem C8_authentication_gate (env : Env) (cont : CommandContainer) (s : St)
    (h : s.self.authState = AuthenticationResult.NotLoggedIn) :
    processRoomCommandContainer env cont s = (ResponseCode.RespLoginNeeded, s) ∧
    processGameCommandContainer env cont s = (ResponseCode.RespLoginNeeded, s) ∧
    (∀ cmd, cmdMessage env cmd s = (ResponseCode.RespLoginNeeded, s)) ∧
    (∀ user_name, cmdGetGamesOfUser env user_name s = (ResponseCode.RespLoginNeeded, s)) ∧
    (∀ user_name, cmdGetUserInfo env user_name s = (ResponseCode.RespLoginNeeded, s)) ∧
    cmdListRooms s = (ResponseCode.RespLoginNeeded, s) ∧
    (∀ room_id, cmdJoinRoom env room_id s = (ResponseCode.RespLoginNeeded, s)) ∧
    cmdListUsers env s = (ResponseCode.RespLoginNeeded, s) ∧
    (∀ (i : Nat) (sc : SessionCommand), sc.needsLogin = true →
      (sessionCommandStep env i sc s).1 = ResponseCode.RespLoginNeeded ∧
      (sessionCommandStep env i sc s).2.self = s.self ∧
      (sessionCommandStep env i sc s).2.rc = s.rc) ∧
    (∀ (i : Nat) (t : St), cmdPing t = (ResponseCode.RespOk, t) ∧
      (sessionCommandStep env i SessionCommand.PING t).1 = ResponseCode.RespOk ∧
      (sessionCommandStep env i SessionCommand.PING t).2.self = t.self ∧
      (sessionCommandStep env i SessionCommand.PING t).2.rc = t.rc) := by
  refine ⟨?_, ?_, ?_, ?_, ?_, ?_, ?_, ?_, ?_, ?_⟩
  · simp [processRoomCommandContainer, h]
  · simp [processGameCommandContainer, h]
  · intro cmd; simp [cmdMessage, h]
  · intro u; simp [cmdGetGamesOfUser, h]
  · intro u; simp [cmdGetUserInfo, h]
  · simp [cmdListRooms, h]
  · intro r; simp [cmdJoinRoom, h]
  · simp [cmdListUsers, h]
  · intro i sc hsc
    cases sc <;> simp [SessionCommand.needsLogin] at hsc <;>
      simp [sessionCommandStep, cmdMessage, cmdGetGamesOfUser, cmdGetUserInfo, cmdListRooms,
        cmdJoinRoom, cmdListUsers, h]
  · intro i t
    exact ⟨rfl, rfl, rfl, rfl⟩

/-- Witness of C8 on the concrete session before login. -/
theorem C8_authentication_gate_witness :
    processRoomCommandContainer exEnv exCont exStLoggedOut
      = (ResponseCode.RespLoginNeeded, exStLoggedOut) ∧
    (sessionCommandStep exEnv 0 (SessionCommand.JOIN_ROOM 3) exStLoggedOut).1
      = ResponseCode.RespLoginNeeded :=
  ⟨(C8_authentication_gate exEnv exCont exStLoggedOut rfl).1,
   ((C8_authentication_gate exEnv exCont exStLoggedOut rfl).2.2.2.2.2.2.2.2.1 0
      (SessionCommand.JOIN_ROOM 3) rfl).1⟩

/-- C9. For an authenticated session, `processGameCommandContainer` returns
`RespNotInRoom`, hands no sub-command to a seat handler and leaves the handler
object (rate-limit windows, idle timer) and the response container as they
are, whenever the game id is not in the session's game map, or the mapped room
is not in the room directory, or the game is in neither the room's local games
nor its external games, or the mapped seat is not in the game's player
directory; when the game is absent locally and present in the room's external
games it forwards the batch exactly once and returns `RespNothing`. -/
theorem C9_game_resolution (env : Env) (cont : CommandContainer) (s : St)
    (hauth : s.self.authState ≠ AuthenticationResult.NotLoggedIn) :
    (QMap.value s.self.games cont.game_id = none →
      processGameCommandContainer env cont s = (ResponseCode.RespNotInRoom, s)) ∧
    (∀ rp, QMap.value s.self.games cont.game_id = some rp →
      (findRoom s.self.server.rooms rp.1 = none ∨
        (∃ room, findRoom s.self.server.rooms rp.1 = some room ∧
          findGame room.games cont.game_id = none ∧
          QMap.value room.externalGames cont.game_id = none) ∨
        (∃ room game, findRoom s.self.server.rooms rp.1 = some room ∧
          findGame room.games cont.game_id = some game ∧
          findPlayer game.players rp.2 = none)) →
      (processGameCommandContainer env cont s).1 = ResponseCode.RespNotInRoom ∧
      (processGameCommandContainer env cont s).2.self = s.self ∧
      (processGameCommandContainer env cont s).2.rc = s.rc ∧
      handlerCalls (newCalls s (processGameCommandContainer env cont s).2) = [] ∧
      forwardCalls (newCalls s (processGameCommandContainer env cont s).2) = []) ∧
    (∀ rp room server_id, QMap.value s.self.games cont.game_id = some rp →
      findRoom s.self.server.rooms rp.1 = some room →
      findGame room.games cont.game_id = none →
      QMap.value room.externalGames cont.game_id = some server_id →
      (processGameCommandContainer env cont s).1 = ResponseCode.RespNothing ∧
      (processGameCommandContainer env cont s).2.self = s.self ∧
      (processGameCommandContainer env cont s).2.rc = s.rc ∧
      handlerCalls (newCalls s (processGameCommandContainer env cont s).2) = [] ∧
      forwardCalls (newCalls s (processGameCommandContainer env cont s).2)
        = [Call.sendIsl_GameCommand server_id s.self.user.session_id rp.1 rp.2]) := by
  refine ⟨?_, ?_, ?_⟩
  · intro hg
    simp [processGameCommandContainer, hauth, hg]
  · intro rp hg hcase
    rcases hcase with hr | ⟨room, hr, hgame, hext⟩ | ⟨room, game, hr, hgame, hp⟩
    · simp [processGameCommandContainer, hauth, hg, hr, newCalls, handlerCalls, forwardCalls]
    · simp [processGameCommandContainer, hauth, hg, hr, hgame, hext, newCalls, handlerCalls,
        forwardCalls]
    · simp [processGameCommandContainer, hauth, hg, hr, hgame, hp, newCalls, handlerCalls,
        forwardCalls, unlockGame]
  · intro rp room server_id hg hr hgame hext
    simp [processGameCommandContainer, hauth, hg, hr, hgame, hext, newCalls, handlerCalls,
      forwardCalls]

/-- Witness of C9 on the concrete session: game 12 is mapped to a room that
does not exist, and game 11 is an external game of room 3. -/
theorem C9_game_resolution_witness :
    (processGameCommandContainer exEnv { exCont with game_id := 12 } exSt).1
      = ResponseCode.RespNotInRoom ∧
    (processGameCommandContainer exEnv { exCont with game_id := 11 } exSt).1
      = ResponseCode.RespNothing ∧
    forwardCalls (newCalls exSt
        (processGameCommandContainer exEnv { exCont with game_id := 11 } exSt).2)
      = [Call.sendIsl_GameCommand 5 7 3 0] :=
  ⟨((C9_game_resolution exEnv { exCont with game_id := 12 } exSt (by decide)).2.1 (9, 0)
      (by decide) (Or.inl (by decide))).1,
   ((C9_game_resolution exEnv { exCont with game_id := 11 } exSt (by decide)).2.2 (3, 0)
      _ 5 (by decide) rfl (by decide) (by decide)).1,
   ((C9_game_resolution exEnv { exCont with game_id := 11 } exSt (by decide)).2.2 (3, 0)
      _ 5 (by decide) rfl (by decide) (by decide)).2.2.2.2⟩

theorem lacksPrivilege_iff (flag : Nat) (h : Server_ProtocolHandler) :
    lacksPrivilege flag h ↔
      h.userInfo = none ∨ ∃ u, h.userInfo = some u ∧ u.user_level &&& flag = 0 := by
  unfold lacksPrivilege
  cases h.userInfo with
  | none => simp
  | some u => simp

theorem map_handler_eq_nil (k : Kind) (n : Nat) :
    (List.range n).reverse.map (Call.handler k) = [] ↔ n = 0 := by
  simp

theorem commandLoop_nil {α : Type} (step : Nat → α → St → ResponseCode × St) (s : St) :
    commandLoop step (loopOrder ([] : List α)) ResponseCode.RespOk s
      = (ResponseCode.RespOk, s) := rfl

/-- C10. `processModeratorCommandContainer` returns `RespLoginNeeded` without
invoking any sub-command handler if and only if the session has no user info or
its user level lacks the `IsModerator` bit, and in that case it leaves the whole
state (idle timer included) as it is; otherwise it resets the idle timer and
runs the loop over the sub-commands.  `processAdminCommandContainer` does the
same with the `IsAdmin` bit.  The rejection code is `RespLoginNeeded` both for a
missing login and for a missing privilege, and a user with the admin bit and
without the moderator bit is rejected for moderator batches. -/
theorem C10_privilege_gate (env : Env) (cont : CommandContainer) (s : St) :
    (((processModeratorCommandContainer env cont s).1 = ResponseCode.RespLoginNeeded ∧
        handlerCalls (newCalls s (processModeratorCommandContainer env cont s).2) = [])
      ↔ lacksPrivilege env.IsModerator s.self) ∧
    (lacksPrivilege env.IsModerator s.self →
      processModeratorCommandContainer env cont s = (ResponseCode.RespLoginNeeded, s)) ∧
    (¬ lacksPrivilege env.IsModerator s.self →
      processModeratorCommandContainer env cont s
        = commandLoop (moderatorCommandStep env) (loopOrder cont.moderator_command)
            ResponseCode.RespOk (resetIdleTimer s)) ∧
    (((processAdminCommandContainer env cont s).1 = ResponseCode.RespLoginNeeded ∧
        handlerCalls (newCalls s (processAdminCommandContainer env cont s).2) = [])
      ↔ lacksPrivilege env.IsAdmin s.self) ∧
    (lacksPrivilege env.IsAdmin s.self →
      processAdminCommandContainer env cont s = (ResponseCode.RespLoginNeeded, s)) ∧
    (¬ lacksPrivilege env.IsAdmin s.self →
      processAdminCommandContainer env cont s
        = commandLoop (adminCommandStep env) (loopOrder cont.admin_command)
            ResponseCode.RespOk (resetIdleTimer s)) ∧
    (∀ u, s.self.userInfo = some u → u.user_level &&& env.IsAdmin ≠ 0 →
      u.user_level &&& env.IsModerator = 0 →
      processModeratorCommandContainer env cont s = (ResponseCode.RespLoginNeeded, s)) := by
  have hmod_gate : lacksPrivilege env.IsModerator s.self →
      processModeratorCommandContainer env cont s = (ResponseCode.RespLoginNeeded, s) := by
    intro hl
    unfold lacksPrivilege at hl
    unfold processModeratorCommandContainer
    cases hu : s.self.userInfo with
    | none => rfl
    | some u =>
      rw [hu] at hl
      simp only at hl
      simp [hl]
  have hmod_pass : ¬ lacksPrivilege env.IsModerator s.self →
      processModeratorCommandContainer env cont s
        = commandLoop (moderatorCommandStep env) (loopOrder cont.moderator_command)
            ResponseCode.RespOk (resetIdleTimer s) := by
    intro hl
    unfold lacksPrivilege at hl
    unfold processModeratorCommandContainer
    cases hu : s.self.userInfo with
    | none => rw [hu] at hl; exact absurd trivial hl
    | some u =>
      rw [hu] at hl
      simp only at hl
      simp [hl]
  have hadm_gate : lacksPrivilege env.IsAdmin s.self →
      processAdminCommandContainer env cont s = (ResponseCode.RespLoginNeeded, s) := by
    intro hl
    unfold lacksPrivilege at hl
    unfold processAdminCommandContainer
    cases hu : s.self.userInfo with
    | none => rfl
    | some u =>
      rw [hu] at hl
      simp only at hl
      simp [hl]
  have hadm_pass : ¬ lacksPrivilege env.IsAdmin s.self →
      processAdminCommandContainer env cont s
        = commandLoop (adminCommandStep env) (loopOrder cont.admin_command)
            ResponseCode.RespOk (resetIdleTimer s) := by
    intro hl
    unfold lacksPrivilege at hl
    unfold processAdminCommandContainer
    cases hu : s.self.userInfo with
    | none => rw [hu] at hl; exact absurd trivial hl
    | some u =>
      rw [hu] at hl
      simp only at hl
      simp [hl]
  refine ⟨⟨?_, ?_⟩, hmod_gate, hmod_pass, ⟨?_, ?_⟩, hadm_gate, hadm_pass, ?_⟩
  · rintro ⟨hcode, hnone⟩
    by_contra hl
    rw [hmod_pass hl] at hcode hnone
    rw [(moderatorLoop_reaches env cont s).2.1, map_handler_eq_nil] at hnone
    have hnil : cont.moderator_command = [] := List.length_eq_zero.mp hnone
    rw [hnil, commandLoop_nil] at hcode
    cases hcode
  · intro hl
    rw [hmod_gate hl]
    exact ⟨rfl, by simp [newCalls, handlerCalls]⟩
  · rintro ⟨hcode, hnone⟩
    by_contra hl
    rw [hadm_pass hl] at hcode hnone
    rw [(adminLoop_reaches env cont s).2.1, map_handler_eq_nil] at hnone
    have hnil : cont.admin_command = [] := List.length_eq_zero.mp hnone
    rw [hnil, commandLoop_nil] at hcode
    cases hcode
  · intro hl
    rw [hadm_gate hl]
    exact ⟨rfl, by simp [newCalls, handlerCalls]⟩
  · intro u hu _ hmod
    apply hmod_gate
    unfold lacksPrivilege
    rw [hu]
    exact hmod

/-- Witness of C10: the concrete user with the admin bit and without the
moderator bit is rejected for a moderator batch and passes the admin gate. -/
theorem C10_privilege_gate_witness :
    processModeratorCommandContainer exEnv exCont exStAdminOnly
      = (ResponseCode.RespLoginNeeded, exStAdminOnly) ∧
    processAdminCommandContainer exEnv exCont exStAdminOnly
      = commandLoop (adminCommandStep exEnv) (loopOrder exCont.admin_command)
          ResponseCode.RespOk (resetIdleTimer exStAdminOnly) :=
  ⟨(C10_privilege_gate exEnv exCont exStAdminOnly).2.2.2.2.2.2 _ rfl (by decide) (by decide),
   (C10_privilege_gate exEnv exCont exStAdminOnly).2.2.2.2.2.1
     (by simp [lacksPrivilege, exStAdminOnly, exEnv])⟩

/-! ## Command counting -/

theorem sum_ensureBucket (w : List Int) : (ensureBucket w).sum = w.sum := by
  unfold ensureBucket
  cases w <;> simp

theorem sum_addToFirst_ensureBucket (n : Int) (w : List Int) :
    (addToFirst n (ensureBucket w)).sum = w.sum + n := by
  unfold ensureBucket
  cases w with
  | nil => simp [addToFirst]
  | cons a r =>
    simp [addToFirst]
    omega

theorem countGameCommand_sum (cci mcc : Int) (sc : GameCommand) (w : List Int) (hcci : cci > 0) :
    (countGameCommand cci mcc sc w).1.sum = w.sum + (if sc.counted then 1 else 0) := by
  unfold countGameCommand GameCommand.counted
  rw [if_pos hcci]
  by_cases hw : sc.type ∈ antifloodCommandsWhiteList
  · simp [hw, sum_ensureBucket]
  · simp [hw, sum_addToFirst_ensureBucket]

theorem countGameCommand_flood (cci mcc : Int) (sc : GameCommand) (w : List Int) (hcci : cci > 0)
    (hmcc : mcc > 0) :
    (countGameCommand cci mcc sc w).2 = true ↔ w.sum + (if sc.counted then 1 else 0) > mcc := by
  have hs := countGameCommand_sum cci mcc sc w hcci
  unfold countGameCommand at hs ⊢
  rw [if_pos hcci] at hs ⊢
  simp only at hs ⊢
  rw [hs]
  simp [hmcc]

theorem processGameCommandContainer_resolved (env : Env) (cont : CommandContainer) (s : St)
    (rp : Int × Int) (room : Server_Room) (game : Server_Game) (player : Server_Player)
    (hauth : s.self.authState ≠ AuthenticationResult.NotLoggedIn)
    (hgame : QMap.value s.self.games cont.game_id = some rp)
    (hroom : findRoom s.self.server.rooms rp.1 = some room)
    (hg : findGame room.games cont.game_id = some game)
    (hp : findPlayer game.players rp.2 = some player) :
    processGameCommandContainer env cont s
      = gameFinish rp.1 cont.game_id
          (gameCommandLoop env rp.1 cont.game_id rp.2 s.self.server.commandCountingInterval
            s.self.server.maxCommandCountPerInterval (loopOrder cont.game_command)
            ResponseCode.RespOk [] (gameLoopStart rp.1 cont.game_id s)) := by
  have hroom1 : findRoom (s.call (Call.lock Lock.roomsLock)).self.server.rooms rp.1
      = some room := hroom
  simp only [processGameCommandContainer, if_neg hauth, hgame, hroom1, hg, hp]
  rfl

theorem gameCommandCodes_handled (env : Env) (hkeep : KeepsCommandWindow env)
    (room game player : Int) (cci mcc : Int) (hcci : cci > 0) (hmcc : mcc > 0)
    (l : List (Nat × GameCommand)) (ges : List Nat) (s : St) :
    (gameCommandCodes env room game player cci mcc l ges s).map Prod.fst
      = (handledBeforeFlood mcc s.self.commandCountOverTime.sum l).map Prod.fst := by
  unfold KeepsCommandWindow at hkeep
  induction l generalizing ges s with
  | nil => simp [gameCommandCodes, handledBeforeFlood]
  | cons c rest ih =>
    obtain ⟨i, sc⟩ := c
    have hsum := countGameCommand_sum cci mcc sc s.self.commandCountOverTime hcci
    have hflood := countGameCommand_flood cci mcc sc s.self.commandCountOverTime hcci hmcc
    simp only [gameCommandCodes, handledBeforeFlood, St.call_self]
    by_cases hf : (countGameCommand cci mcc sc s.self.commandCountOverTime).2 = true
    · have hgt := hflood.mp hf
      simp only [hf, if_true, if_pos hgt]
      simp
    · have hle : ¬ s.self.commandCountOverTime.sum + (if sc.counted then 1 else 0) > mcc :=
        fun h => hf (hflood.mpr h)
      simp only [hf, Bool.false_eq_true, if_false, if_neg hle]
      rw [List.map_cons, List.map_cons, ih]
      simp only [hkeep, St.call_self, hsum]

theorem gameCommandLoop_isSome (env : Env) (hkeep : KeepsCommandWindow env)
    (room game player : Int) (cci mcc : Int) (hcci : cci > 0) (hmcc : mcc > 0)
    (l : List (Nat × GameCommand)) (final : ResponseCode) (ges : List Nat) (s : St) :
    (gameCommandLoop env room game player cci mcc l final ges s).1.isSome = true ↔
      (handledBeforeFlood mcc s.self.commandCountOverTime.sum l).length = l.length := by
  unfold KeepsCommandWindow at hkeep
  induction l generalizing final ges s with
  | nil => simp [gameCommandLoop, handledBeforeFlood]
  | cons c rest ih =>
    obtain ⟨i, sc⟩ := c
    have hsum := countGameCommand_sum cci mcc sc s.self.commandCountOverTime hcci
    have hflood := countGameCommand_flood cci mcc sc s.self.commandCountOverTime hcci hmcc
    simp only [gameCommandLoop, handledBeforeFlood, St.call_self]
    by_cases hf : (countGameCommand cci mcc sc s.self.commandCountOverTime).2 = true
    · have hgt := hflood.mp hf
      simp only [hf, if_true, if_pos hgt]
      simp
    · have hle : ¬ s.self.commandCountOverTime.sum + (if sc.counted then 1 else 0) > mcc :=
        fun h => hf (hflood.mpr h)
      simp only [hf, Bool.false_eq_true, if_false, if_neg hle]
      rw [ih]
      simp only [hkeep, St.call_self, hsum, List.length_cons, Nat.add_right_cancel_iff]

theorem gameCommandLoop_window (env : Env) (hkeep : KeepsCommandWindow env)
    (room game player : Int) (cci mcc : Int) (hcci : cci > 0)
    (l : List (Nat × GameCommand)) (final : ResponseCode) (ges : List Nat) (s : St)
    (hsome : (gameCommandLoop env room game player cci mcc l final ges s).1.isSome = true) :
    (gameCommandLoop env room game player cci mcc l final ges s).2.2.self.commandCountOverTime.sum
      = s.self.commandCountOverTime.sum + nonAllowListed (l.map Prod.snd) := by
  unfold KeepsCommandWindow at hkeep
  induction l generalizing final ges s with
  | nil => simp [gameCommandLoop, nonAllowListed]
  | cons c rest ih =>
    obtain ⟨i, sc⟩ := c
    have hsum := countGameCommand_sum cci mcc sc s.self.commandCountOverTime hcci
    simp only [gameCommandLoop, St.call_self] at hsome ⊢
    by_cases hf : (countGameCommand cci mcc sc s.self.commandCountOverTime).2 = true
    · simp [hf] at hsome
    · simp only [hf, Bool.false_eq_true, if_false] at hsome ⊢
      rw [ih _ _ _ hsome]
      simp only [hkeep, St.call_self, hsum, nonAllowListed, List.map_cons, List.filter_cons]
      by_cases hc : sc.counted = true
      · simp [hc]
        omega
      · simp [hc]

theorem handledBeforeFlood_all (mcc : Int) (l : List (Nat × GameCommand)) (sum : Int)
    (h : sum + nonAllowListed (l.map Prod.snd) ≤ mcc) :
    handledBeforeFlood mcc sum l = l := by
  induction l generalizing sum with
  | nil => rfl
  | cons c rest ih =>
    obtain ⟨i, sc⟩ := c
    have hn : (0 : Int) ≤ nonAllowListed (rest.map Prod.snd) := by
      unfold nonAllowListed
      omega
    simp only [nonAllowListed, List.map_cons, List.filter_cons] at h
    unfold handledBeforeFlood
    by_cases hc : sc.counted = true
    · simp only [hc, if_true, List.length_cons] at h ⊢
      unfold nonAllowListed at hn ih
      rw [if_neg (by push_cast at h; omega), ih]
      push_cast at h
      omega
    · simp only [hc, Bool.false_eq_true, if_false] at h ⊢
      unfold nonAllowListed at hn ih
      rw [if_neg (by omega), ih]
      omega

theorem handledBeforeFlood_prefix (mcc : Int) (l : List (Nat × GameCommand)) (sum : Int) :
    handledBeforeFlood mcc sum l <+: l := by
  induction l generalizing sum with
  | nil => simp [handledBeforeFlood]
  | cons c rest ih =>
    obtain ⟨i, sc⟩ := c
    unfold handledBeforeFlood
    by_cases hgt : sum + (if sc.counted then 1 else 0) > mcc
    · rw [if_pos hgt]
      exact List.nil_prefix
    · rw [if_neg hgt]
      exact (List.prefix_cons_inj _).mpr (ih _)

theorem handledBeforeFlood_short (mcc : Int) (l : List (Nat × GameCommand)) (sum : Int)
    (hne : l ≠ []) (h : sum + nonAllowListed (l.map Prod.snd) > mcc) :
    (handledBeforeFlood mcc sum l).length < l.length := by
  induction l generalizing sum with
  | nil => exact absurd rfl hne
  | cons c rest ih =>
    obtain ⟨i, sc⟩ := c
    unfold handledBeforeFlood
    by_cases hgt : sum + (if sc.counted then 1 else 0) > mcc
    · rw [if_pos hgt]
      simp
    · rw [if_neg hgt]
      have hrest : sum + (if sc.counted then 1 else 0) + nonAllowListed (rest.map Prod.snd)
          > mcc := by
        simp only [nonAllowListed, List.map_cons, List.filter_cons] at h ⊢
        by_cases hc : sc.counted = true
        · simp only [hc, if_true, List.length_cons] at h ⊢
          push_cast at h
          omega
        · simp only [hc, Bool.false_eq_true, if_false] at h ⊢
          omega
      have hne2 : rest ≠ [] := by
        rintro rfl
        simp only [nonAllowListed, List.map_nil, List.filter_nil, List.length_nil] at hrest
        omega
      have := ih _ hne2 hrest
      simp only [List.length_cons]
      omega

theorem nonAllowListed_loopOrder (cmds : List GameCommand) :
    nonAllowListed ((loopOrder cmds).map Prod.snd) = nonAllowListed cmds := by
  simp [loopOrder, nonAllowListed, List.map_reverse, List.enum_map_snd, List.filter_reverse]

theorem gameLoopStart_window (room game : Int) (s : St) :
    (gameLoopStart room game s).self.commandCountOverTime = s.self.commandCountOverTime := rfl

theorem unlockGame_self (room game : Int) (s : St) : (unlockGame room game s).self = s.self := rfl

theorem gameFinish_reaches (room game : Int) (hs : List Call) (s : St)
    (L : Option ResponseCode × List Nat × St) (h : Reaches hs s L.2.2) :
    Reaches hs s (gameFinish room game L).2 := by
  obtain ⟨o, ges, t⟩ := L
  obtain ⟨ext, hext, h1, h2⟩ := (reaches_iff _ _ _).mp h
  simp only at hext
  cases o with
  | none =>
    refine (reaches_iff _ _ _).mpr ⟨ext ++ [Call.unlock (Lock.gameMutex room game),
      Call.unlock (Lock.gamesLock room), Call.unlock Lock.roomsLock], ?_, ?_, ?_⟩
    · simp [gameFinish, unlockGame, hext]
    · simp [handlerCalls, List.filter_append] at h1 ⊢
      exact h1
    · simp [responsesSent, List.filterMap_append] at h2 ⊢
      exact h2
  | some fin =>
    refine (reaches_iff _ _ _).mpr ⟨ext ++ [Call.sendToGame game ges,
      Call.unlock (Lock.gameMutex room game),
      Call.unlock (Lock.gamesLock room), Call.unlock Lock.roomsLock], ?_, ?_, ?_⟩
    · simp [gameFinish, unlockGame, hext]
    · simp [handlerCalls, List.filter_append] at h1 ⊢
      exact h1
    · simp [responsesSent, List.filterMap_append] at h2 ⊢
      exact h2

/-- The handler invocations of a resolved game batch are those of the
sub-commands met before the command count first exceeds the ceiling. -/
theorem processGameCommandContainer_handled (env : Env) (hkeep : KeepsCommandWindow env)
    (cont : CommandContainer) (s : St)
    (rp : Int × Int) (room : Server_Room) (game : Server_Game) (player : Server_Player)
    (hauth : s.self.authState ≠ AuthenticationResult.NotLoggedIn)
    (hgame : QMap.value s.self.games cont.game_id = some rp)
    (hroom : findRoom s.self.server.rooms rp.1 = some room)
    (hg : findGame room.games cont.game_id = some game)
    (hp : findPlayer game.players rp.2 = some player)
    (hcci : s.self.server.commandCountingInterval > 0)
    (hmcc : s.self.server.maxCommandCountPerInterval > 0) :
    handlerCalls (newCalls s (processGameCommandContainer env cont s).2)
      = (handledBeforeFlood s.self.server.maxCommandCountPerInterval
          s.self.commandCountOverTime.sum (loopOrder cont.game_command)).map
            (fun p => Call.handler Kind.game p.1) := by
  rw [processGameCommandContainer_resolved env cont s rp room game player hauth hgame hroom hg hp]
  have hcodes := gameCommandCodes_handled env hkeep rp.1 cont.game_id rp.2 _ _ hcci hmcc
    (loopOrder cont.game_command) [] (gameLoopStart rp.1 cont.game_id s)
  rw [gameLoopStart_window] at hcodes
  have hr := gameCommandLoop_reaches env rp.1 cont.game_id rp.2
    s.self.server.commandCountingInterval s.self.server.maxCommandCountPerInterval
    (loopOrder cont.game_command) ResponseCode.RespOk [] (gameLoopStart rp.1 cont.game_id s)
  have hr2 := (gameFinish_reaches rp.1 cont.game_id _ _ _ hr)
  have hr3 := Reaches.after_quietly (gameLoopStart_quietly rp.1 cont.game_id s) hr2
  rw [hr3.newCalls_eq]
  have e1 : ∀ {β : Type} (l : List (Nat × β)), l.map (fun p => Call.handler Kind.game p.1)
      = (l.map Prod.fst).map (Call.handler Kind.game) := by
    intro β l
    rw [List.map_map]
    rfl
  rw [e1, e1, hcodes]

theorem gameFinish_self (room game : Int) (L : Option ResponseCode × List Nat × St) :
    (gameFinish room game L).2.self = L.2.2.self := by
  obtain ⟨o, ges, t⟩ := L
  cases o <;> rfl

theorem gameFinish_flood (room game : Int) (L : Option ResponseCode × List Nat × St)
    (h : L.1.isSome = false) : (gameFinish room game L).1 = ResponseCode.RespChatFlood := by
  obtain ⟨o, ges, t⟩ := L
  cases o with
  | none => rfl
  | some fin => simp at h

theorem loopOrder_length {α : Type} (cmds : List α) : (loopOrder cmds).length = cmds.length := by
  simp [loopOrder]

/-- C11. Allow-list exemption.  For a game batch whose game and seat resolve,
with a command-counting interval and a ceiling above zero and a seat handler
that leaves the command-count window alone: if the window sum before the batch
plus the number of non-allow-listed sub-commands is at most the ceiling, the
loop is not left by the flood rejection, every sub-command is handed to the
seat handler (from the last submitted to the first), and afterwards the window
sum has grown by exactly the number of non-allow-listed sub-commands. -/
theorem C11_allow_list_exemption (env : Env) (hkeep : KeepsCommandWindow env)
    (cont : CommandContainer) (s : St)
    (rp : Int × Int) (room : Server_Room) (game : Server_Game) (player : Server_Player)
    (hauth : s.self.authState ≠ AuthenticationResult.NotLoggedIn)
    (hgame : QMap.value s.self.games cont.game_id = some rp)
    (hroom : findRoom s.self.server.rooms rp.1 = some room)
    (hg : findGame room.games cont.game_id = some game)
    (hp : findPlayer game.players rp.2 = some player)
    (hcci : s.self.server.commandCountingInterval > 0)
    (hmcc : s.self.server.maxCommandCountPerInterval > 0)
    (hfit : s.self.commandCountOverTime.sum + nonAllowListed cont.game_command
      ≤ s.self.server.maxCommandCountPerInterval) :
    (gameCommandLoop env rp.1 cont.game_id rp.2 s.self.server.commandCountingInterval
        s.self.server.maxCommandCountPerInterval (loopOrder cont.game_command)
        ResponseCode.RespOk [] (gameLoopStart rp.1 cont.game_id s)).1.isSome = true ∧
      handlerCalls (newCalls s (processGameCommandContainer env cont s).2)
        = (List.range cont.game_command.length).reverse.map (Call.handler Kind.game) ∧
      (processGameCommandContainer env cont s).2.self.commandCountOverTime.sum
        = s.self.commandCountOverTime.sum + nonAllowListed cont.game_command := by
  have hall := handledBeforeFlood_all s.self.server.maxCommandCountPerInterval
    (loopOrder cont.game_command) s.self.commandCountOverTime.sum
    (by rw [nonAllowListed_loopOrder]; exact hfit)
  have hsome := (gameCommandLoop_isSome env hkeep rp.1 cont.game_id rp.2 _ _ hcci hmcc
    (loopOrder cont.game_command) ResponseCode.RespOk [] (gameLoopStart rp.1 cont.game_id s)).mpr
    (by rw [gameLoopStart_window, hall])
  refine ⟨hsome, ?_, ?_⟩
  · rw [processGameCommandContainer_handled env hkeep cont s rp room game player hauth hgame
      hroom hg hp hcci hmcc, hall, ← loopOrder_fst, List.map_map]
    rfl
  · rw [processGameCommandContainer_resolved env cont s rp room game player hauth hgame hroom
      hg hp, gameFinish_self,
      gameCommandLoop_window env hkeep rp.1 cont.game_id rp.2 _ _ hcci _ _ _ _ hsome,
      gameLoopStart_window, nonAllowListed_loopOrder]

/-- Witness of C11 on the concrete session: the batch has two allow-listed
sub-commands and one counted sub-command, the window is empty and the ceiling
is two. -/
theorem C11_allow_list_exemption_witness :
    handlerCalls (newCalls exSt (processGameCommandContainer exEnv exCont exSt).2)
        = (List.range exCont.game_command.length).reverse.map (Call.handler Kind.game) ∧
      (processGameCommandContainer exEnv exCont exSt).2.self.commandCountOverTime.sum
        = exSt.self.commandCountOverTime.sum + nonAllowListed exCont.game_command :=
  (C11_allow_list_exemption exEnv (fun _ _ _ _ _ _ _ => rfl) exCont exSt (3, 0) _ _ _
    (by decide) (by decide) rfl rfl rfl (by decide) (by decide) (by decide)).2

/-- C12. Command flood rejection.  For a game batch with at least one game
sub-command whose game and seat resolve, with a command-counting interval and
a ceiling above zero and a seat handler that leaves the command-count window
alone: if the window sum before the batch plus the number of non-allow-listed
sub-commands exceeds the ceiling, the batch returns `RespChatFlood`; the
sub-commands handed to the seat handler are exactly those visited before the
sum first exceeds the ceiling, which are fewer than the batch; and neither the
sub-command at which the sum first exceeds the ceiling nor any sub-command
later in the visiting order is handed to the seat handler. -/
theorem C12_command_flood_rejection (env : Env) (hkeep : KeepsCommandWindow env)
    (cont : CommandContainer) (s : St)
    (rp : Int × Int) (room : Server_Room) (game : Server_Game) (player : Server_Player)
    (hauth : s.self.authState ≠ AuthenticationResult.NotLoggedIn)
    (hgame : QMap.value s.self.games cont.game_id = some rp)
    (hroom : findRoom s.self.server.rooms rp.1 = some room)
    (hg : findGame room.games cont.game_id = some game)
    (hp : findPlayer game.players rp.2 = some player)
    (hcci : s.self.server.commandCountingInterval > 0)
    (hmcc : s.self.server.maxCommandCountPerInterval > 0)
    (hne : cont.game_command ≠ [])
    (hover : s.self.commandCountOverTime.sum + nonAllowListed cont.game_command
      > s.self.server.maxCommandCountPerInterval) :
    (processGameCommandContainer env cont s).1 = ResponseCode.RespChatFlood ∧
      handlerCalls (newCalls s (processGameCommandContainer env cont s).2)
        = (handledBeforeFlood s.self.server.maxCommandCountPerInterval
            s.self.commandCountOverTime.sum (loopOrder cont.game_command)).map
              (fun p => Call.handler Kind.game p.1) ∧
      (handledBeforeFlood s.self.server.maxCommandCountPerInterval
          s.self.commandCountOverTime.sum (loopOrder cont.game_command)).length
        < cont.game_command.length ∧
      ∀ p ∈ (loopOrder cont.game_command).drop
          (handledBeforeFlood s.self.server.maxCommandCountPerInterval
            s.self.commandCountOverTime.sum (loopOrder cont.game_command)).length,
        Call.handler Kind.game p.1 ∉ newCalls s (processGameCommandContainer env cont s).2 := by
  have hne2 : loopOrder cont.game_command ≠ [] := by
    intro h
    have := congrArg List.length h
    rw [loopOrder_length] at this
    exact hne (List.length_eq_zero.mp this)
  have hshort := handledBeforeFlood_short s.self.server.maxCommandCountPerInterval
    (loopOrder cont.game_command) s.self.commandCountOverTime.sum hne2
    (by rw [nonAllowListed_loopOrder]; exact hover)
  have hhandled := processGameCommandContainer_handled env hkeep cont s rp room game player hauth
    hgame hroom hg hp hcci hmcc
  have hpre := handledBeforeFlood_prefix s.self.server.maxCommandCountPerInterval
    (loopOrder cont.game_command) s.self.commandCountOverTime.sum
  refine ⟨?_, hhandled, by rw [loopOrder_length] at hshort; exact hshort, ?_⟩
  · rw [processGameCommandContainer_resolved env cont s rp room game player hauth hgame hroom
      hg hp]
    apply gameFinish_flood
    have hiff := gameCommandLoop_isSome env hkeep rp.1 cont.game_id rp.2 _ _ hcci hmcc
      (loopOrder cont.game_command) ResponseCode.RespOk [] (gameLoopStart rp.1 cont.game_id s)
    rw [gameLoopStart_window] at hiff
    cases hs : (gameCommandLoop env rp.1 cont.game_id rp.2 s.self.server.commandCountingInterval
        s.self.server.maxCommandCountPerInterval (loopOrder cont.game_command)
        ResponseCode.RespOk [] (gameLoopStart rp.1 cont.game_id s)).1.isSome with
    | false => rfl
    | true =>
      have := hiff.mp hs
      omega
  · intro p hp hmem
    rw [← handler_mem_handlerCalls, hhandled, List.mem_map] at hmem
    obtain ⟨q, hq, hqp⟩ := hmem
    have hqp1 : q.1 = p.1 := by
      simp only [Call.handler.injEq, true_and] at hqp
      exact hqp
    have htake := List.prefix_iff_eq_take.mp hpre
    rw [htake] at hq
    have hnd : ((loopOrder cont.game_command).map Prod.fst).Nodup := by
      rw [loopOrder_fst]
      exact (List.nodup_reverse.mpr (List.nodup_range _))
    have hdis := List.disjoint_take_drop hnd (le_refl
      (handledBeforeFlood s.self.server.maxCommandCountPerInterval
        s.self.commandCountOverTime.sum (loopOrder cont.game_command)).length)
    have h1 : q.1 ∈ ((loopOrder cont.game_command).map Prod.fst).take
        (handledBeforeFlood s.self.server.maxCommandCountPerInterval
          s.self.commandCountOverTime.sum (loopOrder cont.game_command)).length := by
      rw [← List.map_take]
      exact List.mem_map_of_mem _ hq
    have h2 : p.1 ∈ ((loopOrder cont.game_command).map Prod.fst).drop
        (handledBeforeFlood s.self.server.maxCommandCountPerInterval
          s.self.commandCountOverTime.sum (loopOrder cont.game_command)).length := by
      rw [← List.map_drop]
      exact List.mem_map_of_mem _ hp
    rw [hqp1] at h1
    exact hdis h1 h2

/-- Witness of C12 on the concrete session: four counted sub-commands against
a ceiling of two. -/
theorem C12_command_flood_rejection_witness :
    (processGameCommandContainer exEnv exFloodCont exSt).1 = ResponseCode.RespChatFlood ∧
      handlerCalls (newCalls exSt (processGameCommandContainer exEnv exFloodCont exSt).2)
        = (handledBeforeFlood exSt.self.server.maxCommandCountPerInterval
            exSt.self.commandCountOverTime.sum (loopOrder exFloodCont.game_command)).map
              (fun p => Call.handler Kind.game p.1) :=
  ⟨(C12_command_flood_rejection exEnv (fun _ _ _ _ _ _ _ => rfl) exFloodCont exSt (3, 0) _ _ _
      (by decide) (by decide) rfl rfl rfl (by decide) (by decide) (by decide) (by decide)).1,
   (C12_command_flood_rejection exEnv (fun _ _ _ _ _ _ _ => rfl) exFloodCont exSt (3, 0) _ _ _
      (by decide) (by decide) rfl rfl rfl (by decide) (by decide) (by decide) (by decide)).2.1⟩

/-- C13. The event storage is not flushed on the flood exit: on the concrete
session the batch of five sub-commands hands the sub-commands 4, 3 and 2 to the
seat handler, which put the events 5, 4 and 3 in the game-wide event storage;
the sub-command 1 is rejected by the rate limiter, the batch returns
`RespChatFlood`, and no `sendToGame` call is made, so the accumulated events
are never flushed. -/
theorem C13_flood_exit_skips_flush :
    (processGameCommandContainer exEnv exFloodCont exSt).1 = ResponseCode.RespChatFlood ∧
      handlerCalls (newCalls exSt (processGameCommandContainer exEnv exFloodCont exSt).2)
        = [Call.handler Kind.game 4, Call.handler Kind.game 3, Call.handler Kind.game 2] ∧
      (gameCommandLoop exEnv 3 10 0 exSt.self.server.commandCountingInterval
        exSt.self.server.maxCommandCountPerInterval (loopOrder exFloodCont.game_command)
        ResponseCode.RespOk [] (gameLoopStart 3 10 exSt)).2.1 = [5, 4, 3] ∧
      sendToGameCalls (newCalls exSt (processGameCommandContainer exEnv exFloodCont exSt).2)
        = [] ∧
      sendToGameCalls (newCalls exSt (processGameCommandContainer exEnv exCont exSt).2)
        = [Call.sendToGame 10 [6, 0, 5]] := by
  decide

/-! ## Chat flood control -/

theorem wrapInt_of_fits (x : Int) (h : fitsInt x) : wrapInt x = x := by
  unfold fitsInt at h
  unfold wrapInt
  omega

theorem wrapInt_add_left (a b : Int) : wrapInt (wrapInt a + b) = wrapInt (a + b) := by
  unfold wrapInt
  omega

theorem foldl_wrapInt (w : List Int) (acc : Int) :
    w.foldl (fun total x => wrapInt (total + x)) (wrapInt acc) = wrapInt (acc + w.sum) := by
  induction w generalizing acc with
  | nil => simp
  | cons x r ih =>
    simp only [List.foldl, List.sum_cons]
    rw [wrapInt_add_left, ih, Int.add_assoc]

theorem sumInt_eq (w : List Int) : sumInt w = wrapInt w.sum := by
  have h := foldl_wrapInt w 0
  have h0 : wrapInt 0 = 0 := by decide
  rw [h0, Int.zero_add] at h
  exact h

theorem sumInt_addToFirstInt_ensureBucket (n : Int) (w : List Int) :
    sumInt (addToFirstInt n (ensureBucket w)) = wrapInt (w.sum + n) := by
  rw [sumInt_eq]
  cases w with
  | nil =>
    show wrapInt ([wrapInt (0 + n)].sum) = wrapInt (([] : List Int).sum + n)
    simp only [List.sum_cons, List.sum_nil]
    rw [wrapInt_add_left]
    congr 1
    omega
  | cons a r =>
    show wrapInt ((wrapInt (a + n) :: r).sum) = wrapInt ((a :: r).sum + n)
    simp only [List.sum_cons]
    rw [wrapInt_add_left]
    congr 1
    omega

theorem addToFirstInt_ensureBucket (n : Int) (w : List Int) (h : fitsInt (w.headD 0 + n)) :
    addToFirstInt n (ensureBucket w) = addToFirst n (ensureBucket w) := by
  cases w with
  | nil =>
    have h2 : fitsInt (0 + n) := h
    show [wrapInt (0 + n)] = [0 + n]
    rw [wrapInt_of_fits _ h2]
  | cons a r =>
    have h2 : fitsInt (a + n) := h
    show wrapInt (a + n) :: r = (a + n) :: r
    rw [wrapInt_of_fits _ h2]

theorem addSaidMessageSize_wrapInt (size : Int) (s : St) :
    addSaidMessageSize (wrapInt size) s = addSaidMessageSize size s := by
  have h : ∀ w : List Int, addToFirstInt (wrapInt size) w = addToFirstInt size w := by
    intro w
    cases w with
    | nil => rfl
    | cons a r =>
      show wrapInt (a + wrapInt size) :: r = wrapInt (a + size) :: r
      rw [Int.add_comm a, wrapInt_add_left, Int.add_comm size]
  unfold addSaidMessageSize
  simp only [h]

theorem addSaidMessageSize_accepts (size : Int) (s : St) (hfit : TotalsFit size s.self) :
    (addSaidMessageSize size s).1 = true ↔
      (s.self.server.messageCountingInterval ≤ 0 ∨
        (s.self.messageSizeOverTime.sum + size ≤ s.self.server.maxMessageSizePerInterval ∧
          s.self.messageCountOverTime.sum + 1 ≤ s.self.server.maxMessageCountPerInterval)) := by
  unfold addSaidMessageSize
  by_cases h : s.self.server.messageCountingInterval ≤ 0
  · simp [h]
  · simp [h, sumInt_addToFirstInt_ensureBucket, wrapInt_of_fits _ hfit.1,
      wrapInt_of_fits _ hfit.2]

theorem addSaidMessageSize_fst_call (size : Int) (s : St) (c : Call) :
    (addSaidMessageSize size (s.call c)).1 = (addSaidMessageSize size s).1 := by
  unfold addSaidMessageSize
  simp only [St.call_self]
  split <;> rfl

/-- C14, as stated, fails: on the concrete session with 90 bytes and two
messages in its windows (ceilings 100 and 3), a send of 2147483597 bytes, a
value of `int`, is accepted although the byte window sum before the call plus
the size exceeds the byte ceiling: the newest bucket becomes 2147483637 and the
`int` total of the window overflows to -2147483609. -/
theorem C14_counterexample :
    exStChatty.self.server.messageCountingInterval > 0 ∧
      exStChatty.self.messageSizeOverTime.sum = 90 ∧
      exStChatty.self.server.maxMessageSizePerInterval = 100 ∧
      fitsInt 2147483597 ∧
      ¬ (exStChatty.self.messageSizeOverTime.sum + 2147483597
          ≤ exStChatty.self.server.maxMessageSizePerInterval) ∧
      (addSaidMessageSize 2147483597 exStChatty).2.self.messageSizeOverTime
        = [2147483637, 50] ∧
      sumInt [2147483637, 50] = -2147483609 ∧
      (addSaidMessageSize 2147483597 exStChatty).1 = true := by
  decide

/-- C14, amended. Chat flood control.  When the byte window sum before the call
plus `size` and the count window sum before the call plus one are values of
`int`, `addSaidMessageSize size` accepts if and only if the message-counting
interval is at most zero, or the byte window sum before the call plus `size` is
at most the byte ceiling and the count window sum before the call plus one is
at most the message-count ceiling.  `cmdRoomSay` returns `RespChatFlood`
exactly when `addSaidMessageSize` rejects the message, and `cmdMessage` exactly
when it reaches the check (logged in, receiver found, sender not ignored) and
`addSaidMessageSize` rejects; in that case no event is delivered or queued (the
response container is unchanged, no `sendProtocolItemTo` call), no room `say`
is called and nothing is logged: the only calls made are the lock and unlock of
`cmdMessage`. -/
theorem C14_chat_flood_control (env : Env) (size : Int) (message : String) (room : Int)
    (cmd : Command_Message) (s : St) :
    (TotalsFit size s.self →
      ((addSaidMessageSize size s).1 = true ↔
        (s.self.server.messageCountingInterval ≤ 0 ∨
          (s.self.messageSizeOverTime.sum + size ≤ s.self.server.maxMessageSizePerInterval ∧
            s.self.messageCountOverTime.sum + 1
              ≤ s.self.server.maxMessageCountPerInterval)))) ∧
    ((cmdRoomSay message room s).1 = ResponseCode.RespChatFlood ↔
      (addSaidMessageSize (message.utf8ByteSize : Int) s).1 = false) ∧
    ((cmdRoomSay message room s).1 = ResponseCode.RespChatFlood →
      newCalls s (cmdRoomSay message room s).2 = [] ∧ (cmdRoomSay message room s).2.rc = s.rc) ∧
    ((cmdMessage env cmd s).1 = ResponseCode.RespChatFlood ↔
      (s.self.authState ≠ AuthenticationResult.NotLoggedIn ∧
        (env.findUser s.self.server (env.nameFromStdString cmd.user_name)).isSome = true ∧
        env.isInIgnoreList s.self.databaseInterface (env.nameFromStdString cmd.user_name)
          s.self.user.name = false ∧
        (addSaidMessageSize (cmd.message.utf8ByteSize : Int) s).1 = false)) ∧
    ((cmdMessage env cmd s).1 = ResponseCode.RespChatFlood →
      newCalls s (cmdMessage env cmd s).2
          = [Call.lock Lock.clientsLock, Call.unlock Lock.clientsLock] ∧
        (cmdMessage env cmd s).2.rc = s.rc) := by
  refine ⟨addSaidMessageSize_accepts size s, ?_, ?_, ?_, ?_⟩
  · unfold cmdRoomSay
    dsimp only
    cases h : (addSaidMessageSize (message.utf8ByteSize : Int) s).1 <;> simp
  · unfold cmdRoomSay
    dsimp only
    cases h : (addSaidMessageSize (message.utf8ByteSize : Int) s).1 <;> simp [newCalls]
  · unfold cmdMessage
    dsimp only
    simp only [St.call_self, addSaidMessageSize_fst_call]
    by_cases hauth : s.self.authState = AuthenticationResult.NotLoggedIn
    · simp [hauth]
    · rw [if_neg hauth]
      cases hf : env.findUser s.self.server (env.nameFromStdString cmd.user_name) with
      | none => simp
      | some ui =>
        cases hi : env.isInIgnoreList s.self.databaseInterface
            (env.nameFromStdString cmd.user_name) s.self.user.name with
        | true => simp
        | false =>
          cases h : (addSaidMessageSize (cmd.message.utf8ByteSize : Int) s).1 <;> simp [hauth]
  · unfold cmdMessage
    dsimp only
    simp only [St.call_self, addSaidMessageSize_fst_call]
    by_cases hauth : s.self.authState = AuthenticationResult.NotLoggedIn
    · simp [hauth]
    · rw [if_neg hauth]
      cases hf : env.findUser s.self.server (env.nameFromStdString cmd.user_name) with
      | none => simp
      | some ui =>
        cases hi : env.isInIgnoreList s.self.databaseInterface
            (env.nameFromStdString cmd.user_name) s.self.user.name with
        | true => simp
        | false =>
          cases h : (addSaidMessageSize (cmd.message.utf8ByteSize : Int) s).1 <;>
            simp [newCalls]

/-- Witness of C14 on the concrete session with 90 bytes in its window: the
totals of a message of twelve bytes are values of `int`, so its acceptance is
decided by the two ceilings, and it is rejected by `cmdRoomSay` and by
`cmdMessage`. -/
theorem C14_chat_flood_control_witness :
    (TotalsFit 12 exStChatty.self ∧
      ((addSaidMessageSize 12 exStChatty).1 = true ↔
        (exStChatty.self.server.messageCountingInterval ≤ 0 ∨
          (exStChatty.self.messageSizeOverTime.sum + 12
              ≤ exStChatty.self.server.maxMessageSizePerInterval ∧
            exStChatty.self.messageCountOverTime.sum + 1
              ≤ exStChatty.self.server.maxMessageCountPerInterval)))) ∧
    (newCalls exStChatty (cmdRoomSay "hello world!" 3 exStChatty).2 = [] ∧
      (cmdRoomSay "hello world!" 3 exStChatty).2.rc = exStChatty.rc) ∧
    (newCalls exStChatty (cmdMessage exEnv ⟨"bob", "hello world!"⟩ exStChatty).2
        = [Call.lock Lock.clientsLock, Call.unlock Lock.clientsLock] ∧
      (cmdMessage exEnv ⟨"bob", "hello world!"⟩ exStChatty).2.rc = exStChatty.rc) :=
  ⟨⟨by decide,
    (C14_chat_flood_control exEnv 12 "hello world!" 3 ⟨"bob", "hello world!"⟩ exStChatty).1
      (by decide)⟩,
   (C14_chat_flood_control exEnv 12 "hello world!" 3 ⟨"bob", "hello world!"⟩ exStChatty).2.2.1
      (by decide),
   (C14_chat_flood_control exEnv 12 "hello world!" 3 ⟨"bob", "hello world!"⟩
      exStChatty).2.2.2.2 (by decide)⟩

/-- C15, as stated, fails: on the concrete session with 90 bytes and two
messages in its windows (ceilings 100 and 3), a send of 20 bytes is rejected
and both windows differ after the call; a send of 5 bytes, which is accepted
before the rejected send, is rejected after it. -/
theorem C15_counterexample :
    (addSaidMessageSize 20 exStChatty).1 = false ∧
      (addSaidMessageSize 20 exStChatty).2.self.messageSizeOverTime = [60, 50] ∧
      exStChatty.self.messageSizeOverTime = [40, 50] ∧
      (addSaidMessageSize 20 exStChatty).2.self.messageCountOverTime = [2, 1] ∧
      exStChatty.self.messageCountOverTime = [1, 1] ∧
      (addSaidMessageSize 5 exStChatty).1 = true ∧
      (addSaidMessageSize 5 (addSaidMessageSize 20 exStChatty).2).1 = false := by
  decide

/-- C15, amended. A rejected chat send is counted: if `addSaidMessageSize size`
returns false and the newest buckets and the totals it computes are values of
`int`, then `size` has been added to the newest bucket of the byte window and
one to the newest bucket of the message-count window (a bucket is created when
the window is empty), so the byte window sum has grown by `size` and the count
window sum by one, and a following send of any non-negative size whose totals
are values of `int` is rejected as well. -/
theorem C15_rejected_send_is_counted (size : Int) (s : St)
    (hbucket : BucketsFit size s.self) (htotal : TotalsFit size s.self)
    (hrej : (addSaidMessageSize size s).1 = false) :
    (addSaidMessageSize size s).2.self.messageSizeOverTime
        = addToFirst size (ensureBucket s.self.messageSizeOverTime) ∧
      (addSaidMessageSize size s).2.self.messageCountOverTime
        = addToFirst 1 (ensureBucket s.self.messageCountOverTime) ∧
      (addSaidMessageSize size s).2.self.messageSizeOverTime.sum
        = s.self.messageSizeOverTime.sum + size ∧
      (addSaidMessageSize size s).2.self.messageCountOverTime.sum
        = s.self.messageCountOverTime.sum + 1 ∧
      ∀ next : Int, 0 ≤ next → TotalsFit next (addSaidMessageSize size s).2.self →
        (addSaidMessageSize next (addSaidMessageSize size s).2).1 = false := by
  have hacc := addSaidMessageSize_accepts size s htotal
  rw [hrej] at hacc
  simp only [Bool.false_eq_true, false_iff, not_or, not_and, not_le] at hacc
  obtain ⟨hint, hlim⟩ := hacc
  have hsrv : (addSaidMessageSize size s).2.self.server = s.self.server := by
    unfold addSaidMessageSize
    split <;> rfl
  have hS : (addSaidMessageSize size s).2.self.messageSizeOverTime
      = addToFirst size (ensureBucket s.self.messageSizeOverTime) := by
    unfold addSaidMessageSize
    rw [if_neg (not_le.mpr hint)]
    exact addToFirstInt_ensureBucket _ _ hbucket.1
  have hC : (addSaidMessageSize size s).2.self.messageCountOverTime
      = addToFirst 1 (ensureBucket s.self.messageCountOverTime) := by
    unfold addSaidMessageSize
    rw [if_neg (not_le.mpr hint)]
    exact addToFirstInt_ensureBucket _ _ hbucket.2
  have hSs : (addSaidMessageSize size s).2.self.messageSizeOverTime.sum
      = s.self.messageSizeOverTime.sum + size := by
    rw [hS, sum_addToFirst_ensureBucket]
  have hCs : (addSaidMessageSize size s).2.self.messageCountOverTime.sum
      = s.self.messageCountOverTime.sum + 1 := by
    rw [hC, sum_addToFirst_ensureBucket]
  refine ⟨hS, hC, hSs, hCs, ?_⟩
  intro next hnext hfit
  cases hn : (addSaidMessageSize next (addSaidMessageSize size s).2).1 with
  | false => rfl
  | true =>
    have h2 := (addSaidMessageSize_accepts next _ hfit).mp hn
    rw [hSs, hCs, hsrv] at h2
    rcases h2 with h2 | ⟨h2, h3⟩
    · omega
    · by_cases hsz : s.self.messageSizeOverTime.sum + size
          ≤ s.self.server.maxMessageSizePerInterval
      · have := hlim hsz
        omega
      · omega

/-- Witness of C15 (amended) on the concrete session: the send of 20 bytes
stays within `int` and is rejected there, and so is a following send of 5
bytes. -/
theorem C15_rejected_send_is_counted_witness :
    BucketsFit 20 exStChatty.self ∧ TotalsFit 20 exStChatty.self ∧
      (addSaidMessageSize 20 exStChatty).1 = false ∧
      (addSaidMessageSize 20 exStChatty).2.self.messageSizeOverTime.sum
        = exStChatty.self.messageSizeOverTime.sum + 20 ∧
      TotalsFit 5 (addSaidMessageSize 20 exStChatty).2.self ∧
      (addSaidMessageSize 5 (addSaidMessageSize 20 exStChatty).2).1 = false :=
  ⟨by decide, by decide, by decide,
    (C15_rejected_send_is_counted 20 exStChatty (by decide) (by decide) (by decide)).2.2.1,
    by decide,
    (C15_rejected_send_is_counted 20 exStChatty (by decide) (by decide) (by decide)).2.2.2.2
      5 (by decide) (by decide)⟩

/-! ## Login -/

/-- C16, as stated, fails: the concrete session is bound to the user alice, and
a login command with a plain password of 256 bytes returns `RespWrongPassword`,
not `RespContextError`, because the password-length guard precedes the check of
the bound session. -/
theorem C16_counterexample :
    exSt.self.userInfo.isSome = true ∧
      (cmdLogin exEnv exLongLogin exSt).1 = ResponseCode.RespWrongPassword ∧
      (cmdLogin exEnv exLongLogin exSt).1 ≠ ResponseCode.RespContextError := by
  set_option maxRecDepth 100000 in decide

/-- C16, amended. Login on a session that is already bound to a user returns
`RespContextError` for every login command whose plain password, when it has
one, is at most `MAX_NAME_LENGTH` bytes long, and `RespWrongPassword` when the
plain password is longer; in both cases the state is unchanged (so neither
`authState` nor the user info changes) and the credential check `loginUser` is
not called. -/
theorem C16_login_on_bound_session (env : Env) (cmd : Command_Login) (s : St)
    (hbound : s.self.userInfo.isSome = true) :
    ((∀ pw, cmd.password = some pw → (pw.utf8ByteSize : Int) ≤ env.MAX_NAME_LENGTH) →
        (cmdLogin env cmd s).1 = ResponseCode.RespContextError) ∧
      (∀ pw, cmd.password = some pw → (pw.utf8ByteSize : Int) > env.MAX_NAME_LENGTH →
        (cmdLogin env cmd s).1 = ResponseCode.RespWrongPassword) ∧
      (cmdLogin env cmd s).2 = s ∧
      (cmdLogin env cmd s).2.self.authState = s.self.authState ∧
      (cmdLogin env cmd s).2.self.userInfo = s.self.userInfo ∧
      Call.loginUser ∉ newCalls s (cmdLogin env cmd s).2 := by
  have hst : (cmdLogin env cmd s).2 = s := by
    unfold cmdLogin loginPassword
    dsimp only
    (repeat' split) <;> simp_all
  refine ⟨?_, ?_, hst, by rw [hst], by rw [hst], by rw [hst]; simp [newCalls]⟩
  · intro hpw
    unfold cmdLogin loginPassword
    dsimp only
    cases hp : cmd.password with
    | some pw =>
      have := hpw pw hp
      simp [not_lt.mpr this, hbound]
    | none =>
      by_cases hh : (cmd.hashed_password.utf8ByteSize : Int) > env.MAX_NAME_LENGTH
      · simp [hh]
      · simp [hh, hbound]
  · intro pw hp hlong
    unfold cmdLogin loginPassword
    simp [hp, hlong]

/-- Witness of C16 (amended) on the concrete bound session, for a login with a
short password and for one with a password of 256 bytes. -/
theorem C16_login_on_bound_session_witness :
    (cmdLogin exEnv exLogin exSt).1 = ResponseCode.RespContextError ∧
      (cmdLogin exEnv exLongLogin exSt).1 = ResponseCode.RespWrongPassword ∧
      (cmdLogin exEnv exLogin exSt).2 = exSt :=
  ⟨(C16_login_on_bound_session exEnv exLogin exSt (by decide)).1
      (fun pw h => by
        have hpw : pw = "secret" := by
          simp only [exLogin, Option.some.injEq] at h
          exact h.symm
        subst hpw
        decide),
   (C16_login_on_bound_session exEnv exLongLogin exSt (by decide)).2.1 _ rfl
      (by set_option maxRecDepth 100000 in decide),
   (C16_login_on_bound_session exEnv exLogin exSt (by decide)).2.2.1⟩

/-! ## Room commands -/

/-- C18. Per-room game limit.  For an authenticated session and a game
password of at most `MAX_NAME_LENGTH` bytes, `cmdCreateGame` returns
`RespContextError` if and only if the per-user limit is at least zero, the
number of games the user has created in the room is at least that limit, and
the user does not both have the judge bit and request `join_as_judge` and
`join_as_spectator`; when it does, the state is unchanged (no game id is
allocated, no game and no player is added); a negative limit never rejects. -/
theorem C18_per_room_game_limit (env : Env) (cmd : Command_CreateGame) (room : Int) (s : St)
    (hauth : s.self.authState ≠ AuthenticationResult.NotLoggedIn)
    (hpw : (cmd.password.utf8ByteSize : Int) ≤ env.MAX_NAME_LENGTH) :
    ((cmdCreateGame env cmd room s).1 = ResponseCode.RespContextError ↔
      (s.self.server.maxGamesPerUser ≥ 0 ∧
        env.getGamesCreatedByUser (s.self.server.roomAt room) s.self.user.name
          ≥ s.self.server.maxGamesPerUser ∧
        ¬ (s.self.user.user_level &&& env.IsJudge ≠ 0 ∧ cmd.join_as_judge = true ∧
          cmd.join_as_spectator = true))) ∧
    ((cmdCreateGame env cmd room s).1 = ResponseCode.RespContextError →
      (cmdCreateGame env cmd room s).2 = s) ∧
    (s.self.server.maxGamesPerUser < 0 →
      (cmdCreateGame env cmd room s).1 ≠ ResponseCode.RespContextError) := by
  have hiff : (cmdCreateGame env cmd room s).1 = ResponseCode.RespContextError ↔
      (s.self.server.maxGamesPerUser ≥ 0 ∧
        env.getGamesCreatedByUser (s.self.server.roomAt room) s.self.user.name
          ≥ s.self.server.maxGamesPerUser ∧
        ¬ (s.self.user.user_level &&& env.IsJudge ≠ 0 ∧ cmd.join_as_judge = true ∧
          cmd.join_as_spectator = true)) := by
    unfold cmdCreateGame
    dsimp only
    rw [if_neg hauth, if_neg (not_lt.mpr hpw)]
    split
    · rename_i h
      simp only [Bool.and_eq_true, Bool.not_eq_true', decide_eq_true_eq, Bool.and_eq_false_imp,
        ] at h
      simp only [true_iff]
      refine ⟨h.1.2, h.2, ?_⟩
      rintro ⟨h1, h2, h3⟩
      have := h.1.1
      simp [h1, h2, h3] at this
    · rename_i h
      have hneg : ¬ (s.self.server.maxGamesPerUser ≥ 0 ∧
        env.getGamesCreatedByUser (s.self.server.roomAt room) s.self.user.name
          ≥ s.self.server.maxGamesPerUser ∧
        ¬ (s.self.user.user_level &&& env.IsJudge ≠ 0 ∧ cmd.join_as_judge = true ∧
          cmd.join_as_spectator = true)) := by
        rintro ⟨h1, h2, h3⟩
        apply h
        simp only [Bool.and_eq_true, Bool.not_eq_true', decide_eq_true_eq]
        refine ⟨⟨?_, h1⟩, h2⟩
        by_contra hc
        apply h3
        simp only [Bool.not_eq_false, Bool.and_eq_true, decide_eq_true_eq] at hc
        exact ⟨hc.1.1, hc.1.2, hc.2⟩
      simp only [hneg, iff_false]
      split <;> simp
  refine ⟨hiff, ?_, ?_⟩
  · intro hcode
    have hc := hiff.mp hcode
    unfold cmdCreateGame
    dsimp only
    rw [if_neg hauth, if_neg (not_lt.mpr hpw)]
    split
    · rfl
    · rename_i h
      exfalso
      apply h
      simp only [Bool.and_eq_true, Bool.not_eq_true', decide_eq_true_eq]
      refine ⟨⟨?_, hc.1⟩, hc.2.1⟩
      by_contra hcc
      apply hc.2.2
      simp only [Bool.not_eq_false, Bool.and_eq_true, decide_eq_true_eq] at hcc
      exact ⟨hcc.1.1, hcc.1.2, hcc.2⟩
  · intro hneg hcode
    have := (hiff.mp hcode).1
    omega

/-- Witness of C18 on the concrete session: with one game created already and
a limit of one, the creation is rejected and the state is unchanged. -/
theorem C18_per_room_game_limit_witness :
    (cmdCreateGame exEnvBusy exCreateGame 3 exSt).1 = ResponseCode.RespContextError ∧
      (cmdCreateGame exEnvBusy exCreateGame 3 exSt).2 = exSt :=
  ⟨by decide,
   (C18_per_room_game_limit exEnvBusy exCreateGame 3 exSt (by decide) (by decide)).2.1
     (by decide)⟩

/-- C19. For an authenticated session, `cmdJoinRoom` with a room id that is
not in the joined-room map and not in the room directory returns
`RespNameNotFound`; the handler (so its joined-room map and the room directory
with every room's membership) and the response container are the same as
before, and the only calls made are the lock and unlock of the room directory.
With a room id that is already in the joined-room map it returns
`RespContextError` and the state is the same as before. -/
theorem C19_join_room_rejections (env : Env) (room_id : Int) (s : St)
    (hauth : s.self.authState ≠ AuthenticationResult.NotLoggedIn) :
    (QMap.contains s.self.rooms room_id = false →
      findRoom s.self.server.rooms room_id = none →
      (cmdJoinRoom env room_id s).1 = ResponseCode.RespNameNotFound ∧
        (cmdJoinRoom env room_id s).2.self = s.self ∧
        (cmdJoinRoom env room_id s).2.rc = s.rc ∧
        newCalls s (cmdJoinRoom env room_id s).2
          = [Call.lock Lock.roomsLock, Call.unlock Lock.roomsLock]) ∧
    (QMap.contains s.self.rooms room_id = true →
      (cmdJoinRoom env room_id s).1 = ResponseCode.RespContextError ∧
        (cmdJoinRoom env room_id s).2 = s) := by
  constructor
  · intro hnot hnone
    have hnone1 : findRoom (s.call (Call.lock Lock.roomsLock)).self.server.rooms room_id
        = none := hnone
    simp only [cmdJoinRoom, if_neg hauth, hnot, Bool.false_eq_true, if_false, hnone1]
    simp [newCalls]
  · intro hin
    simp [cmdJoinRoom, hauth, hin]

/-- Witness of C19 on the concrete session: room 7 is not in the directory,
room 3 is joined already. -/
theorem C19_join_room_rejections_witness :
    ((cmdJoinRoom exEnv 7 exSt).1 = ResponseCode.RespNameNotFound ∧
        (cmdJoinRoom exEnv 7 exSt).2.self = exSt.self ∧
        (cmdJoinRoom exEnv 7 exSt).2.rc = exSt.rc ∧
        newCalls exSt (cmdJoinRoom exEnv 7 exSt).2
          = [Call.lock Lock.roomsLock, Call.unlock Lock.roomsLock]) ∧
      ((cmdJoinRoom exEnv 3 exSt).1 = ResponseCode.RespContextError ∧
        (cmdJoinRoom exEnv 3 exSt).2 = exSt) :=
  ⟨(C19_join_room_rejections exEnv 7 exSt (by decide)).1 (by decide) (by decide),
   (C19_join_room_rejections exEnv 3 exSt (by decide)).2 (by decide)⟩

theorem roomAt_modifyRoom (srv : Server) (room : Int) (f : Server_Room → Server_Room)
    (hf : ∀ r, (f r).id = r.id) (R : Server_Room) (h : findRoom srv.rooms room = some R) :
    (srv.modifyRoom room f).roomAt room = f R := by
  unfold Server.roomAt
  rw [findRoom_modifyRoom srv room room f hf, if_pos rfl, h]
  rfl

theorem St.setExt_post (s : St) (re : ResponseExtension) :
    (s.setExt re).rc.postResponseQueue = s.rc.postResponseQueue := rfl

theorem St.setExt_pre (s : St) (re : ResponseExtension) :
    (s.setExt re).rc.preResponseQueue = s.rc.preResponseQueue := rfl

theorem St.enqueuePost_post (s : St) (e : Event) :
    (s.enqueuePost e).rc.postResponseQueue = s.rc.postResponseQueue ++ [e] := rfl

theorem St.enqueuePost_pre (s : St) (e : Event) :
    (s.enqueuePost e).rc.preResponseQueue = s.rc.preResponseQueue := rfl

theorem foldl_enqueuePost_post (l : List Event) (s : St) :
    (l.foldl (fun st e => st.enqueuePost e) s).rc.postResponseQueue
      = s.rc.postResponseQueue ++ l := by
  rw [foldl_enqueuePost_rc]

theorem foldl_enqueuePost_pre (l : List Event) (s : St) :
    (l.foldl (fun st e => st.enqueuePost e) s).rc.preResponseQueue = s.rc.preResponseQueue := by
  rw [foldl_enqueuePost_rc]

theorem addClient_rc (room : Int) (s : St) : (addClient room s).rc = s.rc := rfl

theorem addClient_ident (room : Int) (s : St) : (addClient room s).self.ident = s.self.ident := rfl

theorem addClient_rooms (room : Int) (s : St) : (addClient room s).self.rooms = s.self.rooms := rfl

/-- C20. A successful `cmdJoinRoom` (`RespOk`) found the room in the room
directory; afterwards the post-response queue is the queue before followed by
one `ChatHistory` room event per stored chat-history entry, in history order,
each with the message `sender_name ++ ": " ++ message`, and then one `Welcome`
room event with the room's join message, which makes `|chat history| + 1` new
post-response items; the pre-response queue is unchanged; the session is in the
room's client membership set and the room id is a key of the session's
joined-room map. -/
theorem C20_join_room_success (env : Env) (room_id : Int) (s : St)
    (hok : (cmdJoinRoom env room_id s).1 = ResponseCode.RespOk) :
    ∃ room : Server_Room, findRoom s.self.server.rooms room_id = some room ∧
      (cmdJoinRoom env room_id s).2.rc.postResponseQueue
        = s.rc.postResponseQueue
          ++ room.chatHistory.map (fun m =>
              Event.RoomSay room_id (m.sender_name ++ ": " ++ m.message)
                RoomSayType.ChatHistory (some (env.msecsSinceEpoch m.time)))
          ++ [Event.RoomSay room_id room.joinMessage RoomSayType.Welcome none] ∧
      (cmdJoinRoom env room_id s).2.rc.postResponseQueue.length
        = s.rc.postResponseQueue.length + (room.chatHistory.length + 1) ∧
      (cmdJoinRoom env room_id s).2.rc.preResponseQueue = s.rc.preResponseQueue ∧
      s.self.ident ∈ ((cmdJoinRoom env room_id s).2.self.server.roomAt room_id).clients ∧
      room_id ∈ QMap.keys (cmdJoinRoom env room_id s).2.self.rooms := by
  by_cases hauth : s.self.authState = AuthenticationResult.NotLoggedIn
  · simp [cmdJoinRoom, hauth] at hok
  by_cases hin : QMap.contains s.self.rooms room_id = true
  · simp [cmdJoinRoom, hauth, hin] at hok
  have hfind1 : findRoom (s.call (Call.lock Lock.roomsLock)).self.server.rooms room_id
      = findRoom s.self.server.rooms room_id := rfl
  cases hfind : findRoom s.self.server.rooms room_id with
  | none => simp [cmdJoinRoom, hauth, hin, hfind1, hfind] at hok
  | some room =>
    have hid : room.id = room_id := findRoom_id _ _ _ hfind
    by_cases hmay : (s.call (Call.lock Lock.roomsLock)).self.user.user_level &&& env.IsModerator = 0
        ∧ env.userMayJoin room (s.call (Call.lock Lock.roomsLock)).self.user = false
    · simp only [cmdJoinRoom, if_neg hauth, hin, hfind1, hfind, if_pos hmay] at hok
      simp at hok
    · have hat : ((addClient room_id (s.call (Call.lock Lock.roomsLock))).self.server.roomAt
          room_id) = { room with clients := room.clients.insert s.self.ident } := by
        simp only [addClient, St.setServer, St.call_self]
        exact roomAt_modifyRoom s.self.server room_id
          (fun r => { r with clients := r.clients.insert s.self.ident }) (fun _ => rfl) room hfind
      have hpost : (cmdJoinRoom env room_id s).2.rc.postResponseQueue
          = s.rc.postResponseQueue
            ++ room.chatHistory.map (fun m =>
                Event.RoomSay room_id (m.sender_name ++ ": " ++ m.message)
                  RoomSayType.ChatHistory (some (env.msecsSinceEpoch m.time)))
            ++ [Event.RoomSay room_id room.joinMessage RoomSayType.Welcome none] := by
        simp only [cmdJoinRoom, if_neg hauth, hin, hfind1, hfind, if_neg hmay, hid,
          Bool.false_eq_true, if_false]
        simp only [St.call_rc, St.call_self, St.setExt_post, St.enqueuePost_post,
          foldl_enqueuePost_post, foldl_enqueuePost_self, addClient_rc, hat, chatHistoryEvents]
      refine ⟨room, rfl, hpost, ?_, ?_, ?_, ?_⟩
      · rw [hpost]
        simp
      · simp only [cmdJoinRoom, if_neg hauth, hin, hfind1, hfind, if_neg hmay, hid,
          Bool.false_eq_true, if_false]
        simp only [St.call_rc, St.call_self, St.setExt_pre, St.enqueuePost_pre,
          foldl_enqueuePost_pre, addClient_rc]
      · simp only [cmdJoinRoom, if_neg hauth, hin, hfind1, hfind, if_neg hmay, hid,
          Bool.false_eq_true, if_false]
        simp only [St.call_self, St.setExt_self, St.enqueuePost_self, foldl_enqueuePost_self, hat]
        simp
      · simp only [cmdJoinRoom, if_neg hauth, hin, hfind1, hfind, if_neg hmay, hid,
          Bool.false_eq_true, if_false]
        simp only [St.call_self, St.setExt_self, St.enqueuePost_self, foldl_enqueuePost_self,
          mem_keys_insert]
        exact Or.inl trivial

/-- Witness of C20 on the concrete session before it has joined a room: joining
room 3, which stores one chat message, succeeds and queues two post-response
items. -/
theorem C20_join_room_success_witness :
    (cmdJoinRoom exEnv 3 exStNewcomer).1 = ResponseCode.RespOk ∧
      ∃ room : Server_Room, findRoom exStNewcomer.self.server.rooms 3 = some room ∧
        (cmdJoinRoom exEnv 3 exStNewcomer).2.rc.postResponseQueue.length
          = exStNewcomer.rc.postResponseQueue.length + (room.chatHistory.length + 1) :=
  ⟨by decide,
   (C20_join_room_success exEnv 3 exStNewcomer (by decide)).imp
     (fun _ h => ⟨h.1, h.2.2.1⟩)⟩

/-! ## Authentication state -/

theorem NoRegress.regress_refl (a : AuthenticationResult) : NoRegress a a := Or.inl rfl

theorem NoRegress.regress_trans {a b c : AuthenticationResult} (h1 : NoRegress a b)
    (h2 : NoRegress b c) : NoRegress a c := by
  unfold NoRegress at *
  rcases h2 with h2 | h2
  · rw [h2]
    exact h1
  · exact Or.inr h2

theorem NoRegress.regress_of_eq {a b : AuthenticationResult} (h : b = a) : NoRegress a b :=
  Or.inl h

theorem NoRegress.logged_in {a b : AuthenticationResult} (h : NoRegress a b)
    (ha : a ≠ AuthenticationResult.NotLoggedIn) : b ≠ AuthenticationResult.NotLoggedIn := by
  rcases h with h | h | h
  · rw [h]
    exact ha
  · rw [h]
    decide
  · rw [h]
    decide

theorem addSaidMessageSize_authState (size : Int) (s : St) :
    (addSaidMessageSize size s).2.self.authState = s.self.authState := by
  unfold addSaidMessageSize
  split <;> rfl

theorem cmdMessage_authState (env : Env) (cmd : Command_Message) (s : St) :
    (cmdMessage env cmd s).2.self.authState = s.self.authState := by
  unfold cmdMessage
  dsimp only
  (repeat' split) <;> simp [resetIdleTimer, addSaidMessageSize_authState]

theorem foldl_lockUnlock_self (l : List Server_Room) (s : St) :
    (l.foldl (fun st room => (st.call (Call.lock (Lock.gamesLock room.id))).call
      (Call.unlock (Lock.gamesLock room.id))) s).self = s.self := by
  induction l generalizing s with
  | nil => rfl
  | cons r rest ih =>
    simp only [List.foldl]
    rw [ih]
    rfl

theorem cmdGetGamesOfUser_authState (env : Env) (user_name : String) (s : St) :
    (cmdGetGamesOfUser env user_name s).2.self.authState = s.self.authState := by
  unfold cmdGetGamesOfUser
  dsimp only
  split
  · rfl
  · simp only [St.setExt_self, St.call_self, foldl_lockUnlock_self]

theorem cmdGetUserInfo_authState (env : Env) (user_name : String) (s : St) :
    (cmdGetUserInfo env user_name s).2.self.authState = s.self.authState := by
  unfold cmdGetUserInfo
  dsimp only
  (repeat' split) <;> simp

theorem cmdListRooms_authState (s : St) :
    (cmdListRooms s).2.self.authState = s.self.authState := by
  unfold cmdListRooms
  dsimp only
  (repeat' split) <;> simp

theorem cmdListUsers_authState (env : Env) (s : St) :
    (cmdListUsers env s).2.self.authState = s.self.authState := by
  unfold cmdListUsers
  dsimp only
  (repeat' split) <;> simp

theorem cmdJoinRoom_authState (env : Env) (room_id : Int) (s : St) :
    (cmdJoinRoom env room_id s).2.self.authState = s.self.authState := by
  unfold cmdJoinRoom
  dsimp only
  (repeat' split) <;> simp [addClient, St.setServer]

theorem cmdLeaveRoom_authState (room : Int) (s : St) :
    (cmdLeaveRoom room s).2.self.authState = s.self.authState := rfl

theorem cmdRoomSay_authState (message : String) (room : Int) (s : St) :
    (cmdRoomSay message room s).2.self.authState = s.self.authState := by
  unfold cmdRoomSay
  dsimp only
  (repeat' split) <;> simp [addSaidMessageSize_authState]

theorem cmdCreateGame_authState (env : Env) (hkeep : KeepsAuthState env)
    (cmd : Command_CreateGame) (room : Int) (s : St) :
    (cmdCreateGame env cmd room s).2.self.authState = s.self.authState := by
  unfold cmdCreateGame
  dsimp only
  (repeat' split) <;> simp [St.setServer, hkeep.keepsAddPlayer]

theorem cmdJoinGame_authState (env : Env) (hkeep : KeepsAuthState env) (payload : Nat)
    (room : Int) (s : St) :
    (cmdJoinGame env payload room s).2.self.authState = s.self.authState := by
  unfold cmdJoinGame
  split
  · rfl
  · exact hkeep.keepsJoinGame room payload s.self s.rc

theorem cmdLoginFinish_authState (env : Env) (hkeep : KeepsAuthState env)
    (m : QStringMap Bool) (s : St) :
    (cmdLoginFinish env m s).2.self.authState = s.self.authState := by
  unfold cmdLoginFinish
  dsimp only
  (repeat' split) <;> simp [hkeep.keepsPersistent]

theorem cmdLoginResult_rejected (env : Env) (needsHash : Bool) (m : QStringMap Bool)
    (res : AuthenticationResult) (reasonStr : String) (banSecondsLeft : Int) (s : St)
    (code : ResponseCode) (h : rejectionCode res = some code) :
    (cmdLoginResult env needsHash m res reasonStr banSecondsLeft s).1 = code ∧
      (cmdLoginResult env needsHash m res reasonStr banSecondsLeft s).2.self.authState
        = s.self.authState := by
  cases res <;> simp [rejectionCode] at h <;> subst h <;> exact ⟨rfl, rfl⟩

theorem cmdLoginResult_accepted (env : Env) (hkeep : KeepsAuthState env) (needsHash : Bool)
    (m : QStringMap Bool) (res : AuthenticationResult) (reasonStr : String)
    (banSecondsLeft : Int) (s : St) (h : rejectionCode res = none) :
    (cmdLoginResult env needsHash m res reasonStr banSecondsLeft s).2.self.authState = res ∧
      (res = AuthenticationResult.PasswordRight ∨ res = AuthenticationResult.UnknownUser) := by
  cases res <;> simp [rejectionCode] at h
  · exact ⟨by simp only [cmdLoginResult]; rw [cmdLoginFinish_authState env hkeep], Or.inl rfl⟩
  · exact ⟨by simp only [cmdLoginResult]; rw [cmdLoginFinish_authState env hkeep], Or.inr rfl⟩

theorem cmdLoginResult_noRegress (env : Env) (hkeep : KeepsAuthState env) (needsHash : Bool)
    (m : QStringMap Bool) (res : AuthenticationResult) (reasonStr : String)
    (banSecondsLeft : Int) (s : St) :
    NoRegress s.self.authState
      (cmdLoginResult env needsHash m res reasonStr banSecondsLeft s).2.self.authState := by
  cases hr : rejectionCode res with
  | some code =>
    exact Or.inl (cmdLoginResult_rejected env needsHash m res reasonStr banSecondsLeft s code hr).2
  | none =>
    have h := cmdLoginResult_accepted env hkeep needsHash m res reasonStr banSecondsLeft s hr
    rw [h.1]
    exact Or.inr h.2

theorem cmdLogin_noRegress (env : Env) (hkeep : KeepsAuthState env) (cmd : Command_Login)
    (s : St) : NoRegress s.self.authState (cmdLogin env cmd s).2.self.authState := by
  unfold cmdLogin
  dsimp only
  split
  · exact NoRegress.regress_refl _
  · split
    · exact NoRegress.regress_refl _
    · split
      · exact NoRegress.regress_refl _
      · refine NoRegress.regress_trans (NoRegress.regress_of_eq ?_)
          (cmdLoginResult_noRegress env hkeep _ _ _ _ _ _)
        exact hkeep.keepsLoginUser _ _ _ _ _ _

theorem sessionCommandStep_noRegress (env : Env) (hkeep : KeepsAuthState env) (i : Nat)
    (sc : SessionCommand) (s : St) :
    NoRegress s.self.authState (sessionCommandStep env i sc s).2.self.authState := by
  cases sc with
  | PING => exact NoRegress.regress_refl _
  | LOGIN cmd => exact cmdLogin_noRegress env hkeep cmd _
  | MESSAGE cmd => exact Or.inl (cmdMessage_authState env cmd _)
  | GET_GAMES_OF_USER n => exact Or.inl (cmdGetGamesOfUser_authState env n _)
  | GET_USER_INFO n => exact Or.inl (cmdGetUserInfo_authState env n _)
  | LIST_ROOMS => exact Or.inl (cmdListRooms_authState _)
  | JOIN_ROOM r => exact Or.inl (cmdJoinRoom_authState env r _)
  | LIST_USERS => exact Or.inl (cmdListUsers_authState env _)
  | extended num payload => exact Or.inl (hkeep.keepsSession num payload _ _)

theorem sessionCommandStep_authState (env : Env) (hkeep : KeepsAuthState env) (i : Nat)
    (sc : SessionCommand) (s : St) (h : sc.isLogin = false) :
    (sessionCommandStep env i sc s).2.self.authState = s.self.authState := by
  cases sc with
  | PING => rfl
  | LOGIN cmd => simp [SessionCommand.isLogin] at h
  | MESSAGE cmd => exact cmdMessage_authState env cmd _
  | GET_GAMES_OF_USER n => exact cmdGetGamesOfUser_authState env n _
  | GET_USER_INFO n => exact cmdGetUserInfo_authState env n _
  | LIST_ROOMS => exact cmdListRooms_authState _
  | JOIN_ROOM r => exact cmdJoinRoom_authState env r _
  | LIST_USERS => exact cmdListUsers_authState env _
  | extended num payload => exact hkeep.keepsSession num payload _ _

theorem roomCommandStep_authState (env : Env) (hkeep : KeepsAuthState env) (room : Int)
    (i : Nat) (sc : RoomCommand) (s : St) :
    (roomCommandStep env room i sc s).2.self.authState = s.self.authState := by
  cases sc with
  | LEAVE_ROOM => rfl
  | ROOM_SAY message => exact cmdRoomSay_authState message room _
  | CREATE_GAME cmd => exact cmdCreateGame_authState env hkeep cmd room _
  | JOIN_GAME payload => exact cmdJoinGame_authState env hkeep payload room _
  | other n => rfl

theorem commandLoop_authState {α : Type} (step : Nat → α → St → ResponseCode × St)
    (l : List (Nat × α))
    (hstep : ∀ p ∈ l, ∀ s, (step p.1 p.2 s).2.self.authState = s.self.authState)
    (final : ResponseCode) (s : St) :
    (commandLoop step l final s).2.self.authState = s.self.authState := by
  induction l generalizing final s with
  | nil => rfl
  | cons c rest ih =>
    obtain ⟨i, sc⟩ := c
    simp only [commandLoop]
    rw [ih (fun p hp => hstep p (List.mem_cons_of_mem _ hp))]
    exact hstep (i, sc) (List.mem_cons_self _ _) s

theorem commandLoop_noRegress {α : Type} (step : Nat → α → St → ResponseCode × St)
    (hstep : ∀ i sc s, NoRegress s.self.authState (step i sc s).2.self.authState)
    (l : List (Nat × α)) (final : ResponseCode) (s : St) :
    NoRegress s.self.authState (commandLoop step l final s).2.self.authState := by
  induction l generalizing final s with
  | nil => exact NoRegress.regress_refl _
  | cons c rest ih =>
    obtain ⟨i, sc⟩ := c
    simp only [commandLoop]
    exact NoRegress.regress_trans (hstep i sc s) (ih _ _)

theorem gameCommandLoop_authState (env : Env) (hkeep : KeepsAuthState env)
    (room game player : Int) (cci mcc : Int) (l : List (Nat × GameCommand))
    (final : ResponseCode) (ges : List Nat) (s : St) :
    (gameCommandLoop env room game player cci mcc l final ges s).2.2.self.authState
      = s.self.authState := by
  induction l generalizing final ges s with
  | nil => rfl
  | cons c rest ih =>
    obtain ⟨i, sc⟩ := c
    simp only [gameCommandLoop]
    split
    · rfl
    · rw [ih]
      exact hkeep.keepsGame _ _ _ _ _ _ _

theorem processSessionCommandContainer_noRegress (env : Env) (hkeep : KeepsAuthState env)
    (cont : CommandContainer) (s : St) :
    NoRegress s.self.authState (processSessionCommandContainer env cont s).2.self.authState :=
  commandLoop_noRegress _ (sessionCommandStep_noRegress env hkeep) _ _ _

theorem processSessionCommandContainer_authState (env : Env) (hkeep : KeepsAuthState env)
    (cont : CommandContainer) (s : St)
    (h : cont.session_command.any SessionCommand.isLogin = false) :
    (processSessionCommandContainer env cont s).2.self.authState = s.self.authState := by
  unfold processSessionCommandContainer
  apply commandLoop_authState
  intro p hp t
  apply sessionCommandStep_authState env hkeep
  have hmem : p.2 ∈ cont.session_command := by
    have : p.2 ∈ (loopOrder cont.session_command).map Prod.snd := List.mem_map_of_mem _ hp
    simpa [loopOrder, List.map_reverse, List.enum_map_snd] using this
  cases hl : p.2.isLogin with
  | false => rfl
  | true =>
    have : cont.session_command.any SessionCommand.isLogin = true :=
      List.any_eq_true.mpr ⟨p.2, hmem, hl⟩
    rw [h] at this
    exact absurd this (by decide)

theorem processRoomCommandContainer_authState (env : Env) (hkeep : KeepsAuthState env)
    (cont : CommandContainer) (s : St) :
    (processRoomCommandContainer env cont s).2.self.authState = s.self.authState := by
  unfold processRoomCommandContainer
  dsimp only
  split
  · rfl
  · split
    · rfl
    · simp only [St.call_self]
      rw [commandLoop_authState _ _ (fun p _ t => roomCommandStep_authState env hkeep _ p.1 p.2 t)]
      rfl

theorem processGameCommandContainer_authState (env : Env) (hkeep : KeepsAuthState env)
    (cont : CommandContainer) (s : St) :
    (processGameCommandContainer env cont s).2.self.authState = s.self.authState := by
  unfold processGameCommandContainer
  dsimp only
  split
  · rfl
  · split
    · rfl
    · split
      · rfl
      · split
        · split <;> rfl
        · split
          · rfl
          · have hl := gameCommandLoop_authState env hkeep
            split
            · rename_i heq
              have h1 := congrArg (fun L => L.2.2.self.authState) heq
              simp only [hl] at h1
              simpa [unlockGame, resetIdleTimer] using h1.symm
            · rename_i heq
              have h1 := congrArg (fun L => L.2.2.self.authState) heq
              simp only [hl] at h1
              simpa [unlockGame, resetIdleTimer] using h1.symm

theorem processModeratorCommandContainer_authState (env : Env) (hkeep : KeepsAuthState env)
    (cont : CommandContainer) (s : St) :
    (processModeratorCommandContainer env cont s).2.self.authState = s.self.authState := by
  unfold processModeratorCommandContainer
  split
  · rfl
  · split
    · rfl
    · rw [commandLoop_authState _ _ (fun p _ t => hkeep.keepsModerator p.2.num p.2.payload _ _)]
      rfl

theorem processAdminCommandContainer_authState (env : Env) (hkeep : KeepsAuthState env)
    (cont : CommandContainer) (s : St) :
    (processAdminCommandContainer env cont s).2.self.authState = s.self.authState := by
  unfold processAdminCommandContainer
  split
  · rfl
  · split
    · rfl
    · rw [commandLoop_authState _ _ (fun p _ t => hkeep.keepsAdmin p.2.num p.2.payload _ _)]
      rfl

theorem dispatchCommandContainer_noRegress (env : Env) (hkeep : KeepsAuthState env)
    (cont : CommandContainer) (s : St) :
    NoRegress s.self.authState (dispatchCommandContainer env cont s).2.self.authState := by
  unfold dispatchCommandContainer
  split
  · exact Or.inl (processGameCommandContainer_authState env hkeep cont s)
  · split
    · exact Or.inl (processRoomCommandContainer_authState env hkeep cont s)
    · split
      · exact processSessionCommandContainer_noRegress env hkeep cont s
      · split
        · exact Or.inl (processModeratorCommandContainer_authState env hkeep cont s)
        · split
          · exact Or.inl (processAdminCommandContainer_authState env hkeep cont s)
          · exact NoRegress.regress_refl _

theorem dispatchCommandContainer_authState (env : Env) (hkeep : KeepsAuthState env)
    (cont : CommandContainer) (s : St)
    (h : cont.session_command.any SessionCommand.isLogin = false) :
    (dispatchCommandContainer env cont s).2.self.authState = s.self.authState := by
  unfold dispatchCommandContainer
  split
  · exact processGameCommandContainer_authState env hkeep cont s
  · split
    · exact processRoomCommandContainer_authState env hkeep cont s
    · split
      · exact processSessionCommandContainer_authState env hkeep cont s h
      · split
        · exact processModeratorCommandContainer_authState env hkeep cont s
        · split
          · exact processAdminCommandContainer_authState env hkeep cont s
          · rfl

theorem processCommandContainer_noRegress (env : Env) (hkeep : KeepsAuthState env)
    (cont : CommandContainer) (s : St) :
    NoRegress s.self.authState (processCommandContainer env cont s).self.authState := by
  unfold processCommandContainer
  dsimp only
  split
  · exact NoRegress.regress_refl _
  · split
    · exact dispatchCommandContainer_noRegress env hkeep cont _
    · exact dispatchCommandContainer_noRegress env hkeep cont _

theorem processCommandContainer_authState (env : Env) (hkeep : KeepsAuthState env)
    (cont : CommandContainer) (s : St)
    (h : cont.session_command.any SessionCommand.isLogin = false) :
    (processCommandContainer env cont s).self.authState = s.self.authState := by
  unfold processCommandContainer
  dsimp only
  split
  · rfl
  · split
    · exact dispatchCommandContainer_authState env hkeep cont _ h
    · exact dispatchCommandContainer_authState env hkeep cont _ h

theorem foldl_removeClient_authState (l : List Int) (s : St) :
    (l.foldl (fun st room => removeClient room st) s).self.authState = s.self.authState := by
  induction l generalizing s with
  | nil => rfl
  | cons r rest ih =>
    simp only [List.foldl]
    rw [ih]
    rfl

theorem prepareDestroyGame_authState (s : St) (e : Int × Int × Int) :
    (prepareDestroyGame s e).self.authState = s.self.authState := by
  unfold prepareDestroyGame
  dsimp only
  (repeat' split) <;> rfl

theorem foldl_prepareDestroyGame_authState (l : List (Int × Int × Int)) (s : St) :
    (l.foldl prepareDestroyGame s).self.authState = s.self.authState := by
  induction l generalizing s with
  | nil => rfl
  | cons e rest ih =>
    simp only [List.foldl]
    rw [ih, prepareDestroyGame_authState]

theorem prepareDestroy_authState (s : St) :
    (prepareDestroy s).self.authState = s.self.authState := by
  unfold prepareDestroy
  dsimp only
  split
  · rfl
  · simp only [St.call_self, serverRemoveClient, St.setServer, foldl_prepareDestroyGame_authState,
      foldl_removeClient_authState]
    rfl

theorem pingClockTimeout_authState (env : Env) (s : St) :
    (pingClockTimeout env s).self.authState = s.self.authState := by
  unfold pingClockTimeout
  dsimp only
  (repeat' split) <;> simp [prepareDestroy_authState]

theorem runOperation_noRegress (env : Env) (hkeep : KeepsAuthState env) (op : Operation)
    (s : St) : NoRegress s.self.authState (runOperation env op s).self.authState := by
  cases op with
  | ping => exact NoRegress.regress_refl _
  | login cmd => exact cmdLogin_noRegress env hkeep cmd s
  | message cmd => exact Or.inl (cmdMessage_authState env cmd s)
  | getGamesOfUser n => exact Or.inl (cmdGetGamesOfUser_authState env n s)
  | getUserInfo n => exact Or.inl (cmdGetUserInfo_authState env n s)
  | listRooms => exact Or.inl (cmdListRooms_authState s)
  | joinRoom r => exact Or.inl (cmdJoinRoom_authState env r s)
  | listUsers => exact Or.inl (cmdListUsers_authState env s)
  | leaveRoom r => exact Or.inl (cmdLeaveRoom_authState r s)
  | roomSay m r => exact Or.inl (cmdRoomSay_authState m r s)
  | createGame cmd r => exact Or.inl (cmdCreateGame_authState env hkeep cmd r s)
  | joinGame p r => exact Or.inl (cmdJoinGame_authState env hkeep p r s)
  | sessionBatch cont => exact processSessionCommandContainer_noRegress env hkeep cont s
  | roomBatch cont => exact Or.inl (processRoomCommandContainer_authState env hkeep cont s)
  | gameBatch cont => exact Or.inl (processGameCommandContainer_authState env hkeep cont s)
  | moderatorBatch cont =>
    exact Or.inl (processModeratorCommandContainer_authState env hkeep cont s)
  | adminBatch cont => exact Or.inl (processAdminCommandContainer_authState env hkeep cont s)
  | batch cont => exact processCommandContainer_noRegress env hkeep cont s
  | clockTick => exact Or.inl (pingClockTimeout_authState env s)
  | teardown => exact Or.inl (prepareDestroy_authState s)

theorem runOperation_authState (env : Env) (hkeep : KeepsAuthState env) (op : Operation)
    (s : St) (h : op.mayLogin = false) :
    (runOperation env op s).self.authState = s.self.authState := by
  cases op with
  | ping => rfl
  | login cmd => simp [Operation.mayLogin] at h
  | message cmd => exact cmdMessage_authState env cmd s
  | getGamesOfUser n => exact cmdGetGamesOfUser_authState env n s
  | getUserInfo n => exact cmdGetUserInfo_authState env n s
  | listRooms => exact cmdListRooms_authState s
  | joinRoom r => exact cmdJoinRoom_authState env r s
  | listUsers => exact cmdListUsers_authState env s
  | leaveRoom r => exact cmdLeaveRoom_authState r s
  | roomSay m r => exact cmdRoomSay_authState m r s
  | createGame cmd r => exact cmdCreateGame_authState env hkeep cmd r s
  | joinGame p r => exact cmdJoinGame_authState env hkeep p r s
  | sessionBatch cont => exact processSessionCommandContainer_authState env hkeep cont s h
  | roomBatch cont => exact processRoomCommandContainer_authState env hkeep cont s
  | gameBatch cont => exact processGameCommandContainer_authState env hkeep cont s
  | moderatorBatch cont => exact processModeratorCommandContainer_authState env hkeep cont s
  | adminBatch cont => exact processAdminCommandContainer_authState env hkeep cont s
  | batch cont => exact processCommandContainer_authState env hkeep cont s h
  | clockTick => exact pingClockTimeout_authState env s
  | teardown => exact prepareDestroy_authState s

theorem cmdLogin_write (env : Env) (hkeep : KeepsAuthState env) (cmd : Command_Login) (s : St) :
    (cmdLogin env cmd s).2.self.authState = s.self.authState ∨
      ∃ (password : String) (needsHash : Bool),
        (cmdLogin env cmd s).2.self.authState
          = (env.loginUser (env.simplified (env.nameFromStdString cmd.user_name)) password
              needsHash (env.simplified (env.nameFromStdString cmd.clientid))
              (env.simplified (env.nameFromStdString cmd.clientver)) s.self).1 ∧
        rejectionCode (env.loginUser (env.simplified (env.nameFromStdString cmd.user_name))
          password needsHash (env.simplified (env.nameFromStdString cmd.clientid))
          (env.simplified (env.nameFromStdString cmd.clientver)) s.self).1 = none := by
  unfold cmdLogin
  dsimp only
  split
  · exact Or.inl rfl
  · rename_i password needsHash _
    split
    · exact Or.inl rfl
    · split
      · exact Or.inl rfl
      · cases hr : rejectionCode (env.loginUser (env.simplified (env.nameFromStdString
            cmd.user_name)) password needsHash (env.simplified (env.nameFromStdString
            cmd.clientid)) (env.simplified (env.nameFromStdString cmd.clientver)) s.self).1 with
        | some code =>
          left
          rw [(cmdLoginResult_rejected env _ _ _ _ _ _ code hr).2]
          exact hkeep.keepsLoginUser _ _ _ _ _ _
        | none =>
          right
          exact ⟨password, needsHash, (cmdLoginResult_accepted env hkeep _ _ _ _ _ _ hr).1, hr⟩

theorem exEnv_keepsAuthState : KeepsAuthState exEnv :=
  ⟨fun _ _ _ _ => rfl, fun _ _ _ _ => rfl, fun _ _ _ _ => rfl, fun _ _ _ _ _ _ _ => rfl,
    fun _ _ _ _ => rfl, fun _ _ _ _ _ _ => rfl, fun _ _ => rfl, fun _ _ _ _ _ => rfl⟩

/-- C17. Authentication state never regresses.  With collaborators that leave
`authState` alone, for every operation of the handler (each command handler,
each batch processor, the batch dispatch, the clock tick and the teardown): if
`authState` is not `NotLoggedIn` before the operation it is not `NotLoggedIn`
after it, and an operation that does not run `cmdLogin` leaves `authState`
unchanged.  `cmdLogin` either leaves `authState` unchanged or sets it to the
result of the credential check, which is then none of `NotLoggedIn`,
`UserIsBanned`, `WouldOverwriteOldSession`, `UsernameInvalid`,
`RegistrationRequired`, `ClientIdRequired`, `UserIsInactive`; each of those
seven results makes the switch of `cmdLogin` return its rejection code
(`RespWrongPassword` for `NotLoggedIn`) with `authState` unchanged. -/
theorem C17_auth_state_never_regresses (env : Env) (hkeep : KeepsAuthState env) (s : St) :
    (∀ op : Operation, s.self.authState ≠ AuthenticationResult.NotLoggedIn →
      (runOperation env op s).self.authState ≠ AuthenticationResult.NotLoggedIn) ∧
    (∀ op : Operation, op.mayLogin = false →
      (runOperation env op s).self.authState = s.self.authState) ∧
    (∀ cmd : Command_Login,
      (cmdLogin env cmd s).2.self.authState = s.self.authState ∨
        ∃ (password : String) (needsHash : Bool),
          (cmdLogin env cmd s).2.self.authState
            = (env.loginUser (env.simplified (env.nameFromStdString cmd.user_name)) password
                needsHash (env.simplified (env.nameFromStdString cmd.clientid))
                (env.simplified (env.nameFromStdString cmd.clientver)) s.self).1 ∧
          rejectionCode (env.loginUser (env.simplified (env.nameFromStdString cmd.user_name))
            password needsHash (env.simplified (env.nameFromStdString cmd.clientid))
            (env.simplified (env.nameFromStdString cmd.clientver)) s.self).1 = none) ∧
    (∀ res : AuthenticationResult, rejectionCode res = none ↔
      res ∉ [AuthenticationResult.NotLoggedIn, AuthenticationResult.UserIsBanned,
        AuthenticationResult.WouldOverwriteOldSession, AuthenticationResult.UsernameInvalid,
        AuthenticationResult.RegistrationRequired, AuthenticationResult.ClientIdRequired,
        AuthenticationResult.UserIsInactive]) ∧
    (∀ (needsHash : Bool) (m : QStringMap Bool) (res : AuthenticationResult)
        (reasonStr : String) (banSecondsLeft : Int) (code : ResponseCode),
      rejectionCode res = some code →
      (cmdLoginResult env needsHash m res reasonStr banSecondsLeft s).1 = code ∧
        (cmdLoginResult env needsHash m res reasonStr banSecondsLeft s).2.self.authState
          = s.self.authState) ∧
    rejectionCode AuthenticationResult.NotLoggedIn = some ResponseCode.RespWrongPassword := by
  refine ⟨fun op h => (runOperation_noRegress env hkeep op s).logged_in h,
    fun op h => runOperation_authState env hkeep op s h,
    fun cmd => cmdLogin_write env hkeep cmd s, ?_,
    fun needsHash m res reasonStr banSecondsLeft code h =>
      cmdLoginResult_rejected env needsHash m res reasonStr banSecondsLeft s code h, rfl⟩
  intro res
  cases res <;> simp [rejectionCode]

/-- Witness of C17 on the concrete logged-in session: after the batch with
sub-commands of every kind, after the clock tick and after a login attempt the
session is still logged in. -/
theorem C17_auth_state_never_regresses_witness :
    (runOperation exEnv (Operation.batch exCont) exSt).self.authState
        ≠ AuthenticationResult.NotLoggedIn ∧
      (runOperation exEnv Operation.clockTick exSt).self.authState
        = exSt.self.authState ∧
      (runOperation exEnv (Operation.login exLogin) exSt).self.authState
        ≠ AuthenticationResult.NotLoggedIn :=
  ⟨(C17_auth_state_never_regresses exEnv exEnv_keepsAuthState exSt).1 _ (by decide),
   (C17_auth_state_never_regresses exEnv exEnv_keepsAuthState exSt).2.1 _ rfl,
   (C17_auth_state_never_regresses exEnv exEnv_keepsAuthState exSt).1 _ (by decide)⟩

/-! ## Flood state -/

theorem loopOrder_concat {α : Type} (init : List α) (sc : α) :
    loopOrder (init ++ [sc]) = (init.length, sc) :: loopOrder init := by
  simp [loopOrder, List.enum_append, List.enumFrom]

theorem gameCommandLoop_flooded (env : Env) (room game player : Int) (cci mcc : Int)
    (hcci : cci > 0) (hmcc : mcc > 0) (i : Nat) (sc : GameCommand)
    (rest : List (Nat × GameCommand)) (final : ResponseCode) (ges : List Nat) (s : St)
    (hflood : s.self.commandCountOverTime.sum > mcc) :
    gameCommandLoop env room game player cci mcc ((i, sc) :: rest) final ges s
      = (none, ges, { (s.call Call.logDebugMessage) with
          self := { s.self with
            commandCountOverTime := (countGameCommand cci mcc sc s.self.commandCountOverTime).1 } })
      := by
  have hf : (countGameCommand cci mcc sc s.self.commandCountOverTime).2 = true := by
    rw [countGameCommand_flood cci mcc sc _ hcci hmcc]
    split <;> omega
  simp only [gameCommandLoop, St.call_self, hf, if_true]

/-- C27. Flood state persists and ignores the allow-list.  In a state with a
command-counting interval and a ceiling above zero whose command-count window
sums to more than the ceiling, a game batch with at least one sub-command
whose game and seat resolve returns `RespChatFlood` and hands no sub-command to
the seat handler, whatever the types of its sub-commands; the first sub-command
visited (the last submitted) has been counted before the comparison: the window
afterwards is the one `countGameCommand` leaves for it, so its sum has grown by
one when that sub-command is not allow-listed and is unchanged otherwise. -/
theorem C27_flood_state_persists (env : Env) (cont : CommandContainer) (s : St)
    (rp : Int × Int) (room : Server_Room) (game : Server_Game) (player : Server_Player)
    (hauth : s.self.authState ≠ AuthenticationResult.NotLoggedIn)
    (hgame : QMap.value s.self.games cont.game_id = some rp)
    (hroom : findRoom s.self.server.rooms rp.1 = some room)
    (hg : findGame room.games cont.game_id = some game)
    (hp : findPlayer game.players rp.2 = some player)
    (hcci : s.self.server.commandCountingInterval > 0)
    (hmcc : s.self.server.maxCommandCountPerInterval > 0)
    (hne : cont.game_command ≠ [])
    (hflood : s.self.commandCountOverTime.sum > s.self.server.maxCommandCountPerInterval) :
    (processGameCommandContainer env cont s).1 = ResponseCode.RespChatFlood ∧
      handlerCalls (newCalls s (processGameCommandContainer env cont s).2) = [] ∧
      ∃ sc : GameCommand, cont.game_command.getLast? = some sc ∧
        (processGameCommandContainer env cont s).2.self.commandCountOverTime
          = (countGameCommand s.self.server.commandCountingInterval
              s.self.server.maxCommandCountPerInterval sc s.self.commandCountOverTime).1 ∧
        (processGameCommandContainer env cont s).2.self.commandCountOverTime.sum
          = s.self.commandCountOverTime.sum + (if sc.counted then 1 else 0) := by
  rw [processGameCommandContainer_resolved env cont s rp room game player hauth hgame hroom hg hp]
  rcases List.eq_nil_or_concat cont.game_command with hnil | ⟨init, sc, hcat⟩
  · exact absurd hnil hne
  · have hlo : loopOrder cont.game_command = (init.length, sc) :: loopOrder init := by
      rw [hcat, List.concat_eq_append]
      exact loopOrder_concat init sc
    rw [hlo, gameCommandLoop_flooded env rp.1 cont.game_id rp.2 _ _ hcci hmcc _ _ _ _ _ _
      (by rw [gameLoopStart_window]; exact hflood)]
    refine ⟨rfl, ?_, sc, ?_, ?_, ?_⟩
    · simp [gameFinish, unlockGame, gameLoopStart, resetIdleTimer, newCalls, handlerCalls,
        St.call]
    · rw [hcat]
      simp
    · rfl
    · exact countGameCommand_sum _ _ sc _ hcci

/-- Witness of C27 on the concrete session with a window sum of three and a
ceiling of two: a batch of two allow-listed sub-commands is rejected and no
sub-command is handled. -/
theorem C27_flood_state_persists_witness :
    (processGameCommandContainer exEnv exAllowListedCont exStFlooded).1
        = ResponseCode.RespChatFlood ∧
      handlerCalls (newCalls exStFlooded
        (processGameCommandContainer exEnv exAllowListedCont exStFlooded).2) = [] :=
  ⟨(C27_flood_state_persists exEnv exAllowListedCont exStFlooded (3, 0) _ _ _
      (by decide) (by decide) rfl rfl rfl (by decide) (by decide) (by decide) (by decide)).1,
   (C27_flood_state_persists exEnv exAllowListedCont exStFlooded (3, 0) _ _ _
      (by decide) (by decide) rfl rfl rfl (by decide) (by decide) (by decide) (by decide)).2.1⟩

/-! ## Login and the user limit -/

theorem cmdLoginFinish_code (env : Env) (m : QStringMap Bool) (s : St) :
    ((cmdLoginFinish env m s).1 = ResponseCode.RespServerFull ∧ (cmdLoginFinish env m s).2 = s) ∨
      (cmdLoginFinish env m s).1 = ResponseCode.RespOk := by
  unfold cmdLoginFinish
  dsimp only
  split
  · exact Or.inl ⟨rfl, rfl⟩
  · exact Or.inr rfl

theorem cmdLoginResult_fields (env : Env) (needsHash : Bool) (m : QStringMap Bool)
    (res : AuthenticationResult) (reasonStr : String) (banSecondsLeft : Int) (s : St) :
    ((cmdLoginResult env needsHash m res reasonStr banSecondsLeft s).1
        = ResponseCode.RespServerFull →
      (cmdLoginResult env needsHash m res reasonStr banSecondsLeft s).2.self.authState = res ∧
        (res = AuthenticationResult.PasswordRight ∨ res = AuthenticationResult.UnknownUser) ∧
        (cmdLoginResult env needsHash m res reasonStr banSecondsLeft s).2.self.usingRealPassword
          = needsHash) ∧
    ((cmdLoginResult env needsHash m res reasonStr banSecondsLeft s).1
        ≠ ResponseCode.RespServerFull →
      (cmdLoginResult env needsHash m res reasonStr banSecondsLeft s).1 ≠ ResponseCode.RespOk →
      (cmdLoginResult env needsHash m res reasonStr banSecondsLeft s).2.self.authState
          = s.self.authState ∧
        (cmdLoginResult env needsHash m res reasonStr banSecondsLeft s).2.self.usingRealPassword
          = s.self.usingRealPassword) := by
  cases res
  case PasswordRight =>
    simp only [cmdLoginResult]
    rcases cmdLoginFinish_code env m { s with self := { s.self with
      authState := AuthenticationResult.PasswordRight, usingRealPassword := needsHash } }
      with ⟨h1, h2⟩ | h1
    · rw [h2]
      exact ⟨fun _ => ⟨rfl, by simp, rfl⟩, fun hne _ => absurd h1 hne⟩
    · exact ⟨fun h => by rw [h1] at h; exact absurd h (by decide), fun _ hne => absurd h1 hne⟩
  case UnknownUser =>
    simp only [cmdLoginResult]
    rcases cmdLoginFinish_code env m { s with self := { s.self with
      authState := AuthenticationResult.UnknownUser, usingRealPassword := needsHash } }
      with ⟨h1, h2⟩ | h1
    · rw [h2]
      exact ⟨fun _ => ⟨rfl, by simp, rfl⟩, fun hne _ => absurd h1 hne⟩
    · exact ⟨fun h => by rw [h1] at h; exact absurd h (by decide), fun _ hne => absurd h1 hne⟩
  all_goals exact ⟨fun h => absurd h (by simp [cmdLoginResult]), fun _ _ => ⟨rfl, rfl⟩⟩

/-- C28. A login rejected with `RespServerFull` is not atomic.  With a
credential check that leaves `authState` and `usingRealPassword` alone:
whenever `cmdLogin` returns `RespServerFull`, `authState` is the result of the
credential check, which is `PasswordRight` or `UnknownUser` (so it is not
`NotLoggedIn`), and `usingRealPassword` says whether the command carried a
plain password; whenever `cmdLogin` returns any code other than `RespOk` and
`RespServerFull`, `authState` and `usingRealPassword` are what they were before
the call. -/
theorem C28_server_full_not_atomic (env : Env) (hkeep : KeepsLoginFields env)
    (cmd : Command_Login) (s : St) :
    ((cmdLogin env cmd s).1 = ResponseCode.RespServerFull →
      (∃ password : String,
        (cmdLogin env cmd s).2.self.authState
          = (env.loginUser (env.simplified (env.nameFromStdString cmd.user_name)) password
              cmd.password.isSome (env.simplified (env.nameFromStdString cmd.clientid))
              (env.simplified (env.nameFromStdString cmd.clientver)) s.self).1) ∧
        ((cmdLogin env cmd s).2.self.authState = AuthenticationResult.PasswordRight ∨
          (cmdLogin env cmd s).2.self.authState = AuthenticationResult.UnknownUser) ∧
        (cmdLogin env cmd s).2.self.authState ≠ AuthenticationResult.NotLoggedIn ∧
        (cmdLogin env cmd s).2.self.usingRealPassword = cmd.password.isSome) ∧
    ((cmdLogin env cmd s).1 ≠ ResponseCode.RespServerFull →
      (cmdLogin env cmd s).1 ≠ ResponseCode.RespOk →
      (cmdLogin env cmd s).2.self.authState = s.self.authState ∧
        (cmdLogin env cmd s).2.self.usingRealPassword = s.self.usingRealPassword) := by
  have key : ∀ (password : String) (needsHash : Bool),
      loginPassword env cmd = Except.ok (password, needsHash) → needsHash = cmd.password.isSome := by
    intro password needsHash h
    unfold loginPassword at h
    cases hp : cmd.password with
    | none =>
      rw [hp] at h
      dsimp only at h
      split at h
      · cases h
      · cases h
        rfl
    | some pw =>
      rw [hp] at h
      dsimp only at h
      split at h
      · cases h
      · cases h
        rfl
  have kerr : ∀ code : ResponseCode, loginPassword env cmd = Except.error code →
      code ≠ ResponseCode.RespServerFull := by
    intro code h
    unfold loginPassword at h
    cases hp : cmd.password with
    | none =>
      rw [hp] at h
      dsimp only at h
      split at h
      · cases h
        decide
      · cases h
    | some pw =>
      rw [hp] at h
      dsimp only at h
      split at h
      · cases h
        decide
      · cases h
  unfold cmdLogin
  dsimp only
  split
  · rename_i code herr
    exact ⟨fun h => absurd h (kerr code herr), fun _ _ => ⟨rfl, rfl⟩⟩
  · rename_i password needsHash hpw
    have hnh := key password needsHash hpw
    split
    · exact ⟨fun h => absurd h (by simp), fun _ _ => ⟨rfl, rfl⟩⟩
    · split
      · exact ⟨fun h => absurd h (by simp), fun _ _ => ⟨rfl, rfl⟩⟩
      · have hf := cmdLoginResult_fields env needsHash
          (env.identifyMissingFeatures
            ((cmd.clientfeatures.take
              (min (cmd.clientfeatures.length : Int) env.MAX_NAME_LENGTH).toNat).foldl
              (fun m f => QStringMap.insert m (env.simplified (env.nameFromStdString f)) false) [])
            s.self.server.serverRequiredFeatureList)
          (env.loginUser (env.simplified (env.nameFromStdString cmd.user_name)) password
            needsHash (env.simplified (env.nameFromStdString cmd.clientid))
            (env.simplified (env.nameFromStdString cmd.clientver)) s.self).1
          (env.loginUser (env.simplified (env.nameFromStdString cmd.user_name)) password
            needsHash (env.simplified (env.nameFromStdString cmd.clientid))
            (env.simplified (env.nameFromStdString cmd.clientver)) s.self).2.1
          (env.loginUser (env.simplified (env.nameFromStdString cmd.user_name)) password
            needsHash (env.simplified (env.nameFromStdString cmd.clientid))
            (env.simplified (env.nameFromStdString cmd.clientver)) s.self).2.2.1
          (({ s with self := (env.loginUser (env.simplified (env.nameFromStdString cmd.user_name))
            password needsHash (env.simplified (env.nameFromStdString cmd.clientid))
            (env.simplified (env.nameFromStdString cmd.clientver)) s.self).2.2.2 } : St).call
            Call.loginUser)
        have hk := hkeep (env.simplified (env.nameFromStdString cmd.user_name)) password
          needsHash (env.simplified (env.nameFromStdString cmd.clientid))
          (env.simplified (env.nameFromStdString cmd.clientver)) s.self
        refine ⟨fun h => ?_, fun h1 h2 => ?_⟩
        · obtain ⟨ha, hr, hu⟩ := hf.1 h
          refine ⟨⟨password, ?_⟩, ?_, ?_, ?_⟩
          · rw [ha, hnh]
          · rw [ha]
            exact hr
          · rw [ha]
            rcases hr with hr | hr <;> rw [hr] <;> decide
          · rw [hu, hnh]
        · obtain ⟨ha, hu⟩ := hf.2 h1 h2
          exact ⟨ha.trans hk.1, hu.trans hk.2⟩

/-- Witness of C28 on the concrete server whose user limit is exceeded: the
login of an unprivileged user returns `RespServerFull` and leaves the session
logged in. -/
theorem C28_server_full_not_atomic_witness :
    (cmdLogin exEnvPlain exLogin exStFull).1 = ResponseCode.RespServerFull ∧
      (cmdLogin exEnvPlain exLogin exStFull).2.self.authState
        ≠ AuthenticationResult.NotLoggedIn ∧
      (cmdLogin exEnvPlain exLogin exStFull).2.self.usingRealPassword = true :=
  ⟨by decide,
   ((C28_server_full_not_atomic exEnvPlain (fun _ _ _ _ _ _ => ⟨rfl, rfl⟩) exLogin
      exStFull).1 (by decide)).2.2.1,
   ((C28_server_full_not_atomic exEnvPlain (fun _ _ _ _ _ _ => ⟨rfl, rfl⟩) exLogin
      exStFull).1 (by decide)).2.2.2⟩

/-! ## Idle timer -/

theorem commandLoop_keeps {α β : Type} (f : Server_ProtocolHandler → β)
    (step : Nat → α → St → ResponseCode × St) (l : List (Nat × α))
    (hstep : ∀ p ∈ l, ∀ s, f (step p.1 p.2 s).2.self = f s.self)
    (final : ResponseCode) (s : St) :
    f (commandLoop step l final s).2.self = f s.self := by
  induction l generalizing final s with
  | nil => rfl
  | cons c rest ih =>
    obtain ⟨i, sc⟩ := c
    simp only [commandLoop]
    rw [ih (fun p hp => hstep p (List.mem_cons_of_mem _ hp))]
    exact hstep (i, sc) (List.mem_cons_self _ _) s

theorem addSaidMessageSize_idleTimer (size : Int) (s : St) :
    (addSaidMessageSize size s).2.self.idleTimer = s.self.idleTimer := by
  unfold addSaidMessageSize
  split <;> rfl

theorem cmdRoomSay_idleTimer (message : String) (room : Int) (s : St) :
    (cmdRoomSay message room s).2.self.idleTimer = s.self.idleTimer := by
  unfold cmdRoomSay
  dsimp only
  (repeat' split) <;> simp [addSaidMessageSize_idleTimer]

theorem cmdCreateGame_idleTimer (env : Env) (hkeep : KeepsIdleTimer env)
    (cmd : Command_CreateGame) (room : Int) (s : St) :
    (cmdCreateGame env cmd room s).2.self.idleTimer = s.self.idleTimer := by
  unfold cmdCreateGame
  dsimp only
  (repeat' split) <;> first | rfl | exact (hkeep.2 _ _ _ _ _).trans rfl

theorem cmdJoinGame_idleTimer (env : Env) (hkeep : KeepsIdleTimer env) (payload : Nat)
    (room : Int) (s : St) :
    (cmdJoinGame env payload room s).2.self.idleTimer = s.self.idleTimer := by
  unfold cmdJoinGame
  split
  · rfl
  · exact hkeep.1 room payload s.self s.rc

theorem roomCommandStep_idleTimer (env : Env) (hkeep : KeepsIdleTimer env) (room : Int)
    (i : Nat) (sc : RoomCommand) (s : St) :
    (roomCommandStep env room i sc s).2.self.idleTimer = s.self.idleTimer := by
  cases sc with
  | LEAVE_ROOM => rfl
  | ROOM_SAY message => exact cmdRoomSay_idleTimer message room _
  | CREATE_GAME cmd => exact cmdCreateGame_idleTimer env hkeep cmd room _
  | JOIN_GAME payload => exact cmdJoinGame_idleTimer env hkeep payload room _
  | other n => rfl

theorem processRoomCommandContainer_idleTimer (env : Env) (hkeep : KeepsIdleTimer env)
    (cont : CommandContainer) (s : St) (room : Int)
    (hauth : s.self.authState ≠ AuthenticationResult.NotLoggedIn)
    (hroom : QMap.value s.self.rooms cont.room_id = some room) :
    (processRoomCommandContainer env cont s).2.self.idleTimer = (s.self.timeRunning, false) := by
  have hroom1 : QMap.value (s.call (Call.lock Lock.roomsLock)).self.rooms cont.room_id
      = some room := hroom
  simp only [processRoomCommandContainer, if_neg hauth, St.call_self, hroom]
  rw [commandLoop_keeps Server_ProtocolHandler.idleTimer _ _
    (fun p _ t => roomCommandStep_idleTimer env hkeep room p.1 p.2 t)]
  rfl

theorem processRoomCommandContainer_rejected (env : Env) (cont : CommandContainer) (s : St)
    (h : s.self.authState = AuthenticationResult.NotLoggedIn
      ∨ QMap.value s.self.rooms cont.room_id = none) :
    ((processRoomCommandContainer env cont s).1 = ResponseCode.RespLoginNeeded
        ∨ (processRoomCommandContainer env cont s).1 = ResponseCode.RespNotInRoom) ∧
      (processRoomCommandContainer env cont s).2.self = s.self := by
  by_cases hauth : s.self.authState = AuthenticationResult.NotLoggedIn
  · simp [processRoomCommandContainer, hauth]
  · rcases h with h | h
    · exact absurd h hauth
    · have hroom1 : QMap.value (s.call (Call.lock Lock.roomsLock)).self.rooms cont.room_id
          = none := h
      simp [processRoomCommandContainer, hauth, h]

theorem processSessionCommandContainer_pings (env : Env) (cont : CommandContainer) (s : St)
    (h : ∀ sc ∈ cont.session_command, sc = SessionCommand.PING) :
    (processSessionCommandContainer env cont s).1 = ResponseCode.RespOk ∧
      (processSessionCommandContainer env cont s).2.self = s.self := by
  unfold processSessionCommandContainer
  have hmem : ∀ p ∈ loopOrder cont.session_command, p.2 = SessionCommand.PING := by
    intro p hp
    apply h
    have : p.2 ∈ (loopOrder cont.session_command).map Prod.snd := List.mem_map_of_mem _ hp
    simpa [loopOrder, List.map_reverse, List.enum_map_snd] using this
  generalize loopOrder cont.session_command = l at hmem
  constructor
  · have : ∀ (l : List (Nat × SessionCommand)) (t : St),
        (∀ p ∈ l, p.2 = SessionCommand.PING) →
        (commandLoop (sessionCommandStep env) l ResponseCode.RespOk t).1 = ResponseCode.RespOk := by
      intro l
      induction l with
      | nil => intro t _; rfl
      | cons c rest ih =>
        intro t hl
        obtain ⟨i, sc⟩ := c
        have hsc : sc = SessionCommand.PING := hl (i, sc) (List.mem_cons_self _ _)
        subst hsc
        simp only [commandLoop, sessionCommandStep, cmdPing, ne_eq, not_true_eq_false, if_false]
        exact ih _ (fun p hp => hl p (List.mem_cons_of_mem _ hp))
    exact this l s hmem
  · apply commandLoop_keeps id
    intro p hp t
    have hsc := hmem p hp
    obtain ⟨i, sc⟩ := p
    simp only at hsc
    subst hsc
    rfl

theorem respond_self (r : ResponseCode × St) : (respond r).self = r.2.self := by
  unfold respond
  split <;> rfl

theorem dispatch_room (env : Env) (cont : CommandContainer) (s : St)
    (hg : cont.game_command = []) (hr : cont.room_command ≠ []) :
    dispatchCommandContainer env cont s = processRoomCommandContainer env cont s := by
  have hr2 : cont.room_command.length ≠ 0 := fun h => hr (List.length_eq_zero.mp h)
  simp [dispatchCommandContainer, hg, hr2]

theorem dispatch_session (env : Env) (cont : CommandContainer) (s : St)
    (hg : cont.game_command = []) (hr : cont.room_command = [])
    (hs : cont.session_command ≠ []) :
    dispatchCommandContainer env cont s = processSessionCommandContainer env cont s := by
  have hs2 : cont.session_command.length ≠ 0 := fun h => hs (List.length_eq_zero.mp h)
  simp [dispatchCommandContainer, hg, hr, hs2]

/-- C23. Idle-timer reset per batch.  On a live session whose room collaborators
leave the idle timer alone: after a room batch that passes the authentication
and room-resolution gates, `lastActionReceived` is the current tick count and
the idle-warning flag is clear, whatever the sub-commands of the batch and
their codes; after a room batch rejected at one of the two gates
(`RespLoginNeeded` or `RespNotInRoom`) and after a session batch of `PING`
sub-commands only, `lastActionReceived` and the idle-warning flag are unchanged
while `lastDataReceived` is the current tick count. -/
theorem C23_idle_timer_reset_per_batch (env : Env) (hkeep : KeepsIdleTimer env)
    (cont : CommandContainer) (s : St) (hlive : s.self.deleted = false)
    (hg : cont.game_command = []) :
    (cont.room_command ≠ [] → s.self.authState ≠ AuthenticationResult.NotLoggedIn →
      (QMap.value s.self.rooms cont.room_id).isSome = true →
      (processCommandContainer env cont s).self.lastActionReceived = s.self.timeRunning ∧
        (processCommandContainer env cont s).self.idleClientWarningSent = false) ∧
    (cont.room_command ≠ [] →
      (s.self.authState = AuthenticationResult.NotLoggedIn
        ∨ QMap.value s.self.rooms cont.room_id = none) →
      ((processRoomCommandContainer env cont (batchStart cont s)).1
            = ResponseCode.RespLoginNeeded
          ∨ (processRoomCommandContainer env cont (batchStart cont s)).1
            = ResponseCode.RespNotInRoom) ∧
        (processCommandContainer env cont s).self.lastActionReceived
          = s.self.lastActionReceived ∧
        (processCommandContainer env cont s).self.idleClientWarningSent
          = s.self.idleClientWarningSent ∧
        (processCommandContainer env cont s).self.lastDataReceived = s.self.timeRunning) ∧
    (cont.room_command = [] → cont.session_command ≠ [] →
      (∀ sc ∈ cont.session_command, sc = SessionCommand.PING) →
      (processCommandContainer env cont s).self.lastActionReceived
          = s.self.lastActionReceived ∧
        (processCommandContainer env cont s).self.idleClientWarningSent
          = s.self.idleClientWarningSent ∧
        (processCommandContainer env cont s).self.lastDataReceived = s.self.timeRunning) := by
  rw [processCommandContainer_eq env cont s hlive]
  simp only [respond_self]
  refine ⟨?_, ?_, ?_⟩
  · intro hr hauth hroom
    obtain ⟨room, hroom⟩ := Option.isSome_iff_exists.mp hroom
    rw [dispatch_room env cont _ hg hr]
    have h := processRoomCommandContainer_idleTimer env hkeep cont (batchStart cont s) room
      hauth hroom
    simp only [Server_ProtocolHandler.idleTimer, Prod.mk.injEq] at h
    exact h
  · intro hr hrej
    rw [dispatch_room env cont _ hg hr]
    have h := processRoomCommandContainer_rejected env cont (batchStart cont s) hrej
    rw [h.2]
    exact ⟨h.1, rfl, rfl, rfl⟩
  · intro hr hs hping
    rw [dispatch_session env cont _ hg hr hs]
    have h := processSessionCommandContainer_pings env cont (batchStart cont s) hping
    rw [h.2]
    exact ⟨rfl, rfl, rfl⟩

/-- Witness of C23 on the concrete session at tick 50, idle since tick 20 and
warned: a room batch resets the idle timer, a batch of pings does not. -/
theorem C23_idle_timer_reset_per_batch_witness :
    ((processCommandContainer exEnv exRoomCont exStIdle).self.lastActionReceived = 50 ∧
      (processCommandContainer exEnv exRoomCont exStIdle).self.idleClientWarningSent
        = false) ∧
    ((processCommandContainer exEnv exPingCont exStIdle).self.lastActionReceived = 20 ∧
      (processCommandContainer exEnv exPingCont exStIdle).self.idleClientWarningSent = true ∧
      (processCommandContainer exEnv exPingCont exStIdle).self.lastDataReceived = 50) :=
  ⟨(C23_idle_timer_reset_per_batch exEnv ⟨fun _ _ _ _ => rfl, fun _ _ _ _ _ => rfl⟩ exRoomCont
      exStIdle rfl rfl).1 (by decide) (by decide) (by decide),
   (C23_idle_timer_reset_per_batch exEnv ⟨fun _ _ _ _ => rfl, fun _ _ _ _ _ => rfl⟩ exPingCont
      exStIdle rfl rfl).2.2 rfl (by decide) (by decide)⟩

/-! ## Clock tick -/

theorem idleChecks_eq (env : Env) (s3 : St) :
    (let hasPrivLevel : Bool := match s3.self.userInfo with
        | some u => toLower u.privlevel != "none"
        | none => false
      let isModOrAdmin : Bool := match s3.self.userInfo with
        | some u => decide (u.user_level &&& (env.IsModerator ||| env.IsAdmin) ≠ 0)
        | none => false
      let s6 : St :=
        if !hasPrivLevel && !isModOrAdmin then
          let s4 : St :=
            if s3.self.server.idleClientTimeout > 0 ∧ s3.self.idleClientWarningSent = true
                ∧ s3.self.timeRunning - s3.self.lastActionReceived
                    > s3.self.server.idleClientTimeout then
              prepareDestroy s3
            else s3
          if s4.self.timeRunning - s4.self.lastActionReceived
                ≥ env.idleWarningThreshold s4.self.server.idleClientTimeout
              ∧ s4.self.idleClientWarningSent = false ∧ s4.self.server.idleClientTimeout > 0 then
            let s5 := s4.call (Call.sendProtocolItem Event.NotifyUser_IDLEWARNING)
            { s5 with self := { s5.self with idleClientWarningSent := true } }
          else s4
        else s3
      s6) = idleChecks env s3 := by
  unfold idleChecks
  by_cases hex : idleExempt env s3.self = false
  · have hex2 : (!(match s3.self.userInfo with
          | some u => toLower u.privlevel != "none"
          | none => false) &&
        !(match s3.self.userInfo with
          | some u => decide (u.user_level &&& (env.IsModerator ||| env.IsAdmin) ≠ 0)
          | none => false)) = true := by
      unfold idleExempt at hex
      simpa using hex
    rw [if_pos hex]
    exact if_pos hex2
  · have hex2 : ¬ (!(match s3.self.userInfo with
          | some u => toLower u.privlevel != "none"
          | none => false) &&
        !(match s3.self.userInfo with
          | some u => decide (u.user_level &&& (env.IsModerator ||| env.IsAdmin) ≠ 0)
          | none => false)) = true := by
      unfold idleExempt at hex
      simpa using hex
    rw [if_neg hex]
    exact if_neg hex2

theorem pingClockTimeout_stages (env : Env) (s : St) :
    pingClockTimeout env s = tickEnd (idleChecks env (inactivityCheck (ageWindows s))) :=
  congrArg tickEnd (idleChecks_eq env (inactivityCheck (ageWindows s)))

theorem foldl_removeClient_keeps {β : Type} (f : Server_ProtocolHandler → β)
    (hsrv : ∀ (h : Server_ProtocolHandler) (rooms : List Server_Room)
      (users : List (String × UserInterface)) (clients : List Nat),
      f { h with server := { h.server with rooms := rooms, users := users, clients := clients } }
        = f h)
    (l : List Int) (s : St) :
    f (l.foldl (fun st room => removeClient room st) s).self = f s.self := by
  induction l generalizing s with
  | nil => rfl
  | cons r rest ih =>
    simp only [List.foldl]
    rw [ih]
    exact hsrv s.self _ _ _

theorem prepareDestroyGame_keeps {β : Type} (f : Server_ProtocolHandler → β)
    (hsrv : ∀ (h : Server_ProtocolHandler) (rooms : List Server_Room)
      (users : List (String × UserInterface)) (clients : List Nat),
      f { h with server := { h.server with rooms := rooms, users := users, clients := clients } }
        = f h)
    (s : St) (e : Int × Int × Int) :
    f (prepareDestroyGame s e).self = f s.self := by
  unfold prepareDestroyGame
  dsimp only
  (repeat' split) <;> first | rfl | exact hsrv s.self _ _ _

theorem foldl_prepareDestroyGame_keeps {β : Type} (f : Server_ProtocolHandler → β)
    (hsrv : ∀ (h : Server_ProtocolHandler) (rooms : List Server_Room)
      (users : List (String × UserInterface)) (clients : List Nat),
      f { h with server := { h.server with rooms := rooms, users := users, clients := clients } }
        = f h)
    (l : List (Int × Int × Int)) (s : St) :
    f (l.foldl prepareDestroyGame s).self = f s.self := by
  induction l generalizing s with
  | nil => rfl
  | cons e rest ih =>
    simp only [List.foldl]
    rw [ih, prepareDestroyGame_keeps f hsrv]

/-- What `prepareDestroy` leaves alone: every function of the handler that
depends neither on the flag `deleted` nor on the rooms, users and clients of
the server. -/
theorem prepareDestroy_keeps {β : Type} (f : Server_ProtocolHandler → β)
    (hdel : ∀ (h : Server_ProtocolHandler) (b : Bool), f { h with deleted := b } = f h)
    (hsrv : ∀ (h : Server_ProtocolHandler) (rooms : List Server_Room)
      (users : List (String × UserInterface)) (clients : List Nat),
      f { h with server := { h.server with rooms := rooms, users := users, clients := clients } }
        = f h)
    (s : St) : f (prepareDestroy s).self = f s.self := by
  unfold prepareDestroy
  dsimp only
  split
  · rfl
  · simp only [St.call_self, serverRemoveClient, St.setServer]
    rw [hsrv, foldl_prepareDestroyGame_keeps f hsrv]
    simp only [St.call_self]
    rw [foldl_removeClient_keeps f hsrv]
    exact hdel s.self true

theorem foldl_removeClient_teardown (l : List Int) (s : St) :
    ∃ ext, (l.foldl (fun st room => removeClient room st) s).trace = s.trace ++ ext ∧
      ∀ c ∈ ext, c.isTeardown = true := by
  induction l generalizing s with
  | nil => exact ⟨[], by simp, by simp⟩
  | cons r rest ih =>
    simp only [List.foldl]
    obtain ⟨ext, h1, h2⟩ := ih (removeClient r s)
    refine ⟨Call.removeClient r :: ext, ?_, ?_⟩
    · rw [h1]
      simp [removeClient]
    · intro c hc
      rcases List.mem_cons.mp hc with rfl | hc
      · rfl
      · exact h2 c hc

theorem prepareDestroyGame_teardown (s : St) (e : Int × Int × Int) :
    ∃ ext, (prepareDestroyGame s e).trace = s.trace ++ ext ∧
      ∀ c ∈ ext, c.isTeardown = true := by
  unfold prepareDestroyGame
  dsimp only
  split
  · exact ⟨[], by simp, by simp⟩
  · split
    · exact ⟨[Call.lock (Lock.gamesLock e.2.1), Call.unlock (Lock.gamesLock e.2.1)],
        by simp, by simp [Call.isTeardown]⟩
    · split
      · exact ⟨[Call.lock (Lock.gamesLock e.2.1), Call.lock (Lock.gameMutex e.2.1 e.1),
          Call.unlock (Lock.gameMutex e.2.1 e.1), Call.unlock (Lock.gamesLock e.2.1)],
          by simp, by simp [Call.isTeardown]⟩
      · exact ⟨[Call.lock (Lock.gamesLock e.2.1), Call.lock (Lock.gameMutex e.2.1 e.1),
          Call.disconnectClient e.2.1 e.1 e.2.2,
          Call.unlock (Lock.gameMutex e.2.1 e.1), Call.unlock (Lock.gamesLock e.2.1)],
          by simp [disconnectClient], by simp [Call.isTeardown]⟩

theorem foldl_prepareDestroyGame_teardown (l : List (Int × Int × Int)) (s : St) :
    ∃ ext, (l.foldl prepareDestroyGame s).trace = s.trace ++ ext ∧
      ∀ c ∈ ext, c.isTeardown = true := by
  induction l generalizing s with
  | nil => exact ⟨[], by simp, by simp⟩
  | cons e rest ih =>
    simp only [List.foldl]
    obtain ⟨e1, h1, h2⟩ := prepareDestroyGame_teardown s e
    obtain ⟨e2, h3, h4⟩ := ih (prepareDestroyGame s e)
    refine ⟨e1 ++ e2, by rw [h3, h1, List.append_assoc], ?_⟩
    intro c hc
    rcases List.mem_append.mp hc with hc | hc
    · exact h2 c hc
    · exact h4 c hc

theorem prepareDestroy_teardown (s : St) :
    ∃ ext, (prepareDestroy s).trace = s.trace ++ ext ∧ ∀ c ∈ ext, c.isTeardown = true := by
  unfold prepareDestroy
  dsimp only
  split
  · exact ⟨[], by simp, by simp⟩
  · obtain ⟨e1, h1, h2⟩ := foldl_removeClient_teardown (QMap.values s.setDeleted.self.rooms)
      s.setDeleted
    generalize (QMap.values s.setDeleted.self.rooms).foldl
      (fun st room => removeClient room st) s.setDeleted = s2 at h1
    obtain ⟨e2, h3, h4⟩ := foldl_prepareDestroyGame_teardown s2.self.games
      (s2.call (Call.lock Lock.roomsLock))
    refine ⟨e1 ++ [Call.lock Lock.roomsLock] ++ e2
      ++ [Call.unlock Lock.roomsLock, Call.serverRemoveClient, Call.deleteLater], ?_, ?_⟩
    · simp only [St.call_trace, serverRemoveClient_trace, h3, h1]
      have : s.setDeleted.trace = s.trace := rfl
      rw [this]
      simp
    · intro c hc
      simp only [List.mem_append, List.mem_cons, List.mem_singleton, List.not_mem_nil,
        or_false] at hc
      rcases hc with ((hc | hc) | hc) | hc
      · exact h2 c hc
      · rw [hc]
        rfl
      · exact h4 c hc
      · rcases hc with hc | hc | hc <;> rw [hc] <;> rfl

theorem idleWarnings_of_teardown (ext : List Call) (h : ∀ c ∈ ext, c.isTeardown = true) :
    idleWarnings ext = [] := by
  unfold idleWarnings
  rw [List.filter_eq_nil_iff]
  intro c hc
  have := h c hc
  intro hw
  simp only [decide_eq_true_eq] at hw
  rw [hw] at this
  exact absurd this (by decide)

theorem idleWarnings_append (a b : List Call) :
    idleWarnings (a ++ b) = idleWarnings a ++ idleWarnings b := by
  simp [idleWarnings, List.filter_append]

theorem prepareDestroy_idleFields (s : St) :
    (prepareDestroy s).self.userInfo = s.self.userInfo ∧
      (prepareDestroy s).self.timeRunning = s.self.timeRunning ∧
      (prepareDestroy s).self.lastActionReceived = s.self.lastActionReceived ∧
      (prepareDestroy s).self.lastDataReceived = s.self.lastDataReceived ∧
      (prepareDestroy s).self.idleClientWarningSent = s.self.idleClientWarningSent ∧
      (prepareDestroy s).self.server.idleClientTimeout = s.self.server.idleClientTimeout ∧
      (prepareDestroy s).self.server.maxPlayerInactivityTime
        = s.self.server.maxPlayerInactivityTime :=
  ⟨prepareDestroy_keeps (fun h => h.userInfo) (fun _ _ => rfl) (fun _ _ _ _ => rfl) s,
   prepareDestroy_keeps (fun h => h.timeRunning) (fun _ _ => rfl) (fun _ _ _ _ => rfl) s,
   prepareDestroy_keeps (fun h => h.lastActionReceived) (fun _ _ => rfl) (fun _ _ _ _ => rfl) s,
   prepareDestroy_keeps (fun h => h.lastDataReceived) (fun _ _ => rfl) (fun _ _ _ _ => rfl) s,
   prepareDestroy_keeps (fun h => h.idleClientWarningSent) (fun _ _ => rfl)
     (fun _ _ _ _ => rfl) s,
   prepareDestroy_keeps (fun h => h.server.idleClientTimeout) (fun _ _ => rfl)
     (fun _ _ _ _ => rfl) s,
   prepareDestroy_keeps (fun h => h.server.maxPlayerInactivityTime) (fun _ _ => rfl)
     (fun _ _ _ _ => rfl) s⟩

theorem ageWindows_trace (s : St) : (ageWindows s).trace = s.trace := by
  unfold ageWindows
  dsimp only
  (repeat' split) <;> rfl

theorem ageWindows_keeps {β : Type} (f : Server_ProtocolHandler → β)
    (hw : ∀ (h : Server_ProtocolHandler) (a b c : List Int),
      f { h with messageSizeOverTime := a, messageCountOverTime := b,
                 commandCountOverTime := c } = f h)
    (s : St) : f (ageWindows s).self = f s.self := by
  unfold ageWindows
  dsimp only
  split
  · split
    · exact hw s.self _ _ _
    · exact hw s.self _ _ _
  · split
    · exact hw s.self _ _ _
    · rfl

theorem inactivityCheck_spec (s : St) :
    (∃ ext, (inactivityCheck s).trace = s.trace ++ ext ∧ ∀ c ∈ ext, c.isTeardown = true) ∧
      (inactivityCheck s).self.deleted = (s.self.deleted || decide (inactive s.self)) ∧
      (inactivityCheck s).self.userInfo = s.self.userInfo ∧
      (inactivityCheck s).self.timeRunning = s.self.timeRunning ∧
      (inactivityCheck s).self.lastActionReceived = s.self.lastActionReceived ∧
      (inactivityCheck s).self.lastDataReceived = s.self.lastDataReceived ∧
      (inactivityCheck s).self.idleClientWarningSent = s.self.idleClientWarningSent ∧
      (inactivityCheck s).self.server.idleClientTimeout = s.self.server.idleClientTimeout ∧
      (inactivityCheck s).self.server.maxPlayerInactivityTime
        = s.self.server.maxPlayerInactivityTime := by
  unfold inactivityCheck
  by_cases h : s.self.timeRunning - s.self.lastDataReceived
      > s.self.server.maxPlayerInactivityTime
  · rw [if_pos h]
    refine ⟨prepareDestroy_teardown s, ?_, prepareDestroy_idleFields s⟩
    rw [prepareDestroy_deleted]
    simp [inactive, h]
  · rw [if_neg h]
    refine ⟨⟨[], by simp, by simp⟩, ?_, rfl, rfl, rfl, rfl, rfl, rfl, rfl⟩
    simp [inactive, h]

theorem idleChecks_spec (env : Env) (s : St) :
    (∃ ext, (idleChecks env s).trace = s.trace ++ ext ∧
        idleWarnings ext = (if idleWarningDue env s.self then [idleWarning] else [])) ∧
      (idleChecks env s).self.idleClientWarningSent
        = (s.self.idleClientWarningSent || decide (idleWarningDue env s.self)) ∧
      (idleChecks env s).self.deleted
        = (s.self.deleted || decide (idleTimedOut env s.self)) ∧
      (idleChecks env s).self.userInfo = s.self.userInfo ∧
      (idleChecks env s).self.timeRunning = s.self.timeRunning ∧
      (idleChecks env s).self.lastActionReceived = s.self.lastActionReceived ∧
      (idleChecks env s).self.lastDataReceived = s.self.lastDataReceived ∧
      (idleChecks env s).self.server.idleClientTimeout = s.self.server.idleClientTimeout ∧
      (idleChecks env s).self.server.maxPlayerInactivityTime
        = s.self.server.maxPlayerInactivityTime := by
  unfold idleChecks
  by_cases hex : idleExempt env s.self = false
  · rw [if_pos hex]
    dsimp only
    by_cases hto : s.self.server.idleClientTimeout > 0 ∧ s.self.idleClientWarningSent = true
        ∧ s.self.timeRunning - s.self.lastActionReceived > s.self.server.idleClientTimeout
    · have hf := prepareDestroy_idleFields s
      have hnd : ¬ ((prepareDestroy s).self.timeRunning - (prepareDestroy s).self.lastActionReceived
            ≥ env.idleWarningThreshold (prepareDestroy s).self.server.idleClientTimeout
          ∧ (prepareDestroy s).self.idleClientWarningSent = false
          ∧ (prepareDestroy s).self.server.idleClientTimeout > 0) := by
        rw [hf.2.2.2.2.1, hto.2.1]
        simp
      have hdue : ¬ idleWarningDue env s.self := by
        unfold idleWarningDue
        rw [hto.2.1]
        simp
      have hti : idleTimedOut env s.self := ⟨hex, hto⟩
      simp only [if_pos hto, if_neg hnd, if_neg hdue, hdue, hti, decide_True, decide_False,
        Bool.or_false, Bool.or_true]
      obtain ⟨ext, h1, h2⟩ := prepareDestroy_teardown s
      exact ⟨⟨ext, h1, idleWarnings_of_teardown ext h2⟩, hf.2.2.2.2.1, prepareDestroy_deleted s,
        hf.1, hf.2.1, hf.2.2.1, hf.2.2.2.1, hf.2.2.2.2.2.1, hf.2.2.2.2.2.2⟩
    · have hti : ¬ idleTimedOut env s.self := fun h => hto h.2
      simp only [if_neg hto]
      by_cases hd : s.self.timeRunning - s.self.lastActionReceived
            ≥ env.idleWarningThreshold s.self.server.idleClientTimeout
          ∧ s.self.idleClientWarningSent = false ∧ s.self.server.idleClientTimeout > 0
      · have hdue : idleWarningDue env s.self := ⟨hex, hd⟩
        rw [if_pos hd, if_pos hdue]
        exact ⟨⟨[idleWarning], rfl, by simp [idleWarnings]⟩, by simp [hdue], by simp [hti],
          rfl, rfl, rfl, rfl, rfl, rfl⟩
      · have hdue : ¬ idleWarningDue env s.self := fun h => hd h.2
        rw [if_neg hd, if_neg hdue]
        exact ⟨⟨[], by simp, rfl⟩, by simp [hdue], by simp [hti], rfl, rfl, rfl, rfl, rfl, rfl⟩
  · rw [if_neg hex]
    have hdue : ¬ idleWarningDue env s.self := fun h => hex h.1
    have hti : ¬ idleTimedOut env s.self := fun h => hex h.1
    rw [if_neg hdue]
    exact ⟨⟨[], by simp, rfl⟩, by simp [hdue], by simp [hti], rfl, rfl, rfl, rfl, rfl, rfl⟩

theorem inactivityCheck_keeps {β : Type} (f : Server_ProtocolHandler → β)
    (hdel : ∀ (h : Server_ProtocolHandler) (b : Bool), f { h with deleted := b } = f h)
    (hsrv : ∀ (h : Server_ProtocolHandler) (rooms : List Server_Room)
      (users : List (String × UserInterface)) (clients : List Nat),
      f { h with server := { h.server with rooms := rooms, users := users, clients := clients } }
        = f h)
    (s : St) : f (inactivityCheck s).self = f s.self := by
  unfold inactivityCheck
  split
  · exact prepareDestroy_keeps f hdel hsrv s
  · rfl

/-- The clock tick, in terms of the state before it: the calls it makes hold
one idle warning exactly when the warning is due; the warning flag is set when
the warning is due; the session is flagged deleted when it is inactive or has
timed out idle; the tick count grows by one. -/
theorem pingClockTimeout_spec (env : Env) (s : St) :
    (∃ ext, (pingClockTimeout env s).trace = s.trace ++ ext ∧
        idleWarnings ext = (if idleWarningDue env s.self then [idleWarning] else [])) ∧
      (pingClockTimeout env s).self.idleClientWarningSent
        = (s.self.idleClientWarningSent || decide (idleWarningDue env s.self)) ∧
      (pingClockTimeout env s).self.deleted
        = (s.self.deleted || decide (inactive s.self) || decide (idleTimedOut env s.self)) ∧
      (pingClockTimeout env s).self.userInfo = s.self.userInfo ∧
      (pingClockTimeout env s).self.timeRunning = s.self.timeRunning + 1 ∧
      (pingClockTimeout env s).self.lastActionReceived = s.self.lastActionReceived ∧
      (pingClockTimeout env s).self.lastDataReceived = s.self.lastDataReceived ∧
      (pingClockTimeout env s).self.server.idleClientTimeout = s.self.server.idleClientTimeout ∧
      (pingClockTimeout env s).self.server.maxPlayerInactivityTime
        = s.self.server.maxPlayerInactivityTime := by
  rw [pingClockTimeout_stages]
  have hA := ageWindows_trace s
  have hB := inactivityCheck_spec (ageWindows s)
  have hC := idleChecks_spec env (inactivityCheck (ageWindows s))
  have hdue : idleWarningDue env (inactivityCheck (ageWindows s)).self
      = idleWarningDue env s.self := by
    rw [inactivityCheck_keeps (fun h => idleWarningDue env h) (fun _ _ => rfl)
      (fun _ _ _ _ => rfl)]
    exact ageWindows_keeps (fun h => idleWarningDue env h) (fun _ _ _ _ => rfl) s
  have hto : idleTimedOut env (inactivityCheck (ageWindows s)).self
      = idleTimedOut env s.self := by
    rw [inactivityCheck_keeps (fun h => idleTimedOut env h) (fun _ _ => rfl)
      (fun _ _ _ _ => rfl)]
    exact ageWindows_keeps (fun h => idleTimedOut env h) (fun _ _ _ _ => rfl) s
  have hin : inactive (ageWindows s).self = inactive s.self :=
    ageWindows_keeps (fun h => inactive h) (fun _ _ _ _ => rfl) s
  have hk : ∀ {β : Type} (f : Server_ProtocolHandler → β),
      (∀ (h : Server_ProtocolHandler) (a b c : List Int),
        f { h with messageSizeOverTime := a, messageCountOverTime := b,
                   commandCountOverTime := c } = f h) →
      f (ageWindows s).self = f s.self := fun f hw => ageWindows_keeps f hw s
  obtain ⟨⟨e1, ht1, hq1⟩, hd1, hu1, htr1, hla1, hld1, hfl1, hic1, hmp1⟩ := hB
  obtain ⟨⟨e2, ht2, hq2⟩, hfl2, hd2, hu2, htr2, hla2, hld2, hic2, hmp2⟩ := hC
  refine ⟨⟨e1 ++ e2, ?_, ?_⟩, ?_, ?_, ?_, ?_, ?_, ?_, ?_, ?_⟩
  · show (idleChecks env (inactivityCheck (ageWindows s))).trace = _
    rw [ht2, ht1, hA, List.append_assoc]
  · rw [idleWarnings_append, idleWarnings_of_teardown e1 hq1, hq2]
    simp only [hdue, List.nil_append]
  · show (idleChecks env (inactivityCheck (ageWindows s))).self.idleClientWarningSent = _
    rw [hfl2, hfl1, hk (fun h => h.idleClientWarningSent) (fun _ _ _ _ => rfl)]
    simp only [hdue]
  · show (idleChecks env (inactivityCheck (ageWindows s))).self.deleted = _
    rw [hd2, hd1, hk (fun h => h.deleted) (fun _ _ _ _ => rfl)]
    simp only [hto, hin]
  · show (idleChecks env (inactivityCheck (ageWindows s))).self.userInfo = _
    rw [hu2, hu1, hk (fun h => h.userInfo) (fun _ _ _ _ => rfl)]
  · show (idleChecks env (inactivityCheck (ageWindows s))).self.timeRunning + 1 = _
    rw [htr2, htr1, hk (fun h => h.timeRunning) (fun _ _ _ _ => rfl)]
  · show (idleChecks env (inactivityCheck (ageWindows s))).self.lastActionReceived = _
    rw [hla2, hla1, hk (fun h => h.lastActionReceived) (fun _ _ _ _ => rfl)]
  · show (idleChecks env (inactivityCheck (ageWindows s))).self.lastDataReceived = _
    rw [hld2, hld1, hk (fun h => h.lastDataReceived) (fun _ _ _ _ => rfl)]
  · show (idleChecks env (inactivityCheck (ageWindows s))).self.server.idleClientTimeout = _
    rw [hic2, hic1, hk (fun h => h.server.idleClientTimeout) (fun _ _ _ _ => rfl)]
  · show (idleChecks env (inactivityCheck (ageWindows s))).self.server.maxPlayerInactivityTime
      = _
    rw [hmp2, hmp1, hk (fun h => h.server.maxPlayerInactivityTime) (fun _ _ _ _ => rfl)]

theorem prepareDestroy_deleteLater (s : St) (hlive : s.self.deleted = false) :
    ∃ ext, (prepareDestroy s).trace = s.trace ++ ext ∧ Call.deleteLater ∈ ext := by
  obtain ⟨ext, h1, _⟩ := prepareDestroy_teardown s
  refine ⟨ext, h1, ?_⟩
  have h2 : ∃ pre, (prepareDestroy s).trace = pre ++ [Call.deleteLater] := by
    unfold prepareDestroy
    rw [if_neg (by simp [hlive])]
    exact ⟨_, rfl⟩
  obtain ⟨pre, h2⟩ := h2
  rw [h1] at h2
  have hmem : Call.deleteLater ∈ s.trace ++ ext := by
    rw [h2]
    simp
  rcases List.mem_append.mp hmem with hm | hm
  · have hlen := congrArg List.length h2
    simp only [List.length_append, List.length_singleton] at hlen
    cases ext with
    | nil =>
      simp only [List.append_nil] at h2
      have h3 : (prepareDestroy s).trace = s.trace := by rw [h1]; simp
      have h4 := congrArg List.length h1
      have : ∃ pre2, (prepareDestroy s).trace = s.trace ++ pre2 ∧ pre2 ≠ [] := by
        unfold prepareDestroy
        rw [if_neg (by simp [hlive])]
        dsimp only
        obtain ⟨e1, g1, _⟩ := foldl_removeClient_teardown (QMap.values s.setDeleted.self.rooms)
          s.setDeleted
        generalize (QMap.values s.setDeleted.self.rooms).foldl
          (fun st room => removeClient room st) s.setDeleted = s2 at g1
        obtain ⟨e2, g3, _⟩ := foldl_prepareDestroyGame_teardown s2.self.games
          (s2.call (Call.lock Lock.roomsLock))
        refine ⟨e1 ++ [Call.lock Lock.roomsLock] ++ e2
          ++ [Call.unlock Lock.roomsLock, Call.serverRemoveClient, Call.deleteLater], ?_, by simp⟩
        simp only [St.call_trace, serverRemoveClient_trace, g3, g1]
        have : s.setDeleted.trace = s.trace := rfl
        rw [this]
        simp
      obtain ⟨pre2, g, hne⟩ := this
      rw [h3] at g
      have := List.append_cancel_left (g.symm.trans (List.append_nil _).symm)
      exact absurd this hne
    | cons c rest =>
      have hl : (s.trace ++ c :: rest).getLast? = some Call.deleteLater := by
        rw [h2]
        simp
      rw [List.getLast?_append_cons] at hl
      exact List.mem_of_getLast?_eq_some hl
  · exact hm

theorem pingClockTimeout_extends (env : Env) (s : St) :
    s.trace <+: (pingClockTimeout env s).trace := by
  obtain ⟨⟨ext, h, _⟩, _⟩ := pingClockTimeout_spec env s
  exact ⟨ext, h.symm⟩

theorem pingClockTimeout_idleWarnings (env : Env) (s : St) :
    idleWarnings (newCalls s (pingClockTimeout env s))
      = (if idleWarningDue env s.self then [idleWarning] else []) := by
  obtain ⟨⟨ext, h, hw⟩, _⟩ := pingClockTimeout_spec env s
  rw [newCalls_append s _ ext h]
  exact hw

/-- C21, as stated, fails: a newly constructed session on the concrete server
(maximum inactivity 8 ticks, idle timeout 10 ticks, warning threshold 9 ticks)
that stays silent is inactive at its tenth clock tick; on that tick
`pingClockTimeout` runs the teardown (`deleteLater` is called) and also sends
the idle warning. -/
theorem C21_counterexample :
    inactive (ticks exEnv 9 exStNew).self ∧
      Call.deleteLater ∈ newCalls (ticks exEnv 9 exStNew)
        (pingClockTimeout exEnv (ticks exEnv 9 exStNew)) ∧
      idleWarning ∈ newCalls (ticks exEnv 9 exStNew)
        (pingClockTimeout exEnv (ticks exEnv 9 exStNew)) := by
  set_option maxRecDepth 100000 in decide

/-- C21, amended. On every clock tick at which `timeRunning - lastDataReceived`
exceeds the maximum inactivity time, `pingClockTimeout` runs the teardown: the
session is flagged deleted afterwards, and `deleteLater` is called when it was
not deleted before.  The idle-warning check is made on that tick as on any
other: the idle warning is sent on the tick exactly when the session is not
exempt, the idle timeout is above zero, the warning flag is clear and
`timeRunning - lastActionReceived` has reached the warning threshold. -/
theorem C21_inactivity_tick (env : Env) (s : St) (hin : inactive s.self) :
    (pingClockTimeout env s).self.deleted = true ∧
      (s.self.deleted = false → Call.deleteLater ∈ newCalls s (pingClockTimeout env s)) ∧
      idleWarnings (newCalls s (pingClockTimeout env s))
        = (if idleWarningDue env s.self then [idleWarning] else []) ∧
      (idleWarning ∈ newCalls s (pingClockTimeout env s) ↔ idleWarningDue env s.self) := by
  have hspec := pingClockTimeout_spec env s
  have hw := pingClockTimeout_idleWarnings env s
  refine ⟨?_, ?_, hw, ?_⟩
  · rw [hspec.2.2.1]
    simp [hin]
  · intro hlive
    rw [pingClockTimeout_stages]
    have hA := ageWindows_trace s
    have hAl : (ageWindows s).self.deleted = false := by
      rw [ageWindows_keeps (fun h => h.deleted) (fun _ _ _ _ => rfl) s]
      exact hlive
    have hAi : inactive (ageWindows s).self := by
      rw [ageWindows_keeps (fun h => inactive h) (fun _ _ _ _ => rfl) s]
      exact hin
    obtain ⟨e1, h1, hm⟩ := prepareDestroy_deleteLater (ageWindows s) hAl
    obtain ⟨⟨e2, h2, _⟩, _⟩ := idleChecks_spec env (inactivityCheck (ageWindows s))
    have hB : inactivityCheck (ageWindows s) = prepareDestroy (ageWindows s) := by
      unfold inactivityCheck
      exact if_pos hAi
    have ht : (tickEnd (idleChecks env (inactivityCheck (ageWindows s)))).trace
        = s.trace ++ (e1 ++ e2) := by
      show (idleChecks env (inactivityCheck (ageWindows s))).trace = _
      rw [h2, hB, h1, hA, List.append_assoc]
    rw [newCalls_append s _ _ ht]
    exact List.mem_append_left _ hm
  · have hmem : idleWarning ∈ newCalls s (pingClockTimeout env s)
        ↔ idleWarning ∈ idleWarnings (newCalls s (pingClockTimeout env s)) := by
      simp [idleWarnings]
    rw [hmem, hw]
    by_cases hd : idleWarningDue env s.self
    · simp [hd]
    · simp [hd]

/-- Witness of C21 (amended) on the silent concrete session at its tenth
tick. -/
theorem C21_inactivity_tick_witness :
    inactive (ticks exEnv 9 exStNew).self ∧
      (pingClockTimeout exEnv (ticks exEnv 9 exStNew)).self.deleted = true :=
  ⟨by set_option maxRecDepth 100000 in decide,
   (C21_inactivity_tick exEnv (ticks exEnv 9 exStNew)
     (by set_option maxRecDepth 100000 in decide)).1⟩

theorem ticks_succ (env : Env) (n : Nat) (s : St) :
    ticks env (n + 1) s = pingClockTimeout env (ticks env n s) := by
  unfold ticks
  exact Function.iterate_succ_apply' _ _ _

theorem ticks_extends (env : Env) (n : Nat) (s : St) : s.trace <+: (ticks env n s).trace := by
  induction n with
  | zero => exact List.prefix_refl _
  | succ n ih =>
    rw [ticks_succ]
    exact ih.trans (pingClockTimeout_extends env _)

theorem newCalls_trans (s t u : St) (h1 : s.trace <+: t.trace) (h2 : t.trace <+: u.trace) :
    newCalls s u = newCalls s t ++ newCalls t u := by
  obtain ⟨e1, h1⟩ := h1
  obtain ⟨e2, h2⟩ := h2
  rw [newCalls_append s t e1 h1.symm, newCalls_append t u e2 h2.symm,
    newCalls_append s u (e1 ++ e2) (by rw [← h2, ← h1, List.append_assoc])]

theorem ticks_newCalls (env : Env) (n : Nat) (s : St) :
    newCalls s (ticks env (n + 1) s)
      = newCalls s (ticks env n s) ++ newCalls (ticks env n s) (ticks env (n + 1) s) := by
  apply newCalls_trans _ _ _ (ticks_extends env n s)
  rw [ticks_succ]
  exact pingClockTimeout_extends env _

theorem ticks_idleWarnings (env : Env) (n : Nat) (s : St) :
    idleWarnings (newCalls (ticks env n s) (ticks env (n + 1) s))
      = (if idleWarningDue env (ticks env n s).self then [idleWarning] else []) := by
  rw [ticks_succ]
  exact pingClockTimeout_idleWarnings env _

theorem ticks_flag (env : Env) (n : Nat) (s : St) :
    (ticks env (n + 1) s).self.idleClientWarningSent
      = ((ticks env n s).self.idleClientWarningSent
          || decide (idleWarningDue env (ticks env n s).self)) := by
  rw [ticks_succ]
  exact (pingClockTimeout_spec env _).2.1

theorem ticks_userInfo (env : Env) (n : Nat) (s : St) :
    (ticks env n s).self.userInfo = s.self.userInfo := by
  induction n with
  | zero => rfl
  | succ n ih =>
    rw [ticks_succ, (pingClockTimeout_spec env _).2.2.2.1, ih]

theorem idleExempt_congr (env : Env) (h1 h2 : Server_ProtocolHandler)
    (h : h1.userInfo = h2.userInfo) : idleExempt env h1 = idleExempt env h2 := by
  unfold idleExempt
  rw [h]

theorem ticks_warned_once (env : Env) (n : Nat) (s : St) :
    (idleWarnings (newCalls s (ticks env n s))).length ≤ 1 ∧
      (idleWarnings (newCalls s (ticks env n s)) ≠ [] →
        (ticks env n s).self.idleClientWarningSent = true) := by
  induction n with
  | zero => simp [ticks, newCalls, idleWarnings]
  | succ n ih =>
    rw [ticks_newCalls, idleWarnings_append, ticks_idleWarnings, ticks_flag]
    by_cases hd : idleWarningDue env (ticks env n s).self
    · have hnil : idleWarnings (newCalls s (ticks env n s)) = [] := by
        by_contra hne
        have := ih.2 hne
        rw [hd.2.2.1] at this
        exact absurd this (by decide)
      simp [hd, hnil]
    · rw [if_neg hd, List.append_nil]
      simp only [hd, decide_False, Bool.or_false]
      exact ih

theorem ticks_flag_origin (env : Env) (n : Nat) (s : St)
    (h0 : s.self.idleClientWarningSent = false)
    (hn : (ticks env n s).self.idleClientWarningSent = true) :
    ∃ j, j < n ∧ idleWarnings (newCalls (ticks env j s) (ticks env (j + 1) s)) = [idleWarning]
      := by
  induction n with
  | zero =>
    simp only [ticks, Function.iterate_zero, id_eq] at hn
    rw [h0] at hn
    exact absurd hn (by decide)
  | succ n ih =>
    rw [ticks_flag] at hn
    by_cases hd : idleWarningDue env (ticks env n s).self
    · exact ⟨n, Nat.lt_succ_self n, by rw [ticks_idleWarnings, if_pos hd]⟩
    · simp only [hd, decide_False, Bool.or_false] at hn
      obtain ⟨j, hj, hw⟩ := ih hn
      exact ⟨j, Nat.lt_succ_of_lt hj, hw⟩

theorem idleRun_invariant (env : Env) (s t : St) (h : IdleRun env s t) :
    s.trace <+: t.trace ∧
      (idleWarnings (newCalls s t)).length ≤ 1 ∧
      (idleWarnings (newCalls s t) ≠ [] → t.self.idleClientWarningSent = true) ∧
      (s.self.idleClientWarningSent = false → t.self.idleClientWarningSent = true →
        idleWarnings (newCalls s t) = [idleWarning]) := by
  induction h with
  | start =>
    refine ⟨List.prefix_refl _, by simp [newCalls, idleWarnings],
      by simp [newCalls, idleWarnings], ?_⟩
    intro h0 h1
    rw [h0] at h1
    exact absurd h1 (by decide)
  | tick t _ ih =>
    obtain ⟨hp, hlen, hflag, horig⟩ := ih
    have hp2 := pingClockTimeout_extends env t
    have hw := pingClockTimeout_idleWarnings env t
    have hf := (pingClockTimeout_spec env t).2.1
    refine ⟨hp.trans hp2, ?_, ?_, ?_⟩
    · rw [newCalls_trans s t _ hp hp2, idleWarnings_append, hw]
      by_cases hd : idleWarningDue env t.self
      · have hnil : idleWarnings (newCalls s t) = [] := by
          by_contra hne
          have := hflag hne
          rw [hd.2.2.1] at this
          exact absurd this (by decide)
        simp [hd, hnil]
      · rw [if_neg hd, List.append_nil]
        exact hlen
    · intro hne
      rw [hf]
      rw [newCalls_trans s t _ hp hp2, idleWarnings_append, hw] at hne
      by_cases hd : idleWarningDue env t.self
      · simp [hd]
      · rw [if_neg hd, List.append_nil] at hne
        simp [hflag hne]
    · intro h0 h1
      rw [newCalls_trans s t _ hp hp2, idleWarnings_append, hw]
      rw [hf] at h1
      by_cases hd : idleWarningDue env t.self
      · have hnil : idleWarnings (newCalls s t) = [] := by
          by_contra hne
          have := hflag hne
          rw [hd.2.2.1] at this
          exact absurd this (by decide)
        simp [hd, hnil]
      · simp only [hd, decide_False, Bool.or_false] at h1
        rw [if_neg hd, List.append_nil]
        exact horig h0 h1
  | other t u _ hp2 hw hf ih =>
    obtain ⟨hp, hlen, hflag, horig⟩ := ih
    have hnc : idleWarnings (newCalls s u) = idleWarnings (newCalls s t) := by
      rw [newCalls_trans s t u hp hp2, idleWarnings_append, hw, List.append_nil]
    refine ⟨hp.trans hp2, ?_, ?_, ?_⟩
    · rw [hnc]
      exact hlen
    · intro hne
      rw [hnc] at hne
      rw [hf]
      exact hflag hne
    · intro h0 h1
      rw [hnc]
      rw [hf] at h1
      exact horig h0 h1

theorem ticks_idleRun (env : Env) (n : Nat) (s : St) : IdleRun env s (ticks env n s) := by
  induction n with
  | zero => exact IdleRun.start
  | succ n ih =>
    rw [ticks_succ]
    exact IdleRun.tick _ ih

/-- C22. The idle warning is one-time and precedes the idle teardown.  Over any
run of clock ticks from any state with no idle-timer reset in between (other
activity that sends no warning and keeps the warning flag may come between the
ticks), at most one idle warning is sent.  On a live session that is not
inactive, a tick flags the session deleted exactly when the idle-timeout
condition holds; that condition holds at a tick of the run only if
`timeRunning - lastActionReceived` exceeds the idle timeout and the warning
flag is set, and, when the flag was clear at the start of the run, only if the
warning was sent before that tick in the run.  A session that is exempt (a
privilege level other than "none", or the moderator or admin bit) is sent no
warning by a tick and does not meet the idle-timeout condition, and is sent no
warning over any number of consecutive ticks. -/
theorem C22_idle_warning_one_time (env : Env) (s : St) :
    (∀ t, IdleRun env s t → (idleWarnings (newCalls s t)).length ≤ 1) ∧
    (s.self.deleted = false → ¬ inactive s.self →
      ((pingClockTimeout env s).self.deleted = true ↔ idleTimedOut env s.self)) ∧
    (∀ t, IdleRun env s t → idleTimedOut env t.self →
      t.self.timeRunning - t.self.lastActionReceived > t.self.server.idleClientTimeout ∧
        t.self.idleClientWarningSent = true ∧
        (s.self.idleClientWarningSent = false →
          idleWarnings (newCalls s t) = [idleWarning])) ∧
    (idleExempt env s.self = true →
      idleWarnings (newCalls s (pingClockTimeout env s)) = [] ∧ ¬ idleTimedOut env s.self ∧
      ∀ n, idleWarnings (newCalls s (ticks env n s)) = [] ∧
        ¬ idleTimedOut env (ticks env n s).self) := by
  refine ⟨fun t h => (idleRun_invariant env s t h).2.1, ?_, ?_, ?_⟩
  · intro hlive hin
    rw [(pingClockTimeout_spec env s).2.2.1, hlive]
    simp [hin]
  · intro t hrun hto
    exact ⟨hto.2.2.2, hto.2.2.1,
      fun h0 => (idleRun_invariant env s t hrun).2.2.2 h0 hto.2.2.1⟩
  · intro hex
    have hexn : ∀ k, idleExempt env (ticks env k s).self = true := by
      intro k
      rw [idleExempt_congr env _ _ (ticks_userInfo env k s)]
      exact hex
    have hnd : ∀ k, ¬ idleWarningDue env (ticks env k s).self := by
      intro k h
      have := hexn k
      rw [h.1] at this
      exact absurd this (by decide)
    have hnt : ∀ k, ¬ idleTimedOut env (ticks env k s).self := by
      intro k h
      have := hexn k
      rw [h.1] at this
      exact absurd this (by decide)
    refine ⟨?_, hnt 0, fun n => ⟨?_, hnt n⟩⟩
    · rw [pingClockTimeout_idleWarnings]
      exact if_neg (hnd 0)
    · induction n with
      | zero => simp [ticks, newCalls, idleWarnings]
      | succ n ih =>
        rw [ticks_newCalls, idleWarnings_append, ticks_idleWarnings, ih, if_neg (hnd n)]
        rfl

/-- Witness of C22: the silent new session on the server with an idle timeout
of 10 ticks meets the idle-timeout condition at its twelfth tick, after exactly
one warning; the concrete moderator session is sent no warning in twenty
ticks. -/
theorem C22_idle_warning_one_time_witness :
    idleWarnings (newCalls exStDrowsy (ticks exEnv 11 exStDrowsy)) = [idleWarning] ∧
      idleWarnings (newCalls exSt (ticks exEnv 20 exSt)) = [] :=
  ⟨((C22_idle_warning_one_time exEnv exStDrowsy).2.2.1 _ (ticks_idleRun exEnv 11 exStDrowsy)
      (by set_option maxRecDepth 100000 in decide)).2.2 rfl,
   (((C22_idle_warning_one_time exEnv exSt).2.2.2 (by decide)).2.2 20).1⟩

/-! ## Window sizes -/

theorem ageWindow_length (interval keepAlive : Int) (w : List Int) :
    (ageWindow interval keepAlive w).length
      = if ((w.length : Int) + 1 > interval / keepAlive) then w.length else w.length + 1 := by
  unfold ageWindow
  dsimp only
  by_cases h : ((0 :: w).length : Int) > interval / keepAlive
  · rw [if_pos h]
    have h2 : (w.length : Int) + 1 > interval / keepAlive := by
      simpa using h
    rw [if_pos h2]
    simp
  · rw [if_neg h]
    have h2 : ¬ (w.length : Int) + 1 > interval / keepAlive := by
      simpa using h
    rw [if_neg h2]
    simp

theorem ageWindow_within (interval keepAlive : Int) (w : List Int)
    (h : w.length ≤ max (retained interval keepAlive) 1) :
    (ageWindow interval keepAlive w).length ≤ max (retained interval keepAlive) 1 := by
  rw [ageWindow_length]
  unfold retained at h ⊢
  generalize interval / keepAlive = q at h ⊢
  split <;> omega

theorem length_addToFirstInt_ensureBucket (n : Int) (w : List Int) :
    (addToFirstInt n (ensureBucket w)).length = max w.length 1 := by
  cases w with
  | nil => rfl
  | cons a r =>
    show (wrapInt (a + n) :: r).length = max (a :: r).length 1
    simp

theorem length_addToFirst_ensureBucket (n : Int) (w : List Int) :
    (addToFirst n (ensureBucket w)).length = max w.length 1 := by
  cases w with
  | nil => rfl
  | cons a r =>
    simp [ensureBucket, addToFirst]

theorem length_ensureBucket (w : List Int) : (ensureBucket w).length = max w.length 1 := by
  cases w with
  | nil => rfl
  | cons a r => simp [ensureBucket]

theorem countGameCommand_within (cci mcc : Int) (sc : GameCommand) (w : List Int) (b : Nat)
    (h : w.length ≤ max b 1) : (countGameCommand cci mcc sc w).1.length ≤ max b 1 := by
  unfold countGameCommand
  dsimp only
  split
  · split
    · rw [length_addToFirst_ensureBucket]
      omega
    · rw [length_ensureBucket]
      omega
  · exact h

theorem WindowsGrowTo.grow_refl (h : Server_ProtocolHandler) : WindowsGrowTo h h :=
  ⟨rfl, by omega, by omega, by omega⟩

theorem WindowsGrowTo.grow_trans {a b c : Server_ProtocolHandler} (h1 : WindowsGrowTo a b)
    (h2 : WindowsGrowTo b c) : WindowsGrowTo a c := by
  obtain ⟨c1, x1, y1, z1⟩ := h1
  obtain ⟨c2, x2, y2, z2⟩ := h2
  exact ⟨c2.trans c1, by omega, by omega, by omega⟩

theorem WindowsGrowTo.grow_of_eq {h k : Server_ProtocolHandler}
    (c : windowConfig k = windowConfig h)
    (x : k.commandCountOverTime = h.commandCountOverTime)
    (y : k.messageSizeOverTime = h.messageSizeOverTime)
    (z : k.messageCountOverTime = h.messageCountOverTime) : WindowsGrowTo h k := by
  refine ⟨c, ?_, ?_, ?_⟩
  · rw [x]
    omega
  · rw [y]
    omega
  · rw [z]
    omega

theorem WindowsGrowTo.within {a b : Server_ProtocolHandler} (h1 : WindowsGrowTo a b)
    (h : WindowsWithin a) : WindowsWithin b := by
  obtain ⟨c1, x1, y1, z1⟩ := h1
  obtain ⟨x, y, z⟩ := h
  simp only [windowConfig, Prod.mk.injEq] at c1
  unfold WindowsWithin
  rw [c1.1, c1.2.1, c1.2.2]
  exact ⟨by omega, by omega, by omega⟩

theorem addSaidMessageSize_grow (size : Int) (s : St) :
    WindowsGrowTo s.self (addSaidMessageSize size s).2.self := by
  unfold addSaidMessageSize
  dsimp only
  split
  · exact WindowsGrowTo.grow_refl _
  · refine ⟨rfl, by show s.self.commandCountOverTime.length ≤ _; omega, ?_, ?_⟩
    · show (addToFirstInt size (ensureBucket s.self.messageSizeOverTime)).length ≤ _
      rw [length_addToFirstInt_ensureBucket]
    · show (addToFirstInt 1 (ensureBucket s.self.messageCountOverTime)).length ≤ _
      rw [length_addToFirstInt_ensureBucket]

theorem cmdRoomSay_grow (message : String) (room : Int) (s : St) :
    WindowsGrowTo s.self (cmdRoomSay message room s).2.self := by
  unfold cmdRoomSay
  dsimp only
  split
  · exact addSaidMessageSize_grow _ s
  · exact addSaidMessageSize_grow _ s

theorem cmdMessage_grow (env : Env) (cmd : Command_Message) (s : St) :
    WindowsGrowTo s.self (cmdMessage env cmd s).2.self := by
  unfold cmdMessage
  dsimp only
  split
  · exact WindowsGrowTo.grow_refl _
  · split
    · exact WindowsGrowTo.grow_refl _
    · split
      · exact WindowsGrowTo.grow_refl _
      · split
        · exact addSaidMessageSize_grow _ (s.call (Call.lock Lock.clientsLock))
        · exact addSaidMessageSize_grow _ (s.call (Call.lock Lock.clientsLock))

theorem gameCommandLoop_grow (env : Env) (hkeep : KeepsWindows env)
    (room game player : Int) (cci mcc : Int) (l : List (Nat × GameCommand))
    (final : ResponseCode) (ges : List Nat) (s : St) :
    WindowsGrowTo s.self
      (gameCommandLoop env room game player cci mcc l final ges s).2.2.self := by
  induction l generalizing final ges s with
  | nil => exact WindowsGrowTo.grow_refl _
  | cons c rest ih =>
    obtain ⟨i, sc⟩ := c
    have hstep : WindowsGrowTo s.self { s.self with
        commandCountOverTime := (countGameCommand cci mcc sc s.self.commandCountOverTime).1 } := by
      refine ⟨rfl, ?_, by show s.self.messageSizeOverTime.length ≤ _; omega,
        by show s.self.messageCountOverTime.length ≤ _; omega⟩
      show (countGameCommand cci mcc sc s.self.commandCountOverTime).1.length ≤ _
      have := countGameCommand_within cci mcc sc s.self.commandCountOverTime
        s.self.commandCountOverTime.length (by omega)
      exact this
    simp only [gameCommandLoop]
    split
    · exact hstep
    · refine WindowsGrowTo.grow_trans (WindowsGrowTo.grow_trans hstep ?_) (ih _ _ _)
      obtain ⟨k1, k2, k3, k4⟩ := hkeep room game player sc
        { s.self with
          commandCountOverTime := (countGameCommand cci mcc sc s.self.commandCountOverTime).1 }
        s.rc ges
      exact WindowsGrowTo.grow_of_eq k4 k1 k2 k3

theorem processGameCommandContainer_grow (env : Env) (hkeep : KeepsWindows env)
    (cont : CommandContainer) (s : St) :
    WindowsGrowTo s.self (processGameCommandContainer env cont s).2.self := by
  unfold processGameCommandContainer
  dsimp only
  split
  · exact WindowsGrowTo.grow_refl _
  · split
    · exact WindowsGrowTo.grow_refl _
    · split
      · exact WindowsGrowTo.grow_refl _
      · split
        · split
          · exact WindowsGrowTo.grow_refl _
          · exact WindowsGrowTo.grow_refl _
        · split
          · exact WindowsGrowTo.grow_refl _
          · have hl := gameCommandLoop_grow env hkeep
            split
            · rename_i ges5 s5 heq
              have h2 := congrArg (fun L => L.2.2.self) heq
              dsimp only at h2
              show WindowsGrowTo s.self s5.self
              rw [← h2]
              refine WindowsGrowTo.grow_trans ?_ (hl _ _ _ _ _ _ _ _ _)
              exact WindowsGrowTo.grow_of_eq rfl rfl rfl rfl
            · rename_i fin ges5 s5 heq
              have h2 := congrArg (fun L => L.2.2.self) heq
              dsimp only at h2
              show WindowsGrowTo s.self s5.self
              rw [← h2]
              refine WindowsGrowTo.grow_trans ?_ (hl _ _ _ _ _ _ _ _ _)
              exact WindowsGrowTo.grow_of_eq rfl rfl rfl rfl

theorem idleChecks_keeps {β : Type} (env : Env) (f : Server_ProtocolHandler → β)
    (hdel : ∀ (h : Server_ProtocolHandler) (b : Bool), f { h with deleted := b } = f h)
    (hsrv : ∀ (h : Server_ProtocolHandler) (rooms : List Server_Room)
      (users : List (String × UserInterface)) (clients : List Nat),
      f { h with server := { h.server with rooms := rooms, users := users, clients := clients } }
        = f h)
    (hflag : ∀ (h : Server_ProtocolHandler) (b : Bool),
      f { h with idleClientWarningSent := b } = f h)
    (s : St) : f (idleChecks env s).self = f s.self := by
  unfold idleChecks
  dsimp only
  split
  · split
    · split
      · exact (hflag _ true).trans (prepareDestroy_keeps f hdel hsrv s)
      · exact prepareDestroy_keeps f hdel hsrv s
    · split
      · exact hflag _ true
      · rfl
  · rfl

theorem tickTail_keeps {β : Type} (env : Env) (f : Server_ProtocolHandler → β)
    (hdel : ∀ (h : Server_ProtocolHandler) (b : Bool), f { h with deleted := b } = f h)
    (hsrv : ∀ (h : Server_ProtocolHandler) (rooms : List Server_Room)
      (users : List (String × UserInterface)) (clients : List Nat),
      f { h with server := { h.server with rooms := rooms, users := users, clients := clients } }
        = f h)
    (hflag : ∀ (h : Server_ProtocolHandler) (b : Bool),
      f { h with idleClientWarningSent := b } = f h)
    (htime : ∀ (h : Server_ProtocolHandler) (n : Int), f { h with timeRunning := n } = f h)
    (s : St) : f (tickEnd (idleChecks env (inactivityCheck s))).self = f s.self := by
  exact (htime (idleChecks env (inactivityCheck s)).self _).trans
    ((idleChecks_keeps env f hdel hsrv hflag _).trans (inactivityCheck_keeps f hdel hsrv s))

/-- What the clock tick leaves of the windows and their configuration: the
configuration is unchanged, and each window is aged when its interval and the
tick period are above zero and is unchanged otherwise. -/
theorem pingClockTimeout_windows (env : Env) (s : St) :
    windowConfig (pingClockTimeout env s).self = windowConfig s.self ∧
      (pingClockTimeout env s).self.commandCountOverTime
        = (if s.self.server.commandCountingInterval > 0 ∧ s.self.server.clientKeepAlive > 0 then
            ageWindow s.self.server.commandCountingInterval s.self.server.clientKeepAlive
              s.self.commandCountOverTime
          else s.self.commandCountOverTime) ∧
      (pingClockTimeout env s).self.messageSizeOverTime
        = (if s.self.server.messageCountingInterval > 0 ∧ s.self.server.clientKeepAlive > 0 then
            ageWindow s.self.server.messageCountingInterval s.self.server.clientKeepAlive
              s.self.messageSizeOverTime
          else s.self.messageSizeOverTime) ∧
      (pingClockTimeout env s).self.messageCountOverTime
        = (if s.self.server.messageCountingInterval > 0 ∧ s.self.server.clientKeepAlive > 0 then
            ageWindow s.self.server.messageCountingInterval s.self.server.clientKeepAlive
              s.self.messageCountOverTime
          else s.self.messageCountOverTime) := by
  rw [pingClockTimeout_stages]
  refine ⟨?_, ?_, ?_, ?_⟩
  · rw [tickTail_keeps env windowConfig (fun _ _ => rfl) (fun _ _ _ _ => rfl) (fun _ _ => rfl)
      (fun _ _ => rfl)]
    exact ageWindows_keeps windowConfig (fun _ _ _ _ => rfl) s
  · rw [tickTail_keeps env (fun h => h.commandCountOverTime) (fun _ _ => rfl) (fun _ _ _ _ => rfl)
      (fun _ _ => rfl) (fun _ _ => rfl)]
    unfold ageWindows
    dsimp only
    (repeat' split) <;> rfl
  · rw [tickTail_keeps env (fun h => h.messageSizeOverTime) (fun _ _ => rfl) (fun _ _ _ _ => rfl)
      (fun _ _ => rfl) (fun _ _ => rfl)]
    unfold ageWindows
    dsimp only
    (repeat' split) <;> rfl
  · rw [tickTail_keeps env (fun h => h.messageCountOverTime) (fun _ _ => rfl) (fun _ _ _ _ => rfl)
      (fun _ _ => rfl) (fun _ _ => rfl)]
    unfold ageWindows
    dsimp only
    (repeat' split) <;> rfl

theorem pingClockTimeout_within (env : Env) (s : St) (h : WindowsWithin s.self) :
    WindowsWithin (pingClockTimeout env s).self
      ∧ windowConfig (pingClockTimeout env s).self = windowConfig s.self := by
  obtain ⟨hc, h1, h2, h3⟩ := pingClockTimeout_windows env s
  refine ⟨?_, hc⟩
  obtain ⟨x, y, z⟩ := h
  have hc' := hc
  simp only [windowConfig, Prod.mk.injEq] at hc'
  unfold WindowsWithin
  rw [hc'.1, hc'.2.1, hc'.2.2, h1, h2, h3]
  refine ⟨?_, ?_, ?_⟩
  · split
    · exact ageWindow_within _ _ _ x
    · exact x
  · split
    · exact ageWindow_within _ _ _ y
    · exact y
  · split
    · exact ageWindow_within _ _ _ z
    · exact z

theorem runOperation_within (env : Env) (hkeep : KeepsWindows env) (op : Operation)
    (hop : op.isWindowOp = true) (s : St) (h : WindowsWithin s.self) :
    WindowsWithin (runOperation env op s).self
      ∧ windowConfig (runOperation env op s).self = windowConfig s.self := by
  cases op <;> simp [Operation.isWindowOp] at hop
  case message cmd => exact ⟨(cmdMessage_grow env cmd s).within h, (cmdMessage_grow env cmd s).1⟩
  case roomSay m r => exact ⟨(cmdRoomSay_grow m r s).within h, (cmdRoomSay_grow m r s).1⟩
  case gameBatch cont =>
    exact ⟨(processGameCommandContainer_grow env hkeep cont s).within h,
      (processGameCommandContainer_grow env hkeep cont s).1⟩
  case clockTick => exact pingClockTimeout_within env s h

theorem runOperations_within (env : Env) (hkeep : KeepsWindows env) (ops : List Operation)
    (hops : ∀ op ∈ ops, op.isWindowOp = true) (s : St) (h : WindowsWithin s.self) :
    WindowsWithin (runOperations env ops s).self
      ∧ windowConfig (runOperations env ops s).self = windowConfig s.self := by
  induction ops generalizing s with
  | nil => exact ⟨h, rfl⟩
  | cons op rest ih =>
    have h1 := runOperation_within env hkeep op (hops op (List.mem_cons_self _ _)) s h
    have h2 := ih (fun o ho => hops o (List.mem_cons_of_mem _ ho)) (runOperation env op s) h1.1
    exact ⟨h2.1, h2.2.trans h1.2⟩

/-- C25, as stated, fails: on the concrete server with a message-counting
interval of 1 and a tick period of 2, so `N = 0`, a session whose windows are
empty holds one bucket in each message window after one chat line. -/
theorem C25_counterexample :
    exStSlow.self.server.messageCountingInterval > 0 ∧
      exStSlow.self.server.clientKeepAlive > 0 ∧
      exStSlow.self.commandCountOverTime = [] ∧
      exStSlow.self.messageSizeOverTime = [] ∧
      exStSlow.self.messageCountOverTime = [] ∧
      retained exStSlow.self.server.messageCountingInterval
        exStSlow.self.server.clientKeepAlive = 0 ∧
      (runOperations exEnv [Operation.roomSay "hi" 3] exStSlow).self.messageSizeOverTime.length
        = 1 ∧
      (runOperations exEnv [Operation.roomSay "hi" 3] exStSlow).self.messageCountOverTime.length
        = 1 := by
  decide

/-- C25, amended. Window size bound.  With a seat handler that leaves the
windows and their configuration alone, from a session whose three windows are
empty (as those of a newly constructed session are), after any sequence of
clock ticks, chat sends and game batches the window configuration is unchanged
and each window holds at most `max N 1` buckets, `N = interval ÷ tick period`
being taken from the window's own counting interval: at most `N` buckets when
`N ≥ 1`, and at most one bucket when `N = 0`. -/
theorem C25_window_size_bound (env : Env) (hkeep : KeepsWindows env) (ops : List Operation)
    (hops : ∀ op ∈ ops, op.isWindowOp = true) (s : St)
    (hcmd : s.self.commandCountOverTime = []) (hsize : s.self.messageSizeOverTime = [])
    (hcount : s.self.messageCountOverTime = []) :
    windowConfig (runOperations env ops s).self = windowConfig s.self ∧
      (runOperations env ops s).self.commandCountOverTime.length
        ≤ max (retained s.self.server.commandCountingInterval s.self.server.clientKeepAlive) 1 ∧
      (runOperations env ops s).self.messageSizeOverTime.length
        ≤ max (retained s.self.server.messageCountingInterval s.self.server.clientKeepAlive) 1 ∧
      (runOperations env ops s).self.messageCountOverTime.length
        ≤ max (retained s.self.server.messageCountingInterval s.self.server.clientKeepAlive) 1 ∧
      (retained s.self.server.commandCountingInterval s.self.server.clientKeepAlive ≥ 1 →
        (runOperations env ops s).self.commandCountOverTime.length
          ≤ retained s.self.server.commandCountingInterval s.self.server.clientKeepAlive) ∧
      (retained s.self.server.messageCountingInterval s.self.server.clientKeepAlive ≥ 1 →
        (runOperations env ops s).self.messageSizeOverTime.length
            ≤ retained s.self.server.messageCountingInterval s.self.server.clientKeepAlive ∧
          (runOperations env ops s).self.messageCountOverTime.length
            ≤ retained s.self.server.messageCountingInterval s.self.server.clientKeepAlive) := by
  have h0 : WindowsWithin s.self := by
    unfold WindowsWithin
    rw [hcmd, hsize, hcount]
    simp
  obtain ⟨⟨x, y, z⟩, hc⟩ := runOperations_within env hkeep ops hops s h0
  have hc' := hc
  simp only [windowConfig, Prod.mk.injEq] at hc'
  simp only [hc'.1, hc'.2.1, hc'.2.2] at x y z
  exact ⟨hc, x, y, z, fun h => by omega, fun h => ⟨by omega, by omega⟩⟩

/-- Witness of C25 (amended) on the concrete session: one tick, a chat line, a
game batch and twenty more ticks. -/
theorem C25_window_size_bound_witness :
    (runOperations exEnv
        ([Operation.clockTick, Operation.roomSay "hi" 3, Operation.gameBatch exCont]
          ++ List.replicate 20 Operation.clockTick) exSt).self.commandCountOverTime.length
      ≤ max (retained exSt.self.server.commandCountingInterval
          exSt.self.server.clientKeepAlive) 1 :=
  (C25_window_size_bound exEnv (fun _ _ _ _ _ _ _ => ⟨rfl, rfl, rfl, rfl⟩)
    ([Operation.clockTick, Operation.roomSay "hi" 3, Operation.gameBatch exCont]
      ++ List.replicate 20 Operation.clockTick) (by decide) exSt rfl rfl rfl).2.1

/-! ## Window expiry -/

theorem ageWindow_eq_take (interval keepAlive : Int) (w : List Int)
    (hN : retained interval keepAlive ≥ 1) (hw : w.length ≤ retained interval keepAlive) :
    ageWindow interval keepAlive w = (0 :: w).take (retained interval keepAlive) := by
  unfold ageWindow retained at *
  dsimp only
  generalize interval / keepAlive = q at *
  by_cases h : ((0 :: w).length : Int) > q
  · rw [if_pos h]
    have hlen : (0 :: w).length = q.toNat + 1 := by
      simp only [List.length_cons] at h ⊢
      omega
    rw [List.dropLast_eq_take, hlen]
    rfl
  · rw [if_neg h]
    have hlen : (0 :: w).length ≤ q.toNat := by
      simp only [List.length_cons] at h ⊢
      omega
    exact (List.take_of_length_le hlen).symm

theorem take_cons_take (N : Nat) (l : List Int) :
    ((0 : Int) :: l.take N).take N = (0 :: l).take N := by
  cases N with
  | zero => rfl
  | succ n =>
    simp only [List.take_succ_cons, List.cons.injEq, true_and]
    rw [List.take_take]
    congr 1
    omega

theorem sum_take_replicate (N n : Nat) (w : List Int) (h : N ≤ n) :
    ((List.replicate n (0 : Int) ++ w).take N).sum = 0 := by
  rw [List.take_append_of_le_length (by simp; exact h), List.take_replicate]
  simp

theorem ticks_config (env : Env) (n : Nat) (s : St) :
    windowConfig (ticks env n s).self = windowConfig s.self := by
  induction n with
  | zero => rfl
  | succ n ih =>
    rw [ticks_succ, (pingClockTimeout_windows env _).1, ih]

theorem ticks_commandWindow (env : Env) (n : Nat) (s : St)
    (hc : s.self.server.commandCountingInterval > 0) (hk : s.self.server.clientKeepAlive > 0)
    (hN : retained s.self.server.commandCountingInterval s.self.server.clientKeepAlive ≥ 1)
    (hw : s.self.commandCountOverTime.length
      ≤ retained s.self.server.commandCountingInterval s.self.server.clientKeepAlive) :
    (ticks env n s).self.commandCountOverTime
      = (List.replicate n 0 ++ s.self.commandCountOverTime).take
          (retained s.self.server.commandCountingInterval s.self.server.clientKeepAlive) := by
  induction n with
  | zero => exact (List.take_of_length_le hw).symm
  | succ n ih =>
    have hcfg := ticks_config env n s
    simp only [windowConfig, Prod.mk.injEq] at hcfg
    rw [ticks_succ, (pingClockTimeout_windows env _).2.1, hcfg.1, hcfg.2.2, if_pos ⟨hc, hk⟩, ih,
      ageWindow_eq_take _ _ _ hN (by rw [List.length_take]; omega), take_cons_take,
      List.replicate_succ]
    rfl

theorem ticks_messageSizeWindow (env : Env) (n : Nat) (s : St)
    (hc : s.self.server.messageCountingInterval > 0) (hk : s.self.server.clientKeepAlive > 0)
    (hN : retained s.self.server.messageCountingInterval s.self.server.clientKeepAlive ≥ 1)
    (hw : s.self.messageSizeOverTime.length
      ≤ retained s.self.server.messageCountingInterval s.self.server.clientKeepAlive) :
    (ticks env n s).self.messageSizeOverTime
      = (List.replicate n 0 ++ s.self.messageSizeOverTime).take
          (retained s.self.server.messageCountingInterval s.self.server.clientKeepAlive) := by
  induction n with
  | zero => exact (List.take_of_length_le hw).symm
  | succ n ih =>
    have hcfg := ticks_config env n s
    simp only [windowConfig, Prod.mk.injEq] at hcfg
    rw [ticks_succ, (pingClockTimeout_windows env _).2.2.1, hcfg.2.1, hcfg.2.2, if_pos ⟨hc, hk⟩,
      ih, ageWindow_eq_take _ _ _ hN (by rw [List.length_take]; omega), take_cons_take,
      List.replicate_succ]
    rfl

theorem ticks_messageCountWindow (env : Env) (n : Nat) (s : St)
    (hc : s.self.server.messageCountingInterval > 0) (hk : s.self.server.clientKeepAlive > 0)
    (hN : retained s.self.server.messageCountingInterval s.self.server.clientKeepAlive ≥ 1)
    (hw : s.self.messageCountOverTime.length
      ≤ retained s.self.server.messageCountingInterval s.self.server.clientKeepAlive) :
    (ticks env n s).self.messageCountOverTime
      = (List.replicate n 0 ++ s.self.messageCountOverTime).take
          (retained s.self.server.messageCountingInterval s.self.server.clientKeepAlive) := by
  induction n with
  | zero => exact (List.take_of_length_le hw).symm
  | succ n ih =>
    have hcfg := ticks_config env n s
    simp only [windowConfig, Prod.mk.injEq] at hcfg
    rw [ticks_succ, (pingClockTimeout_windows env _).2.2.2, hcfg.2.1, hcfg.2.2, if_pos ⟨hc, hk⟩,
      ih, ageWindow_eq_take _ _ _ hN (by rw [List.length_take]; omega), take_cons_take,
      List.replicate_succ]
    rfl

/-- C26. Window expiry.  With a seat handler that leaves the windows and their
configuration alone, from any state reached from a session with empty windows
(as those of a newly constructed session are) by clock ticks, chat sends and
game batches: for a window whose counting interval and tick period are above
zero and whose `N = interval ÷ tick period` is at least one, after `N` or more
consecutive clock ticks the window sums to zero.  This holds for the
command-count window with the command-counting interval and for the
message-byte and message-count windows with the message-counting interval. -/
theorem C26_window_expiry (env : Env) (hkeep : KeepsWindows env) (ops : List Operation)
    (hops : ∀ op ∈ ops, op.isWindowOp = true) (s : St)
    (hcmd : s.self.commandCountOverTime = []) (hsize : s.self.messageSizeOverTime = [])
    (hcount : s.self.messageCountOverTime = []) (hk : s.self.server.clientKeepAlive > 0)
    (n : Nat) :
    (s.self.server.commandCountingInterval > 0 →
      retained s.self.server.commandCountingInterval s.self.server.clientKeepAlive ≥ 1 →
      n ≥ retained s.self.server.commandCountingInterval s.self.server.clientKeepAlive →
      (ticks env n (runOperations env ops s)).self.commandCountOverTime.sum = 0) ∧
    (s.self.server.messageCountingInterval > 0 →
      retained s.self.server.messageCountingInterval s.self.server.clientKeepAlive ≥ 1 →
      n ≥ retained s.self.server.messageCountingInterval s.self.server.clientKeepAlive →
      (ticks env n (runOperations env ops s)).self.messageSizeOverTime.sum = 0 ∧
        (ticks env n (runOperations env ops s)).self.messageCountOverTime.sum = 0) := by
  have h0 : WindowsWithin s.self := by
    unfold WindowsWithin
    rw [hcmd, hsize, hcount]
    simp
  obtain ⟨⟨x, y, z⟩, hc⟩ := runOperations_within env hkeep ops hops s h0
  simp only [windowConfig, Prod.mk.injEq] at hc
  simp only [hc.1, hc.2.1, hc.2.2] at x y z
  constructor
  · intro hci hN hn
    rw [ticks_commandWindow env n _ (by rw [hc.1]; exact hci) (by rw [hc.2.2]; exact hk)
      (by rw [hc.1, hc.2.2]; exact hN) (by rw [hc.1, hc.2.2]; omega), hc.1, hc.2.2]
    exact sum_take_replicate _ _ _ hn
  · intro hmi hN hn
    constructor
    · rw [ticks_messageSizeWindow env n _ (by rw [hc.2.1]; exact hmi) (by rw [hc.2.2]; exact hk)
        (by rw [hc.2.1, hc.2.2]; exact hN) (by rw [hc.2.1, hc.2.2]; omega), hc.2.1, hc.2.2]
      exact sum_take_replicate _ _ _ hn
    · rw [ticks_messageCountWindow env n _ (by rw [hc.2.1]; exact hmi)
        (by rw [hc.2.2]; exact hk) (by rw [hc.2.1, hc.2.2]; exact hN)
        (by rw [hc.2.1, hc.2.2]; omega), hc.2.1, hc.2.2]
      exact sum_take_replicate _ _ _ hn

/-- Witness of C26 on the concrete session (intervals 10, tick period 1, so
`N = 10`): after a chat line and a game batch, ten ticks empty the windows. -/
theorem C26_window_expiry_witness :
    (ticks exEnv 10 (runOperations exEnv
        [Operation.roomSay "hi" 3, Operation.gameBatch exCont] exSt)).self.commandCountOverTime.sum
      = 0 ∧
    (ticks exEnv 10 (runOperations exEnv
        [Operation.roomSay "hi" 3, Operation.gameBatch exCont] exSt)).self.messageSizeOverTime.sum
      = 0 :=
  ⟨(C26_window_expiry exEnv (fun _ _ _ _ _ _ _ => ⟨rfl, rfl, rfl, rfl⟩)
      [Operation.roomSay "hi" 3, Operation.gameBatch exCont] (by decide) exSt rfl rfl rfl
      (by decide) 10).1 (by decide) (by decide) (by decide),
   ((C26_window_expiry exEnv (fun _ _ _ _ _ _ _ => ⟨rfl, rfl, rfl, rfl⟩)
      [Operation.roomSay "hi" 3, Operation.gameBatch exCont] (by decide) exSt rfl rfl rfl
      (by decide) 10).2 (by decide) (by decide) (by decide)).1⟩

/-! ## Lock order -/

theorem runLocks_append (held : List Lock) (a b : List Call) :
    runLocks held (a ++ b) = (runLocks held a).bind (fun h => runLocks h b) := by
  induction a generalizing held with
  | nil => rfl
  | cons c rest ih =>
    simp only [List.cons_append, runLocks]
    cases lockStep held c with
    | none => rfl
    | some h1 => exact ih h1

theorem LockRun.lock_refl (held : List Lock) (s : St) : LockRun held held s s :=
  ⟨[], by simp, rfl⟩

theorem LockRun.lock_trans {a b c : List Lock} {s t u : St} (h1 : LockRun a b s t)
    (h2 : LockRun b c t u) : LockRun a c s u := by
  obtain ⟨e1, t1, r1⟩ := h1
  obtain ⟨e2, t2, r2⟩ := h2
  refine ⟨e1 ++ e2, by rw [t2, t1, List.append_assoc], ?_⟩
  rw [runLocks_append, r1]
  exact r2

theorem LockRun.lock_call (held held1 : List Lock) (s : St) (c : Call)
    (h : lockStep held c = some held1) : LockRun held held1 s (s.call c) :=
  ⟨[c], rfl, by simp [runLocks, h]⟩

theorem LockRun.lock_of_eq {held held1 : List Lock} {s t u : St} (h : LockRun held held1 s t)
    (hu : u.trace = t.trace) : LockRun held held1 s u := by
  obtain ⟨e, t1, r1⟩ := h
  exact ⟨e, hu.trans t1, r1⟩

theorem lockRun_discipline (s t : St) (h : LockRun [] [] s t) :
    LockDiscipline (newCalls s t) := by
  obtain ⟨e, t1, r1⟩ := h
  rw [newCalls_append s t e t1]
  exact r1

theorem foldl_removeClient_lockRun (held : List Lock) (l : List Int) (s : St) :
    LockRun held held s (l.foldl (fun st room => removeClient room st) s) := by
  induction l generalizing s with
  | nil => exact LockRun.lock_refl _ _
  | cons r rest ih =>
    simp only [List.foldl]
    refine LockRun.lock_trans ?_ (ih _)
    exact ⟨[Call.removeClient r], by simp [removeClient], rfl⟩

theorem prepareDestroyGame_lockRun (s : St) (e : Int × Int × Int) :
    LockRun [Lock.roomsLock] [Lock.roomsLock] s (prepareDestroyGame s e) := by
  unfold prepareDestroyGame
  dsimp only
  split
  · exact LockRun.lock_refl _ _
  · split
    · exact ⟨[Call.lock (Lock.gamesLock e.2.1), Call.unlock (Lock.gamesLock e.2.1)],
        by simp, by simp [runLocks, lockStep, lockAdmissible]⟩
    · split
      · exact ⟨[Call.lock (Lock.gamesLock e.2.1), Call.lock (Lock.gameMutex e.2.1 e.1),
          Call.unlock (Lock.gameMutex e.2.1 e.1), Call.unlock (Lock.gamesLock e.2.1)],
          by simp, by simp [runLocks, lockStep, lockAdmissible]⟩
      · exact ⟨[Call.lock (Lock.gamesLock e.2.1), Call.lock (Lock.gameMutex e.2.1 e.1),
          Call.disconnectClient e.2.1 e.1 e.2.2,
          Call.unlock (Lock.gameMutex e.2.1 e.1), Call.unlock (Lock.gamesLock e.2.1)],
          by simp [disconnectClient], by simp [runLocks, lockStep, lockAdmissible]⟩

theorem foldl_prepareDestroyGame_lockRun (l : List (Int × Int × Int)) (s : St) :
    LockRun [Lock.roomsLock] [Lock.roomsLock] s (l.foldl prepareDestroyGame s) := by
  induction l generalizing s with
  | nil => exact LockRun.lock_refl _ _
  | cons e rest ih =>
    simp only [List.foldl]
    exact LockRun.lock_trans (prepareDestroyGame_lockRun s e) (ih _)

theorem prepareDestroy_lockRun (s : St) : LockRun [] [] s (prepareDestroy s) := by
  unfold prepareDestroy
  dsimp only
  split
  · exact LockRun.lock_refl _ _
  · have h0 : LockRun [] [] s s.setDeleted := ⟨[], by simp [St.setDeleted], rfl⟩
    have h1 := foldl_removeClient_lockRun [] (QMap.values s.setDeleted.self.rooms) s.setDeleted
    generalize (QMap.values s.setDeleted.self.rooms).foldl
      (fun st room => removeClient room st) s.setDeleted = s2 at h1
    have h2 : LockRun [] [Lock.roomsLock] s2 (s2.call (Call.lock Lock.roomsLock)) :=
      LockRun.lock_call _ _ _ _ rfl
    have h3 := foldl_prepareDestroyGame_lockRun s2.self.games (s2.call (Call.lock Lock.roomsLock))
    generalize s2.self.games.foldl prepareDestroyGame (s2.call (Call.lock Lock.roomsLock)) = s4
      at h3
    have h4 : LockRun [Lock.roomsLock] [] s4 (s4.call (Call.unlock Lock.roomsLock)) :=
      LockRun.lock_call _ _ _ _ rfl
    have h5 : LockRun [] [] (s4.call (Call.unlock Lock.roomsLock))
        ((serverRemoveClient (s4.call (Call.unlock Lock.roomsLock))).call Call.deleteLater) :=
      ⟨[Call.serverRemoveClient, Call.deleteLater], by simp [serverRemoveClient], rfl⟩
    exact ((((h0.lock_trans h1).lock_trans h2).lock_trans h3).lock_trans h4).lock_trans h5

theorem gameCommandLoop_lockRun (env : Env) (room game player : Int) (cci mcc : Int)
    (held : List Lock) (l : List (Nat × GameCommand)) (code : ResponseCode) (ges : List Nat)
    (s : St) :
    LockRun held held s (gameCommandLoop env room game player cci mcc l code ges s).2.2 := by
  induction l generalizing code ges s with
  | nil => exact LockRun.lock_refl _ _
  | cons p rest ih =>
    obtain ⟨i, sc⟩ := p
    unfold gameCommandLoop
    dsimp only
    split
    · exact ⟨[Call.logDebugMessage], rfl, rfl⟩
    · refine LockRun.lock_trans ?_ (ih _ _ _)
      exact ⟨[Call.logDebugMessage, Call.handler Kind.game i], by simp [St.call], rfl⟩

theorem unlockGame_lockRun (room game : Int) (s : St) :
    LockRun [Lock.gameMutex room game, Lock.gamesLock room, Lock.roomsLock] [] s
      (unlockGame room game s) :=
  ⟨[Call.unlock (Lock.gameMutex room game), Call.unlock (Lock.gamesLock room),
      Call.unlock Lock.roomsLock], by simp [unlockGame, St.call],
    by simp [runLocks, lockStep]⟩

theorem gameFinish_lockRun (room game : Int) (L : Option ResponseCode × List Nat × St) :
    LockRun [Lock.gameMutex room game, Lock.gamesLock room, Lock.roomsLock] [] L.2.2
      (gameFinish room game L).2 := by
  obtain ⟨o, ges, s5⟩ := L
  cases o with
  | none => exact unlockGame_lockRun room game s5
  | some code =>
    refine LockRun.lock_trans ?_ (unlockGame_lockRun room game _)
    exact ⟨[Call.sendToGame game ges], rfl, rfl⟩

theorem processGameCommandContainer_lockRun (env : Env) (cont : CommandContainer) (s : St) :
    LockRun [] [] s (processGameCommandContainer env cont s).2 := by
  unfold processGameCommandContainer
  split
  · exact LockRun.lock_refl _ _
  · split
    · exact LockRun.lock_refl _ _
    · rename_i e he
      dsimp only
      split
      · exact ⟨[Call.lock Lock.roomsLock, Call.unlock Lock.roomsLock], by simp [St.call],
          by simp [runLocks, lockStep, lockAdmissible]⟩
      · split
        · split
          · rename_i server_id hsrv
            exact ⟨[Call.lock Lock.roomsLock, Call.lock (Lock.gamesLock e.1),
              Call.sendIsl_GameCommand server_id s.self.user.session_id e.1 e.2,
              Call.unlock (Lock.gamesLock e.1), Call.unlock Lock.roomsLock],
              by simp [St.call], by simp [runLocks, lockStep, lockAdmissible]⟩
          · exact ⟨[Call.lock Lock.roomsLock, Call.lock (Lock.gamesLock e.1),
              Call.unlock (Lock.gamesLock e.1), Call.unlock Lock.roomsLock],
              by simp [St.call], by simp [runLocks, lockStep, lockAdmissible]⟩
        · have h3 : LockRun [] [Lock.gameMutex e.1 cont.game_id, Lock.gamesLock e.1,
              Lock.roomsLock] s
              (((s.call (Call.lock Lock.roomsLock)).call (Call.lock (Lock.gamesLock e.1))).call
                (Call.lock (Lock.gameMutex e.1 cont.game_id))) :=
            ⟨[Call.lock Lock.roomsLock, Call.lock (Lock.gamesLock e.1),
              Call.lock (Lock.gameMutex e.1 cont.game_id)], by simp [St.call],
              by simp [runLocks, lockStep, lockAdmissible]⟩
          split
          · exact h3.lock_trans (unlockGame_lockRun _ _ _)
          · have h4 := h3.lock_of_eq (resetIdleTimer_trace _)
            have h5 := gameCommandLoop_lockRun env e.1 cont.game_id e.2
              (resetIdleTimer (((s.call (Call.lock Lock.roomsLock)).call
                (Call.lock (Lock.gamesLock e.1))).call
                (Call.lock (Lock.gameMutex e.1 cont.game_id)))).self.server.commandCountingInterval
              (resetIdleTimer (((s.call (Call.lock Lock.roomsLock)).call
                (Call.lock (Lock.gamesLock e.1))).call
                (Call.lock (Lock.gameMutex e.1
                  cont.game_id)))).self.server.maxCommandCountPerInterval
              [Lock.gameMutex e.1 cont.game_id, Lock.gamesLock e.1, Lock.roomsLock]
              (loopOrder cont.game_command) ResponseCode.RespOk []
              (resetIdleTimer (((s.call (Call.lock Lock.roomsLock)).call
                (Call.lock (Lock.gamesLock e.1))).call
                (Call.lock (Lock.gameMutex e.1 cont.game_id))))
            have h6 := gameFinish_lockRun e.1 cont.game_id
              (gameCommandLoop env e.1 cont.game_id e.2
              (resetIdleTimer (((s.call (Call.lock Lock.roomsLock)).call
                (Call.lock (Lock.gamesLock e.1))).call
                (Call.lock (Lock.gameMutex e.1 cont.game_id)))).self.server.commandCountingInterval
              (resetIdleTimer (((s.call (Call.lock Lock.roomsLock)).call
                (Call.lock (Lock.gamesLock e.1))).call
                (Call.lock (Lock.gameMutex e.1
                  cont.game_id)))).self.server.maxCommandCountPerInterval
              (loopOrder cont.game_command) ResponseCode.RespOk []
              (resetIdleTimer (((s.call (Call.lock Lock.roomsLock)).call
                (Call.lock (Lock.gamesLock e.1))).call
                (Call.lock (Lock.gameMutex e.1 cont.game_id)))))
            exact (h4.lock_trans h5).lock_trans h6

/-- Claim C24: on every path of `prepareDestroy` and of
`processGameCommandContainer` the calls made keep the lock order: the
rooms-directory lock is requested only when no lock is held, a room's
games-directory lock only when just the rooms-directory lock is held, a game
mutex only on top of the games-directory lock of its room; every unlock
releases the most recently acquired lock; and no lock is held at return. -/
theorem C24_lock_order (env : Env) (cont : CommandContainer) (s : St) :
    LockDiscipline (newCalls s (prepareDestroy s)) ∧
      LockDiscipline (newCalls s (processGameCommandContainer env cont s).2) :=
  ⟨lockRun_discipline _ _ (prepareDestroy_lockRun s),
    lockRun_discipline _ _ (processGameCommandContainer_lockRun env cont s)⟩

/-- The lock discipline is not satisfied by every list of calls: a games lock
requested before the rooms lock, locks released out of order and a lock left
held are each rejected. -/
theorem lockDiscipline_rejects :
    ¬ LockDiscipline [Call.lock (Lock.gamesLock 1), Call.unlock (Lock.gamesLock 1)] ∧
      ¬ LockDiscipline [Call.lock Lock.roomsLock, Call.lock (Lock.gamesLock 1),
        Call.unlock Lock.roomsLock, Call.unlock (Lock.gamesLock 1)] ∧
      ¬ LockDiscipline [Call.lock Lock.roomsLock, Call.lock (Lock.gamesLock 1),
        Call.lock (Lock.gameMutex 2 5), Call.unlock (Lock.gameMutex 2 5),
        Call.unlock (Lock.gamesLock 1), Call.unlock Lock.roomsLock] ∧
      ¬ LockDiscipline [Call.lock Lock.roomsLock] := by
  decide

end Cockatrice
